import Mathlib

/-! # ESPAsyncWebServer WebSocket engine: embedding and verification

Shallow embedding of `lib/ESPAsyncWebServer/src/AsyncWebSocket.cpp`:
the frame codec (`webSocketHeaderLength`, `webSocketSendFrameHeader`,
`webSocketSendFrame`), the control frame, the two outbound message variants,
the per-client scheduler `_runQueue` and the inbound parser `_onData`.

Conventions.
* A byte is a `Nat`; the wire only carries values below 256.
* `size_t` is 32 bits wide on the target (ESP32): `szAdd`, `szSub` and `toSizeT`
  wrap modulo 2^32. `uint64_t` quantities wrap modulo 2^64.
* A C pointer into a buffer is the list of bytes from that position on; a write
  through the pointer returns the updated list.
* The transport (`AsyncClient`) is an external collaborator. It is modelled as a
  record holding what it reports (`canSend`, `space`) and a script of how many
  bytes each successive `add`/`write` accepts.
-/

namespace AsyncWebSocket

/-! ## Machine arithmetic -/

/-- The number of values of a 32-bit `size_t`. -/
def SIZE_T_MOD : Nat := 4294967296

/-- The number of values of a `uint64_t`. -/
def UINT64_MOD : Nat := 18446744073709551616

/-- Conversion to `size_t` (truncation). -/
def toSizeT (a : Nat) : Nat := a % 4294967296

/-- Addition in `size_t`. -/
def szAdd (a b : Nat) : Nat := (a + b) % 4294967296

/-- Subtraction in `size_t` (wraps around below zero). -/
def szSub (a b : Nat) : Nat := (a % 4294967296 + 4294967296 - b % 4294967296) % 4294967296

/-- Addition in `uint64_t`. -/
def u64Add (a b : Nat) : Nat := (a + b) % 18446744073709551616

/-- Subtraction in `uint64_t` (wraps around below zero). -/
def u64Sub (a b : Nat) : Nat :=
  (a % 18446744073709551616 + 18446744073709551616 - b % 18446744073709551616)
    % 18446744073709551616

/-- The C `memcpy(dst + off, src, |src|)` on a buffer held as a list. -/
def memcpy (dst : List Nat) (off : Nat) (src : List Nat) : List Nat :=
  dst.take off ++ src ++ dst.drop (off + src.length)

/-! ## Protocol constants -/

def MAX_HEADER_SIZE : Nat := 8

def WS_CONTINUATION : Nat := 0
def WS_TEXT : Nat := 1
def WS_BINARY : Nat := 2
def WS_DISCONNECT : Nat := 8
def WS_PING : Nat := 9
def WS_PONG : Nat := 10

/-- The keep-alive probe payload `"awscPING"`. -/
def AWSC_PING_PAYLOAD : List Nat := [97, 119, 115, 99, 80, 73, 78, 71]

def AWSC_PING_PAYLOAD_LEN : Nat := 8

inductive AwsMessageStatus where
  | WS_MSG_SENDING
  | WS_MSG_SENT
  | WS_MSG_ERROR
  deriving DecidableEq, Repr

inductive AwsClientStatus where
  | WS_DISCONNECTED
  | WS_CONNECTED
  | WS_DISCONNECTING
  deriving DecidableEq, Repr

open AwsMessageStatus AwsClientStatus

/-! ## The transport -/

/-- The byte-stream transport as the engine sees it.
`canSend` and `space` are what the transport currently reports. `accepts` is the
script of the transport: the n-th call of `add` or `write` accepts at most the
n-th entry (and everything offered once the script is used up), never more than
offered. `wire` collects the accepted bytes in order. `rnd` is the stream of
values that the C library `rand()` returns and `stack` the unspecified content
of uninitialised local buffers; both are carried here so that one value is
threaded through the send path. -/
structure AsyncClient where
  canSend : Bool
  space : Nat
  accepts : List Nat
  wire : List Nat
  sends : Nat
  closed : Bool
  ackLaterFlag : Bool
  rnd : List Nat
  stack : List Nat
  deriving DecidableEq, Repr

/-- The call `client->add(data, len)`: returns the number of bytes accepted. -/
def AsyncClient.add (c : AsyncClient) (data : List Nat) : Nat × AsyncClient :=
  let n := min data.length (c.accepts.headD data.length)
  (n, { c with accepts := c.accepts.tail, wire := c.wire ++ data.take n, space := c.space - n })

/-- The call `client->send()`: flushes what was added. -/
def AsyncClient.send (c : AsyncClient) : AsyncClient :=
  { c with sends := c.sends + 1 }

/-- The call `client->write(data, len)`: `add` followed by `send`. -/
def AsyncClient.write (c : AsyncClient) (data : List Nat) : Nat × AsyncClient :=
  let r := c.add data
  (r.1, r.2.send)

/-- The call `client->close(true)`: the connection is torn down. -/
def AsyncClient.close (c : AsyncClient) : AsyncClient :=
  { c with closed := true, canSend := false }

/-- The call `client->ackLater()`. -/
def AsyncClient.ackLater (c : AsyncClient) : AsyncClient :=
  { c with ackLaterFlag := true }

/-- One call of `rand()`. -/
def AsyncClient.rand (c : AsyncClient) : Nat × AsyncClient :=
  (c.rnd.headD 0, { c with rnd := c.rnd.tail })

/-- The content of an uninitialised local array of `n` bytes. -/
def AsyncClient.uninit (c : AsyncClient) (n : Nat) : List Nat :=
  (List.range n).map (fun i => c.stack.getD i 0 % 256)

/-! ## Frame codec -/

/-- Return a guess at the maximum packet size we can send. -/
def webSocketSendFrameWindow (client : AsyncClient) : Nat :=
  if !client.canSend then 0
  else
    let space := client.space
    if space ≤ MAX_HEADER_SIZE then 0
    else szSub space MAX_HEADER_SIZE

def webSocketHeaderLength (mask : Bool) (len : Nat) : Nat :=
  (if len < 126 then 2 else 4) + (if mask then 1 else 0) * 4

/-- The loop `for i in 0..3: buf[headLen-4+i] = mask_buf[i] = rand() % 0xFF`,
with `i` counting up from `4 - n`. -/
def fillMask : Nat → Nat → List Nat → List Nat → AsyncClient →
    List Nat × List Nat × AsyncClient
  | 0, _, buf, mask_buf, client => (buf, mask_buf, client)
  | n + 1, headLen, buf, mask_buf, client =>
    let i := 3 - n
    let r := client.rand
    let v := r.1 % 255
    fillMask n headLen (buf.set (headLen - 4 + i) v) (mask_buf.set i v) r.2

/-- Writes the frame header. `mask_buf` is `none` for the null pointer. Returns
the number of bytes the transport accepted, the transport and the mask buffer. -/
def webSocketSendFrameHeader (client : AsyncClient) (final : Bool) (opcode : Nat)
    (mask_buf : Option (List Nat)) (len : Nat) : Nat × AsyncClient × Option (List Nat) :=
  if !client.canSend then (0, client, mask_buf)
  else
    let buf := client.uninit 8
    let headLen := webSocketHeaderLength mask_buf.isSome len % 256
    if client.space < headLen then (0, client, mask_buf)
    else
      let buf := buf.set 0 (opcode % 256 &&& 0x0F)
      let buf := if final then buf.set 0 (buf.getD 0 0 ||| 0x80) else buf
      let buf :=
        if len < 126 then buf.set 1 (len &&& 0x7F)
        else ((buf.set 1 126).set 2 ((len >>> 8) &&& 0xFF)).set 3 (len &&& 0xFF)
      match (if len ≠ 0 then mask_buf else none) with
      | some mb =>
        let buf := buf.set 1 (buf.getD 1 0 ||| 0x80)
        let r := fillMask 4 headLen buf mb client
        let a := r.2.2.add (r.1.take headLen)
        (a.1, a.2, some r.2.1)
      | none =>
        let a := client.add (buf.take headLen)
        (a.1, a.2, mask_buf)

/-- The sender's masking loop `data[i] = data[i] ^ mbuf[i%4]` for `i < len`. -/
def applyMask (data : List Nat) (mbuf : List Nat) (len : Nat) : List Nat :=
  (List.range data.length).map
    (fun i => if i < len then data.getD i 0 ^^^ mbuf.getD (i % 4) 0 else data.getD i 0)

/-- Sends one frame. `data` is the buffer from the payload pointer on; the
function returns the bytes the transport accepted of the payload, the transport
and the buffer (masked in place when masking is on). -/
def webSocketSendFrame (client : AsyncClient) (final : Bool) (opcode : Nat) (mask : Bool)
    (data : List Nat) (len : Nat) : Nat × AsyncClient × List Nat :=
  let mbuf := client.uninit 4
  let h := webSocketSendFrameHeader client final opcode (if mask then some mbuf else none) len
  if h.1 = 0 then (0, h.2.1, data)
  else
    if len ≠ 0 then
      let mbuf := h.2.2.getD mbuf
      let data := if mask then applyMask data mbuf len else data
      let a := h.2.1.add (data.take len)
      (a.1, a.2.send, data)
    else (0, h.2.1.send, data)

/-! ## Control frame -/

structure AsyncWebSocketControl where
  _opcode : Nat
  _data : List Nat
  _len : Nat
  _mask : Bool
  _finished : Bool
  deriving DecidableEq, Repr

/-- The constructor in the case that its `malloc` succeeds or is not called;
`data = none` is the null pointer. `AsyncWebSocketControl.construct` is the
constructor with both outcomes of the allocation. -/
def AsyncWebSocketControl.new (opcode : Nat) (data : Option (List Nat)) (len : Nat)
    (mask : Bool) : AsyncWebSocketControl :=
  let _len := if data.isNone then 0 else len
  let _len := if _len ≠ 0 then (if _len > 125 then 125 else _len) else _len
  { _opcode := opcode % 256
    _len := _len
    _mask := decide (len ≠ 0) && mask
    _finished := false
    _data := if _len ≠ 0 then (data.getD []).take _len else [] }

/-- The constructor `AsyncWebSocketControl(opcode, data, len, mask)`; `data = none`
is the null pointer and `ok` tells whether `malloc(_len)` succeeds. `malloc` is
called only when `data` is not null and `len` is not 0; when it returns the null
pointer the frame is left without payload (`_len = 0`). -/
def AsyncWebSocketControl.construct (ok : Bool) (opcode : Nat) (data : Option (List Nat))
    (len : Nat) (mask : Bool) : AsyncWebSocketControl :=
  let _len := if data.isNone then 0 else len
  if _len ≠ 0 then
    let _len := if _len > 125 then 125 else _len
    if ok then
      { _opcode := opcode % 256
        _len := _len
        _mask := decide (len ≠ 0) && mask
        _finished := false
        _data := (data.getD []).take _len }
    else
      { _opcode := opcode % 256
        _len := 0
        _mask := decide (len ≠ 0) && mask
        _finished := false
        _data := [] }
  else
    { _opcode := opcode % 256
      _len := 0
      _mask := decide (len ≠ 0) && mask
      _finished := false
      _data := [] }

def AsyncWebSocketControl.finished (c : AsyncWebSocketControl) : Bool := c._finished

def AsyncWebSocketControl.opcode (c : AsyncWebSocketControl) : Nat := c._opcode

/-- The framed size `uint8_t len(){ return _len + 2; }`. -/
def AsyncWebSocketControl.len (c : AsyncWebSocketControl) : Nat := (c._len + 2) % 256

def AsyncWebSocketControl.send (c : AsyncWebSocketControl) (client : AsyncClient) :
    Nat × AsyncWebSocketControl × AsyncClient :=
  let r := webSocketSendFrame client true (c._opcode &&& 0x0F) c._mask c._data c._len
  (r.1, { c with _finished := true, _data := r.2.2 }, r.2.1)

/-! ## Basic buffered message -/

structure AsyncWebSocketBasicMessage where
  _opcode : Nat
  _mask : Bool
  _status : AwsMessageStatus
  _len : Nat
  _attempted : Nat
  _sent : Nat
  _ack : Nat
  _acked : Nat
  _data : List Nat
  deriving DecidableEq, Repr

/-- The constructor `AsyncWebSocketBasicMessage(data, len, opcode, mask)`; the
allocation is taken to succeed. The buffer holds the payload and a closing zero. -/
def AsyncWebSocketBasicMessage.new (data : List Nat) (len : Nat) (opcode : Nat) (mask : Bool) :
    AsyncWebSocketBasicMessage :=
  { _len := len
    _attempted := 0
    _sent := 0
    _ack := 0
    _acked := 0
    _opcode := opcode % 256 &&& 0x07
    _mask := mask
    _status := WS_MSG_SENDING
    _data := data.take len ++ [0] }

def AsyncWebSocketBasicMessage.ack (m : AsyncWebSocketBasicMessage) (len : Nat) :
    AsyncWebSocketBasicMessage :=
  let m := { m with _acked := szAdd m._acked len }
  if m._sent = m._len ∧ m._acked = m._ack then { m with _status := WS_MSG_SENT } else m

def AsyncWebSocketBasicMessage.send (m : AsyncWebSocketBasicMessage) (client : AsyncClient) :
    Nat × AsyncWebSocketBasicMessage × AsyncClient :=
  if m._status ≠ WS_MSG_SENDING then (0, m, client)
  else if m._acked < m._ack then (0, m, client)
  else if m._sent = m._len then
    (0, (if m._acked = m._ack then { m with _status := WS_MSG_SENT } else m), client)
  else if m._sent > m._len then (0, { m with _status := WS_MSG_ERROR }, client)
  else if m._sent < m._attempted then
    -- Frame was truncated
    let w := client.write ((m._data.drop m._sent).take (szSub m._attempted m._sent))
    (w.1, { m with _ack := szAdd m._ack w.1, _sent := szAdd m._sent w.1 }, w.2)
  else
    let toSend := szSub m._len m._sent
    let window := webSocketSendFrameWindow client
    let toSend := if window < toSend then window else toSend
    let m := { m with _attempted := szAdd m._attempted toSend }
    let m := { m with _sent := szAdd m._sent toSend }
    let m := { m with _ack := szAdd m._ack (szAdd toSend (webSocketHeaderLength m._mask toSend)) }
    let final := decide (m._sent = m._len)
    let off := szSub m._sent toSend
    let opCode := if toSend ≠ 0 ∧ m._sent = toSend then m._opcode else WS_CONTINUATION
    let r := webSocketSendFrame client final opCode m._mask (m._data.drop off) toSend
    let m := { m with _data := m._data.take off ++ r.2.2, _status := WS_MSG_SENDING }
    let sent := r.1
    let m :=
      if toSend ≠ 0 ∧ sent ≠ toSend then
        { m with _attempted := szSub m._attempted (szSub toSend sent)
                 _ack := szSub m._ack (szSub toSend sent) }
      else m
    (sent, m, r.2.1)

/-! ## Shared-buffer message -/

/-- A `SharedBuffer`: `none` is the empty handle, `some bytes` a held buffer. -/
structure SharedBuffer where
  _buf : Option (List Nat)
  deriving DecidableEq, Repr

def SharedBuffer.data (b : SharedBuffer) : List Nat := b._buf.getD []

def SharedBuffer.size (b : SharedBuffer) : Nat := (b._buf.getD []).length

/-- The conversion `explicit operator bool()`. -/
def SharedBuffer.toBool (b : SharedBuffer) : Bool :=
  match b._buf with
  | none => false
  | some d => decide (d.length > 0)

structure AsyncWebSocketMultiMessage where
  _opcode : Nat
  _mask : Bool
  _status : AwsMessageStatus
  _attempted : Nat
  _sent : Nat
  _ack : Nat
  _acked : Nat
  _WSbuffer : SharedBuffer
  deriving DecidableEq, Repr

def AsyncWebSocketMultiMessage.new (buffer : SharedBuffer) (opcode : Nat) (mask : Bool) :
    AsyncWebSocketMultiMessage :=
  { _attempted := 0
    _sent := 0
    _ack := 0
    _acked := 0
    _WSbuffer := buffer
    _opcode := opcode % 256 &&& 0x07
    _mask := mask
    _status := if buffer.toBool then WS_MSG_SENDING else WS_MSG_ERROR }

def AsyncWebSocketMultiMessage.ack (m : AsyncWebSocketMultiMessage) (len : Nat) :
    AsyncWebSocketMultiMessage :=
  let m := { m with _acked := szAdd m._acked len }
  if m._sent ≥ m._WSbuffer.size ∧ m._acked ≥ m._ack then { m with _status := WS_MSG_SENT } else m

def AsyncWebSocketMultiMessage.send (m : AsyncWebSocketMultiMessage) (client : AsyncClient) :
    Nat × AsyncWebSocketMultiMessage × AsyncClient :=
  if m._status ≠ WS_MSG_SENDING then (0, m, client)
  else if m._acked < m._ack then (0, m, client)
  else if m._sent = m._WSbuffer.size then (0, { m with _status := WS_MSG_SENT }, client)
  else if m._sent > m._WSbuffer.size then (0, { m with _status := WS_MSG_ERROR }, client)
  else if m._sent < m._attempted then
    -- Frame was truncated
    let w := client.write ((m._WSbuffer.data.drop m._sent).take (szSub m._attempted m._sent))
    (w.1, { m with _ack := szAdd m._ack w.1, _sent := szAdd m._sent w.1 }, w.2)
  else
    let toSend := szSub m._WSbuffer.size m._sent
    let window := webSocketSendFrameWindow client
    let toSend := if window < toSend then window else toSend
    let m := { m with _attempted := szAdd m._attempted toSend }
    let m := { m with _sent := szAdd m._sent toSend }
    let m := { m with _ack := szAdd m._ack (szAdd toSend (webSocketHeaderLength m._mask toSend)) }
    let final := decide (m._sent = m._WSbuffer.size)
    let off := szSub m._sent toSend
    let opCode := if toSend ≠ 0 ∧ m._sent = toSend then m._opcode else WS_CONTINUATION
    let r := webSocketSendFrame client final opCode m._mask (m._WSbuffer.data.drop off) toSend
    let m := { m with _WSbuffer := { _buf := some (m._WSbuffer.data.take off ++ r.2.2) }
                      _status := WS_MSG_SENDING }
    let sent := r.1
    let m :=
      if toSend ≠ 0 ∧ sent ≠ toSend then
        { m with _sent := szSub m._sent (szSub toSend sent)
                 _ack := szSub m._ack (szSub toSend sent) }
      else m
    (sent, m, r.2.1)

/-! ## Messages in the queue -/

/-- A queued message of either variant (the C++ base class pointer). -/
inductive AsyncWebSocketMessage where
  | basic (m : AsyncWebSocketBasicMessage)
  | multi (m : AsyncWebSocketMultiMessage)
  deriving DecidableEq, Repr

def AsyncWebSocketMessage.status : AsyncWebSocketMessage → AwsMessageStatus
  | .basic m => m._status
  | .multi m => m._status

def AsyncWebSocketMessage.attempted : AsyncWebSocketMessage → Nat
  | .basic m => m._attempted
  | .multi m => m._attempted

def AsyncWebSocketMessage.sent : AsyncWebSocketMessage → Nat
  | .basic m => m._sent
  | .multi m => m._sent

/-- Modelled from the spec: `finished()` is declared in the header
`AsyncWebSocket.h`, which is not among the sources; the spec calls a message
finished when it is in a terminal Sent/Error state. -/
def AsyncWebSocketMessage.finished (m : AsyncWebSocketMessage) : Bool :=
  decide (m.status ≠ WS_MSG_SENDING)

/-- Modelled from the spec: `betweenFrames()` is declared in the header
`AsyncWebSocket.h`, which is not among the sources; the spec has a message
between frames exactly when attempted == sent. -/
def AsyncWebSocketMessage.betweenFrames (m : AsyncWebSocketMessage) : Bool :=
  decide (m.attempted = m.sent)

def AsyncWebSocketMessage.ack (m : AsyncWebSocketMessage) (len : Nat) : AsyncWebSocketMessage :=
  match m with
  | .basic b => .basic (b.ack len)
  | .multi b => .multi (b.ack len)

def AsyncWebSocketMessage.send (m : AsyncWebSocketMessage) (client : AsyncClient) :
    Nat × AsyncWebSocketMessage × AsyncClient :=
  match m with
  | .basic b => let r := b.send client; (r.1, .basic r.2.1, r.2.2)
  | .multi b => let r := b.send client; (r.1, .multi r.2.1, r.2.2)

/-! ## The client session -/

/-- The frame descriptor `AwsFrameInfo` handed to the application with data events. -/
structure AwsFrameInfo where
  message_opcode : Nat
  num : Nat
  final : Bool
  masked : Bool
  opcode : Nat
  len : Nat
  mask : List Nat
  index : Nat
  deriving DecidableEq, Repr

instance : Inhabited AsyncWebSocketControl :=
  ⟨{ _opcode := 0, _data := [], _len := 0, _mask := false, _finished := false }⟩

instance : Inhabited AsyncWebSocketMessage :=
  ⟨.basic { _opcode := 0, _mask := false, _status := WS_MSG_ERROR, _len := 0, _attempted := 0,
            _sent := 0, _ack := 0, _acked := 0, _data := [] }⟩

/-- A call of `_server->_handleEvent` made by the session, as the application sees
it: the event type with its argument and payload slice. -/
inductive AwsEvent where
  | WS_EVT_DATA (info : AwsFrameInfo) (data : List Nat)
  | WS_EVT_ERROR (reasonCode : Nat) (reason : List Nat)
  | WS_EVT_PONG (data : List Nat)
  deriving DecidableEq, Repr

/-- The state of an `AsyncWebSocketClient`. `events` is the log of the events
handed to the server's handler, `millis` the clock the session reads. `_clientId`
is the id that the constructor obtains from the group (`_server->_getNextId()`);
it is 0 for a session looked at on its own. `mallocs` holds the outcomes of the
`malloc` calls still to come for the payloads of control frames (the constructor
of `AsyncWebSocketControl` and the buffer of `close`), in the order of the calls;
once the list is used up every call succeeds. -/
structure AsyncWebSocketClient where
  _client : AsyncClient
  _status : AwsClientStatus
  _pstate : Nat
  _pinfo : AwsFrameInfo
  _partialHeader : List Nat
  _partialHeaderLen : Nat
  _lastMessageTime : Nat
  _keepAlivePeriod : Nat
  _controlQueue : List AsyncWebSocketControl
  _messageQueue : List AsyncWebSocketMessage
  events : List AwsEvent
  millis : Nat
  _clientId : Nat := 0
  mallocs : List Bool := []
  deriving DecidableEq, Repr

/-- The call `_server->_handleEvent(this, ...)`. -/
def AsyncWebSocketClient.handleEvent (s : AsyncWebSocketClient) (e : AwsEvent) :
    AsyncWebSocketClient :=
  { s with events := s.events ++ [e] }

/-- One call of `malloc` for the payload of a control frame: whether it succeeds,
and the session with the outcomes of the calls still to come. -/
def AsyncWebSocketClient.malloc (s : AsyncWebSocketClient) : Bool × AsyncWebSocketClient :=
  (s.mallocs.headD true, { s with mallocs := s.mallocs.tail })

/-- The expression `new AsyncWebSocketControl(opcode, data, len)` evaluated by the
session: the control frame and the session afterwards. The constructor calls
`malloc` when `data` is not null and `len` is not 0, and only then. -/
def AsyncWebSocketClient.newControl (s : AsyncWebSocketClient) (opcode : Nat)
    (data : Option (List Nat)) (len : Nat) : AsyncWebSocketControl × AsyncWebSocketClient :=
  if data.isNone = true ∨ len = 0 then
    (AsyncWebSocketControl.construct true opcode data len false, s)
  else (AsyncWebSocketControl.construct s.malloc.1 opcode data len false, s.malloc.2)

/-- The loop `while(!_messageQueue.isEmpty() && _messageQueue.front()->finished())
_messageQueue.remove(_messageQueue.front())`. -/
def dropFinished : List AsyncWebSocketMessage → List AsyncWebSocketMessage
  | [] => []
  | m :: rest => if m.finished then dropFinished rest else m :: rest

/-- The call `front()` of a `LinkedList` held as a list (only made on a list that
is not empty). -/
def front {α : Type} [Inhabited α] (l : List α) : α := l.headD default

def AsyncWebSocketClient._runQueue (s : AsyncWebSocketClient) : AsyncWebSocketClient :=
  let s := { s with _messageQueue := dropFinished s._messageQueue }
  if !s._controlQueue.isEmpty
      && (s._messageQueue.isEmpty || (front s._messageQueue).betweenFrames)
      && decide (webSocketSendFrameWindow s._client > szSub (front s._controlQueue).len 1) then
    let r := (front s._controlQueue).send s._client
    { s with _controlQueue := r.2.1 :: s._controlQueue.tail, _client := r.2.2 }
  else if !s._messageQueue.isEmpty && (front s._messageQueue).betweenFrames
      && decide (webSocketSendFrameWindow s._client ≠ 0) then
    let r := (front s._messageQueue).send s._client
    { s with _messageQueue := r.2.1 :: s._messageQueue.tail, _client := r.2.2 }
  else s

def AsyncWebSocketClient._queueControl (s : AsyncWebSocketClient)
    (controlMessage : AsyncWebSocketControl) : AsyncWebSocketClient :=
  let s := { s with _controlQueue := s._controlQueue ++ [controlMessage] }
  if s._client.canSend then s._runQueue else s

/-! ## The inbound parser -/

/-- The locals of the header block of `_onData`. -/
structure HeaderLocals where
  headerBuf : List Nat
  initialPlen : Nat
  plen : Nat
  dataPayloadOffset : Int
  partialHeaderLen : Nat
  deriving DecidableEq, Repr

/-- Outcome of the header block: either the header was truncated and the function
returns, or parsing goes on with the payload pointer and the remaining length. -/
inductive HeaderOutcome where
  | truncated (s : AsyncWebSocketClient)
  | parsed (s : AsyncWebSocketClient) (data : List Nat) (plen : Nat)
  deriving DecidableEq, Repr

/-- The block at the label `_exceptionHandleFailPartialHeader`. -/
def headerFail (WS_MAX_HEADER_LEN : Nat) (s : AsyncWebSocketClient) (l : HeaderLocals) :
    HeaderOutcome :=
  if l.initialPlen ≤ WS_MAX_HEADER_LEN then
    .truncated { s with _partialHeader := memcpy s._partialHeader 0 (l.headerBuf.take l.initialPlen)
                        _partialHeaderLen := l.initialPlen }
  else .truncated s

/-- The recovery of a previously buffered truncated header at the start of the
header block. -/
def headerRecover (WS_MAX_HEADER_LEN : Nat) (s : AsyncWebSocketClient) (data : List Nat)
    (plen : Nat) : AsyncWebSocketClient × HeaderLocals :=
  if s._partialHeaderLen > 0 then
    let buf := memcpy s._partialHeader s._partialHeaderLen
      (data.take (min plen (szSub WS_MAX_HEADER_LEN s._partialHeaderLen)))
    ({ s with _partialHeader := buf, _partialHeaderLen := 0 },
     { headerBuf := buf
       initialPlen := szAdd plen s._partialHeaderLen
       plen := szAdd plen s._partialHeaderLen
       dataPayloadOffset := - (s._partialHeaderLen : Int)
       partialHeaderLen := s._partialHeaderLen })
  else
    (s, { headerBuf := data, initialPlen := plen, plen := plen, dataPayloadOffset := 0,
          partialHeaderLen := 0 })

/-- The 64-bit extended length read from header bytes 2..9. -/
def readLen64 (headerBuf : List Nat) : Nat :=
  (headerBuf.getD 9 0 ||| headerBuf.getD 8 0 <<< 8 ||| headerBuf.getD 7 0 <<< 16 |||
    headerBuf.getD 6 0 <<< 24 ||| headerBuf.getD 5 0 <<< 32 ||| headerBuf.getD 4 0 <<< 40 |||
    headerBuf.getD 3 0 <<< 48 ||| headerBuf.getD 2 0 <<< 56) % 18446744073709551616

/-- The mask-key part of the header block (`if (_pinfo.masked) ...`) and the final
`data += dataPayloadOffset`. The offset is never negative here when the buffered
bytes came from a truncated header; a negative offset is taken as 0. -/
def headerMask (WS_MAX_HEADER_LEN : Nat) (s : AsyncWebSocketClient) (data : List Nat)
    (l : HeaderLocals) : HeaderOutcome :=
  if s._pinfo.masked then
    if l.plen < 4 then headerFail WS_MAX_HEADER_LEN s l
    else
      let at0 := (l.dataPayloadOffset + (l.partialHeaderLen : Int)).toNat
      let key := [l.headerBuf.getD at0 0, l.headerBuf.getD (at0 + 1) 0,
                  l.headerBuf.getD (at0 + 2) 0, l.headerBuf.getD (at0 + 3) 0]
      let s := { s with _pinfo := { s._pinfo with mask := key } }
      .parsed s (data.drop (l.dataPayloadOffset + 4).toNat) (szSub l.plen 4)
  else .parsed s (data.drop l.dataPayloadOffset.toNat) l.plen

/-- The header block of `_onData` after the recovery step: decoding of the first
two bytes and of the extended length. -/
def headerFields (WS_MAX_HEADER_LEN : Nat) (s : AsyncWebSocketClient) (data : List Nat)
    (l : HeaderLocals) : HeaderOutcome :=
  if l.plen < 2 then headerFail WS_MAX_HEADER_LEN s l
  else
    let b0 := l.headerBuf.getD 0 0
    let b1 := l.headerBuf.getD 1 0
    let s := { s with _pinfo := { s._pinfo with
      index := 0
      final := decide (b0 &&& 0x80 ≠ 0)
      opcode := b0 &&& 0x0F
      masked := decide (b1 &&& 0x80 ≠ 0)
      len := b1 &&& 0x7F } }
    let l := { l with dataPayloadOffset := l.dataPayloadOffset + 2, plen := szSub l.plen 2 }
    if s._pinfo.len = 126 then
      if l.plen < 2 then headerFail WS_MAX_HEADER_LEN s l
      else
        let s := { s with _pinfo := { s._pinfo with
          len := l.headerBuf.getD 3 0 ||| (l.headerBuf.getD 2 0 % 65536) <<< 8 } }
        let l := { l with dataPayloadOffset := l.dataPayloadOffset + 2, plen := szSub l.plen 2 }
        headerMask WS_MAX_HEADER_LEN s data l
    else if s._pinfo.len = 127 then
      if l.plen < 8 then headerFail WS_MAX_HEADER_LEN s l
      else
        let s := { s with _pinfo := { s._pinfo with len := readLen64 l.headerBuf } }
        let l := { l with dataPayloadOffset := l.dataPayloadOffset + 8, plen := szSub l.plen 8 }
        headerMask WS_MAX_HEADER_LEN s data l
    else headerMask WS_MAX_HEADER_LEN s data l

/-- The header block of `_onData` (taken when `_pstate` is 0). -/
def parseHeader (WS_MAX_HEADER_LEN : Nat) (s : AsyncWebSocketClient) (data : List Nat)
    (plen : Nat) : HeaderOutcome :=
  let r := headerRecover WS_MAX_HEADER_LEN s data plen
  headerFields WS_MAX_HEADER_LEN r.1 data r.2

/-- The receiver's unmasking loop
`for i < datalen: data[i] ^= _pinfo.mask[(_pinfo.index+i)%4]`. -/
def unmaskChunk (data : List Nat) (mask : List Nat) (index : Nat) (datalen : Nat) : List Nat :=
  (List.range data.length).map
    (fun i => if i < datalen then data.getD i 0 ^^^ mask.getD (u64Add index i % 4) 0
      else data.getD i 0)

/-- What one pass through the body of the `while(plen > 0)` loop leads to: the
function is left (`return` or `break`), or the loop goes on. -/
inductive LoopOutcome where
  | left (s : AsyncWebSocketClient)
  | goOn (s : AsyncWebSocketClient) (data : List Nat) (plen : Nat)
  deriving DecidableEq, Repr

/-- The handling of a completed frame (`datalen + index == len`). -/
def frameComplete (s : AsyncWebSocketClient) (data : List Nat) (datalen : Nat) :
    AsyncWebSocketClient :=
  let s := { s with _pstate := 0 }
  if s._pinfo.opcode = WS_DISCONNECT then
    let s :=
      if datalen ≠ 0 then
        let reasonCode := ((data.getD 0 0 <<< 8) % 65536 + data.getD 1 0) % 65536
        let reasonString := (data.drop 2).takeWhile (fun b => b ≠ 0)
        if reasonCode > 1001 then s.handleEvent (.WS_EVT_ERROR reasonCode reasonString) else s
      else s
    if s._status = WS_DISCONNECTING then
      { s with _status := WS_DISCONNECTED, _client := s._client.close }
    else
      let s := { s with _status := WS_DISCONNECTING, _client := s._client.ackLater }
      let r := s.newControl WS_DISCONNECT (some data) datalen
      r.2._queueControl r.1
  else if s._pinfo.opcode = WS_PING then
    let r := s.newControl WS_PONG (some data) datalen
    r.2._queueControl r.1
  else if s._pinfo.opcode = WS_PONG then
    if datalen ≠ AWSC_PING_PAYLOAD_LEN ∨ data.take AWSC_PING_PAYLOAD_LEN ≠ AWSC_PING_PAYLOAD then
      s.handleEvent (.WS_EVT_PONG (data.take datalen))
    else s
  else if s._pinfo.opcode < 8 then
    s.handleEvent (.WS_EVT_DATA s._pinfo (data.take datalen))
  else s

/-- The payload part of the loop body, from `const size_t datalen = ...` on. -/
def payloadStep (s : AsyncWebSocketClient) (data : List Nat) (plen : Nat) : LoopOutcome :=
  let datalen := min (toSizeT (u64Sub s._pinfo.len s._pinfo.index)) plen
  let data := if s._pinfo.masked then unmaskChunk data s._pinfo.mask s._pinfo.index datalen
    else data
  if u64Add datalen s._pinfo.index < s._pinfo.len then
    let s := { s with _pstate := 1 }
    let s :=
      if s._pinfo.index = 0 then
        if s._pinfo.opcode ≠ 0 then
          { s with _pinfo := { s._pinfo with message_opcode := s._pinfo.opcode, num := 0 } }
        else { s with _pinfo := { s._pinfo with num := (s._pinfo.num + 1) % 4294967296 } }
      else s
    let s := s.handleEvent (.WS_EVT_DATA s._pinfo (data.take datalen))
    let s := { s with _pinfo := { s._pinfo with index := u64Add s._pinfo.index datalen } }
    .goOn s (data.drop datalen) (szSub plen datalen)
  else if u64Add datalen s._pinfo.index = s._pinfo.len then
    .goOn (frameComplete s data datalen) (data.drop datalen) (szSub plen datalen)
  else .left s

/-- One pass through the body of the `while(plen > 0)` loop of `_onData`. -/
def onDataStep (WS_MAX_HEADER_LEN : Nat) (s : AsyncWebSocketClient) (data : List Nat)
    (plen : Nat) : LoopOutcome :=
  if s._pstate = 0 then
    match parseHeader WS_MAX_HEADER_LEN s data plen with
    | .truncated s => .left s
    | .parsed s data plen => payloadStep s data plen
  else payloadStep s data plen

/-- The loop `while(plen > 0)` of `_onData`, run for at most `fuel` passes; `none`
when the loop has not ended by then. -/
def onDataLoop (WS_MAX_HEADER_LEN : Nat) :
    Nat → AsyncWebSocketClient → List Nat → Nat → Option AsyncWebSocketClient
  | fuel, s, data, plen =>
    if plen = 0 then some s
    else
      match fuel with
      | 0 => none
      | fuel + 1 =>
        match onDataStep WS_MAX_HEADER_LEN s data plen with
        | .left s => some s
        | .goOn s data plen => onDataLoop WS_MAX_HEADER_LEN fuel s data plen

/-- The callback `_onData(pbuf, plen)` with `plen` the length of `pbuf`. Every pass
of the loop that goes on has consumed at least one byte unless it makes no progress
at all, so `plen + 1` passes are enough whenever the loop ends. -/
def AsyncWebSocketClient._onData (WS_MAX_HEADER_LEN : Nat) (s : AsyncWebSocketClient)
    (pbuf : List Nat) : Option AsyncWebSocketClient :=
  onDataLoop WS_MAX_HEADER_LEN (pbuf.length + 1) { s with _lastMessageTime := s.millis }
    pbuf pbuf.length

/-! ## Wire format and drivers used by the statements -/

/-- Feeding a sequence of inbound chunks to `_onData`, one call per chunk. -/
def feed (WS_MAX_HEADER_LEN : Nat) (s : AsyncWebSocketClient) :
    List (List Nat) → Option AsyncWebSocketClient
  | [] => some s
  | c :: cs =>
    match s._onData WS_MAX_HEADER_LEN c with
    | none => none
    | some s1 => feed WS_MAX_HEADER_LEN s1 cs

/-- The big-endian bytes of `n`, `k` of them. -/
def bigEndian : Nat → Nat → List Nat
  | 0, _ => []
  | k + 1, n => (n / 256 ^ k % 256) :: bigEndian k n

/-- The wire format of a frame header as the spec's data model has it (section 3):
FIN bit and opcode, mask bit and 7-bit length field, then the extended length (2
bytes for lengths from 126 below 65536, 8 bytes above), each big-endian, then the
mask key when masked. -/
def encodeHeader (final : Bool) (opcode : Nat) (masked : Bool) (key : List Nat) (len : Nat) :
    List Nat :=
  [(if final then 128 else 0) + opcode,
   (if masked then 128 else 0) + (if len < 126 then len else if len < 65536 then 126 else 127)]
  ++ (if len < 126 then [] else if len < 65536 then bigEndian 2 len else bigEndian 8 len)
  ++ (if masked then key else [])

/-- The wire format of a whole frame: the header, then the payload, masked as the
sender masks it when the frame is masked. -/
def encodeFrame (final : Bool) (opcode : Nat) (masked : Bool) (key : List Nat)
    (payload : List Nat) : List Nat :=
  encodeHeader final opcode masked key payload.length
  ++ (if masked then applyMask payload key payload.length else payload)

/-- The payload slice an event carries (empty for events other than data). -/
def AwsEvent.payload : AwsEvent → List Nat
  | .WS_EVT_DATA _ d => d
  | _ => []

/-- An event is a data event tagged with the given opcode and final flag. -/
def AwsEvent.isDataOf (opcode : Nat) (final : Bool) : AwsEvent → Prop
  | .WS_EVT_DATA info _ => info.opcode = opcode ∧ info.final = final
  | _ => False

instance (opcode : Nat) (final : Bool) (e : AwsEvent) : Decidable (e.isDataOf opcode final) := by
  cases e <;> simp only [AwsEvent.isDataOf] <;> infer_instance

/-- The parser is idle: no frame and no truncated header pending. -/
def AsyncWebSocketClient.idle (s : AsyncWebSocketClient) : Prop :=
  s._pstate = 0 ∧ s._partialHeaderLen = 0

instance (s : AsyncWebSocketClient) : Decidable s.idle := by
  unfold AsyncWebSocketClient.idle; infer_instance

/-- The receiver's unmasking of the successive chunks of one frame's payload:
each chunk is unmasked with the running payload index, which is not reset. -/
def unmaskChunks (mask : List Nat) : Nat → List (List Nat) → List Nat
  | _, [] => []
  | index, c :: cs =>
    unmaskChunk c mask index c.length ++ unmaskChunks mask (u64Add index c.length) cs

/-- The length of a frame header as its second byte determines it: 2 bytes, the
extended length (2 bytes for length field 126, 8 bytes for 127) and the 4-byte
mask key when the mask bit is set. -/
def headerLenOf (b1 : Nat) : Nat :=
  2 + (if b1 &&& 0x7F = 126 then 2 else if b1 &&& 0x7F = 127 then 8 else 0)
    + (if b1 &&& 0x80 ≠ 0 then 4 else 0)

/-- The value of a big-endian byte sequence. -/
def beValue (bytes : List Nat) : Nat :=
  bytes.foldl (fun acc b => acc * 256 + b) 0

/-- The frame descriptor that a complete header `hdr` stands for, following the
wire format of the data model: FIN bit, opcode, mask bit, the length (literal below
126, else the big-endian value of the 2 or 8 bytes that follow), and the mask key
in the 4 bytes after the length field. The other fields are those of `old`. -/
def decodeHeader (old : AwsFrameInfo) (hdr : List Nat) : AwsFrameInfo :=
  let lf := hdr.getD 1 0 &&& 0x7F
  let extLen := if lf = 126 then 2 else if lf = 127 then 8 else 0
  { old with
    index := 0
    final := decide (hdr.getD 0 0 &&& 0x80 ≠ 0)
    opcode := hdr.getD 0 0 &&& 0x0F
    masked := decide (hdr.getD 1 0 &&& 0x80 ≠ 0)
    len := if lf = 126 ∨ lf = 127 then beValue ((hdr.drop 2).take extLen) else lf
    mask := if hdr.getD 1 0 &&& 0x80 ≠ 0 then (hdr.drop (2 + extLen)).take 4 else old.mask }

/-- A connected transport that reports `space` bytes of room, accepts whatever is
offered and has been handed nothing yet. -/
def AsyncClient.ready (space : Nat) : AsyncClient :=
  { canSend := true, space := space, accepts := [], wire := [], sends := 0, closed := false,
    ackLaterFlag := false, rnd := [], stack := [] }

/-- The session as its constructor leaves it: connected, parser idle, both queues
empty. The header buffer has `WS_MAX_HEADER_LEN` bytes. -/
def AsyncWebSocketClient.new (WS_MAX_HEADER_LEN : Nat) (client : AsyncClient) (now : Nat) :
    AsyncWebSocketClient :=
  { _client := client
    _status := WS_CONNECTED
    _pstate := 0
    _pinfo := { message_opcode := 0, num := 0, final := false, masked := false, opcode := 0,
                len := 0, mask := [0, 0, 0, 0], index := 0 }
    _partialHeader := List.replicate WS_MAX_HEADER_LEN 0
    _partialHeaderLen := 0
    _lastMessageTime := now
    _keepAlivePeriod := 0
    _controlQueue := []
    _messageQueue := []
    events := []
    millis := now }

/-- The header bytes that `webSocketSendFrameHeader` assembles for an unmasked
frame: `buf[0] = opcode & 0x0F`, or-ed with `0x80` when final; `buf[1] = len & 0x7F`
below 126, else 126 followed by `(len >> 8) & 0xFF` and `len & 0xFF`. -/
def sentHeader (final : Bool) (opcode : Nat) (len : Nat) : List Nat :=
  (if final then (opcode % 256 &&& 0x0F) ||| 0x80 else opcode % 256 &&& 0x0F)
    :: (if len < 126 then [len &&& 0x7F] else [126, (len >>> 8) &&& 0xFF, len &&& 0xFF])

/-- A session whose parser has buffered the bytes `pre` of a truncated header. -/
def AsyncWebSocketClient.withBuffered (s : AsyncWebSocketClient) (pre : List Nat) :
    AsyncWebSocketClient :=
  { s with _partialHeader := memcpy s._partialHeader 0 pre, _partialHeaderLen := pre.length }

/-- The acknowledged byte count `_acked` of a queued message. -/
def AsyncWebSocketMessage.acked : AsyncWebSocketMessage → Nat
  | .basic m => m._acked
  | .multi m => m._acked

/-- The ack-target `_ack` of a queued message. -/
def AsyncWebSocketMessage.ackTarget : AsyncWebSocketMessage → Nat
  | .basic m => m._ack
  | .multi m => m._ack

/-- The payload length of a queued message (`_len`, respectively `_WSbuffer.size()`). -/
def AsyncWebSocketMessage.length : AsyncWebSocketMessage → Nat
  | .basic m => m._len
  | .multi m => m._WSbuffer.size

/-- A call made on a queued message: `send(client)` with the transport as it stands
at that moment, or `ack(len)`. -/
inductive MessageCall where
  | send (client : AsyncClient)
  | ack (len : Nat)
  deriving DecidableEq, Repr

/-- The message after one call. -/
def AsyncWebSocketMessage.call (m : AsyncWebSocketMessage) : MessageCall → AsyncWebSocketMessage
  | .send client => (m.send client).2.1
  | .ack len => m.ack len

/-- The message after a sequence of calls. -/
def AsyncWebSocketMessage.calls (m : AsyncWebSocketMessage) (cs : List MessageCall) :
    AsyncWebSocketMessage :=
  cs.foldl AsyncWebSocketMessage.call m

/-- Whether the message is of the shared-buffer variant. -/
def AsyncWebSocketMessage.isMulti : AsyncWebSocketMessage → Bool
  | .basic _ => false
  | .multi _ => true

/-- A connected transport with `space` bytes of room whose successive `add`/`write`
calls accept at most the entries of `accepts`. -/
def AsyncClient.scripted (space : Nat) (accepts : List Nat) : AsyncClient :=
  { AsyncClient.ready space with accepts := accepts }

/-- The byte accounting that both variants keep: the payload length is `L`, a
`size_t`; a Basic message has attempted ≤ sent ≤ length, a Multi message has
sent ≤ attempted ≤ length. -/
def AsyncWebSocketMessage.accounted (L : Nat) : AsyncWebSocketMessage → Prop
  | .basic m => m._len = L ∧ L < 4294967296 ∧ m._attempted ≤ m._sent ∧ m._sent ≤ m._len
  | .multi m => m._WSbuffer.size = L ∧ L < 4294967296 ∧ m._sent ≤ m._attempted
      ∧ m._attempted ≤ m._WSbuffer.size

/-- What one run of the scheduler may do. -/
inductive QueueAction where
  | sendControl
  | sendMessage
  | nothing
  deriving DecidableEq, Repr

/-- The scheduling policy in the spec's words (section 4.4), on the queues as they
stand once the terminal head messages are gone: the head control frame is sent iff
the control queue is not empty, the message queue is empty or its head is between
frames, and the send window is at least the control frame's framed size; otherwise
the next chunk of the head message is sent iff the message queue is not empty, its
head is between frames and the send window is not zero; otherwise nothing is sent. -/
def schedule (controlQueue : List AsyncWebSocketControl)
    (messageQueue : List AsyncWebSocketMessage) (window : Nat) : QueueAction :=
  match controlQueue, messageQueue with
  | c :: _, [] => if c.len ≤ window then .sendControl else .nothing
  | c :: _, m :: _ =>
    if m.betweenFrames = true ∧ c.len ≤ window then .sendControl
    else if m.betweenFrames = true ∧ window ≠ 0 then .sendMessage
    else .nothing
  | [], m :: _ => if m.betweenFrames = true ∧ window ≠ 0 then .sendMessage else .nothing
  | [], [] => .nothing

/-- The scheduler in the spec's words: drop every head message in a terminal
(Sent/Error) state, then carry out the one action the policy picks. -/
def runQueueSpec (s : AsyncWebSocketClient) : AsyncWebSocketClient :=
  let mq := s._messageQueue.dropWhile
    (fun m => decide (m.status = WS_MSG_SENT ∨ m.status = WS_MSG_ERROR))
  match schedule s._controlQueue mq (webSocketSendFrameWindow s._client),
      s._controlQueue, mq with
  | .sendControl, c :: cs, _ =>
    { s with _messageQueue := mq, _controlQueue := (c.send s._client).2.1 :: cs,
             _client := (c.send s._client).2.2 }
  | .sendMessage, _, m :: ms =>
    { s with _messageQueue := (m.send s._client).2.1 :: ms, _client := (m.send s._client).2.2 }
  | _, _, _ => { s with _messageQueue := mq }

/-- Repeated `send()` calls on one message, each on the transport as it stands at
that call; after each call the transport acknowledges in full what the call wrote.
The result lists the bytes written by each call. -/
def sendAcked (m : AsyncWebSocketMessage) : List AsyncClient → List (List Nat)
  | [] => []
  | c :: cs =>
    (m.send c).2.2.wire.drop c.wire.length
      :: sendAcked ((m.send c).2.1.ack ((m.send c).2.2.wire.drop c.wire.length).length) cs

/-- A frame as the sender emits it without masking. -/
structure SentFrame where
  final : Bool
  opcode : Nat
  payload : List Nat
  deriving DecidableEq, Repr

/-- The bytes of an emitted frame: the header as `webSocketSendFrameHeader`
assembles it, then the payload. -/
def SentFrame.bytes (f : SentFrame) : List Nat :=
  sentHeader f.final f.opcode f.payload.length ++ f.payload

/-- The fragmentation rule in the spec's words (section 4.3): with `sent` bytes of
the payload out, the next chunk has min(remaining payload, window) bytes, is final
iff it completes the payload, and carries the original opcode iff it is the first
chunk, the continuation opcode otherwise. -/
def fragments (opcode : Nat) (payload : List Nat) : Nat → List Nat → List SentFrame
  | _, [] => []
  | sent, w :: ws =>
    if sent < payload.length then
      { final := decide (sent + min (payload.length - sent) w = payload.length)
        opcode := if sent = 0 then opcode else WS_CONTINUATION
        payload := (payload.drop sent).take (min (payload.length - sent) w) }
        :: fragments opcode payload (sent + min (payload.length - sent) w) ws
    else []

/-- An unmasked message with payload `payload` and opcode `opcode` of which `sent`
bytes are out and acknowledged, with no frame in flight. -/
def AsyncWebSocketMessage.pending (payload : List Nat) (opcode : Nat) (sent : Nat) :
    AsyncWebSocketMessage → Prop
  | .basic b => b._status = WS_MSG_SENDING ∧ b._acked = b._ack ∧ b._sent = sent
      ∧ b._attempted = sent ∧ b._len = payload.length ∧ b._data = payload ++ [0]
      ∧ b._mask = false ∧ b._opcode = opcode
  | .multi b => b._status = WS_MSG_SENDING ∧ b._acked = b._ack ∧ b._sent = sent
      ∧ b._attempted = sent ∧ b._WSbuffer = ⟨some payload⟩
      ∧ b._mask = false ∧ b._opcode = opcode

/-- The parser after the first `c` bytes of the wire encoding of one data frame
were fed to it, the event log having been `ev0` before: inside the header the `c`
bytes are buffered and nothing was emitted; inside the payload the frame descriptor
is the decoded header, the index counts the payload bytes consumed and the data
events emitted so far carry exactly these bytes; at the end of the frame the
parser is idle and the data events carry the whole payload. -/
def frameProgress (WS_MAX_HEADER_LEN : Nat) (final : Bool) (opcode : Nat) (masked : Bool)
    (key payload : List Nat) (ev0 : List AwsEvent) (c : Nat) (s : AsyncWebSocketClient) : Prop :=
  s._partialHeader.length = WS_MAX_HEADER_LEN ∧
  ∃ evs, s.events = ev0 ++ evs ∧ (∀ e ∈ evs, e.isDataOf opcode final) ∧
    ((c < (encodeHeader final opcode masked key payload.length).length
        ∧ s._pstate = 0 ∧ s._partialHeaderLen = c
        ∧ s._partialHeader.take c
            = (encodeHeader final opcode masked key payload.length).take c
        ∧ evs = [])
    ∨ ((encodeHeader final opcode masked key payload.length).length ≤ c
        ∧ c < (encodeHeader final opcode masked key payload.length).length + payload.length
        ∧ s._pstate ≠ 0 ∧ s._partialHeaderLen = 0
        ∧ s._pinfo.index = c - (encodeHeader final opcode masked key payload.length).length
        ∧ s._pinfo.len = payload.length ∧ s._pinfo.final = final ∧ s._pinfo.opcode = opcode
        ∧ s._pinfo.masked = masked ∧ (masked = true → s._pinfo.mask = key)
        ∧ (evs.map AwsEvent.payload).flatten
            = payload.take (c - (encodeHeader final opcode masked key payload.length).length))
    ∨ (c = (encodeHeader final opcode masked key payload.length).length + payload.length
        ∧ s._pstate = 0 ∧ s._partialHeaderLen = 0
        ∧ (evs.map AwsEvent.payload).flatten = payload))

/-! ## Session operations -/

/-- The end of `_onAck`: the head message is acknowledged when `len` is not zero,
then the scheduler runs. -/
def onAckTail (s : AsyncWebSocketClient) (len : Nat) : AsyncWebSocketClient :=
  let s :=
    if len ≠ 0 ∧ s._messageQueue.isEmpty = false then
      { s with _messageQueue := (front s._messageQueue).ack len :: s._messageQueue.tail }
    else s
  s._runQueue

/-- The callback `_onAck(len, time)`. `len -= head->len()` is `size_t` arithmetic. -/
def AsyncWebSocketClient._onAck (s : AsyncWebSocketClient) (len : Nat) : AsyncWebSocketClient :=
  let s := { s with _lastMessageTime := s.millis }
  if s._controlQueue.isEmpty = false ∧ (front s._controlQueue).finished = true then
    let head := front s._controlQueue
    let len := szSub len head.len
    if s._status = WS_DISCONNECTING ∧ head.opcode = WS_DISCONNECT then
      { s with _controlQueue := s._controlQueue.tail
               _status := WS_DISCONNECTED
               _client := s._client.close }
    else onAckTail { s with _controlQueue := s._controlQueue.tail } len
  else onAckTail s len

/-- The call `ping(data, len)`; `data = none` is the null pointer. -/
def AsyncWebSocketClient.ping (s : AsyncWebSocketClient) (data : Option (List Nat)) (len : Nat) :
    AsyncWebSocketClient :=
  if s._status = WS_CONNECTED then
    let r := s.newControl WS_PING data len
    r.2._queueControl r.1
  else s

/-- The callback `_onPoll()`; `millis() - _lastMessageTime` is 32-bit arithmetic. -/
def AsyncWebSocketClient._onPoll (s : AsyncWebSocketClient) : AsyncWebSocketClient :=
  if s._client.canSend = true
      ∧ (s._controlQueue.isEmpty = false ∨ s._messageQueue.isEmpty = false) then
    s._runQueue
  else if s._keepAlivePeriod > 0 ∧ s._controlQueue.isEmpty = true
      ∧ s._messageQueue.isEmpty = true
      ∧ szSub s.millis s._lastMessageTime ≥ s._keepAlivePeriod then
    s.ping (some AWSC_PING_PAYLOAD) AWSC_PING_PAYLOAD_LEN
  else s

/-- The call `queueIsFull()`; `WS_MAX_QUEUED_MESSAGES` is defined in the header
`AsyncWebSocket.h` and taken as a parameter. -/
def AsyncWebSocketClient.queueIsFull (WS_MAX_QUEUED_MESSAGES : Nat)
    (s : AsyncWebSocketClient) : Bool :=
  if s._messageQueue.length ≥ WS_MAX_QUEUED_MESSAGES ∨ s._status ≠ WS_CONNECTED then true
  else false

/-- The call `_queueMessage(dataMessage)` with a message that is not the null
pointer. `add` appends at the end of the list. -/
def AsyncWebSocketClient._queueMessage (WS_MAX_QUEUED_MESSAGES : Nat)
    (s : AsyncWebSocketClient) (dataMessage : AsyncWebSocketMessage) : AsyncWebSocketClient :=
  if s._status ≠ WS_CONNECTED then s
  else
    let s :=
      if s._messageQueue.length ≥ WS_MAX_QUEUED_MESSAGES then s
      else { s with _messageQueue := s._messageQueue ++ [dataMessage] }
    if s._client.canSend then s._runQueue else s

/-- The C library `strlen` on a buffer that holds a string: the number of bytes
before the first zero byte. -/
def strlen (s : List Nat) : Nat := (s.takeWhile (fun b => b ≠ 0)).length

/-- The call `close(code, message)`; `code` is a `uint16_t`, `message = none` the
null pointer, `packetLen` a `uint8_t`. For a non-zero code the function first
allocates the buffer `buf` with `malloc(packetLen)`; when that fails it goes on to
its last line and enqueues a Close frame without payload, as it does for code 0. -/
def AsyncWebSocketClient.close (s : AsyncWebSocketClient) (code : Nat)
    (message : Option (List Nat)) : AsyncWebSocketClient :=
  if s._status ≠ WS_CONNECTED then s
  else if code % 65536 ≠ 0 then
    let mlen :=
      match message with
      | some m => if toSizeT (strlen m) > 123 then 123 else toSizeT (strlen m)
      | none => 0
    let packetLen := (2 + mlen) % 256
    let b := s.malloc
    if b.1 then
      let buf := [((code % 65536) >>> 8) % 256, ((code % 65536) &&& 0xFF) % 256]
        ++ (message.getD []).take (packetLen - 2)
      let r := b.2.newControl WS_DISCONNECT (some buf) packetLen
      r.2._queueControl r.1
    else b.2._queueControl (AsyncWebSocketControl.new WS_DISCONNECT none 0 false)
  else s._queueControl (AsyncWebSocketControl.new WS_DISCONNECT none 0 false)

/-- The call `text(message, len)`. The constructor's default arguments (opcode
`WS_TEXT`, no mask) are declared in the header `AsyncWebSocket.h`. -/
def AsyncWebSocketClient.text (WS_MAX_QUEUED_MESSAGES : Nat) (s : AsyncWebSocketClient)
    (message : List Nat) (len : Nat) : AsyncWebSocketClient :=
  s._queueMessage WS_MAX_QUEUED_MESSAGES
    (.basic (AsyncWebSocketBasicMessage.new message len WS_TEXT false))

/-- The call `binary(message, len)`. -/
def AsyncWebSocketClient.binary (WS_MAX_QUEUED_MESSAGES : Nat) (s : AsyncWebSocketClient)
    (message : List Nat) (len : Nat) : AsyncWebSocketClient :=
  s._queueMessage WS_MAX_QUEUED_MESSAGES
    (.basic (AsyncWebSocketBasicMessage.new message len WS_BINARY false))

/-- The callback `_onTimeout(time)`. -/
def AsyncWebSocketClient._onTimeout (s : AsyncWebSocketClient) : AsyncWebSocketClient :=
  { s with _client := s._client.close }

/-- An event on one session: a call of the application, a callback of the
transport, or a change of what the transport reports (whether it can send, its
free space, how much its next writes accept). -/
inductive SessionOp where
  | queueMessage (m : AsyncWebSocketMessage)
  | queueControl (c : AsyncWebSocketControl)
  | text (message : List Nat) (len : Nat)
  | binary (message : List Nat) (len : Nat)
  | ping (data : Option (List Nat)) (len : Nat)
  | close (code : Nat) (message : Option (List Nat))
  | onAck (len : Nat)
  | onPoll
  | onTimeout
  | transport (canSend : Bool) (space : Nat) (accepts : List Nat)
  deriving DecidableEq, Repr

/-- The session after one event. -/
def AsyncWebSocketClient.op (WS_MAX_QUEUED_MESSAGES : Nat) (s : AsyncWebSocketClient) :
    SessionOp → AsyncWebSocketClient
  | .queueMessage m => s._queueMessage WS_MAX_QUEUED_MESSAGES m
  | .queueControl c => s._queueControl c
  | .text message len => s.text WS_MAX_QUEUED_MESSAGES message len
  | .binary message len => s.binary WS_MAX_QUEUED_MESSAGES message len
  | .ping data len => s.ping data len
  | .close code message => s.close code message
  | .onAck len => s._onAck len
  | .onPoll => s._onPoll
  | .onTimeout => s._onTimeout
  | .transport canSend space accepts =>
    { s with _client := { s._client with canSend := canSend, space := space, accepts := accepts } }

/-- The session after a sequence of events. -/
def AsyncWebSocketClient.ops (WS_MAX_QUEUED_MESSAGES : Nat) (s : AsyncWebSocketClient)
    (l : List SessionOp) : AsyncWebSocketClient :=
  l.foldl (AsyncWebSocketClient.op WS_MAX_QUEUED_MESSAGES) s

/-- The head of the message queue is a shared-buffer message with a truncated
frame outstanding, as `send()` leaves it after a short write: still sending, with
fewer bytes written than the frame in flight has (`_sent < _attempted`). -/
def AsyncWebSocketClient.midFrame (s : AsyncWebSocketClient) : Prop :=
  ∃ b rest, s._messageQueue = .multi b :: rest ∧ b._status = WS_MSG_SENDING
    ∧ b._sent < b._attempted ∧ b._attempted ≤ b._WSbuffer.size

/-- The session that the header block leaves. -/
def HeaderOutcome.session : HeaderOutcome → AsyncWebSocketClient
  | .truncated s => s
  | .parsed s _ _ => s

/-- The session that one pass through the loop body leaves. -/
def LoopOutcome.session : LoopOutcome → AsyncWebSocketClient
  | .left s => s
  | .goOn s _ _ => s

/-! ## Control frame: the constructor's allocation and copy -/

/-- The size of the buffer that the constructor of `AsyncWebSocketControl`
allocates (`malloc(_len)` after `_len` was capped at 125); 0 when it allocates
none. -/
def AsyncWebSocketControl.allocated (data : Option (List Nat)) (len : Nat) : Nat :=
  let _len := if data.isNone then 0 else len
  if _len ≠ 0 then (if _len > 125 then 125 else _len) else 0

/-- The number of bytes that the constructor of `AsyncWebSocketControl` writes at
`_data`: `memcpy(_data, data, len)` with the argument `len`; 0 when nothing is
allocated. -/
def AsyncWebSocketControl.copied (data : Option (List Nat)) (len : Nat) : Nat :=
  let _len := if data.isNone then 0 else len
  if _len ≠ 0 then len else 0

/-! ## Cloning a shared-buffer message -/

/-- The call `_WSbuffer.copy()` wrapped in a new `SharedBuffer`; `ok` tells whether
the `malloc` of the copy succeeds. The copy is a buffer of its own with the same
bytes, or a buffer without data and of size 0 when the allocation fails. -/
def SharedBuffer.copy (b : SharedBuffer) (ok : Bool) : SharedBuffer :=
  if ok then { _buf := some b.data } else { _buf := some [] }

/-- The call `clone()` with the outcome `ok` of the allocation of the copy: the new
message, and the number of payload buffers that the call asks for (one for the
copy made when the message is masked and holds a buffer, none when the buffer is
shared). -/
def AsyncWebSocketMultiMessage.clone (m : AsyncWebSocketMultiMessage) (ok : Bool) :
    AsyncWebSocketMultiMessage × Nat :=
  if m._mask && m._WSbuffer.toBool then
    (AsyncWebSocketMultiMessage.new (m._WSbuffer.copy ok) m._opcode m._mask, 1)
  else (AsyncWebSocketMultiMessage.new m._WSbuffer m._opcode m._mask, 0)

/-! ## The socket group -/

/-- The state of an `AsyncWebSocket`: the member sessions in insertion order and
the next id to hand out. -/
structure AsyncWebSocket where
  _clients : List AsyncWebSocketClient
  _cNextId : Nat
  _enabled : Bool
  deriving DecidableEq, Repr

/-- Modelled from the spec: the accessor `id()` is declared in the header
`AsyncWebSocket.h`; it reports the session's unique id. -/
def AsyncWebSocketClient.id (s : AsyncWebSocketClient) : Nat := s._clientId

/-- Modelled from the spec: the accessor `status()` is declared in the header
`AsyncWebSocket.h`; it reports the lifecycle status. -/
def AsyncWebSocketClient.status (s : AsyncWebSocketClient) : AwsClientStatus := s._status

/-- Modelled from the spec: `message(AsyncWebSocketMessage*)` is declared in the
header `AsyncWebSocket.h`; sending a message on a session enqueues it. -/
def AsyncWebSocketClient.message (WS_MAX_QUEUED_MESSAGES : Nat) (s : AsyncWebSocketClient)
    (m : AsyncWebSocketMessage) : AsyncWebSocketClient :=
  s._queueMessage WS_MAX_QUEUED_MESSAGES m

/-- The loop of `availableForWriteAll()`. -/
def availableForWriteAllLoop (WS_MAX_QUEUED_MESSAGES : Nat) : List AsyncWebSocketClient → Bool
  | [] => true
  | c :: rest =>
    if c.queueIsFull WS_MAX_QUEUED_MESSAGES then false
    else availableForWriteAllLoop WS_MAX_QUEUED_MESSAGES rest

def AsyncWebSocket.availableForWriteAll (WS_MAX_QUEUED_MESSAGES : Nat) (g : AsyncWebSocket) :
    Bool :=
  availableForWriteAllLoop WS_MAX_QUEUED_MESSAGES g._clients

/-- The loop of `availableForWrite(id)`. -/
def availableForWriteLoop (WS_MAX_QUEUED_MESSAGES : Nat) (id : Nat) :
    List AsyncWebSocketClient → Bool
  | [] => true
  | c :: rest =>
    if c.queueIsFull WS_MAX_QUEUED_MESSAGES && decide (c.id = id) then false
    else availableForWriteLoop WS_MAX_QUEUED_MESSAGES id rest

def AsyncWebSocket.availableForWrite (WS_MAX_QUEUED_MESSAGES : Nat) (g : AsyncWebSocket)
    (id : Nat) : Bool :=
  availableForWriteLoop WS_MAX_QUEUED_MESSAGES id g._clients

/-- The loop of `count_if` with the predicate of `count()`; the counter is a
`size_t`. -/
def countLoop : List AsyncWebSocketClient → Nat → Nat
  | [], i => i
  | c :: rest, i => countLoop rest (if c.status = WS_CONNECTED then szAdd i 1 else i)

def AsyncWebSocket.count (g : AsyncWebSocket) : Nat := countLoop g._clients 0

/-- The loop of `client(id)`; `none` is the null pointer. -/
def clientLoop (id : Nat) : List AsyncWebSocketClient → Option AsyncWebSocketClient
  | [] => none
  | c :: rest => if c.id = id ∧ c.status = WS_CONNECTED then some c else clientLoop id rest

def AsyncWebSocket.client (g : AsyncWebSocket) (id : Nat) : Option AsyncWebSocketClient :=
  clientLoop id g._clients

/-- The loop of `messageAll(message)`: every Connected member is sent a clone.
`mallocs` holds the outcomes of the allocations of the clones' copies, one for
every Connected member, in the order of the members (a missing entry stands for
success). The second component counts the payload buffers asked for by the
clones. -/
def messageAllLoop (WS_MAX_QUEUED_MESSAGES : Nat) (message : AsyncWebSocketMultiMessage) :
    List AsyncWebSocketClient → List Bool → List AsyncWebSocketClient × Nat
  | [], _ => ([], 0)
  | c :: rest, mallocs =>
    if c.status = WS_CONNECTED then
      let r := messageAllLoop WS_MAX_QUEUED_MESSAGES message rest mallocs.tail
      (c.message WS_MAX_QUEUED_MESSAGES (.multi (message.clone (mallocs.headD true)).1) :: r.1,
       (message.clone (mallocs.headD true)).2 + r.2)
    else
      let r := messageAllLoop WS_MAX_QUEUED_MESSAGES message rest mallocs
      (c :: r.1, r.2)

def AsyncWebSocket.messageAll (WS_MAX_QUEUED_MESSAGES : Nat) (g : AsyncWebSocket)
    (message : AsyncWebSocketMultiMessage) (mallocs : List Bool) : AsyncWebSocket × Nat :=
  ({ g with _clients := (messageAllLoop WS_MAX_QUEUED_MESSAGES message g._clients mallocs).1 },
   (messageAllLoop WS_MAX_QUEUED_MESSAGES message g._clients mallocs).2)

/-- The mask key that `webSocketSendFrameHeader` draws on a transport: four calls
of `rand()`, each reduced `% 0xFF`. -/
def maskKey (c : AsyncClient) : List Nat :=
  [c.rnd.getD 0 0 % 255, c.rnd.getD 1 0 % 255, c.rnd.getD 2 0 % 255, c.rnd.getD 3 0 % 255]

/-! ## Buffer lists (`DynamicBuffer.cpp`) -/

/-- A `DynamicBuffer`: `_data = none` is the null pointer. -/
structure DynamicBuffer where
  _data : Option (List Nat)
  _len : Nat
  deriving DecidableEq, Repr

/-- The constructor `DynamicBuffer(size_t len)`. `ok` tells whether `malloc`
succeeds; it is only called when `len` is not 0. The content of the new buffer is
unspecified and taken as zeros. -/
def DynamicBuffer.ofSize (len : Nat) (ok : Bool) : DynamicBuffer :=
  let _data := if len ≠ 0 then (if ok then some (List.replicate len 0) else none) else none
  { _data := _data, _len := if _data.isSome then len else 0 }

def DynamicBuffer.size (b : DynamicBuffer) : Nat := b._len

/-- The loop of `allocateList` run for at most `fuel` passes: the buffers so far,
what is left of `total`, and the outcomes of the `malloc` calls still to come (an
exhausted list stands for success). -/
def allocateListLoop (max_buffer_size : Nat) :
    Nat → Nat → List DynamicBuffer → List Bool → List DynamicBuffer × Nat
  | 0, total, buffers, _ => (buffers, total)
  | fuel + 1, total, buffers, heap =>
    if total = 0 then (buffers, total)
    else
      let alloc_size := min total max_buffer_size
      let b := DynamicBuffer.ofSize alloc_size (heap.headD true)
      let buffers := buffers ++ [b]
      if b._data.isNone then (buffers, total)
      else
        allocateListLoop max_buffer_size fuel (szSub total alloc_size) buffers
          (if alloc_size ≠ 0 then heap.tail else heap)

/-- The template `allocateList(total, max_buffer_size)`, which both
`allocateDynamicBufferList` and `allocateSharedBufferList` instantiate. Every pass
of the loop that goes on takes at least one byte off `total`, so `total` passes are
enough. -/
def allocateList (total max_buffer_size : Nat) (heap : List Bool) : List DynamicBuffer :=
  let r := allocateListLoop max_buffer_size total total [] heap
  if r.2 ≠ 0 then [] else r.1

/-- The function `totalSize`: the sum of the sizes, accumulated in an `unsigned`. -/
def totalSize (buffers : List DynamicBuffer) : Nat :=
  buffers.foldl (fun s b => szAdd s b.size) 0

/-- The header bytes that `webSocketSendFrameHeader` assembles for a masked frame
with a payload: those of `sentHeader` with the mask bit `0x80` or-ed into byte 1,
followed by the mask key. -/
def sentHeaderMasked (final : Bool) (opcode : Nat) (len : Nat) (key : List Nat) : List Nat :=
  ((if final then (opcode % 256 &&& 0x0F) ||| 0x80 else opcode % 256 &&& 0x0F)
    :: (if len < 126 then [(len &&& 0x7F) ||| 0x80]
        else [126 ||| 0x80, (len >>> 8) &&& 0xFF, len &&& 0xFF])) ++ key

/-- The three parse states of the spec (section 4.2): idle, mid-frame with payload
bytes remaining, and mid-header with 1 to 13 bytes buffered. -/
def AsyncWebSocketClient.parseIdle (s : AsyncWebSocketClient) : Prop :=
  s._pstate = 0 ∧ s._partialHeaderLen = 0

def AsyncWebSocketClient.parseMidFrame (s : AsyncWebSocketClient) : Prop :=
  s._pstate = 1 ∧ s._partialHeaderLen = 0 ∧ s._pinfo.index < s._pinfo.len

def AsyncWebSocketClient.parseMidHeader (s : AsyncWebSocketClient) : Prop :=
  s._pstate = 0 ∧ 1 ≤ s._partialHeaderLen ∧ s._partialHeaderLen ≤ 13

/-- The parser is in a state that the loop of `_onData` keeps: `_pstate` is 0 or 1,
mid-frame there is no buffered header and payload remains, and at most 13 header
bytes are buffered. -/
def AsyncWebSocketClient.parseInv (s : AsyncWebSocketClient) : Prop :=
  (s._pstate = 0 ∨ s._pstate = 1)
    ∧ (s._pstate = 1 → s._partialHeaderLen = 0 ∧ s._pinfo.index < s._pinfo.len)
    ∧ s._partialHeaderLen ≤ 13

/-! ## The linked list (`StringArray.h`) -/

/-- The node `LinkedListNode<T>`: the value and the address of the next node;
`none` is the null pointer. -/
structure LinkedListNode (T : Type) where
  _value : T
  next : Option Nat
  deriving DecidableEq, Repr

/-- The list `LinkedList<T>` with the memory that holds its nodes. `heap` has one
slot per address handed out by `new ItemType(...)`: the node stored there, or
`none` once `delete` has released it. The callback `_onRemove` receives the
removed value and does not touch the list; it is left out. -/
structure LinkedList (T : Type) where
  heap : List (Option (LinkedListNode T))
  _root : Option Nat
  _last : Option Nat
  deriving DecidableEq, Repr

/-- The constructor `LinkedList(onRemove)`. -/
def LinkedList.new {T : Type} : LinkedList T :=
  { heap := [], _root := none, _last := none }

/-- The node behind a pointer; `none` when the pointer does not point to a live
node. -/
def LinkedList.node {T : Type} (l : LinkedList T) (a : Nat) : Option (LinkedListNode T) :=
  l.heap.getD a none

/-- The call `add(t)`. The result is `none` when a pointer that is null or
dangling would be dereferenced. -/
def LinkedList.add {T : Type} (l : LinkedList T) (t : T) : Option (LinkedList T) :=
  let it := l.heap.length
  let heap := l.heap ++ [some { _value := t, next := none }]
  match l._root with
  | none => some { heap := heap, _root := some it, _last := some it }
  | some _ =>
    match l._last with
    | none => none
    | some last =>
      match l.node last with
      | none => none
      | some n =>
        some { heap := heap.set last (some { n with next := some it }), _root := l._root,
               _last := some it }

/-- The call `front()`: `_root->value()`. -/
def LinkedList.front {T : Type} (l : LinkedList T) : Option T :=
  match l._root with
  | none => none
  | some r => (l.node r).map (fun n => n._value)

/-- The call `isEmpty()`. -/
def LinkedList.isEmpty {T : Type} (l : LinkedList T) : Bool := l._root.isNone

/-- The private `_remove(pit, it)`: unlinks the node `it` whose predecessor is
`pit` (null for the first node) and deletes it. -/
def LinkedList._remove {T : Type} (l : LinkedList T) (pit : Option Nat) (it : Nat) :
    Option (LinkedList T) :=
  match l.node it with
  | none => none
  | some n =>
    let unlinked : Option (LinkedList T) :=
      match pit with
      | none => some { l with _root := n.next }
      | some p =>
        match l.node p with
        | none => none
        | some pn => some { l with heap := l.heap.set p (some { pn with next := n.next }) }
    unlinked.map (fun l1 =>
      { heap := l1.heap.set it none, _root := l1._root,
        _last := if l._last = some it then pit else l1._last })

/-- The loop of `remove(const T& t)` from the node `it` with predecessor `pit`;
`fuel` bounds the number of nodes visited. -/
def LinkedList.removeLoop {T : Type} [DecidableEq T] (l : LinkedList T) (t : T) :
    Nat → Option Nat → Option Nat → Option (Bool × LinkedList T)
  | _, _, none => some (false, l)
  | 0, _, some _ => none
  | fuel + 1, pit, some it =>
    match l.node it with
    | none => none
    | some n =>
      if n._value = t then (l._remove pit it).map (fun l1 => (true, l1))
      else l.removeLoop t fuel (some it) n.next

/-- The call `remove(t)`: removes the first node whose value equals `t`. -/
def LinkedList.remove {T : Type} [DecidableEq T] (l : LinkedList T) (t : T) :
    Option (Bool × LinkedList T) :=
  l.removeLoop t l.heap.length none l._root

/-- The values in iteration order, `for(auto it = _root; it != nullptr; it =
it->next)`, as `length()`, `nth()` and the iterator walk the list. -/
def LinkedList.walk {T : Type} (l : LinkedList T) : Nat → Option Nat → Option (List T)
  | _, none => some []
  | 0, some _ => none
  | fuel + 1, some it =>
    match l.node it with
    | none => none
    | some n => (l.walk fuel n.next).map (fun rest => n._value :: rest)

/-- The content of the list in iteration order. -/
def LinkedList.toList {T : Type} (l : LinkedList T) : Option (List T) :=
  l.walk l.heap.length l._root

/-- What the session does with a queue: `add(t)`, and `remove(front())` on a
queue that `isEmpty()` has found not empty. -/
inductive QueueCall (T : Type) where
  | add (t : T)
  | removeFront
  deriving DecidableEq, Repr

/-- One queue call on the linked list. -/
def LinkedList.call {T : Type} [DecidableEq T] (l : LinkedList T) :
    QueueCall T → Option (LinkedList T)
  | .add t => l.add t
  | .removeFront =>
    if l.isEmpty then some l
    else l.front.bind (fun t => (l.remove t).map (fun r => r.2))

/-- A sequence of queue calls on the linked list. -/
def LinkedList.calls {T : Type} [DecidableEq T] (l : LinkedList T) :
    List (QueueCall T) → Option (LinkedList T)
  | [] => some l
  | c :: cs => (l.call c).bind (fun l1 => l1.calls cs)

/-- The same call on a first-in-first-out sequence: `add` puts the value behind
the last one, `removeFront` takes the oldest one away. -/
def QueueCall.onList {T : Type} (xs : List T) : QueueCall T → List T
  | .add t => xs ++ [t]
  | .removeFront => xs.tail

/-- The nodes at the addresses `as`, linked in this order from the pointer `r` to
the null pointer, hold the values `xs`. -/
def LinkedList.chain {T : Type} (l : LinkedList T) :
    Option Nat → List Nat → List T → Prop
  | r, [], [] => r = none
  | r, a :: as, x :: xs =>
    r = some a ∧ ∃ nx, l.node a = some { _value := x, next := nx } ∧ l.chain nx as xs
  | _, _, _ => False

/-- The list is well formed: its nodes are distinct, linked from `_root`, and
`_last` points to the last of them. -/
def LinkedList.linked {T : Type} (l : LinkedList T) (as : List Nat) (xs : List T) : Prop :=
  l.chain l._root as xs ∧ as.Nodup ∧ l._last = as.getLast?

/-- The mask flag `_mask` of a queued message. -/
def AsyncWebSocketMessage.mask : AsyncWebSocketMessage → Bool
  | .basic m => m._mask
  | .multi m => m._mask

/-- The head of the `while(plen > 0)` loop of `_onData` after `n` passes through
its body: the session, the data pointer and `plen` at that point; `none` when the
loop has ended before. -/
def onDataPasses (WS_MAX_HEADER_LEN : Nat) :
    Nat → AsyncWebSocketClient → List Nat → Nat → Option (AsyncWebSocketClient × List Nat × Nat)
  | 0, s, data, plen => some (s, data, plen)
  | n + 1, s, data, plen =>
    if plen = 0 then none
    else
      match onDataStep WS_MAX_HEADER_LEN s data plen with
      | .left _ => none
      | .goOn s data plen => onDataPasses WS_MAX_HEADER_LEN n s data plen

/-- The condition under which the payload part of the loop body takes its last
branch, the frame error with its `break`: neither `datalen + index < len` nor
`datalen + index == len` holds. -/
def frameError (s : AsyncWebSocketClient) (plen : Nat) : Prop :=
  ¬ u64Add (min (toSizeT (u64Sub s._pinfo.len s._pinfo.index)) plen) s._pinfo.index
      < s._pinfo.len
    ∧ ¬ u64Add (min (toSizeT (u64Sub s._pinfo.len s._pinfo.index)) plen) s._pinfo.index
      = s._pinfo.len

/-- The pass through the loop body that starts at the loop head `(s, data, plen)`
reaches the frame-error branch. -/
def passBreaks (WS_MAX_HEADER_LEN : Nat) (s : AsyncWebSocketClient) (data : List Nat)
    (plen : Nat) : Prop :=
  if s._pstate = 0 then
    match parseHeader WS_MAX_HEADER_LEN s data plen with
    | .truncated _ => False
    | .parsed t _ n => frameError t n
  else frameError s plen

/-! # Theorems -/

/-! ## Masking -/

theorem applyMask_length (data mbuf : List Nat) (len : Nat) :
    (applyMask data mbuf len).length = data.length := by
  simp [applyMask]

theorem unmaskChunk_length (data mask : List Nat) (index datalen : Nat) :
    (unmaskChunk data mask index datalen).length = data.length := by
  simp [unmaskChunk]

theorem applyMask_getD (data mbuf : List Nat) (len i : Nat) (h : i < data.length) :
    (applyMask data mbuf len).getD i 0
      = if i < len then data.getD i 0 ^^^ mbuf.getD (i % 4) 0 else data.getD i 0 := by
  have h2 : i < (applyMask data mbuf len).length := by simpa [applyMask_length] using h
  rw [List.getD_eq_getElem _ _ h2]
  simp [applyMask]

theorem u64Add_mod_four (a b : Nat) : u64Add a b % 4 = (a + b) % 4 := by
  unfold u64Add; omega

/-- Unmasking the slice `[j, j+m)` of a masked payload with a running index that
agrees with `j` modulo 4 gives the same slice of the payload. -/
theorem unmaskChunk_slice (P key : List Nat) (j idx m : Nat) (hidx : idx % 4 = j % 4) :
    unmaskChunk (((applyMask P key P.length).drop j).take m) key idx m = (P.drop j).take m := by
  apply List.ext_getElem
  · simp [unmaskChunk_length, applyMask_length]
  · intro i h1 h2
    have hi : i < m := by
      simp [List.length_take] at h2; omega
    have hji : j + i < P.length := by
      simp [List.length_take] at h2; omega
    have hlen : i < (((applyMask P key P.length).drop j).take m).length := by
      simp [applyMask_length]; omega
    simp only [unmaskChunk, List.getElem_map, List.getElem_range, hi, if_true]
    have e1 : (((applyMask P key P.length).drop j).take m).getD i 0
        = (applyMask P key P.length).getD (j + i) 0 := by
      rw [List.getD_eq_getElem _ _ (by omega)]
      rw [List.getD_eq_getElem _ _ (by simp [applyMask_length]; omega)]
      simp
    rw [e1, applyMask_getD _ _ _ _ (by omega)]
    have hm : u64Add idx i % 4 = (j + i) % 4 := by rw [u64Add_mod_four]; omega
    simp only [hji, if_true, hm]
    rw [Nat.xor_cancel_right]
    rw [List.getD_eq_getElem _ _ hji]
    simp

theorem unmaskChunks_drop (P key : List Nat) (chunks : List (List Nat)) :
    ∀ j idx, idx % 4 = j % 4 → chunks.flatten = (applyMask P key P.length).drop j →
      unmaskChunks key idx chunks = P.drop j := by
  induction chunks with
  | nil =>
    intro j idx _ h
    have hl := congrArg List.length h
    simp [applyMask_length] at hl
    simp [unmaskChunks, List.drop_eq_nil_of_le (show P.length ≤ j by omega)]
  | cons c cs ih =>
    intro j idx hidx h
    simp only [List.flatten_cons] at h
    have hl := congrArg List.length h
    simp [applyMask_length] at hl
    have hc : c = ((applyMask P key P.length).drop j).take c.length := by
      rw [← h]; simp
    have hcs : cs.flatten = (applyMask P key P.length).drop (j + c.length) := by
      have := congrArg (List.drop c.length) h
      simpa [List.drop_drop, Nat.add_comm] using this
    have ih2 := ih (j + c.length) (u64Add idx c.length)
      (by rw [u64Add_mod_four]; omega) hcs
    simp only [unmaskChunks]
    rw [ih2]
    have e := unmaskChunk_slice P key j idx c.length hidx
    rw [← hc] at e
    rw [e]
    rw [← List.drop_drop]  
    exact List.take_append_drop _ _

/-- C3: masking a payload as the sender does and unmasking it chunk by chunk as the
receiver does, with the payload index running on across the chunks, recovers the
payload, for every key and every split of the masked payload into chunks. -/
theorem mask_roundtrip_chunked (P key : List Nat) (chunks : List (List Nat))
    (hsplit : chunks.flatten = applyMask P key P.length) :
    unmaskChunks key 0 chunks = P := by
  have := unmaskChunks_drop P key chunks 0 0 rfl (by simpa using hsplit)
  simpa using this

theorem mask_roundtrip_chunked_witness :
    [[73, 71], [79], [72, 78]].flatten = applyMask [72, 69, 76, 76, 79] [1, 2, 3, 4] 5
    ∧ unmaskChunks [1, 2, 3, 4] 0 [[73, 71], [79], [72, 78]] = [72, 69, 76, 76, 79] :=
  ⟨by decide, mask_roundtrip_chunked [72, 69, 76, 76, 79] [1, 2, 3, 4] [[73, 71], [79], [72, 78]]
    (by decide)⟩

/-! ## Machine arithmetic -/

theorem szSub_of_le (a b : Nat) (h : b ≤ a) (ha : a < 4294967296) : szSub a b = a - b := by
  unfold szSub; omega

theorem szAdd_of_lt (a b : Nat) (h : a + b < 4294967296) : szAdd a b = a + b := by
  unfold szAdd; omega

theorem u64Sub_of_le (a b : Nat) (h : b ≤ a) (ha : a < 18446744073709551616) :
    u64Sub a b = a - b := by
  unfold u64Sub; omega

theorem u64Add_of_lt (a b : Nat) (h : a + b < 18446744073709551616) : u64Add a b = a + b := by
  unfold u64Add; omega

/-- A byte placed above the bits of a smaller value: `or` is addition. -/
theorem or_shiftLeft_eq_add (acc b i : Nat) (h : acc < 2 ^ i) :
    acc ||| b <<< i = b * 2 ^ i + acc := by
  rw [Nat.or_comm, Nat.shiftLeft_eq, Nat.mul_comm b, ← Nat.mul_add_lt_is_or h]

theorem len16_decode (b2 b3 : Nat) (h2 : b2 < 256) (h3 : b3 < 256) :
    b3 ||| (b2 % 65536) <<< 8 = b2 * 256 + b3 := by
  rw [Nat.mod_eq_of_lt (by omega), or_shiftLeft_eq_add _ _ 8 (by simpa using h3)]
  norm_num

theorem len64_decode (b2 b3 b4 b5 b6 b7 b8 b9 : Nat) (h2 : b2 < 256) (h3 : b3 < 256)
    (h4 : b4 < 256) (h5 : b5 < 256) (h6 : b6 < 256) (h7 : b7 < 256) (h8 : b8 < 256)
    (h9 : b9 < 256) :
    (b9 ||| b8 <<< 8 ||| b7 <<< 16 ||| b6 <<< 24 ||| b5 <<< 32 ||| b4 <<< 40 ||| b3 <<< 48
      ||| b2 <<< 56) % 18446744073709551616
    = b2 * 72057594037927936 + b3 * 281474976710656 + b4 * 1099511627776 + b5 * 4294967296
      + b6 * 16777216 + b7 * 65536 + b8 * 256 + b9 := by
  rw [or_shiftLeft_eq_add b9 b8 8 (by norm_num; omega)]
  rw [or_shiftLeft_eq_add _ b7 16 (by norm_num; omega)]
  rw [or_shiftLeft_eq_add _ b6 24 (by norm_num; omega)]
  rw [or_shiftLeft_eq_add _ b5 32 (by norm_num; omega)]
  rw [or_shiftLeft_eq_add _ b4 40 (by norm_num; omega)]
  rw [or_shiftLeft_eq_add _ b3 48 (by norm_num; omega)]
  rw [or_shiftLeft_eq_add _ b2 56 (by norm_num; omega)]
  norm_num
  omega

theorem byte_and_7F_add (n : Nat) (h : n < 128) :
    n &&& 0x7F = n ∧ n &&& 0x80 = 0 ∧ (128 + n) &&& 0x7F = n ∧ (128 + n) &&& 0x80 = 128 := by
  revert n; decide

theorem byte_and_0F_add (n : Nat) (h : n < 16) :
    n &&& 0x0F = n ∧ n &&& 0x80 = 0 ∧ (128 + n) &&& 0x0F = n ∧ (128 + n) &&& 0x80 = 128 := by
  revert n; decide

/-! ## The header block of the parser -/

theorem memcpy_length (dst src : List Nat) (off : Nat) (h : off + src.length ≤ dst.length) :
    (memcpy dst off src).length = dst.length := by
  simp [memcpy]; omega

theorem memcpy_zero_take_self (dst : List Nat) (n : Nat) :
    memcpy dst 0 (dst.take n) = dst := by
  simp [memcpy, List.length_take]
  by_cases h : n ≤ dst.length
  · rw [Nat.min_eq_left h]; exact List.take_append_drop _ _
  · rw [Nat.min_eq_right (by omega), List.take_of_length_le (by omega)]; simp

theorem getD_of_take_eq (a b : List Nat) (n i : Nat) (h : a.take n = b.take n) (hi : i < n) :
    a.getD i 0 = b.getD i 0 := by
  have h1 : (a.take n).getD i 0 = (b.take n).getD i 0 := by rw [h]
  simpa [List.getD_eq_getElem?_getD, List.getElem?_take, hi] using h1

/-- What the recovery step leaves: the locals count the buffered bytes together with
the chunk, and the header buffer agrees with the byte stream from the start of the
header (buffered bytes, then the chunk) on its first `min (k + |data|) MAX` bytes. -/
theorem headerRecover_spec (MAX : Nat) (hMAX : MAX < 4294967296)
    (s : AsyncWebSocketClient) (data pre : List Nat)
    (hbuf : s._partialHeader.length = MAX)
    (hk : s._partialHeaderLen = pre.length) (hkM : pre.length ≤ MAX)
    (hpre : s._partialHeader.take pre.length = pre)
    (hsz : pre.length + data.length < 4294967296) :
    ∃ buf hb, headerRecover MAX s data data.length
      = ({ s with _partialHeader := buf, _partialHeaderLen := 0 },
         { headerBuf := hb, initialPlen := pre.length + data.length,
           plen := pre.length + data.length, dataPayloadOffset := - (pre.length : Int),
           partialHeaderLen := pre.length })
    ∧ buf.length = MAX
    ∧ hb.take (min (pre.length + data.length) MAX)
        = (pre ++ data).take (min (pre.length + data.length) MAX)
    ∧ memcpy buf 0 (hb.take (min (pre.length + data.length) MAX))
        = (pre ++ data).take (min (pre.length + data.length) MAX)
          ++ buf.drop (min (pre.length + data.length) MAX) := by
  by_cases h0 : pre.length = 0
  · have hp : pre = [] := List.length_eq_zero.mp h0
    subst hp
    simp only [List.length_nil] at hk
    refine ⟨s._partialHeader, data, ?_, hbuf, by simp, ?_⟩
    · simp only [headerRecover, hk, gt_iff_lt, Nat.lt_irrefl, if_false, List.length_nil,
        Nat.zero_add, Int.natCast_zero, Int.neg_zero]
      rw [← hk]
    · simp [memcpy, List.length_take]
  · have hsub : szSub MAX pre.length = MAX - pre.length := szSub_of_le _ _ hkM hMAX
    have hadd : szAdd data.length pre.length = pre.length + data.length := by
      rw [szAdd_of_lt _ _ (by omega)]; omega
    have h3 : (memcpy s._partialHeader pre.length
          (data.take (min data.length (MAX - pre.length)))).take
            (min (pre.length + data.length) MAX)
        = (pre ++ data).take (min (pre.length + data.length) MAX) := by
      simp only [memcpy]
      rw [hpre]
      apply List.ext_getElem?
      intro i
      simp only [List.getElem?_take, List.getElem?_append, List.length_take, List.getElem?_drop]
      simp only [List.length_append, List.length_take]
      by_cases h1 : i < (pre.length + data.length) ⊓ MAX
      · have h2 : i < pre.length + data.length ⊓ (MAX - pre.length) ⊓ data.length := by omega
        simp only [h1, h2, if_true]
        by_cases h3 : i < pre.length
        · simp only [h3, if_true]
        · have h4 : i - pre.length < data.length ⊓ (MAX - pre.length) := by omega
          simp only [h3, h4, if_true, if_false]
      · simp only [h1, if_false]
    refine ⟨memcpy s._partialHeader pre.length
        (data.take (min data.length (MAX - pre.length))),
      memcpy s._partialHeader pre.length
        (data.take (min data.length (MAX - pre.length))), ?_, ?_, h3, ?_⟩
    · simp only [headerRecover, hk, gt_iff_lt, Nat.pos_of_ne_zero h0, if_true, hsub, hadd]
    · rw [memcpy_length]; exact hbuf
      simp [List.length_take]; omega
    · rw [memcpy_zero_take_self, ← h3, List.take_append_drop]

theorem getD_of_take_eq_list (hb hdr : List Nat) (h : hb.take hdr.length = hdr) (i : Nat)
    (hi : i < hdr.length) : hb.getD i 0 = hdr.getD i 0 := by
  apply getD_of_take_eq hb hdr hdr.length i _ hi
  rw [h, List.take_length]

theorem list_of_length_succ (t : List Nat) (n : Nat) (h : t.length = n + 1) :
    ∃ a t', t = a :: t' ∧ t'.length = n := by
  cases t with
  | nil => simp at h
  | cons a t' => exact ⟨a, t', rfl, by simpa using h⟩

theorem list_of_length_two (t : List Nat) (h : t.length = 2) : ∃ a b, t = [a, b] := by
  obtain ⟨a, t1, rfl, h1⟩ := list_of_length_succ t 1 h
  obtain ⟨b, t2, rfl, h2⟩ := list_of_length_succ t1 0 h1
  exact ⟨a, b, by rw [List.length_eq_zero.mp h2]⟩

theorem list_of_length_four (t : List Nat) (h : t.length = 4) : ∃ a b c d, t = [a, b, c, d] := by
  obtain ⟨a, t1, rfl, h1⟩ := list_of_length_succ t 3 h
  obtain ⟨b, t2, rfl, h2⟩ := list_of_length_succ t1 2 h1
  obtain ⟨c, d, rfl⟩ := list_of_length_two t2 h2
  exact ⟨a, b, c, d, rfl⟩

theorem list_of_length_eight (t : List Nat) (h : t.length = 8) :
    ∃ a b c d e f g k, t = [a, b, c, d, e, f, g, k] := by
  obtain ⟨a, t1, rfl, h1⟩ := list_of_length_succ t 7 h
  obtain ⟨b, t2, rfl, h2⟩ := list_of_length_succ t1 6 h1
  obtain ⟨c, t3, rfl, h3⟩ := list_of_length_succ t2 5 h2
  obtain ⟨d, t4, rfl, h4⟩ := list_of_length_succ t3 4 h3
  obtain ⟨e, f, g, k, rfl⟩ := list_of_length_four t4 h4
  exact ⟨a, b, c, d, e, f, g, k, rfl⟩

theorem list_of_length_six (t : List Nat) (h : t.length = 6) :
    ∃ a b c d e f, t = [a, b, c, d, e, f] := by
  obtain ⟨a, t1, rfl, h1⟩ := list_of_length_succ t 5 h
  obtain ⟨b, t2, rfl, h2⟩ := list_of_length_succ t1 4 h1
  obtain ⟨c, d, e, f, rfl⟩ := list_of_length_four t2 h2
  exact ⟨a, b, c, d, e, f, rfl⟩

theorem list_of_length_twelve (t : List Nat) (h : t.length = 12) :
    ∃ a b c d e f g k m n p q, t = [a, b, c, d, e, f, g, k, m, n, p, q] := by
  obtain ⟨a, t1, rfl, h1⟩ := list_of_length_succ t 11 h
  obtain ⟨b, t2, rfl, h2⟩ := list_of_length_succ t1 10 h1
  obtain ⟨c, t3, rfl, h3⟩ := list_of_length_succ t2 9 h2
  obtain ⟨d, t4, rfl, h4⟩ := list_of_length_succ t3 8 h3
  obtain ⟨e, f, g, k, m, n, p, q, rfl⟩ := list_of_length_eight t4 h4
  exact ⟨a, b, c, d, e, f, g, k, m, n, p, q, rfl⟩

theorem beValue_eight (b2 b3 b4 b5 b6 b7 b8 b9 : Nat) :
    beValue [b2, b3, b4, b5, b6, b7, b8, b9]
    = b2 * 72057594037927936 + b3 * 281474976710656 + b4 * 1099511627776 + b5 * 4294967296
      + b6 * 16777216 + b7 * 65536 + b8 * 256 + b9 := by
  simp only [beValue, List.foldl]
  omega

theorem toNat_offset (d : Int) (p : Nat) (n : Nat) (h : d + (p : Int) = 0) :
    (d + (n : Int) + (p : Int)).toNat = n := by
  omega

theorem headerFields_complete (MAX : Nat) (s : AsyncWebSocketClient) (data hdr : List Nat)
    (l : HeaderLocals) (hbytes : ∀ b ∈ hdr, b < 256) (h2 : 2 ≤ hdr.length)
    (hlen : hdr.length = headerLenOf (hdr.getD 1 0))
    (hag : l.headerBuf.take hdr.length = hdr)
    (hT : hdr.length ≤ l.plen) (hT2 : l.plen < 4294967296)
    (hoff : l.dataPayloadOffset + (l.partialHeaderLen : Int) = 0) :
    headerFields MAX s data l
      = .parsed { s with _pinfo := decodeHeader s._pinfo hdr }
          (data.drop (l.dataPayloadOffset + (hdr.length : Int)).toNat) (l.plen - hdr.length) := by
  have hg := getD_of_take_eq_list l.headerBuf hdr hag
  rcases hdr with _ | ⟨b0, _ | ⟨b1, t⟩⟩
  · simp at h2
  · simp at h2
  have hb0 : b0 < 256 := hbytes b0 (by simp)
  have hb1 : b1 < 256 := hbytes b1 (by simp)
  have g0 := hg 0 (by simp)
  have g1 := hg 1 (by simp)
  simp only [List.getD_cons_zero, List.getD_cons_succ] at g0 g1 hlen
  by_cases c126 : b1 &&& 0x7F = 126
  · by_cases cm : b1 &&& 0x80 = 0
    · have ht : t.length = 2 := by
        simp [headerLenOf, c126, cm] at hlen
        omega
      obtain ⟨b2, b3, rfl⟩ := list_of_length_two t ht
      have g2 := hg 2 (by simp)
      have g3 := hg 3 (by simp)
      simp only [List.getD_cons_zero, List.getD_cons_succ] at g2 g3
      simp only [List.length_cons, List.length_nil] at hT
      have n2 : ¬ l.plen < 2 := by omega
      have e1 : szSub l.plen 2 = l.plen - 2 := szSub_of_le _ _ (by omega) hT2
      have n3 : ¬ l.plen - 2 < 2 := by omega
      have e2 : szSub (l.plen - 2) 2 = l.plen - 4 := by
        rw [szSub_of_le _ _ (by omega) (by omega)]; omega
      have hb2 : b2 < 256 := hbytes b2 (by simp)
      have hb3 : b3 < 256 := hbytes b3 (by simp)
      simp only [headerFields, n2, if_false, g0, g1, g2, g3, c126, if_true, e1, n3, e2,
        headerMask, cm, decodeHeader, List.getD_cons_zero, List.getD_cons_succ, ne_eq,
        not_true_eq_false, decide_False, Bool.false_eq_true, true_or, List.length_cons,
        List.length_nil, len16_decode b2 b3 hb2 hb3]
      simp [beValue]
      rw [show l.dataPayloadOffset + 2 + 2 = l.dataPayloadOffset + 4 by omega]
    · have ht : t.length = 6 := by
        simp [headerLenOf, c126, cm] at hlen
        omega
      obtain ⟨b2, b3, k0, k1, k2, k3, rfl⟩ := list_of_length_six t ht
      have g2 := hg 2 (by simp)
      have g3 := hg 3 (by simp)
      have g4 := hg 4 (by simp)
      have g5 := hg 5 (by simp)
      have g6 := hg 6 (by simp)
      have g7 := hg 7 (by simp)
      simp only [List.getD_cons_zero, List.getD_cons_succ] at g2 g3 g4 g5 g6 g7
      simp only [List.length_cons, List.length_nil] at hT
      have n2 : ¬ l.plen < 2 := by omega
      have e1 : szSub l.plen 2 = l.plen - 2 := szSub_of_le _ _ (by omega) hT2
      have n3 : ¬ l.plen - 2 < 2 := by omega
      have e2 : szSub (l.plen - 2) 2 = l.plen - 4 := by
        rw [szSub_of_le _ _ (by omega) (by omega)]; omega
      have n4 : ¬ l.plen - 4 < 4 := by omega
      have e3 : szSub (l.plen - 4) 4 = l.plen - 8 := by
        rw [szSub_of_le _ _ (by omega) (by omega)]; omega
      have hb2 : b2 < 256 := hbytes b2 (by simp)
      have hb3 : b3 < 256 := hbytes b3 (by simp)
      have o1 := toNat_offset l.dataPayloadOffset l.partialHeaderLen 4 hoff
      simp only [Nat.cast_ofNat] at o1
      have o2 : l.dataPayloadOffset + 2 + 2 = l.dataPayloadOffset + 4 := by omega
      simp only [headerFields, n2, if_false, g0, g1, g2, g3, c126, if_true, e1, n3, e2, n4, e3,
        headerMask, cm, decodeHeader, List.getD_cons_zero, List.getD_cons_succ, ne_eq,
        not_false_eq_true, decide_True, true_or, List.length_cons,
        List.length_nil, len16_decode b2 b3 hb2 hb3, o2, o1, g4, g5, g6, g7]
      simp [beValue]
      rw [show l.dataPayloadOffset + 4 + 4 = l.dataPayloadOffset + 8 by omega]
  · by_cases c127 : b1 &&& 0x7F = 127
    · by_cases cm : b1 &&& 0x80 = 0
      · have ht : t.length = 8 := by
          simp [headerLenOf, c127, cm] at hlen
          omega
        obtain ⟨b2, b3, b4, b5, b6, b7, b8, b9, rfl⟩ := list_of_length_eight t ht
        have g2 := hg 2 (by simp)
        have g3 := hg 3 (by simp)
        have g4 := hg 4 (by simp)
        have g5 := hg 5 (by simp)
        have g6 := hg 6 (by simp)
        have g7 := hg 7 (by simp)
        have g8 := hg 8 (by simp)
        have g9 := hg 9 (by simp)
        simp only [List.getD_cons_zero, List.getD_cons_succ] at g2 g3 g4 g5 g6 g7 g8 g9
        simp only [List.length_cons, List.length_nil] at hT
        have n2 : ¬ l.plen < 2 := by omega
        have e1 : szSub l.plen 2 = l.plen - 2 := szSub_of_le _ _ (by omega) hT2
        have n3 : ¬ l.plen - 2 < 8 := by omega
        have e2 : szSub (l.plen - 2) 8 = l.plen - 10 := by
          rw [szSub_of_le _ _ (by omega) (by omega)]; omega
        have hl64 := len64_decode b2 b3 b4 b5 b6 b7 b8 b9 (hbytes b2 (by simp))
          (hbytes b3 (by simp)) (hbytes b4 (by simp)) (hbytes b5 (by simp))
          (hbytes b6 (by simp)) (hbytes b7 (by simp)) (hbytes b8 (by simp))
          (hbytes b9 (by simp))
        simp only [headerFields, n2, if_false, g0, g1, c126, c127, if_true, e1, n3, e2,
          headerMask, cm, decodeHeader, List.getD_cons_zero, List.getD_cons_succ, ne_eq,
          not_true_eq_false, decide_False, Bool.false_eq_true, or_true, List.length_cons,
          List.length_nil, readLen64, g2, g3, g4, g5, g6, g7, g8, g9, hl64]
        simp [beValue_eight]
        rw [show l.dataPayloadOffset + 2 + 8 = l.dataPayloadOffset + 10 by omega]
      · have ht : t.length = 12 := by
          simp [headerLenOf, c127, cm] at hlen
          omega
        obtain ⟨b2, b3, b4, b5, b6, b7, b8, b9, k0, k1, k2, k3, rfl⟩ :=
          list_of_length_twelve t ht
        have g2 := hg 2 (by simp)
        have g3 := hg 3 (by simp)
        have g4 := hg 4 (by simp)
        have g5 := hg 5 (by simp)
        have g6 := hg 6 (by simp)
        have g7 := hg 7 (by simp)
        have g8 := hg 8 (by simp)
        have g9 := hg 9 (by simp)
        have g10 := hg 10 (by simp)
        have g11 := hg 11 (by simp)
        have g12 := hg 12 (by simp)
        have g13 := hg 13 (by simp)
        simp only [List.getD_cons_zero, List.getD_cons_succ] at g2 g3 g4 g5 g6 g7 g8 g9
        simp only [List.getD_cons_zero, List.getD_cons_succ] at g10 g11 g12 g13
        simp only [List.length_cons, List.length_nil] at hT
        have n2 : ¬ l.plen < 2 := by omega
        have e1 : szSub l.plen 2 = l.plen - 2 := szSub_of_le _ _ (by omega) hT2
        have n3 : ¬ l.plen - 2 < 8 := by omega
        have e2 : szSub (l.plen - 2) 8 = l.plen - 10 := by
          rw [szSub_of_le _ _ (by omega) (by omega)]; omega
        have n4 : ¬ l.plen - 10 < 4 := by omega
        have e3 : szSub (l.plen - 10) 4 = l.plen - 14 := by
          rw [szSub_of_le _ _ (by omega) (by omega)]; omega
        have hl64 := len64_decode b2 b3 b4 b5 b6 b7 b8 b9 (hbytes b2 (by simp))
          (hbytes b3 (by simp)) (hbytes b4 (by simp)) (hbytes b5 (by simp))
          (hbytes b6 (by simp)) (hbytes b7 (by simp)) (hbytes b8 (by simp))
          (hbytes b9 (by simp))
        have o1 := toNat_offset l.dataPayloadOffset l.partialHeaderLen 10 hoff
        simp only [Nat.cast_ofNat] at o1
        have o2 : l.dataPayloadOffset + 2 + 8 = l.dataPayloadOffset + 10 := by omega
        simp only [headerFields, n2, if_false, g0, g1, c126, c127, if_true, e1, n3, e2, n4, e3,
          headerMask, cm, decodeHeader, List.getD_cons_zero, List.getD_cons_succ, ne_eq,
          not_false_eq_true, decide_True, or_true, List.length_cons,
          List.length_nil, readLen64, g2, g3, g4, g5, g6, g7, g8, g9, hl64, o2, o1, g10, g11,
          g12, g13]
        simp [beValue_eight]
        rw [show l.dataPayloadOffset + 10 + 4 = l.dataPayloadOffset + 14 by omega]
    · by_cases cm : b1 &&& 0x80 = 0
      · -- plain two-byte header
        have ht : t = [] := by
          simp [headerLenOf, c126, c127, cm] at hlen
          exact hlen
        subst ht
        simp only [List.length_cons, List.length_nil] at hT
        have n2 : ¬ l.plen < 2 := by omega
        simp only [headerFields, n2, if_false, g0, g1, c126, c127, headerMask, cm,
          decodeHeader, List.getD_cons_zero, List.getD_cons_succ, ne_eq, not_true_eq_false,
          decide_False, Bool.false_eq_true, or_self, List.length_cons, List.length_nil]
        rw [szSub_of_le _ _ (by omega) hT2]
        simp
      · have ht : t.length = 4 := by
          simp [headerLenOf, c126, c127, cm] at hlen
          omega
        obtain ⟨k0, k1, k2, k3, rfl⟩ := list_of_length_four t ht
        have g2 := hg 2 (by simp)
        have g3 := hg 3 (by simp)
        have g4 := hg 4 (by simp)
        have g5 := hg 5 (by simp)
        simp only [List.getD_cons_zero, List.getD_cons_succ] at g2 g3 g4 g5
        simp only [List.length_cons, List.length_nil] at hT
        have n2 : ¬ l.plen < 2 := by omega
        have e1 : szSub l.plen 2 = l.plen - 2 := szSub_of_le _ _ (by omega) hT2
        have n3 : ¬ l.plen - 2 < 4 := by omega
        have e2 : szSub (l.plen - 2) 4 = l.plen - 6 := by
          rw [szSub_of_le _ _ (by omega) (by omega)]; omega
        have o1 := toNat_offset l.dataPayloadOffset l.partialHeaderLen 2 hoff
        simp only [Nat.cast_ofNat] at o1
        simp only [headerFields, n2, if_false, g0, g1, c126, c127, e1, n3, e2,
          headerMask, cm, decodeHeader, List.getD_cons_zero, List.getD_cons_succ, ne_eq,
          not_false_eq_true, decide_True, if_true, or_self, List.length_cons,
          List.length_nil, o1, g2, g3, g4, g5]
        simp
        rw [show l.dataPayloadOffset + 2 + 4 = l.dataPayloadOffset + 6 by omega]

theorem headerFail_eq (MAX : Nat) (s : AsyncWebSocketClient) (l : HeaderLocals)
    (h : l.initialPlen ≤ MAX) :
    headerFail MAX s l = .truncated { s with
      _partialHeader := memcpy s._partialHeader 0 (l.headerBuf.take l.initialPlen)
      _partialHeaderLen := l.initialPlen } := by
  simp [headerFail, h]

theorem headerLenOf_le (b1 : Nat) : headerLenOf b1 ≤ 14 := by
  unfold headerLenOf; split_ifs <;> omega

theorem headerLenOf_ge (b1 : Nat) : 2 ≤ headerLenOf b1 := by
  unfold headerLenOf; omega

/-- When fewer bytes are at hand than the header that starts with them needs, the
header block saves them all and gives up; only `_pinfo` may have been touched. -/
theorem headerFields_truncated (MAX : Nat) (s : AsyncWebSocketClient) (data : List Nat)
    (hl b1 : Nat) (l : HeaderLocals) (hlen : hl = headerLenOf b1)
    (hag : 2 ≤ l.plen → l.headerBuf.getD 1 0 = b1)
    (hT : l.plen < hl) (hM : l.initialPlen ≤ MAX) :
    ∃ info, headerFields MAX s data l = .truncated { s with
      _pinfo := info
      _partialHeader := memcpy s._partialHeader 0 (l.headerBuf.take l.initialPlen)
      _partialHeaderLen := l.initialPlen } := by
  have h14 := headerLenOf_le b1
  by_cases n2 : l.plen < 2
  · refine ⟨s._pinfo, ?_⟩
    simp only [headerFields, n2, if_true]
    simp only [headerFail, hM, if_true]
  · have g1 := hag (by omega)
    have e1 : szSub l.plen 2 = l.plen - 2 := by unfold szSub; omega
    by_cases c126 : b1 &&& 0x7F = 126
    · by_cases n3 : l.plen - 2 < 2
      · exact ⟨_, by
          simp only [headerFields, n2, if_false, g1, c126, if_true, e1, n3]
          simp only [headerFail, hM, if_true]; rfl⟩
      · have e2 : szSub (l.plen - 2) 2 = l.plen - 4 := by unfold szSub; omega
        have cm : b1 &&& 0x80 ≠ 0 := by
          intro h0
          simp [headerLenOf, c126, h0] at hlen
          omega
        have n4 : l.plen - 4 < 4 := by
          simp [headerLenOf, c126, cm] at hlen
          omega
        exact ⟨_, by
          simp only [headerFields, n2, if_false, g1, c126, if_true, e1, n3, e2, headerMask, cm,
            ne_eq, not_false_eq_true, decide_True, n4]
          simp only [headerFail, hM, if_true]; rfl⟩
    · by_cases c127 : b1 &&& 0x7F = 127
      · by_cases n3 : l.plen - 2 < 8
        · exact ⟨_, by
            simp only [headerFields, n2, if_false, g1, c126, c127, if_true, e1, n3]
            simp only [headerFail, hM, if_true]; rfl⟩
        · have e2 : szSub (l.plen - 2) 8 = l.plen - 10 := by unfold szSub; omega
          have cm : b1 &&& 0x80 ≠ 0 := by
            intro h0
            simp [headerLenOf, c126, c127, h0] at hlen
            omega
          have n4 : l.plen - 10 < 4 := by
            simp [headerLenOf, c126, c127, cm] at hlen
            omega
          exact ⟨_, by
            simp only [headerFields, n2, if_false, g1, c126, c127, if_true, e1, n3, e2,
              headerMask, cm, ne_eq, not_false_eq_true, decide_True, n4]
            simp only [headerFail, hM, if_true]; rfl⟩
      · have cm : b1 &&& 0x80 ≠ 0 := by
          intro h0
          simp [headerLenOf, c126, c127, h0] at hlen
          omega
        have n4 : l.plen - 2 < 4 := by
          simp [headerLenOf, c126, c127, cm] at hlen
          omega
        exact ⟨_, by
          simp only [headerFields, n2, if_false, g1, c126, c127, e1,
            headerMask, cm, ne_eq, not_false_eq_true, decide_True, n4, if_true]
          simp only [headerFail, hM, if_true]; rfl⟩

/-- The header block on a complete header, `k` bytes of which were buffered by
earlier calls (`k = 0`: none) and the rest of which starts the chunk: the frame
descriptor is the decoded header and the payload pointer stands right behind it. -/
theorem parseHeader_complete (MAX : Nat) (hMAX : 14 ≤ MAX) (hMAX2 : MAX < 4294967296)
    (s : AsyncWebSocketClient) (hdr rest : List Nat) (k : Nat)
    (hbuf : s._partialHeader.length = MAX)
    (hbytes : ∀ b ∈ hdr, b < 256) (h2 : 2 ≤ hdr.length)
    (hlen : hdr.length = headerLenOf (hdr.getD 1 0))
    (hk : k < hdr.length) (hpl : s._partialHeaderLen = k)
    (hpre : s._partialHeader.take k = hdr.take k)
    (hsz : hdr.length + rest.length < 4294967296) :
    ∃ buf, buf.length = MAX ∧
      parseHeader MAX s (hdr.drop k ++ rest) (hdr.drop k ++ rest).length
        = .parsed
            { s with _pinfo := decodeHeader s._pinfo hdr, _partialHeader := buf,
                     _partialHeaderLen := 0 }
            rest rest.length := by
  have h14 := headerLenOf_le (hdr.getD 1 0)
  have hprelen : (hdr.take k).length = k := by simp; omega
  have hdlen : (hdr.drop k ++ rest).length = hdr.length - k + rest.length := by simp
  obtain ⟨buf, hb, hrec, hbl, htake, _⟩ := headerRecover_spec MAX hMAX2 s (hdr.drop k ++ rest)
    (hdr.take k) hbuf (by rw [hprelen]; exact hpl) (by rw [hprelen]; omega)
    (by rw [hprelen]; exact hpre) (by rw [hprelen, hdlen]; omega)
  rw [hprelen, hdlen] at hrec htake
  rw [← List.append_assoc, List.take_append_drop] at htake
  have hT : k + (hdr.length - k + rest.length) = hdr.length + rest.length := by omega
  rw [hT] at hrec htake
  have hag : hb.take hdr.length = hdr := by
    have := congrArg (List.take hdr.length) htake
    rw [List.take_take, List.take_take] at this
    rw [Nat.min_eq_left (by omega)] at this
    rw [this]; simp
  refine ⟨buf, hbl, ?_⟩
  simp only [parseHeader]
  rw [hdlen, hrec]
  simp only []
  rw [headerFields_complete MAX _ _ hdr _ hbytes h2 hlen hag (by simp) (by simpa using hsz)
    (by simp)]
  simp only []
  have e1 : (-(k : Int) + (hdr.length : Int)).toNat = hdr.length - k := by omega
  rw [e1]
  have e2 : List.drop (hdr.length - k) (List.drop k hdr ++ rest) = rest := by
    rw [List.drop_append_eq_append_drop]
    simp
    omega
  rw [e2]
  congr 1
  omega

/-- The header block on a chunk that ends before the header does: the bytes at hand
are all buffered and `_onData` returns. -/
theorem parseHeader_truncated (MAX : Nat) (hMAX : 14 ≤ MAX) (hMAX2 : MAX < 4294967296)
    (s : AsyncWebSocketClient) (hdr d : List Nat) (k : Nat)
    (hbuf : s._partialHeader.length = MAX)
    (hlen : hdr.length = headerLenOf (hdr.getD 1 0))
    (hpl : s._partialHeaderLen = k)
    (hpre : s._partialHeader.take k = hdr.take k)
    (hd : d = (hdr.drop k).take d.length)
    (hT : k + d.length < hdr.length) :
    ∃ info buf, buf.length = MAX ∧ buf.take (k + d.length) = hdr.take (k + d.length) ∧
      parseHeader MAX s d d.length
        = .truncated
            { s with _pinfo := info, _partialHeader := buf, _partialHeaderLen := k + d.length } := by
  have h14 := headerLenOf_le (hdr.getD 1 0)
  have hprelen : (hdr.take k).length = k := by simp; omega
  obtain ⟨buf, hb, hrec, hbl, htake, hmem⟩ := headerRecover_spec MAX hMAX2 s d
    (hdr.take k) hbuf (by rw [hprelen]; exact hpl) (by rw [hprelen]; omega)
    (by rw [hprelen]; exact hpre) (by rw [hprelen]; omega)
  rw [hprelen] at hrec htake hmem
  have hmin : min (k + d.length) MAX = k + d.length := by omega
  rw [hmin] at htake hmem
  have hpd : hdr.take k ++ d = hdr.take (k + d.length) := by
    rw [hd, List.length_take, ← List.take_add]
    congr 1
    simp
    omega
  rw [hpd] at htake hmem
  have htt : (hdr.take (k + d.length)).take (k + d.length) = hdr.take (k + d.length) := by
    rw [List.take_take]; simp
  rw [htt] at htake hmem
  obtain ⟨info, hf⟩ := headerFields_truncated MAX
    { s with _partialHeader := buf, _partialHeaderLen := 0 } d hdr.length (hdr.getD 1 0)
    ⟨hb, k + d.length, k + d.length, -(k : Int), k⟩ hlen
    (by
      intro h2
      simp only [] at h2
      exact getD_of_take_eq hb hdr (k + d.length) 1 htake (by omega))
    (by simpa using hT) (by simp; omega)
  refine ⟨info, hdr.take (k + d.length) ++ buf.drop (k + d.length), ?_, ?_, ?_⟩
  · simp; omega
  · have hll : (hdr.take (k + d.length)).length = k + d.length := by simp; omega
    rw [List.take_append_eq_append_take, hll, List.take_take]
    simp
  · simp only [parseHeader]
    rw [hrec]
    simp only []
    rw [hf]
    simp only []
    rw [hmem]

theorem and_7F_lt (b : Nat) : b &&& 0x7F < 128 := by
  have := Nat.and_lt_two_pow b (show 0x7F < 2 ^ 7 by norm_num)
  simpa using this

/-- C5: in the header decoder of `_onData`, for every complete header `hdr` (of which
`k` bytes, possibly none, were buffered by earlier calls as a truncated header and
the rest arrives at the start of the chunk): a length field below 126 is the frame
length; for 126 the frame length is the big-endian value of header bytes 2..3; for
127 it is the big-endian value of header bytes 2..9; the mask key, when the mask bit
is set, is the 4 bytes right behind the length field; and the payload pointer stands
behind the header, at offset 2, 4 or 10, plus 4 when masked. -/
theorem header_decoder_lengths (MAX : Nat) (hMAX : 14 ≤ MAX) (hMAX2 : MAX < 4294967296)
    (s : AsyncWebSocketClient) (hdr rest : List Nat) (k : Nat)
    (hbuf : s._partialHeader.length = MAX)
    (hbytes : ∀ b ∈ hdr, b < 256) (h2 : 2 ≤ hdr.length)
    (hlen : hdr.length = headerLenOf (hdr.getD 1 0))
    (hk : k < hdr.length) (hpl : s._partialHeaderLen = k)
    (hpre : s._partialHeader.take k = hdr.take k)
    (hsz : hdr.length + rest.length < 4294967296) :
    ∃ s', parseHeader MAX s (hdr.drop k ++ rest) (hdr.drop k ++ rest).length
        = .parsed s' rest rest.length
      ∧ rest = (hdr ++ rest).drop hdr.length
      ∧ hdr.length
          = (if hdr.getD 1 0 &&& 0x7F < 126 then 2
              else if hdr.getD 1 0 &&& 0x7F = 126 then 4 else 10)
            + (if hdr.getD 1 0 &&& 0x80 ≠ 0 then 4 else 0)
      ∧ (hdr.getD 1 0 &&& 0x7F < 126 → s'._pinfo.len = hdr.getD 1 0 &&& 0x7F)
      ∧ (hdr.getD 1 0 &&& 0x7F = 126 → s'._pinfo.len = hdr.getD 2 0 * 256 + hdr.getD 3 0)
      ∧ (hdr.getD 1 0 &&& 0x7F = 127 → s'._pinfo.len
          = hdr.getD 2 0 * 256 ^ 7 + hdr.getD 3 0 * 256 ^ 6 + hdr.getD 4 0 * 256 ^ 5
            + hdr.getD 5 0 * 256 ^ 4 + hdr.getD 6 0 * 256 ^ 3 + hdr.getD 7 0 * 256 ^ 2
            + hdr.getD 8 0 * 256 + hdr.getD 9 0)
      ∧ s'._pinfo.masked = decide (hdr.getD 1 0 &&& 0x80 ≠ 0)
      ∧ (hdr.getD 1 0 &&& 0x80 ≠ 0 → s'._pinfo.mask = (hdr.drop (hdr.length - 4)).take 4)
      ∧ s'._pinfo.final = decide (hdr.getD 0 0 &&& 0x80 ≠ 0)
      ∧ s'._pinfo.opcode = hdr.getD 0 0 &&& 0x0F
      ∧ s'._pinfo.index = 0
      ∧ s'._partialHeaderLen = 0 := by
  obtain ⟨buf, hbl, hp⟩ := parseHeader_complete MAX hMAX hMAX2 s hdr rest k hbuf hbytes h2 hlen
    hk hpl hpre hsz
  refine ⟨_, hp, by simp, ?_⟩
  have hlt := and_7F_lt (hdr.getD 1 0)
  rcases hdr with _ | ⟨b0, _ | ⟨b1, t⟩⟩
  · simp at h2
  · simp at h2
  simp only [List.getD_cons_zero, List.getD_cons_succ] at hlen hlt ⊢
  by_cases c126 : b1 &&& 0x7F = 126
  · by_cases cm : b1 &&& 0x80 = 0
    · have ht : t.length = 2 := by
        simp [headerLenOf, c126, cm] at hlen
        omega
      obtain ⟨b2, b3, rfl⟩ := list_of_length_two t ht
      simp [decodeHeader, c126, cm, beValue]
    · have ht : t.length = 6 := by
        simp [headerLenOf, c126, cm] at hlen
        omega
      obtain ⟨b2, b3, k0, k1, k2, k3, rfl⟩ := list_of_length_six t ht
      simp [decodeHeader, c126, cm, beValue]
  · by_cases c127 : b1 &&& 0x7F = 127
    · by_cases cm : b1 &&& 0x80 = 0
      · have ht : t.length = 8 := by
          simp [headerLenOf, c127, cm] at hlen
          omega
        obtain ⟨b2, b3, b4, b5, b6, b7, b8, b9, rfl⟩ := list_of_length_eight t ht
        simp [decodeHeader, c127, cm, beValue_eight]
      · have ht : t.length = 12 := by
          simp [headerLenOf, c127, cm] at hlen
          omega
        obtain ⟨b2, b3, b4, b5, b6, b7, b8, b9, k0, k1, k2, k3, rfl⟩ :=
          list_of_length_twelve t ht
        simp [decodeHeader, c127, cm, beValue_eight]
    · have hlt2 : b1 &&& 0x7F < 126 := by omega
      by_cases cm : b1 &&& 0x80 = 0
      · have ht : t = [] := by
          simp [headerLenOf, c126, c127, cm] at hlen
          exact hlen
        subst ht
        simp [decodeHeader, c126, c127, cm, hlt2]
      · have ht : t.length = 4 := by
          simp [headerLenOf, c126, c127, cm] at hlen
          omega
        obtain ⟨k0, k1, k2, k3, rfl⟩ := list_of_length_four t ht
        simp [decodeHeader, c126, c127, cm, hlt2]

/-! ## The frame header written by the sender -/

theorem uninit_eight (c : AsyncClient) :
    c.uninit 8 = [c.stack.getD 0 0 % 256, c.stack.getD 1 0 % 256, c.stack.getD 2 0 % 256,
      c.stack.getD 3 0 % 256, c.stack.getD 4 0 % 256, c.stack.getD 5 0 % 256,
      c.stack.getD 6 0 % 256, c.stack.getD 7 0 % 256] := rfl

theorem sentHeader_length (final : Bool) (opcode len : Nat) :
    (sentHeader final opcode len).length = webSocketHeaderLength false len := by
  by_cases h : len < 126 <;> simp [sentHeader, webSocketHeaderLength, h]

/-- Without masking, `webSocketSendFrameHeader` offers exactly the bytes of
`sentHeader` to the transport when it can send and has room for them. -/
theorem webSocketSendFrameHeader_unmasked (client : AsyncClient) (final : Bool)
    (opcode len : Nat) (hcan : client.canSend = true)
    (hsp : webSocketHeaderLength false len ≤ client.space) :
    webSocketSendFrameHeader client final opcode none len
      = ((client.add (sentHeader final opcode len)).1,
         (client.add (sentHeader final opcode len)).2, none) := by
  have hl : webSocketHeaderLength false len % 256 = webSocketHeaderLength false len := by
    by_cases h : len < 126 <;> simp [webSocketHeaderLength, h]
  have hns : ¬ client.space < webSocketHeaderLength false len := by omega
  simp only [webSocketSendFrameHeader, hcan, Bool.not_true, Bool.false_eq_true, if_false,
    Option.isSome_none, hl, hns, ite_self, uninit_eight]
  unfold sentHeader webSocketHeaderLength
  by_cases hf : final = true <;> by_cases h126 : len < 126 <;>
    simp [hf, h126, List.set]

theorem and_FF (x : Nat) : x &&& 255 = x % 256 := by
  have := Nat.and_pow_two_sub_one_eq_mod x 8
  simpa using this

set_option maxRecDepth 4096 in
theorem opcode_byte_bits (x : Nat) (h : x < 256) :
    ((x &&& 15) ||| 128) &&& 128 = 128 ∧ ((x &&& 15) ||| 128) &&& 15 = x &&& 15
    ∧ (x &&& 15) &&& 128 = 0 ∧ (x &&& 15) &&& 15 = x &&& 15
    ∧ ((x &&& 15) ||| 128) < 256 ∧ (x &&& 15) < 256 := by
  revert x; decide

theorem and_0F_of_lt (x : Nat) (h : x < 16) : x &&& 15 = x := by
  revert x; decide

/-- The explicit shape of the unmasked header for lengths below 65536. -/
theorem sentHeader_eq (final : Bool) (opcode len : Nat) (hop : opcode < 256)
    (hlen : len < 65536) :
    sentHeader final opcode len
      = ((opcode &&& 0x0F) ||| (if final then 0x80 else 0))
          :: (if len < 126 then [len] else [126, len / 256, len % 256]) := by
  unfold sentHeader
  rw [Nat.mod_eq_of_lt hop]
  by_cases hf : final = true
  · by_cases h : len < 126
    · simp [hf, h, (byte_and_7F_add len (by omega)).1]
    · simp [hf, h, and_FF, Nat.shiftRight_eq_div_pow]
      omega
  · by_cases h : len < 126
    · simp [hf, h, (byte_and_7F_add len (by omega)).1]
    · simp [hf, h, and_FF, Nat.shiftRight_eq_div_pow]
      omega

theorem sentHeader_bytes (final : Bool) (opcode len : Nat) (hop : opcode < 256)
    (hlen : len < 65536) : ∀ b ∈ sentHeader final opcode len, b < 256 := by
  rw [sentHeader_eq final opcode len hop hlen]
  obtain ⟨_, _, _, _, h5, h6⟩ := opcode_byte_bits opcode hop
  intro b hb
  by_cases hf : final = true <;> by_cases h : len < 126 <;>
    simp [hf, h] at hb <;> omega

theorem headerLenOf_small (len : Nat) (h : len < 126) : headerLenOf len = 2 := by
  revert len; decide

theorem decodeHeader_sentHeader (old : AwsFrameInfo) (final : Bool) (opcode len : Nat)
    (hop : opcode < 256) (hlen : len < 65536) :
    decodeHeader old (sentHeader final opcode len)
      = { old with index := 0, final := final, opcode := opcode &&& 0x0F, masked := false,
                   len := len } := by
  rw [sentHeader_eq final opcode len hop hlen]
  obtain ⟨h1, h2, h3, h4, _, _⟩ := opcode_byte_bits opcode hop
  have c1 : (126 : Nat) &&& 128 = 0 := by decide
  have c2 : (126 : Nat) &&& 127 = 126 := by decide
  by_cases hf : final = true
  · by_cases h : len < 126
    · obtain ⟨a1, a2, _, _⟩ := byte_and_7F_add len (by omega)
      have n1 : ¬ len = 126 := by omega
      have n2 : ¬ len = 127 := by omega
      simp [decodeHeader, hf, h, h1, h2, a1, a2, n1, n2]
    · simp [decodeHeader, hf, h, h1, h2, beValue, c1, c2]
      omega
  · by_cases h : len < 126
    · obtain ⟨a1, a2, _, _⟩ := byte_and_7F_add len (by omega)
      have n1 : ¬ len = 126 := by omega
      have n2 : ¬ len = 127 := by omega
      simp [decodeHeader, hf, h, h3, h4, a1, a2, n1, n2]
    · simp [decodeHeader, hf, h, h3, h4, beValue, c1, c2]
      omega

theorem sentHeader_headerLenOf (final : Bool) (opcode len : Nat) (hop : opcode < 256)
    (hlen : len < 65536) :
    (sentHeader final opcode len).length = headerLenOf ((sentHeader final opcode len).getD 1 0) := by
  rw [sentHeader_eq final opcode len hop hlen]
  by_cases h : len < 126
  · simp [h, headerLenOf_small len h]
  · simp [h]
    decide

/-- C4: for every final flag, opcode (a `uint8_t`) and length below 65536, without
masking, when the transport can send, has room for the header and takes it,
`webSocketSendFrameHeader` writes exactly `webSocketHeaderLength(false, len)` bytes:
byte 0 is `(opcode & 0x0F) | (0x80 if final)`, then `len` itself below 126, else 126
and `len` as two big-endian bytes; and the header decoder of `_onData`, fed these
bytes (followed by anything), recovers the final flag, the opcode (its low four
bits, the opcode itself when it is below 16), the unmasked flag and `len`. -/
theorem header_encode_decode (client : AsyncClient) (final : Bool) (opcode len : Nat)
    (hcan : client.canSend = true)
    (hsp : webSocketHeaderLength false len ≤ client.space)
    (hacc : webSocketHeaderLength false len
      ≤ client.accepts.headD (webSocketHeaderLength false len))
    (hop : opcode < 256) (hlen : len < 65536) :
    ∃ hdr,
      hdr = ((opcode &&& 0x0F) ||| (if final then 0x80 else 0))
              :: (if len < 126 then [len] else [126, len / 256, len % 256])
      ∧ hdr.length = webSocketHeaderLength false len
      ∧ (webSocketSendFrameHeader client final opcode none len).1
          = webSocketHeaderLength false len
      ∧ (webSocketSendFrameHeader client final opcode none len).2.1.wire = client.wire ++ hdr
      ∧ ∀ (MAX : Nat) (s : AsyncWebSocketClient) (rest : List Nat), 14 ≤ MAX →
          MAX < 4294967296 → s._partialHeader.length = MAX → s._partialHeaderLen = 0 →
          hdr.length + rest.length < 4294967296 →
          ∃ s', parseHeader MAX s (hdr ++ rest) (hdr ++ rest).length = .parsed s' rest rest.length
            ∧ s'._pinfo.final = final
            ∧ s'._pinfo.opcode = opcode &&& 0x0F
            ∧ (opcode < 16 → s'._pinfo.opcode = opcode)
            ∧ s'._pinfo.masked = false
            ∧ s'._pinfo.len = len := by
  have hsl := sentHeader_length final opcode len
  refine ⟨sentHeader final opcode len, sentHeader_eq final opcode len hop hlen, hsl, ?_, ?_, ?_⟩
  · rw [webSocketSendFrameHeader_unmasked client final opcode len hcan hsp]
    simp only [AsyncClient.add, hsl]
    have : client.accepts.headD (sentHeader final opcode len).length
        = client.accepts.headD (webSocketHeaderLength false len) := by rw [hsl]
    omega
  · rw [webSocketSendFrameHeader_unmasked client final opcode len hcan hsp]
    simp only [AsyncClient.add, hsl]
    rw [Nat.min_eq_left hacc, ← hsl, List.take_length]
  · intro MAX s rest hM hM2 hbuf hpl hsz
    have h2 : 2 ≤ (sentHeader final opcode len).length := by
      rw [hsl]; unfold webSocketHeaderLength; split_ifs <;> omega
    obtain ⟨buf, _, hp⟩ := parseHeader_complete MAX hM hM2 s (sentHeader final opcode len) rest 0
      hbuf (sentHeader_bytes final opcode len hop hlen) h2
      (sentHeader_headerLenOf final opcode len hop hlen) (by omega) hpl (by simp) hsz
    simp only [List.drop_zero] at hp
    refine ⟨_, hp, ?_⟩
    rw [decodeHeader_sentHeader _ final opcode len hop hlen]
    exact ⟨rfl, rfl, fun h => and_0F_of_lt opcode h, rfl, rfl⟩

theorem header_encode_decode_witness :
    ∃ hdr, hdr = [0x81, 126, 1, 44]
      ∧ (webSocketSendFrameHeader (AsyncClient.ready 100) true 1 none 300).2.1.wire = hdr
      ∧ ∃ s', parseHeader 16 (AsyncWebSocketClient.new 16 (AsyncClient.ready 100) 0)
            (hdr ++ [7]) 5 = .parsed s' [7] 1
          ∧ s'._pinfo.final = true ∧ s'._pinfo.opcode = 1 ∧ s'._pinfo.len = 300 := by
  obtain ⟨hdr, h1, _, _, h4, h5⟩ := header_encode_decode (AsyncClient.ready 100) true 1 300
    (by decide) (by decide) (by decide) (by decide) (by decide)
  have e : hdr = [0x81, 126, 1, 44] := by rw [h1]; decide
  obtain ⟨s', p1, p2, p3, _, _, p6⟩ := h5 16 (AsyncWebSocketClient.new 16 (AsyncClient.ready 100) 0)
    [7] (by decide) (by decide) (by decide) (by decide) (by rw [e]; decide)
  subst e
  exact ⟨_, rfl, by simpa [AsyncClient.ready] using h4, s', p1, p2, p3, p6⟩

theorem header_decoder_lengths_witness :
    ∃ s', parseHeader 16
          ((AsyncWebSocketClient.new 16 (AsyncClient.ready 100) 0).withBuffered [0x82, 0xFE, 1])
          ([44, 9, 8, 7, 6] ++ [1, 2, 3]) 8 = .parsed s' [1, 2, 3] 3
      ∧ s'._pinfo.len = 300 ∧ s'._pinfo.masked = true ∧ s'._pinfo.mask = [9, 8, 7, 6] := by
  obtain ⟨s', h1, _, _, _, h5, _, h7, h8, _⟩ := header_decoder_lengths 16 (by decide) (by decide)
    ((AsyncWebSocketClient.new 16 (AsyncClient.ready 100) 0).withBuffered [0x82, 0xFE, 1])
    [0x82, 0xFE, 1, 44, 9, 8, 7, 6] [1, 2, 3] 3 (by decide) (by decide) (by decide) (by decide)
    (by decide) (by decide) (by decide) (by decide)
  exact ⟨s', h1, h5 (by decide), h7, h8 (by decide)⟩

/-! ## Outbound messages -/

/-- The first two guards of `send()`, for both variants. -/
theorem send_guarded (m : AsyncWebSocketMessage) (client : AsyncClient)
    (h : m.status ≠ WS_MSG_SENDING ∨ m.acked < m.ackTarget) :
    m.send client = (0, m, client) := by
  cases m with
  | basic b =>
    simp only [AsyncWebSocketMessage.status, AsyncWebSocketMessage.acked,
      AsyncWebSocketMessage.ackTarget] at h
    simp only [AsyncWebSocketMessage.send, AsyncWebSocketBasicMessage.send]
    by_cases hs : b._status ≠ WS_MSG_SENDING
    · simp [hs]
    · have ha : b._acked < b._ack := by
        rcases h with h | h
        · exact absurd h hs
        · exact h
      simp [hs, ha]
  | multi b =>
    simp only [AsyncWebSocketMessage.status, AsyncWebSocketMessage.acked,
      AsyncWebSocketMessage.ackTarget] at h
    simp only [AsyncWebSocketMessage.send, AsyncWebSocketMultiMessage.send]
    by_cases hs : b._status ≠ WS_MSG_SENDING
    · simp [hs]
    · have ha : b._acked < b._ack := by
        rcases h with h | h
        · exact absurd h hs
        · exact h
      simp [hs, ha]

/-- C6: for both message variants, whenever the status is not Sending (in particular
already Sent) or acked is below the ack-target, `send()` returns 0, hands nothing to
the transport and leaves the message as it was. -/
theorem send_noop (m : AsyncWebSocketMessage) (client : AsyncClient)
    (h : m.status ≠ WS_MSG_SENDING ∨ m.acked < m.ackTarget) :
    m.send client = (0, m, client) :=
  send_guarded m client h

theorem send_noop_witness :
    (AsyncWebSocketMessage.multi
        { (AsyncWebSocketMultiMessage.new ⟨some [72, 73]⟩ 1 false) with
          _status := WS_MSG_SENT, _sent := 2, _attempted := 2, _ack := 4, _acked := 4 }).send
      (AsyncClient.ready 100)
    = (0, AsyncWebSocketMessage.multi
        { (AsyncWebSocketMultiMessage.new ⟨some [72, 73]⟩ 1 false) with
          _status := WS_MSG_SENT, _sent := 2, _attempted := 2, _ack := 4, _acked := 4 },
       AsyncClient.ready 100) :=
  send_noop _ _ (Or.inl (by decide))

/-- C8 (defect of the Basic variant): a Basic message whose frame of 3 bytes is out
(sent = length, ack-target 3) and that is acknowledged 4 bytes has acked above the
ack-target and yet stays Sending, for `ack` compares with `==`; the Multi variant,
which compares with `>=`, becomes Sent on the same calls. -/
theorem basic_ack_overshoot_stays_sending :
    (((AsyncWebSocketBasicMessage.new [65] 1 WS_TEXT false).send (AsyncClient.ready 100)).2.1)._sent
      = 1
    ∧ (((AsyncWebSocketBasicMessage.new [65] 1 WS_TEXT false).send (AsyncClient.ready 100)).2.1)._len
      = 1
    ∧ (((AsyncWebSocketBasicMessage.new [65] 1 WS_TEXT false).send (AsyncClient.ready 100)).2.1)._ack
      = 3
    ∧ ((((AsyncWebSocketBasicMessage.new [65] 1 WS_TEXT false).send
          (AsyncClient.ready 100)).2.1).ack 4)._acked = 4
    ∧ ((((AsyncWebSocketBasicMessage.new [65] 1 WS_TEXT false).send
          (AsyncClient.ready 100)).2.1).ack 4)._status = WS_MSG_SENDING
    ∧ ((((AsyncWebSocketMultiMessage.new ⟨some [65]⟩ WS_TEXT false).send
          (AsyncClient.ready 100)).2.1).ack 4)._status = WS_MSG_SENT := by
  decide

/-- C7 (defect of the Basic variant): "HELLO" is sent on a transport that takes the
2 header bytes and only 3 of the 5 payload bytes. The Basic message is left with
sent = 5 and attempted = 3 (the rollback is applied to `_attempted`), and its next
`send()` after the 5 written bytes are acknowledged writes nothing and marks the
message Sent: the bytes "LO" are never written. The Multi message is left with
sent = 3 and attempted = 5 and its next `send()` writes exactly "LO". -/
theorem basic_short_write_loses_remainder :
    ((AsyncWebSocketBasicMessage.new [72, 69, 76, 76, 79] 5 WS_TEXT false).send
        (AsyncClient.scripted 100 [2, 3])).1 = 3
    ∧ ((AsyncWebSocketBasicMessage.new [72, 69, 76, 76, 79] 5 WS_TEXT false).send
        (AsyncClient.scripted 100 [2, 3])).2.1._sent = 5
    ∧ ((AsyncWebSocketBasicMessage.new [72, 69, 76, 76, 79] 5 WS_TEXT false).send
        (AsyncClient.scripted 100 [2, 3])).2.1._attempted = 3
    ∧ (((((AsyncWebSocketBasicMessage.new [72, 69, 76, 76, 79] 5 WS_TEXT false).send
        (AsyncClient.scripted 100 [2, 3])).2.1).ack 5).send
          (AsyncClient.ready 100)).2.2.wire = []
    ∧ (((((AsyncWebSocketBasicMessage.new [72, 69, 76, 76, 79] 5 WS_TEXT false).send
        (AsyncClient.scripted 100 [2, 3])).2.1).ack 5).send
          (AsyncClient.ready 100)).2.1._status = WS_MSG_SENT
    ∧ ((AsyncWebSocketMultiMessage.new ⟨some [72, 69, 76, 76, 79]⟩ WS_TEXT false).send
        (AsyncClient.scripted 100 [2, 3])).2.1._sent = 3
    ∧ ((AsyncWebSocketMultiMessage.new ⟨some [72, 69, 76, 76, 79]⟩ WS_TEXT false).send
        (AsyncClient.scripted 100 [2, 3])).2.1._attempted = 5
    ∧ (((((AsyncWebSocketMultiMessage.new ⟨some [72, 69, 76, 76, 79]⟩ WS_TEXT false).send
        (AsyncClient.scripted 100 [2, 3])).2.1).ack 5).send
          (AsyncClient.ready 100)).2.2.wire = [76, 79] := by
  decide

/-- C9 (as stated, refuted): a Multi message with the one-byte payload "A" is sent
in one frame of 3 bytes and these are acknowledged; then acked = 3 exceeds sent = 1,
because acked also counts the header bytes. -/
theorem acked_exceeds_sent :
    ¬ (((AsyncWebSocketMessage.multi (AsyncWebSocketMultiMessage.new ⟨some [65]⟩ WS_TEXT false)).calls
          [.send (AsyncClient.ready 100), .ack 3]).acked
        ≤ ((AsyncWebSocketMessage.multi (AsyncWebSocketMultiMessage.new ⟨some [65]⟩ WS_TEXT false)).calls
          [.send (AsyncClient.ready 100), .ack 3]).sent) := by
  decide

theorem add_accepted_le (c : AsyncClient) (data : List Nat) : (c.add data).1 ≤ data.length := by
  simp only [AsyncClient.add]
  exact Nat.min_le_left _ _

theorem webSocketSendFrame_le (client : AsyncClient) (final : Bool) (opcode : Nat) (mask : Bool)
    (data : List Nat) (len : Nat) :
    (webSocketSendFrame client final opcode mask data len).1 ≤ len := by
  simp only [webSocketSendFrame]
  split_ifs
  · simp
  · refine Nat.le_trans (add_accepted_le _ _) ?_
    simp
  · simp
  · simp
  · refine Nat.le_trans (add_accepted_le _ _) ?_
    simp
  · simp

theorem webSocketSendFrame_length (client : AsyncClient) (final : Bool) (opcode : Nat)
    (mask : Bool) (data : List Nat) (len : Nat) :
    (webSocketSendFrame client final opcode mask data len).2.2.length = data.length := by
  simp only [webSocketSendFrame]
  split_ifs <;> simp [applyMask_length]

theorem webSocketSendFrameWindow_lt (client : AsyncClient) :
    webSocketSendFrameWindow client < 4294967296 := by
  simp only [webSocketSendFrameWindow, szSub]
  split_ifs <;> omega

/-- What `send()` of the Basic variant does when it starts a new frame. -/
theorem basic_send_new_frame (m : AsyncWebSocketBasicMessage) (client : AsyncClient)
    (hs : m._status = WS_MSG_SENDING) (ha : ¬ m._acked < m._ack) (hlt : m._sent < m._len)
    (hat : ¬ m._sent < m._attempted) (hl : m._len < 4294967296) (toSend : Nat)
    (hts : toSend = min (m._len - m._sent) (webSocketSendFrameWindow client))
    (r : Nat × AsyncClient × List Nat)
    (hr : r = webSocketSendFrame client (decide (m._sent + toSend = m._len))
      (if toSend ≠ 0 ∧ m._sent = 0 then m._opcode else WS_CONTINUATION) m._mask
      (m._data.drop m._sent) toSend) :
    m.send client = (r.1,
      { m with
        _attempted := if toSend ≠ 0 ∧ r.1 ≠ toSend
          then szSub (szAdd m._attempted toSend) (szSub toSend r.1)
          else szAdd m._attempted toSend
        _sent := m._sent + toSend
        _ack := if toSend ≠ 0 ∧ r.1 ≠ toSend
          then szSub (szAdd m._ack (szAdd toSend (webSocketHeaderLength m._mask toSend)))
            (szSub toSend r.1)
          else szAdd m._ack (szAdd toSend (webSocketHeaderLength m._mask toSend))
        _data := m._data.take m._sent ++ r.2.2
        _status := WS_MSG_SENDING }, r.2.1) := by
  have hw := webSocketSendFrameWindow_lt client
  have e0 : szSub m._len m._sent = m._len - m._sent := szSub_of_le _ _ (by omega) hl
  have e1 : (if webSocketSendFrameWindow client < m._len - m._sent
      then webSocketSendFrameWindow client else m._len - m._sent) = toSend := by
    rw [hts]; split_ifs <;> omega
  have hle : toSend ≤ m._len - m._sent := by rw [hts]; exact Nat.min_le_left _ _
  have e2 : szAdd m._sent toSend = m._sent + toSend := szAdd_of_lt _ _ (by omega)
  have e3 : szSub (m._sent + toSend) toSend = m._sent := by
    rw [szSub_of_le _ _ (by omega) (by omega)]; omega
  have e4 : (m._sent + toSend = toSend) = (m._sent = 0) := by
    apply propext; constructor <;> intro h <;> omega
  have n1 : ¬ m._sent = m._len := by omega
  have n2 : ¬ m._sent > m._len := by omega
  simp only [AsyncWebSocketBasicMessage.send, hs, ne_eq, not_true_eq_false, if_false, ha, n1, n2,
    hat, e0, e1, e2, e3, e4, ← hr]
  split_ifs <;> rfl

/-- What `send()` of the Multi variant does when it starts a new frame. -/
theorem multi_send_new_frame (m : AsyncWebSocketMultiMessage) (client : AsyncClient)
    (hs : m._status = WS_MSG_SENDING) (ha : ¬ m._acked < m._ack)
    (hlt : m._sent < m._WSbuffer.size)
    (hat : ¬ m._sent < m._attempted) (hl : m._WSbuffer.size < 4294967296) (toSend : Nat)
    (hts : toSend = min (m._WSbuffer.size - m._sent) (webSocketSendFrameWindow client))
    (r : Nat × AsyncClient × List Nat)
    (hr : r = webSocketSendFrame client (decide (m._sent + toSend = m._WSbuffer.size))
      (if toSend ≠ 0 ∧ m._sent = 0 then m._opcode else WS_CONTINUATION) m._mask
      (m._WSbuffer.data.drop m._sent) toSend) :
    m.send client = (r.1,
      { m with
        _attempted := szAdd m._attempted toSend
        _sent := if toSend ≠ 0 ∧ r.1 ≠ toSend
          then szSub (m._sent + toSend) (szSub toSend r.1)
          else m._sent + toSend
        _ack := if toSend ≠ 0 ∧ r.1 ≠ toSend
          then szSub (szAdd m._ack (szAdd toSend (webSocketHeaderLength m._mask toSend)))
            (szSub toSend r.1)
          else szAdd m._ack (szAdd toSend (webSocketHeaderLength m._mask toSend))
        _WSbuffer := ⟨some (m._WSbuffer.data.take m._sent ++ r.2.2)⟩
        _status := WS_MSG_SENDING }, r.2.1) := by
  have hw := webSocketSendFrameWindow_lt client
  have e0 : szSub m._WSbuffer.size m._sent = m._WSbuffer.size - m._sent :=
    szSub_of_le _ _ (by omega) hl
  have e1 : (if webSocketSendFrameWindow client < m._WSbuffer.size - m._sent
      then webSocketSendFrameWindow client else m._WSbuffer.size - m._sent) = toSend := by
    rw [hts]; split_ifs <;> omega
  have hle : toSend ≤ m._WSbuffer.size - m._sent := by rw [hts]; exact Nat.min_le_left _ _
  have e2 : szAdd m._sent toSend = m._sent + toSend := szAdd_of_lt _ _ (by omega)
  have e3 : szSub (m._sent + toSend) toSend = m._sent := by
    rw [szSub_of_le _ _ (by omega) (by omega)]; omega
  have e4 : (m._sent + toSend = toSend) = (m._sent = 0) := by
    apply propext; constructor <;> intro h <;> omega
  have n1 : ¬ m._sent = m._WSbuffer.size := by omega
  have n2 : ¬ m._sent > m._WSbuffer.size := by omega
  simp only [AsyncWebSocketMultiMessage.send, hs, ne_eq, not_true_eq_false, if_false, ha, n1, n2,
    hat, e0, e1, e2, e3, e4, ← hr]
  split_ifs <;> rfl

theorem multi_size_after (data tail : List Nat) (k : Nat) (h : tail.length = (data.drop k).length) 
    (hk : k ≤ data.length) :
    (SharedBuffer.mk (some (data.take k ++ tail))).size = data.length := by
  simp [SharedBuffer.size, h]
  omega

/-- The accounting invariant of the Basic variant under `send()`. -/
theorem basic_send_inv (m : AsyncWebSocketBasicMessage) (client : AsyncClient)
    (h1 : m._attempted ≤ m._sent) (h2 : m._sent ≤ m._len) (h3 : m._len < 4294967296) :
    (m.send client).2.1._attempted ≤ (m.send client).2.1._sent
    ∧ (m.send client).2.1._sent ≤ (m.send client).2.1._len
    ∧ (m.send client).2.1._len = m._len := by
  by_cases hs : m._status = WS_MSG_SENDING
  · by_cases ha : m._acked < m._ack
    · simp [AsyncWebSocketBasicMessage.send, hs, ha, h1, h2]
    · by_cases he : m._sent = m._len
      · simp only [AsyncWebSocketBasicMessage.send, hs, ha, he, ne_eq, not_true_eq_false,
          if_false, if_true]
        split_ifs <;> simp <;> omega
      · have hr := basic_send_new_frame m client hs ha (by omega) (by omega) h3 _ rfl _ rfl
        rw [hr]
        simp only []
        have hle := webSocketSendFrame_le client
          (decide (m._sent + min (m._len - m._sent) (webSocketSendFrameWindow client) = m._len))
          (if min (m._len - m._sent) (webSocketSendFrameWindow client) ≠ 0 ∧ m._sent = 0
            then m._opcode else WS_CONTINUATION) m._mask (m._data.drop m._sent)
          (min (m._len - m._sent) (webSocketSendFrameWindow client))
        have ht : min (m._len - m._sent) (webSocketSendFrameWindow client) ≤ m._len - m._sent :=
          Nat.min_le_left _ _
        generalize (webSocketSendFrame client _ _ _ _ _).1 = n at hle ⊢
        generalize min (m._len - m._sent) (webSocketSendFrameWindow client) = t at hle ht ⊢
        refine ⟨?_, by omega, trivial⟩
        split_ifs
        · simp only [szAdd, szSub]; omega
        · simp only [szAdd]; omega
  · simp [AsyncWebSocketBasicMessage.send, hs, h1, h2]

/-- The accounting invariant of the Multi variant under `send()`. -/
theorem multi_send_inv (m : AsyncWebSocketMultiMessage) (client : AsyncClient)
    (h1 : m._sent ≤ m._attempted) (h2 : m._attempted ≤ m._WSbuffer.size)
    (h3 : m._WSbuffer.size < 4294967296) :
    (m.send client).2.1._sent ≤ (m.send client).2.1._attempted
    ∧ (m.send client).2.1._attempted ≤ (m.send client).2.1._WSbuffer.size
    ∧ (m.send client).2.1._WSbuffer.size = m._WSbuffer.size := by
  by_cases hs : m._status = WS_MSG_SENDING
  · by_cases ha : m._acked < m._ack
    · simp [AsyncWebSocketMultiMessage.send, hs, ha, h1, h2]
    · by_cases he : m._sent = m._WSbuffer.size
      · simp only [AsyncWebSocketMultiMessage.send, hs, ha, he, ne_eq, not_true_eq_false,
          if_false, if_true]
        simp; omega
      · by_cases hretry : m._sent < m._attempted
        · have n2 : ¬ m._sent > m._WSbuffer.size := by omega
          simp only [AsyncWebSocketMultiMessage.send, hs, ha, he, n2, hretry, ne_eq,
            not_true_eq_false, if_false, if_true, AsyncClient.write]
          have hle := add_accepted_le client
            ((m._WSbuffer.data.drop m._sent).take (szSub m._attempted m._sent))
          have e0 : szSub m._attempted m._sent = m._attempted - m._sent :=
            szSub_of_le _ _ (by omega) (by omega)
          rw [e0] at hle ⊢
          simp only [List.length_take] at hle
          generalize (client.add _).1 = n at hle ⊢
          refine ⟨?_, h2, trivial⟩
          simp only [szAdd]; omega
        · have hr := multi_send_new_frame m client hs ha (by omega) (by omega) h3 _ rfl _ rfl
          rw [hr]
          simp only []
          have hle := webSocketSendFrame_le client
            (decide (m._sent + min (m._WSbuffer.size - m._sent) (webSocketSendFrameWindow client)
              = m._WSbuffer.size))
            (if min (m._WSbuffer.size - m._sent) (webSocketSendFrameWindow client) ≠ 0
              ∧ m._sent = 0 then m._opcode else WS_CONTINUATION) m._mask
            (m._WSbuffer.data.drop m._sent)
            (min (m._WSbuffer.size - m._sent) (webSocketSendFrameWindow client))
          have hlen := webSocketSendFrame_length client
            (decide (m._sent + min (m._WSbuffer.size - m._sent) (webSocketSendFrameWindow client)
              = m._WSbuffer.size))
            (if min (m._WSbuffer.size - m._sent) (webSocketSendFrameWindow client) ≠ 0
              ∧ m._sent = 0 then m._opcode else WS_CONTINUATION) m._mask
            (m._WSbuffer.data.drop m._sent)
            (min (m._WSbuffer.size - m._sent) (webSocketSendFrameWindow client))
          have hsz := multi_size_after m._WSbuffer.data _ m._sent hlen (by
            simp only [SharedBuffer.size, SharedBuffer.data] at *; omega)
          have ht : min (m._WSbuffer.size - m._sent) (webSocketSendFrameWindow client)
              ≤ m._WSbuffer.size - m._sent := Nat.min_le_left _ _
          have hsz2 : m._WSbuffer.data.length = m._WSbuffer.size := rfl
          rw [hsz, hsz2]
          generalize (webSocketSendFrame client _ _ _ _ _).1 = n at hle ⊢
          generalize min (m._WSbuffer.size - m._sent) (webSocketSendFrameWindow client) = t
            at hle ht ⊢
          refine ⟨?_, ?_, rfl⟩
          · split_ifs
            · simp only [szAdd, szSub]; omega
            · simp only [szAdd]; omega
          · simp only [szAdd]; omega
  · simp [AsyncWebSocketMultiMessage.send, hs, h1, h2]

theorem accounted_call (L : Nat) (m : AsyncWebSocketMessage) (c : MessageCall)
    (h : m.accounted L) : (m.call c).accounted L := by
  cases m with
  | basic b =>
    obtain ⟨h1, h2, h3, h4⟩ := h
    cases c with
    | send client =>
      obtain ⟨g1, g2, g3⟩ := basic_send_inv b client h3 h4 (by omega)
      exact ⟨by rw [g3]; exact h1, h2, g1, g2⟩
    | ack len =>
      simp only [AsyncWebSocketMessage.call, AsyncWebSocketMessage.ack,
        AsyncWebSocketBasicMessage.ack]
      split_ifs <;> exact ⟨h1, h2, h3, h4⟩
  | multi b =>
    obtain ⟨h1, h2, h3, h4⟩ := h
    cases c with
    | send client =>
      obtain ⟨g1, g2, g3⟩ := multi_send_inv b client h3 h4 (by omega)
      exact ⟨by rw [g3]; exact h1, h2, g1, g2⟩
    | ack len =>
      simp only [AsyncWebSocketMessage.call, AsyncWebSocketMessage.ack,
        AsyncWebSocketMultiMessage.ack]
      split_ifs <;> exact ⟨h1, h2, h3, h4⟩

theorem accounted_calls (L : Nat) (cs : List MessageCall) :
    ∀ m : AsyncWebSocketMessage, m.accounted L → (m.calls cs).accounted L := by
  induction cs with
  | nil => intro m h; exact h
  | cons c cs ih =>
    intro m h
    exact ih (m.call c) (accounted_call L m c h)

/-- C9 (amended): for every Basic or Multi message that has not been sent yet and
whose payload length is a `size_t`, after every sequence of `send()` and `ack()`
calls, whatever the transport does at each `send()`, sent ≤ payload length and
attempted ≤ payload length hold, and sent ≤ attempted holds for the Multi variant. -/
theorem send_ack_accounting (m0 : AsyncWebSocketMessage) (h0 : m0.attempted = 0 ∧ m0.sent = 0)
    (hl : m0.length < 4294967296) (cs : List MessageCall) :
    (m0.calls cs).sent ≤ (m0.calls cs).length
    ∧ (m0.calls cs).attempted ≤ (m0.calls cs).length
    ∧ ((m0.calls cs).isMulti = true → (m0.calls cs).sent ≤ (m0.calls cs).attempted) := by
  have hinv : m0.accounted m0.length := by
    cases m0 with
    | basic b =>
      simp only [AsyncWebSocketMessage.attempted, AsyncWebSocketMessage.sent,
        AsyncWebSocketMessage.length] at h0 hl ⊢
      exact ⟨rfl, hl, by omega, by omega⟩
    | multi b =>
      simp only [AsyncWebSocketMessage.attempted, AsyncWebSocketMessage.sent,
        AsyncWebSocketMessage.length] at h0 hl ⊢
      exact ⟨rfl, hl, by omega, by omega⟩
  have h := accounted_calls m0.length cs m0 hinv
  generalize m0.calls cs = m at h ⊢
  cases m with
  | basic b =>
    obtain ⟨h1, h2, h3, h4⟩ := h
    simp only [AsyncWebSocketMessage.attempted, AsyncWebSocketMessage.sent,
      AsyncWebSocketMessage.length, AsyncWebSocketMessage.isMulti]
    exact ⟨h4, by omega, by simp⟩
  | multi b =>
    obtain ⟨h1, h2, h3, h4⟩ := h
    simp only [AsyncWebSocketMessage.attempted, AsyncWebSocketMessage.sent,
      AsyncWebSocketMessage.length, AsyncWebSocketMessage.isMulti]
    exact ⟨by omega, h4, fun _ => h3⟩

theorem send_ack_accounting_witness :
    ((AsyncWebSocketMessage.multi (AsyncWebSocketMultiMessage.new ⟨some [72, 69, 76, 76, 79]⟩
        WS_TEXT false)).calls [.send (AsyncClient.scripted 100 [2, 3]), .ack 5,
          .send (AsyncClient.ready 100), .ack 2]).sent
      ≤ ((AsyncWebSocketMessage.multi (AsyncWebSocketMultiMessage.new ⟨some [72, 69, 76, 76, 79]⟩
        WS_TEXT false)).calls [.send (AsyncClient.scripted 100 [2, 3]), .ack 5,
          .send (AsyncClient.ready 100), .ack 2]).attempted :=
  (send_ack_accounting _ (by decide) (by decide) _).2.2 (by decide)

/-! ## The scheduler -/

theorem dropFinished_eq (q : List AsyncWebSocketMessage) :
    dropFinished q
      = q.dropWhile (fun m => decide (m.status = WS_MSG_SENT ∨ m.status = WS_MSG_ERROR)) := by
  induction q with
  | nil => rfl
  | cons m rest ih =>
    have hd : decide (m.status ≠ WS_MSG_SENDING)
        = decide (m.status = WS_MSG_SENT ∨ m.status = WS_MSG_ERROR) := by
      generalize m.status = st
      cases st <;> decide
    simp only [dropFinished, List.dropWhile, AsyncWebSocketMessage.finished, hd]
    split <;> simp_all

/-- C10: `_runQueue` first removes every head message of the message queue that is
in a terminal state and then does what the scheduling policy picks, which is at
most one send: the head control frame, or else the next chunk of the head message,
or nothing. Every queued control frame has a payload of at most 125 bytes, as its
constructor ensures. -/
theorem runQueue_policy (s : AsyncWebSocketClient)
    (hc : ∀ c ∈ s._controlQueue, c._len ≤ 125) :
    s._runQueue = runQueueSpec s := by
  have hw := webSocketSendFrameWindow_lt s._client
  simp only [AsyncWebSocketClient._runQueue, runQueueSpec, dropFinished_eq]
  generalize s._messageQueue.dropWhile
    (fun m => decide (m.status = WS_MSG_SENT ∨ m.status = WS_MSG_ERROR)) = mq
  generalize webSocketSendFrameWindow s._client = w at hw ⊢
  rcases hq : s._controlQueue with _ | ⟨c, cs⟩
  · rcases mq with _ | ⟨m, ms⟩
    · simp [schedule]
    · by_cases hb : m.betweenFrames = true <;> by_cases hz : w = 0 <;>
        simp [schedule, front, hb, hz]
  · have hlen : c._len ≤ 125 := hc c (by rw [hq]; simp)
    have hcl : c.len = c._len + 2 := by
      simp only [AsyncWebSocketControl.len]; omega
    have hsub : szSub c.len 1 = c._len + 1 := by
      rw [hcl]; simp only [szSub]; omega
    rcases mq with _ | ⟨m, ms⟩
    · by_cases hwin : c.len ≤ w
      · have : w > c._len + 1 := by omega
        simp [schedule, front, hsub, hwin, this]
      · have : ¬ w > c._len + 1 := by omega
        simp [schedule, front, hsub, hwin, this]
    · by_cases hb : m.betweenFrames = true
      · by_cases hwin : c.len ≤ w
        · have : w > c._len + 1 := by omega
          simp [schedule, front, hsub, hwin, this, hb]
        · have : ¬ w > c._len + 1 := by omega
          have hne : ¬ c.len = 0 := by omega
          by_cases hz : w = 0 <;> simp [schedule, front, hsub, hwin, this, hb, hz, hne]
      · simp [schedule, front, hsub, hb]

theorem runQueue_policy_witness :
    ({ AsyncWebSocketClient.new 16 (AsyncClient.ready 100) 0 with
        _controlQueue := [AsyncWebSocketControl.new WS_PONG (some [1, 2, 3, 4]) 4 false]
        _messageQueue := [.basic (AsyncWebSocketBasicMessage.new [72, 73] 2 WS_TEXT false)]
      } : AsyncWebSocketClient)._runQueue._client.wire = [0x8A, 4, 1, 2, 3, 4] := by
  rw [runQueue_policy _ (by decide)]
  decide

/-! ## Fragmentation of an outbound message -/

/-- An unmasked frame on a transport that can send, has room beyond the largest
header and accepts what it is offered: header and payload go out whole. -/
theorem webSocketSendFrame_unmasked_ok (c : AsyncClient) (final : Bool) (opcode : Nat)
    (data : List Nat) (len : Nat) (hcan : c.canSend = true) (hacc : c.accepts = [])
    (hsp : 8 < c.space) (hlen : len ≠ 0) (hdl : len ≤ data.length) :
    (webSocketSendFrame c final opcode false data len).1 = len
    ∧ (webSocketSendFrame c final opcode false data len).2.2 = data
    ∧ (webSocketSendFrame c final opcode false data len).2.1.wire
        = c.wire ++ (sentHeader final opcode len ++ data.take len) := by
  have hhl : webSocketHeaderLength false len ≤ c.space := by
    unfold webSocketHeaderLength; split_ifs <;> omega
  have hh := webSocketSendFrameHeader_unmasked c final opcode len hcan hhl
  have hsl := sentHeader_length final opcode len
  have hpos : 0 < (sentHeader final opcode len).length := by
    rw [hsl]; unfold webSocketHeaderLength; split_ifs <;> omega
  simp only [webSocketSendFrame, Bool.false_eq_true, if_false, hh, AsyncClient.add, hacc,
    List.headD_nil, Nat.min_self, List.tail_nil, List.take_length, AsyncClient.send, ne_eq, hlen,
    not_false_eq_true, if_true]
  have hne : ¬ (sentHeader final opcode len).length = 0 := by omega
  simp only [hne, if_false, List.length_take, Nat.min_eq_left hdl, Nat.min_self,
    List.take_take, List.append_assoc]
  simp

theorem window_of_space (c : AsyncClient) (hcan : c.canSend = true) (hsp : 8 < c.space)
    (hsp2 : c.space < 4294967296) : webSocketSendFrameWindow c = c.space - 8 := by
  have : ¬ c.space ≤ 8 := by omega
  simp only [webSocketSendFrameWindow, hcan, Bool.not_true, Bool.false_eq_true, if_false,
    MAX_HEADER_SIZE, this]
  exact szSub_of_le _ _ (by omega) hsp2

theorem take_drop_append_singleton (P : List Nat) (s k : Nat) (h : s + k ≤ P.length) :
    ((P ++ [0]).drop s).take k = (P.drop s).take k := by
  rw [List.drop_append_of_le_length (by omega), List.take_append_of_le_length]
  simp; omega

theorem basic_send_step (b : AsyncWebSocketBasicMessage) (P : List Nat) (op s : Nat)
    (c : AsyncClient) (hinv : (AsyncWebSocketMessage.basic b).pending P op s)
    (hs : s < P.length) (hPl : P.length < 4294967296) (hcan : c.canSend = true)
    (hacc : c.accepts = []) (hsp : 8 < c.space) (hsp2 : c.space < 4294967296) :
    (b.send c).2.2.wire
      = c.wire ++ (SentFrame.mk (decide (s + min (P.length - s) (c.space - 8) = P.length))
          (if s = 0 then op else WS_CONTINUATION)
          ((P.drop s).take (min (P.length - s) (c.space - 8)))).bytes
    ∧ (∀ n, n = (SentFrame.mk (decide (s + min (P.length - s) (c.space - 8) = P.length))
          (if s = 0 then op else WS_CONTINUATION)
          ((P.drop s).take (min (P.length - s) (c.space - 8)))).bytes.length →
        (s + min (P.length - s) (c.space - 8) < P.length →
          (AsyncWebSocketMessage.basic ((b.send c).2.1.ack n)).pending P op
            (s + min (P.length - s) (c.space - 8)))
        ∧ (s + min (P.length - s) (c.space - 8) = P.length →
          ((b.send c).2.1.ack n)._status = WS_MSG_SENT)) := by
  obtain ⟨h1, h2, h3, h4, h5, h6, h7, h8⟩ := hinv
  have hw := window_of_space c hcan hsp hsp2
  have hk : min (b._len - b._sent) (webSocketSendFrameWindow c)
      = min (P.length - s) (c.space - 8) := by rw [hw, h5, h3]
  have hr := basic_send_new_frame b c h1 (by omega) (by omega) (by omega) (by omega) _ rfl _ rfl
  rw [hk] at hr
  generalize hkk : min (P.length - s) (c.space - 8) = k at hr ⊢
  have hk0 : k ≠ 0 := by omega
  have hkle : s + k ≤ P.length := by omega
  have hfr := webSocketSendFrame_unmasked_ok c (decide (b._sent + k = b._len))
    (if k ≠ 0 ∧ b._sent = 0 then b._opcode else WS_CONTINUATION) (b._data.drop b._sent) k
    hcan hacc hsp hk0 (by rw [h6, h3]; simp; omega)
  rw [h7] at hr
  have hop : (if k ≠ 0 ∧ b._sent = 0 then b._opcode else WS_CONTINUATION)
      = (if s = 0 then op else WS_CONTINUATION) := by
    rw [h3, h8]; by_cases h0 : s = 0 <;> simp [h0, hk0]
  have hpay : (b._data.drop b._sent).take k = (P.drop s).take k := by
    rw [h6, h3]; exact take_drop_append_singleton P s k hkle
  have hpl : ((P.drop s).take k).length = k := by simp; omega
  rw [hop, hpay, h3, h5] at hfr
  rw [hop, h3, h5] at hr
  generalize webSocketSendFrame c (decide (s + k = P.length))
    (if s = 0 then op else WS_CONTINUATION) false (List.drop s b._data) k = R at hr hfr
  obtain ⟨f1, f2, f3⟩ := hfr
  rw [hr]
  simp only [f1, f2, f3, ne_eq, hk0, not_false_eq_true, not_true_eq_false, and_false, if_false]
  refine ⟨by simp [SentFrame.bytes, hpl], ?_⟩
  intro n hn
  have hn2 : n = webSocketHeaderLength false k + k := by
    rw [hn]; simp only [SentFrame.bytes, List.length_append, sentHeader_length, hpl]
  simp only [AsyncWebSocketBasicMessage.ack, AsyncWebSocketMessage.pending]
  have hackeq : szAdd b._acked n = szAdd b._ack (szAdd k (webSocketHeaderLength false k)) := by
    rw [hn2, h2]; simp only [szAdd]; omega
  constructor
  · intro hlt
    have hne : ¬ (s + k = P.length) := by omega
    simp only [hne, false_and, if_false, hackeq, List.take_append_drop, h4]
    refine ⟨trivial, trivial, trivial, ?_, trivial, h6, trivial, h8⟩
    simp only [szAdd]; omega
  · intro heq
    simp only [heq, hackeq, and_self, if_true]

theorem multi_send_step (b : AsyncWebSocketMultiMessage) (P : List Nat) (op s : Nat)
    (c : AsyncClient) (hinv : (AsyncWebSocketMessage.multi b).pending P op s)
    (hs : s < P.length) (hPl : P.length < 4294967296) (hcan : c.canSend = true)
    (hacc : c.accepts = []) (hsp : 8 < c.space) (hsp2 : c.space < 4294967296) :
    (b.send c).2.2.wire
      = c.wire ++ (SentFrame.mk (decide (s + min (P.length - s) (c.space - 8) = P.length))
          (if s = 0 then op else WS_CONTINUATION)
          ((P.drop s).take (min (P.length - s) (c.space - 8)))).bytes
    ∧ (∀ n, n = (SentFrame.mk (decide (s + min (P.length - s) (c.space - 8) = P.length))
          (if s = 0 then op else WS_CONTINUATION)
          ((P.drop s).take (min (P.length - s) (c.space - 8)))).bytes.length →
        (s + min (P.length - s) (c.space - 8) < P.length →
          (AsyncWebSocketMessage.multi ((b.send c).2.1.ack n)).pending P op
            (s + min (P.length - s) (c.space - 8)))
        ∧ (s + min (P.length - s) (c.space - 8) = P.length →
          ((b.send c).2.1.ack n)._status = WS_MSG_SENT)) := by
  obtain ⟨h1, h2, h3, h4, h5, h7, h8⟩ := hinv
  have hsize : b._WSbuffer.size = P.length := by rw [h5]; rfl
  have hdata : b._WSbuffer.data = P := by rw [h5]; rfl
  have hw := window_of_space c hcan hsp hsp2
  have hk : min (b._WSbuffer.size - b._sent) (webSocketSendFrameWindow c)
      = min (P.length - s) (c.space - 8) := by rw [hw, hsize, h3]
  have hr := multi_send_new_frame b c h1 (by omega) (by omega) (by omega) (by omega) _ rfl _ rfl
  rw [hk] at hr
  generalize hkk : min (P.length - s) (c.space - 8) = k at hr ⊢
  have hk0 : k ≠ 0 := by omega
  have hkle : s + k ≤ P.length := by omega
  have hfr := webSocketSendFrame_unmasked_ok c (decide (b._sent + k = b._WSbuffer.size))
    (if k ≠ 0 ∧ b._sent = 0 then b._opcode else WS_CONTINUATION) (b._WSbuffer.data.drop b._sent) k
    hcan hacc hsp hk0 (by rw [hdata, h3]; simp; omega)
  rw [h7] at hr
  have hop : (if k ≠ 0 ∧ b._sent = 0 then b._opcode else WS_CONTINUATION)
      = (if s = 0 then op else WS_CONTINUATION) := by
    rw [h3, h8]; by_cases h0 : s = 0 <;> simp [h0, hk0]
  have hpl : ((P.drop s).take k).length = k := by simp; omega
  rw [hop, h3, hsize, hdata] at hfr
  rw [hop, h3, hsize, hdata] at hr
  generalize webSocketSendFrame c (decide (s + k = P.length))
    (if s = 0 then op else WS_CONTINUATION) false (List.drop s P) k = R at hr hfr
  obtain ⟨f1, f2, f3⟩ := hfr
  rw [hr]
  simp only [f1, f2, f3, ne_eq, hk0, not_false_eq_true, not_true_eq_false, and_false, if_false,
    List.take_append_drop]
  refine ⟨by simp [SentFrame.bytes, hpl], ?_⟩
  intro n hn
  have hn2 : n = webSocketHeaderLength false k + k := by
    rw [hn]; simp only [SentFrame.bytes, List.length_append, sentHeader_length, hpl]
  simp only [AsyncWebSocketMultiMessage.ack, AsyncWebSocketMessage.pending]
  have hackeq : szAdd b._acked n = szAdd b._ack (szAdd k (webSocketHeaderLength false k)) := by
    rw [hn2, h2]; simp only [szAdd]; omega
  have hsz2 : (SharedBuffer.mk (some P)).size = P.length := rfl
  constructor
  · intro hlt
    have hne : ¬ (s + k ≥ P.length) := by omega
    simp only [hsz2, hne, false_and, if_false, hackeq, h4]
    refine ⟨trivial, trivial, trivial, ?_, trivial, trivial, h8⟩
    simp only [szAdd]; omega
  · intro heq
    have hge : s + k ≥ P.length := by omega
    simp only [hsz2, hge, hackeq, ge_iff_le, Nat.le_refl, and_self, if_true]

theorem fragments_done (op : Nat) (P : List Nat) (s : Nat) (ws : List Nat)
    (h : ¬ s < P.length) : fragments op P s ws = [] := by
  cases ws with
  | nil => rfl
  | cons w ws => simp [fragments, h]

theorem fragments_payload (op : Nat) (P : List Nat) (ws : List Nat) :
    ∀ s, P.length - s ≤ ws.sum →
      ((fragments op P s ws).map SentFrame.payload).flatten = P.drop s := by
  induction ws with
  | nil =>
    intro s h
    simp only [List.sum_nil] at h
    simp [fragments, List.drop_eq_nil_of_le (show P.length ≤ s by omega)]
  | cons w ws ih =>
    intro s h
    simp only [List.sum_cons] at h
    by_cases hs : s < P.length
    · simp only [fragments, hs, if_true, List.map_cons, List.flatten_cons]
      rw [ih (s + min (P.length - s) w) (by omega), ← List.drop_drop]
      exact List.take_append_drop _ _
    · simp [fragments, hs, List.drop_eq_nil_of_le (show P.length ≤ s by omega)]

theorem fragments_lengths (op : Nat) (P : List Nat) (ws : List Nat) :
    ∀ s i f, (fragments op P s ws)[i]? = some f →
      f.payload.length
        = min (P.length - s
            - (((fragments op P s ws).take i).map (fun g => g.payload.length)).sum)
          (ws.getD i 0) := by
  induction ws with
  | nil => intro s i f h; simp [fragments] at h
  | cons w ws ih =>
    intro s i f h
    by_cases hs : s < P.length
    · simp only [fragments, hs, if_true] at h ⊢
      cases i with
      | zero =>
        simp only [List.getElem?_cons_zero, Option.some.injEq] at h
        subst h
        simp
      | succ j =>
        simp only [List.getElem?_cons_succ] at h
        have := ih _ j f h
        rw [this]
        simp only [List.take_succ_cons, List.map_cons, List.sum_cons, List.length_take,
          List.length_drop, List.getD_cons_succ]
        congr 1
        omega
    · simp [fragments, hs] at h

theorem fragments_opcode_later (op : Nat) (P : List Nat) (ws : List Nat) :
    ∀ s, 0 < s → (fragments op P s ws).map SentFrame.opcode
      = List.replicate (fragments op P s ws).length WS_CONTINUATION := by
  induction ws with
  | nil => intro s _; simp [fragments]
  | cons w ws ih =>
    intro s h
    by_cases hs : s < P.length
    · have hne : ¬ s = 0 := by omega
      simp only [fragments, hs, if_true, hne, if_false, List.map_cons, List.length_cons,
        List.replicate_succ]
      rw [ih _ (by omega)]
    · simp [fragments, hs]

theorem fragments_opcode (op : Nat) (P : List Nat) (w : Nat) (ws : List Nat) (hP : 0 < P.length)
    (hw : 0 < w) :
    (fragments op P 0 (w :: ws)).map SentFrame.opcode
      = op :: List.replicate ((fragments op P 0 (w :: ws)).length - 1) WS_CONTINUATION := by
  simp only [fragments, hP, if_true, List.map_cons, List.length_cons, Nat.add_sub_cancel]
  rw [fragments_opcode_later op P ws _ (by omega)]

theorem fragments_final (op : Nat) (P : List Nat) (ws : List Nat) :
    ∀ s, s < P.length → (∀ w ∈ ws, 0 < w) → P.length - s ≤ ws.sum →
      (fragments op P s ws).map SentFrame.final
        = List.replicate ((fragments op P s ws).length - 1) false ++ [true] := by
  induction ws with
  | nil => intro s hs _ h; simp only [List.sum_nil] at h; omega
  | cons w ws ih =>
    intro s hs hw h
    simp only [List.sum_cons] at h
    have hw0 : 0 < w := hw w (by simp)
    simp only [fragments, hs, if_true, List.map_cons, List.length_cons, Nat.add_sub_cancel]
    by_cases he : s + min (P.length - s) w = P.length
    · rw [fragments_done op P _ ws (by omega)]
      simp [he]
    · have hlt : s + min (P.length - s) w < P.length := by omega
      have ih2 := ih _ hlt (fun x hx => hw x (by simp [hx])) (by omega)
      rw [ih2]
      have hpos : 0 < (fragments op P (s + min (P.length - s) w) ws).length := by
        have := congrArg List.length ih2
        simp at this
        omega
      simp only [he, decide_False]
      generalize (fragments op P (s + min (P.length - s) w) ws).length = n at hpos ⊢
      obtain ⟨n', rfl⟩ : ∃ n', n = n' + 1 := ⟨n - 1, by omega⟩
      simp [List.replicate_succ]

theorem ack_keeps_sent (m : AsyncWebSocketMessage) (n : Nat) (h : m.status = WS_MSG_SENT) :
    (m.ack n).status = WS_MSG_SENT := by
  cases m with
  | basic b =>
    simp only [AsyncWebSocketMessage.status] at h
    simp only [AsyncWebSocketMessage.ack, AsyncWebSocketMessage.status,
      AsyncWebSocketBasicMessage.ack]
    split_ifs <;> simp [h]
  | multi b =>
    simp only [AsyncWebSocketMessage.status] at h
    simp only [AsyncWebSocketMessage.ack, AsyncWebSocketMessage.status,
      AsyncWebSocketMultiMessage.ack]
    split_ifs <;> simp [h]

theorem sendAcked_sent (cs : List AsyncClient) :
    ∀ m : AsyncWebSocketMessage, m.status = WS_MSG_SENT →
      sendAcked m cs = List.replicate cs.length [] := by
  induction cs with
  | nil => intro m _; rfl
  | cons c cs ih =>
    intro m h
    have hn := send_guarded m c (Or.inl (by rw [h]; decide))
    simp only [sendAcked, hn, List.drop_length, List.length_nil, List.length_cons,
      List.replicate_succ]
    rw [ih _ (ack_keeps_sent m 0 h)]

theorem message_send_step (m : AsyncWebSocketMessage) (P : List Nat) (op s : Nat)
    (c : AsyncClient) (hinv : m.pending P op s)
    (hs : s < P.length) (hPl : P.length < 4294967296) (hcan : c.canSend = true)
    (hacc : c.accepts = []) (hsp : 8 < c.space) (hsp2 : c.space < 4294967296) :
    (m.send c).2.2.wire
      = c.wire ++ (SentFrame.mk (decide (s + min (P.length - s) (c.space - 8) = P.length))
          (if s = 0 then op else WS_CONTINUATION)
          ((P.drop s).take (min (P.length - s) (c.space - 8)))).bytes
    ∧ (∀ n, n = (SentFrame.mk (decide (s + min (P.length - s) (c.space - 8) = P.length))
          (if s = 0 then op else WS_CONTINUATION)
          ((P.drop s).take (min (P.length - s) (c.space - 8)))).bytes.length →
        (s + min (P.length - s) (c.space - 8) < P.length →
          ((m.send c).2.1.ack n).pending P op (s + min (P.length - s) (c.space - 8)))
        ∧ (s + min (P.length - s) (c.space - 8) = P.length →
          ((m.send c).2.1.ack n).status = WS_MSG_SENT)) := by
  cases m with
  | basic b => exact basic_send_step b P op s c hinv hs hPl hcan hacc hsp hsp2
  | multi b => exact multi_send_step b P op s c hinv hs hPl hcan hacc hsp hsp2

theorem sendAcked_fragments (P : List Nat) (op : Nat) (hPl : P.length < 4294967296)
    (cs : List AsyncClient) :
    ∀ (m : AsyncWebSocketMessage) (s : Nat), m.pending P op s → s < P.length →
      (∀ c ∈ cs, c.canSend = true ∧ c.accepts = [] ∧ 8 < c.space ∧ c.space < 4294967296) →
      sendAcked m cs
        = (fragments op P s (cs.map (fun c => c.space - 8))).map SentFrame.bytes
          ++ List.replicate
              (cs.length - (fragments op P s (cs.map (fun c => c.space - 8))).length) [] := by
  induction cs with
  | nil => intro m s _ _ _; simp [sendAcked, fragments]
  | cons c cs ih =>
    intro m s hinv hs hcs
    obtain ⟨hcan, hacc, hsp, hsp2⟩ := hcs c (by simp)
    obtain ⟨hw, hack⟩ := message_send_step m P op s c hinv hs hPl hcan hacc hsp hsp2
    have hwritten : (m.send c).2.2.wire.drop c.wire.length
        = (SentFrame.mk (decide (s + min (P.length - s) (c.space - 8) = P.length))
          (if s = 0 then op else WS_CONTINUATION)
          ((P.drop s).take (min (P.length - s) (c.space - 8)))).bytes := by
      rw [hw]; simp
    obtain ⟨hnext, hdone⟩ := hack _ rfl
    simp only [sendAcked, hwritten, List.map_cons, fragments, hs, if_true, List.cons_append,
      List.length_cons, Nat.add_sub_add_right]
    congr 1
    by_cases hlt : s + min (P.length - s) (c.space - 8) < P.length
    · exact ih _ _ (hnext hlt) hlt (fun x hx => hcs x (by simp [hx]))
    · have heq : s + min (P.length - s) (c.space - 8) = P.length := by omega
      rw [sendAcked_sent cs _ (hdone heq), fragments_done op P _ _ hlt]
      simp

theorem window_pos (c : AsyncClient) (h : 0 < webSocketSendFrameWindow c) :
    c.canSend = true ∧ 8 < c.space := by
  simp only [webSocketSendFrameWindow, MAX_HEADER_SIZE] at h
  by_cases hc : c.canSend = true
  · by_cases hs : c.space ≤ 8
    · simp [hc, hs] at h
    · exact ⟨hc, by omega⟩
  · simp [hc] at h

/-- C2: an unmasked message (Basic or Multi) with a non-empty payload `P` is sent by
repeated `send()` calls on a transport that at each call reports a positive send
window, accepts every byte offered and acknowledges each frame in full before the
next call, the windows adding up to at least the payload. The calls emit frames
(and nothing once the message is complete) such that: the payloads concatenate to
`P`; each payload has min(remaining payload, window) bytes; the first frame carries
the message's opcode and every later one the continuation opcode; and exactly the
last frame is final. -/
theorem fragmentation (P : List Nat) (opcode : Nat) (m0 : AsyncWebSocketMessage)
    (hm : m0 = .basic (AsyncWebSocketBasicMessage.new P P.length opcode false)
      ∨ m0 = .multi (AsyncWebSocketMultiMessage.new ⟨some P⟩ opcode false))
    (hP : P ≠ []) (hPl : P.length < 4294967296) (cs : List AsyncClient)
    (hwin : ∀ c ∈ cs, 0 < webSocketSendFrameWindow c)
    (hacc : ∀ c ∈ cs, c.accepts = [] ∧ c.space < 4294967296)
    (henough : P.length ≤ (cs.map webSocketSendFrameWindow).sum) :
    ∃ frames : List SentFrame,
      sendAcked m0 cs
        = frames.map SentFrame.bytes ++ List.replicate (cs.length - frames.length) []
      ∧ (frames.map SentFrame.payload).flatten = P
      ∧ (∀ i f, frames[i]? = some f →
          f.payload.length
            = min (P.length - ((frames.take i).map (fun g => g.payload.length)).sum)
                ((cs.map webSocketSendFrameWindow).getD i 0))
      ∧ frames.map SentFrame.opcode
          = (opcode % 256 &&& 0x07) :: List.replicate (frames.length - 1) WS_CONTINUATION
      ∧ frames.map SentFrame.final = List.replicate (frames.length - 1) false ++ [true] := by
  have hpos : 0 < P.length := List.length_pos.mpr hP
  have hgood : ∀ c ∈ cs, c.canSend = true ∧ c.accepts = [] ∧ 8 < c.space
      ∧ c.space < 4294967296 := by
    intro c hc
    obtain ⟨h1, h2⟩ := window_pos c (hwin c hc)
    exact ⟨h1, (hacc c hc).1, h2, (hacc c hc).2⟩
  have hws : cs.map webSocketSendFrameWindow = cs.map (fun c => c.space - 8) := by
    apply List.map_congr_left
    intro c hc
    obtain ⟨h1, _, h3, h4⟩ := hgood c hc
    exact window_of_space c h1 h3 h4
  have hpend : m0.pending P (opcode % 256 &&& 0x07) 0 := by
    rcases hm with rfl | rfl
    · simp [AsyncWebSocketMessage.pending, AsyncWebSocketBasicMessage.new]
    · have : (SharedBuffer.mk (some P)).toBool = true := by
        simp [SharedBuffer.toBool, hpos]
      simp [AsyncWebSocketMessage.pending, AsyncWebSocketMultiMessage.new, this]
  have hrun := sendAcked_fragments P (opcode % 256 &&& 0x07) hPl cs m0 0 hpend hpos hgood
  rw [← hws] at hrun
  have hwpos : ∀ w ∈ cs.map webSocketSendFrameWindow, 0 < w := by
    intro w hw
    obtain ⟨c, hc, rfl⟩ := List.mem_map.mp hw
    exact hwin c hc
  refine ⟨fragments (opcode % 256 &&& 0x07) P 0 (cs.map webSocketSendFrameWindow), hrun, ?_,
    ?_, ?_, ?_⟩
  · have := fragments_payload (opcode % 256 &&& 0x07) P (cs.map webSocketSendFrameWindow) 0
      (by omega)
    simpa using this
  · intro i f hf
    have := fragments_lengths (opcode % 256 &&& 0x07) P (cs.map webSocketSendFrameWindow) 0 i f hf
    simpa using this
  · cases hcs : cs.map webSocketSendFrameWindow with
    | nil => rw [hcs] at henough; simp only [List.sum_nil] at henough; omega
    | cons w ws =>
      exact fragments_opcode _ P w ws hpos (hwpos w (by rw [hcs]; simp))
  · exact fragments_final _ P _ 0 hpos hwpos (by omega)

theorem fragmentation_witness :
    ∃ frames : List SentFrame,
      sendAcked (.basic (AsyncWebSocketBasicMessage.new [72, 69, 76, 76, 79] 5 WS_TEXT false))
          [AsyncClient.ready 11, AsyncClient.ready 11, AsyncClient.ready 11]
        = frames.map SentFrame.bytes ++ List.replicate (3 - frames.length) []
      ∧ (frames.map SentFrame.payload).flatten = [72, 69, 76, 76, 79]
      ∧ frames.map SentFrame.final = List.replicate (frames.length - 1) false ++ [true] := by
  obtain ⟨frames, h1, h2, _, _, h5⟩ := fragmentation [72, 69, 76, 76, 79] WS_TEXT
    (.basic (AsyncWebSocketBasicMessage.new [72, 69, 76, 76, 79] 5 WS_TEXT false))
    (Or.inl rfl) (by decide) (by decide)
    [AsyncClient.ready 11, AsyncClient.ready 11, AsyncClient.ready 11]
    (by decide) (by decide) (by decide)
  exact ⟨frames, h1, h2, h5⟩

/-! ## One data frame through the inbound parser -/

theorem onDataLoop_zero (MAX fuel : Nat) (s : AsyncWebSocketClient) (data : List Nat) :
    onDataLoop MAX fuel s data 0 = some s := by
  unfold onDataLoop
  simp

theorem onDataLoop_succ (MAX fuel : Nat) (s : AsyncWebSocketClient) (data : List Nat)
    (plen : Nat) (h : plen ≠ 0) :
    onDataLoop MAX (fuel + 1) s data plen
      = match onDataStep MAX s data plen with
        | .left s => some s
        | .goOn s data plen => onDataLoop MAX fuel s data plen := by
  rw [onDataLoop]
  simp [h]

/-- The payload part of the loop body on the bytes `[j, j + m)` of the payload of a
data frame of `n` bytes whose header has been decoded: the slice is handed on
unmasked in one data event; the frame is over when the slice completes it. -/
theorem payloadStep_data (s : AsyncWebSocketClient) (P key d : List Nat) (j m : Nat)
    (final masked : Bool) (opcode : Nat) (hop : opcode ≤ 2)
    (hn : P.length < 4294967296) (hjm : j + m ≤ P.length)
    (hd : d = ((if masked then applyMask P key P.length else P).drop j).take m)
    (hidx : s._pinfo.index = j) (hlen : s._pinfo.len = P.length)
    (hfin : s._pinfo.final = final) (hopc : s._pinfo.opcode = opcode)
    (hmsk : s._pinfo.masked = masked) (hkey : masked = true → s._pinfo.mask = key) :
    ∃ s' info, payloadStep s d m = .goOn s' [] 0
      ∧ s'.events = s.events ++ [.WS_EVT_DATA info ((P.drop j).take m)]
      ∧ info.opcode = opcode ∧ info.final = final
      ∧ s'._partialHeader = s._partialHeader
      ∧ s'._partialHeaderLen = s._partialHeaderLen
      ∧ (j + m < P.length → s'._pstate = 1 ∧ s'._pinfo.index = j + m
          ∧ s'._pinfo.len = P.length ∧ s'._pinfo.final = final ∧ s'._pinfo.opcode = opcode
          ∧ s'._pinfo.masked = masked ∧ s'._pinfo.mask = s._pinfo.mask)
      ∧ (j + m = P.length → s'._pstate = 0) := by
  have hdl : d.length = m := by
    rw [hd]; split_ifs <;> simp [applyMask_length] <;> omega
  have hdatalen : min (toSizeT (u64Sub P.length s._pinfo.index)) m = m := by
    rw [hidx, u64Sub_of_le _ _ (by omega) (by omega)]
    simp only [toSizeT]
    omega
  have hdata : (if s._pinfo.masked = true then unmaskChunk d s._pinfo.mask s._pinfo.index m
      else d) = (P.drop j).take m := by
    rw [hmsk]
    cases masked with
    | false => simpa using hd
    | true =>
      rw [hkey rfl, hidx, hd]
      simp only [if_true]
      exact unmaskChunk_slice P key j j m rfl
  have hql : ((P.drop j).take m).length = m := by simp; omega
  have hadd : u64Add m s._pinfo.index = m + j := by
    rw [hidx]; exact u64Add_of_lt _ _ (by omega)
  have hadd2 : u64Add s._pinfo.index m = j + m := by
    rw [hidx]; exact u64Add_of_lt _ _ (by omega)
  have hu0 : u64Add 0 m = m := by rw [u64Add_of_lt _ _ (by omega)]; omega
  have hu1 : u64Add j m = j + m := u64Add_of_lt _ _ (by omega)
  have htake : ((P.drop j).take m).take m = (P.drop j).take m := by
    rw [List.take_take]; simp
  have hdrop : ((P.drop j).take m).drop m = [] := by
    apply List.drop_eq_nil_of_le; rw [hql]
  have hsub : szSub m m = 0 := by simp only [szSub]; omega
  simp only [payloadStep, hlen, hdatalen, hdata, hadd, hadd2, htake, hdrop, hsub]
  by_cases hlt : m + j < P.length
  · simp only [hlt, if_true]
    by_cases hj0 : s._pinfo.index = 0
    · by_cases ho0 : s._pinfo.opcode = 0
      · simp only [hj0, ho0, if_true, ne_eq, not_true_eq_false, if_false]
        refine ⟨_, _, rfl, rfl, ?_⟩
        simp [AsyncWebSocketClient.handleEvent, hopc, hfin, hlen, hmsk, hidx]
        omega
      · simp only [hj0, ho0, if_true, ne_eq, not_false_eq_true]
        refine ⟨_, _, rfl, rfl, ?_⟩
        simp [AsyncWebSocketClient.handleEvent, hopc, hfin, hlen, hmsk, hidx]
        omega
    · simp only [hj0, if_false]
      refine ⟨_, _, rfl, rfl, ?_⟩
      simp [AsyncWebSocketClient.handleEvent, hopc, hfin, hlen, hmsk, hidx]
      omega
  · have heq : m + j = P.length := by omega
    simp only [heq, lt_self_iff_false, if_false, if_true]
    have h8 : ¬ s._pinfo.opcode = WS_DISCONNECT := by rw [hopc]; simp [WS_DISCONNECT]; omega
    have h9 : ¬ s._pinfo.opcode = WS_PING := by rw [hopc]; simp [WS_PING]; omega
    have h10 : ¬ s._pinfo.opcode = WS_PONG := by rw [hopc]; simp [WS_PONG]; omega
    have hlt8 : s._pinfo.opcode < 8 := by rw [hopc]; omega
    simp only [frameComplete, h8, h9, h10, hlt8, if_true, if_false, htake]
    refine ⟨_, _, rfl, rfl, ?_⟩
    simp [AsyncWebSocketClient.handleEvent, hopc, hfin]
    omega

theorem bigEndian_two (n : Nat) : bigEndian 2 n = [n / 256 % 256, n % 256] := by
  simp [bigEndian]

theorem bigEndian_eight (n : Nat) :
    bigEndian 8 n = [n / 72057594037927936 % 256, n / 281474976710656 % 256,
      n / 1099511627776 % 256, n / 4294967296 % 256, n / 16777216 % 256, n / 65536 % 256,
      n / 256 % 256, n % 256] := by
  simp [bigEndian]

theorem beValue_bigEndian_two (n : Nat) (h : n < 65536) :
    beValue [n / 256 % 256, n % 256] = n := by
  simp only [beValue, List.foldl]
  omega

theorem beValue_bigEndian_eight (n : Nat) (h : n < 18446744073709551616) :
    beValue [n / 72057594037927936 % 256, n / 281474976710656 % 256,
      n / 1099511627776 % 256, n / 4294967296 % 256, n / 16777216 % 256, n / 65536 % 256,
      n / 256 % 256, n % 256] = n := by
  rw [beValue_eight]
  omega

/-- The length field of the wire format and what the first two header bytes of a
frame carry. -/
theorem encodeHeader_first_bytes (final : Bool) (opcode : Nat) (masked : Bool) (key : List Nat)
    (n : Nat) (hop : opcode < 16) :
    ∃ b0 b1 lf, encodeHeader final opcode masked key n
        = [b0, b1] ++ (if n < 126 then [] else if n < 65536 then bigEndian 2 n
            else bigEndian 8 n) ++ (if masked then key else [])
      ∧ lf = (if n < 126 then n else if n < 65536 then 126 else 127)
      ∧ b0 < 256 ∧ b1 < 256
      ∧ decide (b0 &&& 0x80 ≠ 0) = final ∧ b0 &&& 0x0F = opcode
      ∧ decide (b1 &&& 0x80 ≠ 0) = masked ∧ b1 &&& 0x7F = lf := by
  have hlf : (if n < 126 then n else if n < 65536 then 126 else 127) < 128 := by
    split_ifs <;> omega
  obtain ⟨a1, a2, a3, a4⟩ := byte_and_0F_add opcode hop
  obtain ⟨c1, c2, c3, c4⟩ := byte_and_7F_add _ hlf
  refine ⟨_, _, _, rfl, rfl, ?_, ?_, ?_, ?_, ?_, ?_⟩
  · split_ifs <;> omega
  · split_ifs <;> omega
  · cases final <;> simp [a2, a4]
  · cases final <;> simp [a1, a3]
  · cases masked <;> simp [c2, c4]
  · cases masked <;> simp [c1, c3]

/-- The wire format of a header is a complete header in the decoder's sense, and
decodes to the frame it was made from. -/
theorem encodeHeader_complete (final : Bool) (opcode : Nat) (masked : Bool) (key : List Nat)
    (n : Nat) (hop : opcode < 16) (hkey : key.length = 4) (hkb : ∀ b ∈ key, b < 256)
    (hn : n < 18446744073709551616) :
    (∀ b ∈ encodeHeader final opcode masked key n, b < 256)
    ∧ 2 ≤ (encodeHeader final opcode masked key n).length
    ∧ (encodeHeader final opcode masked key n).length
        = headerLenOf ((encodeHeader final opcode masked key n).getD 1 0)
    ∧ ∀ old : AwsFrameInfo, decodeHeader old (encodeHeader final opcode masked key n)
        = { old with index := 0, final := final, opcode := opcode, masked := masked, len := n,
                     mask := if masked then key else old.mask } := by
  obtain ⟨b0, b1, lf, he, hlf, hb0, hb1, d1, d2, d3, d4⟩ :=
    encodeHeader_first_bytes final opcode masked key n hop
  obtain ⟨k0, k1, k2, k3, rfl⟩ := list_of_length_four key hkey
  have hk0 := hkb k0 (by simp)
  have hk1 := hkb k1 (by simp)
  have hk2 := hkb k2 (by simp)
  have hk3 := hkb k3 (by simp)
  have e1 : decide (¬ b0 &&& 128 = 0) = final := by simpa using d1
  have e3 : decide (¬ b1 &&& 128 = 0) = masked := by simpa using d3
  rw [he]
  by_cases h126 : n < 126
  · have hlfn : b1 &&& 127 = n := by rw [d4, hlf]; simp [h126]
    have n1 : ¬ n = 126 := by omega
    have n2 : ¬ n = 127 := by omega
    cases masked
    · have hm : b1 &&& 128 = 0 := by simpa using e3
      refine ⟨?_, ?_, ?_, ?_⟩
      · intro b hb; simp [h126] at hb; omega
      · simp [h126]
      · simp [h126, headerLenOf, hlfn, n1, n2, hm]
      · intro old
        simp [h126, decodeHeader, hlfn, n1, n2, hm, e1, d2]
    · have hm : ¬ b1 &&& 128 = 0 := by simpa using e3
      refine ⟨?_, ?_, ?_, ?_⟩
      · intro b hb; simp [h126] at hb; omega
      · simp [h126]
      · simp [h126, headerLenOf, hlfn, n1, n2, hm]
      · intro old
        simp [h126, decodeHeader, hlfn, n1, n2, hm, e1, d2]
  · by_cases h64k : n < 65536
    · have hlfn : b1 &&& 127 = 126 := by rw [d4, hlf]; simp [h126, h64k]
      have hv := beValue_bigEndian_two n h64k
      cases masked
      · have hm : b1 &&& 128 = 0 := by simpa using e3
        refine ⟨?_, ?_, ?_, ?_⟩
        · intro b hb; simp [h126, h64k, bigEndian_two] at hb; omega
        · simp [h126, h64k, bigEndian_two]
        · simp [h126, h64k, bigEndian_two, headerLenOf, hlfn, hm]
        · intro old
          simp [h126, h64k, bigEndian_two, decodeHeader, hlfn, hm, e1, d2, hv]
      · have hm : ¬ b1 &&& 128 = 0 := by simpa using e3
        refine ⟨?_, ?_, ?_, ?_⟩
        · intro b hb; simp [h126, h64k, bigEndian_two] at hb; omega
        · simp [h126, h64k, bigEndian_two]
        · simp [h126, h64k, bigEndian_two, headerLenOf, hlfn, hm]
        · intro old
          simp [h126, h64k, bigEndian_two, decodeHeader, hlfn, hm, e1, d2, hv]
    · have hlfn : b1 &&& 127 = 127 := by rw [d4, hlf]; simp [h126, h64k]
      have hv := beValue_bigEndian_eight n hn
      cases masked
      · have hm : b1 &&& 128 = 0 := by simpa using e3
        refine ⟨?_, ?_, ?_, ?_⟩
        · intro b hb; simp [h126, h64k, bigEndian_eight] at hb; omega
        · simp [h126, h64k, bigEndian_eight]
        · simp [h126, h64k, bigEndian_eight, headerLenOf, hlfn, hm]
        · intro old
          simp [h126, h64k, bigEndian_eight, decodeHeader, hlfn, hm, e1, d2, hv]
      · have hm : ¬ b1 &&& 128 = 0 := by simpa using e3
        refine ⟨?_, ?_, ?_, ?_⟩
        · intro b hb; simp [h126, h64k, bigEndian_eight] at hb; omega
        · simp [h126, h64k, bigEndian_eight]
        · simp [h126, h64k, bigEndian_eight, headerLenOf, hlfn, hm]
        · intro old
          simp [h126, h64k, bigEndian_eight, decodeHeader, hlfn, hm, e1, d2, hv]

theorem split_prefix (W d rest : List Nat) (c : Nat) (h : W.drop c = d ++ rest) :
    d = (W.drop c).take d.length ∧ c + d.length + rest.length = max c W.length := by
  constructor
  · rw [h]; simp
  · have := congrArg List.length h
    simp at this
    omega

theorem encodeFrame_length (final : Bool) (opcode : Nat) (masked : Bool) (key P : List Nat) :
    (encodeFrame final opcode masked key P).length
      = (encodeHeader final opcode masked key P.length).length + P.length := by
  simp only [encodeFrame, List.length_append]
  split_ifs <;> simp [applyMask_length]

theorem onData_of_left (MAX : Nat) (s s' : AsyncWebSocketClient) (d : List Nat) (hd : d ≠ [])
    (h : onDataStep MAX { s with _lastMessageTime := s.millis } d d.length = .left s') :
    s._onData MAX d = some s' := by
  have hdl : d.length ≠ 0 := fun h0 => hd (List.length_eq_zero.mp h0)
  simp only [AsyncWebSocketClient._onData]
  rw [onDataLoop_succ _ _ _ _ _ hdl, h]

theorem onData_of_goOn (MAX : Nat) (s s' : AsyncWebSocketClient) (d data : List Nat)
    (hd : d ≠ [])
    (h : onDataStep MAX { s with _lastMessageTime := s.millis } d d.length = .goOn s' data 0) :
    s._onData MAX d = some s' := by
  have hdl : d.length ≠ 0 := fun h0 => hd (List.length_eq_zero.mp h0)
  simp only [AsyncWebSocketClient._onData]
  rw [onDataLoop_succ _ _ _ _ _ hdl, h]
  exact onDataLoop_zero _ _ _ _

theorem onDataStep_header (MAX : Nat) (s : AsyncWebSocketClient) (d : List Nat) (n : Nat)
    (h : s._pstate = 0) :
    onDataStep MAX s d n
      = match parseHeader MAX s d n with
        | .truncated s => .left s
        | .parsed s data plen => payloadStep s data plen := by
  simp only [onDataStep, h, if_true]

theorem onDataStep_payload (MAX : Nat) (s : AsyncWebSocketClient) (d : List Nat) (n : Nat)
    (h : s._pstate ≠ 0) : onDataStep MAX s d n = payloadStep s d n := by
  simp only [onDataStep, h, if_false]

/-- The step of the parser on one chunk inside the header of the frame that does
not complete the header. -/
theorem onData_header_truncated (MAX : Nat) (hMAX : 14 ≤ MAX) (hMAX2 : MAX < 4294967296)
    (final : Bool) (opcode : Nat) (masked : Bool) (key P : List Nat) (hop : opcode ≤ 2)
    (hkey : key.length = 4) (hkb : ∀ b ∈ key, b < 256)
    (hW : (encodeFrame final opcode masked key P).length < 4294967296)
    (ev0 : List AwsEvent) (c : Nat) (s : AsyncWebSocketClient) (d rest : List Nat)
    (hd : d ≠ []) (hsplit : (encodeFrame final opcode masked key P).drop c = d ++ rest)
    (hbuf : s._partialHeader.length = MAX) (hev : s.events = ev0) (hps : s._pstate = 0)
    (hpl : s._partialHeaderLen = c)
    (hpre : s._partialHeader.take c = (encodeHeader final opcode masked key P.length).take c)
    (hlt : c + d.length < (encodeHeader final opcode masked key P.length).length) :
    ∃ s', s._onData MAX d = some s' ∧ frameProgress MAX final opcode masked key P ev0
      (c + d.length) s' := by
  obtain ⟨hd1, _⟩ := split_prefix _ d rest c hsplit
  obtain ⟨_, _, hlen, _⟩ := encodeHeader_complete final opcode masked key P.length (by omega)
    hkey hkb (by rw [encodeFrame_length] at hW; omega)
  have hd2 : d = ((encodeHeader final opcode masked key P.length).drop c).take d.length := by
    rw [hd1]
    simp only [encodeFrame, List.length_take, List.take_take]
    rw [List.drop_append_of_le_length (by omega), List.take_append_of_le_length (by simp; omega)]
    simp
  have hdl : d.length ≠ 0 := by
    intro h; exact hd (List.length_eq_zero.mp h)
  obtain ⟨info, buf, hb1, hb2, hp⟩ := parseHeader_truncated MAX hMAX hMAX2
    { s with _lastMessageTime := s.millis } (encodeHeader final opcode masked key P.length) d c
    hbuf hlen hpl hpre hd2 hlt
  have hp2 : ∃ s', parseHeader MAX { s with _lastMessageTime := s.millis } d d.length
      = .truncated s' ∧ s'._partialHeader = buf ∧ s'._partialHeaderLen = c + d.length
      ∧ s'._pstate = s._pstate ∧ s'.events = s.events := ⟨_, hp, rfl, rfl, rfl, rfl⟩
  obtain ⟨s', q1, q2, q3, q4, q5⟩ := hp2
  refine ⟨s', ?_, ?_⟩
  · apply onData_of_left MAX s s' d hd
    have hps1 : ({ s with _lastMessageTime := s.millis } : AsyncWebSocketClient)._pstate = 0 :=
      hps
    rw [onDataStep_header _ _ _ _ hps1, q1]
  · refine ⟨by rw [q2]; exact hb1, [], by simp [q5, hev], by simp, Or.inl ⟨hlt, ?_, q3, ?_, rfl⟩⟩
    · rw [q4]; exact hps
    · rw [q2]; exact hb2

theorem take_add_drop_take (P : List Nat) (j m : Nat) :
    P.take j ++ (P.drop j).take m = P.take (j + m) := by
  rw [List.take_add]

/-- The step of the parser on a chunk that starts inside the header of the frame
and completes it. -/
theorem onData_header_complete (MAX : Nat) (hMAX : 14 ≤ MAX) (hMAX2 : MAX < 4294967296)
    (final : Bool) (opcode : Nat) (masked : Bool) (key P : List Nat) (hop : opcode ≤ 2)
    (hkey : key.length = 4) (hkb : ∀ b ∈ key, b < 256)
    (hW : (encodeFrame final opcode masked key P).length < 4294967296)
    (ev0 : List AwsEvent) (c : Nat) (s : AsyncWebSocketClient) (d rest : List Nat)
    (hd : d ≠ []) (hsplit : (encodeFrame final opcode masked key P).drop c = d ++ rest)
    (hbuf : s._partialHeader.length = MAX) (hev : s.events = ev0) (hps : s._pstate = 0)
    (hpl : s._partialHeaderLen = c)
    (hpre : s._partialHeader.take c = (encodeHeader final opcode masked key P.length).take c)
    (hc : c < (encodeHeader final opcode masked key P.length).length)
    (hge : (encodeHeader final opcode masked key P.length).length ≤ c + d.length) :
    ∃ s', s._onData MAX d = some s' ∧ frameProgress MAX final opcode masked key P ev0
      (c + d.length) s' := by
  obtain ⟨hd1, hsum⟩ := split_prefix _ d rest c hsplit
  have hWl := encodeFrame_length final opcode masked key P
  obtain ⟨hbytes, h2, hlen, hdec⟩ := encodeHeader_complete final opcode masked key P.length
    (by omega) hkey hkb (by omega)
  generalize hH : encodeHeader final opcode masked key P.length = hdr at *
  generalize hM : (if masked = true then applyMask P key P.length else P) = M at *
  have hMl : M.length = P.length := by rw [← hM]; split_ifs <;> simp [applyMask_length]
  have hWeq : encodeFrame final opcode masked key P = hdr ++ M := by
    simp only [encodeFrame, hH, hM]
  rw [hWeq] at hd1 hsum hsplit
  simp only [List.length_append] at hsum
  have hd2 : d = hdr.drop c ++ M.take (c + d.length - hdr.length) := by
    rw [hd1]
    rw [List.drop_append_of_le_length (by omega), List.take_append_eq_append_take]
    simp only [List.length_take, List.length_append, List.length_drop]
    rw [List.take_of_length_le (by simp; omega)]
    congr 2
    omega
  generalize hm : c + d.length - hdr.length = m at hd2
  have hmn : m ≤ P.length := by omega
  have hrl : (M.take m).length = m := by simp; omega
  obtain ⟨buf, hbl, hp⟩ := parseHeader_complete MAX hMAX hMAX2
    { s with _lastMessageTime := s.millis } hdr (M.take m) c hbuf hbytes h2 hlen hc hpl hpre
    (by rw [hrl]; omega)
  rw [← hd2, hrl] at hp
  have hp2 : ∃ s2, parseHeader MAX { s with _lastMessageTime := s.millis } d d.length
      = .parsed s2 (M.take m) m ∧ s2._partialHeader = buf ∧ s2._partialHeaderLen = 0
      ∧ s2.events = s.events ∧ s2._pinfo = decodeHeader s._pinfo hdr :=
    ⟨_, hp, rfl, rfl, rfl, rfl⟩
  obtain ⟨s2, q1, q2, q3, q4, q5⟩ := hp2
  rw [hdec] at q5
  obtain ⟨s3, info, r1, r2, r3, r4, r5, r6, r7, r8⟩ := payloadStep_data s2 P key (M.take m) 0 m
    final masked opcode hop (by omega) (by omega) (by rw [hM]; simp)
    (by rw [q5]) (by rw [q5]) (by rw [q5]) (by rw [q5]) (by rw [q5])
    (by intro hmk; rw [q5]; simp [hmk])
  refine ⟨s3, ?_, ?_⟩
  · apply onData_of_goOn MAX s s3 d [] hd
    have hps1 : ({ s with _lastMessageTime := s.millis } : AsyncWebSocketClient)._pstate = 0 :=
      hps
    rw [onDataStep_header _ _ _ _ hps1, q1]
    exact r1
  · unfold frameProgress
    rw [hH]
    refine ⟨by rw [r5, q2]; exact hbl, [.WS_EVT_DATA info ((P.drop 0).take m)],
      by rw [r2, q4, hev], ?_, ?_⟩
    · intro e he
      simp only [List.mem_singleton] at he
      subst he
      exact ⟨r3, r4⟩
    · by_cases hlt : m < P.length
      · obtain ⟨t1, t2, t3, t4, t5, t6, t7⟩ := r7 (by omega)
        refine Or.inr (Or.inl ⟨hge, by omega, by rw [t1]; decide, by rw [r6, q3], ?_, t3, t4, t5,
          t6, ?_, ?_⟩)
        · rw [t2]; omega
        · intro hmk; rw [t7, q5]; simp [hmk]
        · simp [AwsEvent.payload, hm]
      · have hmeq : m = P.length := by omega
        refine Or.inr (Or.inr ⟨by omega, r8 (by omega), by rw [r6, q3], ?_⟩)
        simp [AwsEvent.payload, hmeq]

/-- The step of the parser on a chunk inside the payload of the frame. -/
theorem onData_payload (MAX : Nat)
    (final : Bool) (opcode : Nat) (masked : Bool) (key P : List Nat) (hop : opcode ≤ 2)
    (hW : (encodeFrame final opcode masked key P).length < 4294967296)
    (ev0 evs : List AwsEvent) (c : Nat) (s : AsyncWebSocketClient) (d rest : List Nat)
    (hd : d ≠ []) (hsplit : (encodeFrame final opcode masked key P).drop c = d ++ rest)
    (hbuf : s._partialHeader.length = MAX) (hev : s.events = ev0 ++ evs)
    (hgood : ∀ e ∈ evs, e.isDataOf opcode final)
    (hge : (encodeHeader final opcode masked key P.length).length ≤ c)
    (hlt : c < (encodeHeader final opcode masked key P.length).length + P.length)
    (hps : s._pstate ≠ 0) (hpl : s._partialHeaderLen = 0)
    (hidx : s._pinfo.index = c - (encodeHeader final opcode masked key P.length).length)
    (hlen : s._pinfo.len = P.length) (hfin : s._pinfo.final = final)
    (hopc : s._pinfo.opcode = opcode) (hmsk : s._pinfo.masked = masked)
    (hmask : masked = true → s._pinfo.mask = key)
    (hflat : (evs.map AwsEvent.payload).flatten
      = P.take (c - (encodeHeader final opcode masked key P.length).length)) :
    ∃ s', s._onData MAX d = some s' ∧ frameProgress MAX final opcode masked key P ev0
      (c + d.length) s' := by
  obtain ⟨hd1, hsum⟩ := split_prefix _ d rest c hsplit
  have hWl := encodeFrame_length final opcode masked key P
  generalize hH : encodeHeader final opcode masked key P.length = hdr at *
  generalize hM : (if masked = true then applyMask P key P.length else P) = M at *
  have hMl : M.length = P.length := by rw [← hM]; split_ifs <;> simp [applyMask_length]
  have hWeq : encodeFrame final opcode masked key P = hdr ++ M := by
    simp only [encodeFrame, hH, hM]
  rw [hWeq] at hd1 hsum hsplit
  simp only [List.length_append] at hsum
  generalize hj : c - hdr.length = j at *
  have hd2 : d = (M.drop j).take d.length := by
    rw [hd1, List.drop_append_eq_append_drop, List.drop_eq_nil_of_le hge, hj]
    simp
  obtain ⟨s3, info, r1, r2, r3, r4, r5, r6, r7, r8⟩ := payloadStep_data
    { s with _lastMessageTime := s.millis } P key d j d.length
    final masked opcode hop (by omega) (by omega) (by rw [hM]; exact hd2)
    hidx hlen hfin hopc hmsk hmask
  refine ⟨s3, ?_, ?_⟩
  · apply onData_of_goOn MAX s s3 d [] hd
    have hps1 : ({ s with _lastMessageTime := s.millis } : AsyncWebSocketClient)._pstate ≠ 0 :=
      hps
    rw [onDataStep_payload _ _ _ _ hps1]
    exact r1
  · unfold frameProgress
    rw [hH]
    refine ⟨by rw [r5]; exact hbuf, evs ++ [.WS_EVT_DATA info ((P.drop j).take d.length)],
      ?_, ?_, ?_⟩
    · rw [r2]
      show s.events ++ _ = _
      rw [hev, List.append_assoc]
    · intro e he
      rcases List.mem_append.mp he with h | h
      · exact hgood e h
      · simp only [List.mem_singleton] at h
        subst h
        exact ⟨r3, r4⟩
    · have hflat2 : ((evs ++ [AwsEvent.WS_EVT_DATA info ((P.drop j).take d.length)]).map
          AwsEvent.payload).flatten = P.take (j + d.length) := by
        simp only [List.map_append, List.flatten_append, hflat, List.map_cons, List.map_nil,
          AwsEvent.payload, List.flatten_cons, List.flatten_nil, List.append_nil]
        exact take_add_drop_take P j d.length
      by_cases hlt2 : j + d.length < P.length
      · obtain ⟨t1, t2, t3, t4, t5, t6, t7⟩ := r7 hlt2
        refine Or.inr (Or.inl ⟨by omega, by omega, by rw [t1]; decide, by rw [r6]; exact hpl,
          ?_, t3, t4, t5, t6, ?_, ?_⟩)
        · rw [t2]; omega
        · intro hmk; rw [t7]; exact hmask hmk
        · rw [hflat2]; congr 1; omega
      · have hmeq : j + d.length = P.length := by omega
        refine Or.inr (Or.inr ⟨by omega, r8 hmeq, by rw [r6]; exact hpl, ?_⟩)
        rw [hflat2, hmeq]
        simp

/-- The parser takes every non-empty chunk of the wire encoding of one data frame
and moves on by the length of the chunk. -/
theorem onData_progress (MAX : Nat) (hMAX : 14 ≤ MAX) (hMAX2 : MAX < 4294967296)
    (final : Bool) (opcode : Nat) (masked : Bool) (key P : List Nat) (hop : opcode ≤ 2)
    (hkey : key.length = 4) (hkb : ∀ b ∈ key, b < 256)
    (hW : (encodeFrame final opcode masked key P).length < 4294967296)
    (ev0 : List AwsEvent) (c : Nat) (s : AsyncWebSocketClient) (d rest : List Nat)
    (hd : d ≠ []) (hsplit : (encodeFrame final opcode masked key P).drop c = d ++ rest)
    (hp : frameProgress MAX final opcode masked key P ev0 c s) :
    ∃ s', s._onData MAX d = some s' ∧ frameProgress MAX final opcode masked key P ev0
      (c + d.length) s' := by
  obtain ⟨hbuf, evs, hev, hgood, hph⟩ := hp
  rcases hph with ⟨hc, hps, hpl, hpre, hnil⟩ | ⟨hge, hlt, hps, hpl, hidx, hlen, hfin, hopc, hmsk,
      hmask, hflat⟩ | ⟨hc, _, _, _⟩
  · subst hnil
    simp only [List.append_nil] at hev
    by_cases hlt : c + d.length < (encodeHeader final opcode masked key P.length).length
    · exact onData_header_truncated MAX hMAX hMAX2 final opcode masked key P hop hkey hkb hW
        ev0 c s d rest hd hsplit hbuf hev hps hpl hpre hlt
    · exact onData_header_complete MAX hMAX hMAX2 final opcode masked key P hop hkey hkb hW
        ev0 c s d rest hd hsplit hbuf hev hps hpl hpre hc (by omega)
  · exact onData_payload MAX final opcode masked key P hop hW ev0 evs c s d rest hd hsplit hbuf
      hev hgood hge hlt hps hpl hidx hlen hfin hopc hmsk hmask hflat
  · exfalso
    have := congrArg List.length hsplit
    rw [encodeFrame_length] at hW
    simp only [List.length_drop, encodeFrame_length, List.length_append] at this
    have hdl : 0 < d.length := List.length_pos.mpr hd
    omega

theorem feed_progress (MAX : Nat) (hMAX : 14 ≤ MAX) (hMAX2 : MAX < 4294967296)
    (final : Bool) (opcode : Nat) (masked : Bool) (key P : List Nat) (hop : opcode ≤ 2)
    (hkey : key.length = 4) (hkb : ∀ b ∈ key, b < 256)
    (hW : (encodeFrame final opcode masked key P).length < 4294967296)
    (ev0 : List AwsEvent) (chunks : List (List Nat)) :
    ∀ (c : Nat) (s : AsyncWebSocketClient), (∀ d ∈ chunks, d ≠ []) →
      chunks.flatten = (encodeFrame final opcode masked key P).drop c →
      frameProgress MAX final opcode masked key P ev0 c s →
      ∃ s', feed MAX s chunks = some s'
        ∧ frameProgress MAX final opcode masked key P ev0
            (encodeFrame final opcode masked key P).length s' := by
  induction chunks with
  | nil =>
    intro c s _ hsplit hp
    refine ⟨s, rfl, ?_⟩
    have hl := congrArg List.length hsplit
    simp only [List.flatten_nil, List.length_nil, List.length_drop] at hl
    have hWl := encodeFrame_length final opcode masked key P
    obtain ⟨hbuf, evs, hev, hgood, hph⟩ := hp
    refine ⟨hbuf, evs, hev, hgood, ?_⟩
    rcases hph with ⟨hc, _⟩ | ⟨_, hlt, _⟩ | ⟨hc, h1, h2, h3⟩
    · omega
    · omega
    · exact Or.inr (Or.inr ⟨hWl, h1, h2, h3⟩)
  | cons d cs ih =>
    intro c s hne hsplit hp
    simp only [List.flatten_cons] at hsplit
    obtain ⟨s1, h1, hp1⟩ := onData_progress MAX hMAX hMAX2 final opcode masked key P hop hkey hkb
      hW ev0 c s d cs.flatten (hne d (by simp)) hsplit.symm hp
    have hrest : cs.flatten = (encodeFrame final opcode masked key P).drop (c + d.length) := by
      have := congrArg (List.drop d.length) hsplit
      simp only [List.drop_left, List.drop_drop] at this
      rw [this]
    obtain ⟨s', h2, hp2⟩ := ih (c + d.length) s1 (fun x hx => hne x (by simp [hx])) hrest hp1
    exact ⟨s', by simp only [feed, h1, h2], hp2⟩

/-- C1 (amended): for every data frame (opcode continuation, text or binary, any FIN
flag, masked with any 4-byte key or unmasked, payload `P`) whose wire encoding is
shorter than 2^32 bytes, and every way of splitting the wire encoding into non-empty
chunks, feeding the chunks in order to `_onData` from the idle parse state returns
each time, emits only data events, each carrying the frame's opcode and final flag,
whose payload slices concatenate to exactly `P`, and leaves the parser idle. -/
theorem data_frame_roundtrip (MAX : Nat) (hMAX : 14 ≤ MAX) (hMAX2 : MAX < 4294967296)
    (s : AsyncWebSocketClient) (hidle : s.idle) (hbuf : s._partialHeader.length = MAX)
    (final : Bool) (opcode : Nat) (masked : Bool) (key P : List Nat) (hop : opcode ≤ 2)
    (hkey : key.length = 4) (hkb : ∀ b ∈ key, b < 256)
    (hW : (encodeFrame final opcode masked key P).length < 4294967296)
    (chunks : List (List Nat)) (hne : ∀ d ∈ chunks, d ≠ [])
    (hsplit : chunks.flatten = encodeFrame final opcode masked key P) :
    ∃ s' evs, feed MAX s chunks = some s' ∧ s'.idle ∧ s'.events = s.events ++ evs
      ∧ (∀ e ∈ evs, e.isDataOf opcode final)
      ∧ (evs.map AwsEvent.payload).flatten = P := by
  obtain ⟨hps, hpl⟩ := hidle
  have h2 : 0 < (encodeHeader final opcode masked key P.length).length := by
    simp [encodeHeader]
  have hp0 : frameProgress MAX final opcode masked key P s.events 0 s :=
    ⟨hbuf, [], by simp, by simp, Or.inl ⟨h2, hps, hpl, by simp, rfl⟩⟩
  obtain ⟨s', hfeed, _, evs, hev, hgood, hph⟩ := feed_progress MAX hMAX hMAX2 final opcode
    masked key P hop hkey hkb hW s.events chunks 0 s hne (by simpa using hsplit) hp0
  have hWl := encodeFrame_length final opcode masked key P
  rcases hph with ⟨hc, _⟩ | ⟨_, hlt, _⟩ | ⟨_, h1, h2, h3⟩
  · omega
  · omega
  · exact ⟨s', evs, hfeed, ⟨h1, h2⟩, hev, hgood, h3⟩

theorem data_frame_roundtrip_witness :
    ∃ s' evs, feed 16 (AsyncWebSocketClient.new 16 (AsyncClient.ready 100) 0)
        [[129], [133, 1, 2], [3, 4, 73, 71], [79, 72, 78]] = some s'
      ∧ s'.idle
      ∧ s'.events = (AsyncWebSocketClient.new 16 (AsyncClient.ready 100) 0).events ++ evs
      ∧ (∀ e ∈ evs, e.isDataOf WS_TEXT true)
      ∧ (evs.map AwsEvent.payload).flatten = [72, 69, 76, 76, 79] :=
  data_frame_roundtrip 16 (by decide) (by decide)
    (AsyncWebSocketClient.new 16 (AsyncClient.ready 100) 0) (by decide) (by decide)
    true WS_TEXT true [1, 2, 3, 4] [72, 69, 76, 76, 79] (by decide) (by decide) (by decide)
    (by decide) [[129], [133, 1, 2], [3, 4, 73, 71], [79, 72, 78]] (by decide) (by decide)

/-- A pass of the loop in the payload of an unmasked frame whose remaining length
is a multiple of 2^32: the slice length is 0, nothing is consumed, and the parser
is in the same situation afterwards. -/
theorem payloadStep_stalled (s : AsyncWebSocketClient) (data : List Nat) (plen : Nat)
    (hz : toSizeT (u64Sub s._pinfo.len s._pinfo.index) = 0)
    (hlt : s._pinfo.index < s._pinfo.len) (hlen : s._pinfo.len < 18446744073709551616)
    (hm : s._pinfo.masked = false) (hpl : plen < 4294967296) :
    ∃ s', payloadStep s data plen = .goOn s' data plen
      ∧ s'._pstate = 1 ∧ s'._pinfo.len = s._pinfo.len ∧ s'._pinfo.index = s._pinfo.index
      ∧ s'._pinfo.masked = false := by
  have h0 : min 0 plen = 0 := Nat.zero_min _
  have ha : u64Add 0 s._pinfo.index = s._pinfo.index := by
    rw [u64Add_of_lt _ _ (by omega)]; omega
  have hs : szSub plen 0 = plen := by simp only [szSub]; omega
  simp only [payloadStep, hz, h0, hm, Bool.false_eq_true, if_false, ha, hlt, if_true,
    List.drop_zero, hs]
  by_cases hj0 : s._pinfo.index = 0
  · by_cases ho0 : s._pinfo.opcode = 0
    · simp only [hj0, ho0, if_true, ne_eq, not_true_eq_false, if_false]
      refine ⟨_, rfl, ?_⟩
      simp [AsyncWebSocketClient.handleEvent, hm, u64Add]
    · simp only [hj0, ho0, if_true, ne_eq, not_false_eq_true]
      refine ⟨_, rfl, ?_⟩
      simp [AsyncWebSocketClient.handleEvent, hm, u64Add]
  · simp only [hj0, if_false]
    refine ⟨_, rfl, ?_⟩
    simp [AsyncWebSocketClient.handleEvent, hm, u64Add]
    omega

/-- In that situation the loop of `_onData` never ends: it has not ended after any
number of passes. -/
theorem onDataLoop_stalled (MAX : Nat) (data : List Nat) (plen : Nat) (hp0 : plen ≠ 0)
    (hpl : plen < 4294967296) (fuel : Nat) :
    ∀ s : AsyncWebSocketClient, s._pstate ≠ 0 →
      toSizeT (u64Sub s._pinfo.len s._pinfo.index) = 0 → s._pinfo.index < s._pinfo.len →
      s._pinfo.len < 18446744073709551616 → s._pinfo.masked = false →
      onDataLoop MAX fuel s data plen = none := by
  induction fuel with
  | zero =>
    intro s _ _ _ _ _
    rw [onDataLoop]
    simp [hp0]
  | succ fuel ih =>
    intro s hps hz hlt hlen hm
    obtain ⟨s', h1, h2, h3, h4, h5⟩ := payloadStep_stalled s data plen hz hlt hlen hm hpl
    rw [onDataLoop_succ _ _ _ _ _ hp0, onDataStep_payload _ _ _ _ hps, h1]
    exact ih s' (by rw [h2]; decide) (by rw [h3, h4]; exact hz) (by rw [h3, h4]; exact hlt)
      (by rw [h3]; exact hlen) h5

/-- The header of an unmasked frame whose length is a non-zero multiple of 2^32,
arriving as a chunk of its own: the parser is left inside the payload at index 0. -/
theorem onData_header_of_stalling_frame (MAX : Nat) (hMAX : 14 ≤ MAX) (hMAX2 : MAX < 4294967296)
    (s : AsyncWebSocketClient) (hidle : s.idle) (hbuf : s._partialHeader.length = MAX)
    (final : Bool) (opcode : Nat) (key : List Nat) (n : Nat) (hop : opcode < 16)
    (hkey : key.length = 4) (hkb : ∀ b ∈ key, b < 256)
    (hn : n < 18446744073709551616) (hn0 : 0 < n) (hz : toSizeT n = 0) :
    ∃ s1, s._onData MAX (encodeHeader final opcode false key n) = some s1
      ∧ s1._pstate = 1 ∧ s1._pinfo.len = n ∧ s1._pinfo.index = 0
      ∧ s1._pinfo.masked = false := by
  obtain ⟨hps, hpl⟩ := hidle
  obtain ⟨hbytes, h2, hlen, hdec⟩ := encodeHeader_complete final opcode false key n hop hkey hkb
    hn
  have h14 := headerLenOf_le ((encodeHeader final opcode false key n).getD 1 0)
  generalize encodeHeader final opcode false key n = hdr at *
  obtain ⟨buf, hbl, hp⟩ := parseHeader_complete MAX hMAX hMAX2
    { s with _lastMessageTime := s.millis } hdr [] 0 hbuf hbytes h2 hlen (by omega) hpl
    (by simp) (by simp; omega)
  simp only [List.drop_zero, List.append_nil, List.length_nil] at hp
  have hp2 : ∃ s2, parseHeader MAX { s with _lastMessageTime := s.millis } hdr hdr.length
      = .parsed s2 [] 0 ∧ s2._pinfo = decodeHeader s._pinfo hdr := ⟨_, hp, rfl⟩
  obtain ⟨s2, q1, q2⟩ := hp2
  rw [hdec] at q2
  obtain ⟨s3, r1, r2, r3, r4, r5⟩ := payloadStep_stalled s2 [] 0
    (by rw [q2]; simp only [u64Sub]; simp only [toSizeT] at hz ⊢; omega)
    (by rw [q2]; exact hn0) (by rw [q2]; exact hn) (by rw [q2]) (by decide)
  refine ⟨s3, ?_, r2, by rw [r3, q2], by rw [r4, q2], r5⟩
  apply onData_of_goOn MAX s s3 hdr [] (by intro h; rw [h] at h2; simp at h2)
  have hps1 : ({ s with _lastMessageTime := s.millis } : AsyncWebSocketClient)._pstate = 0 :=
    hps
  rw [onDataStep_header _ _ _ _ hps1, q1]
  exact r1

theorem encodeHeader_four_gib :
    encodeHeader true WS_BINARY false [0, 0, 0, 0] 4294967296
      = [130, 127, 0, 0, 0, 1, 0, 0, 0, 0] := by
  simp [encodeHeader, bigEndian, WS_BINARY]

theorem flatten_header_byte_rest (h : List Nat) (n : Nat) :
    [h, [0], List.replicate n 0].flatten = h ++ List.replicate (n + 1) 0 := by
  simp [List.replicate_succ]

theorem encodeFrame_unmasked (final : Bool) (opcode : Nat) (key P : List Nat) :
    encodeFrame final opcode false key P = encodeHeader final opcode false key P.length ++ P := by
  simp [encodeFrame]

theorem replicate_ne_nil (n : Nat) (h : n ≠ 0) : List.replicate n (0 : Nat) ≠ [] := by
  intro h2
  have := congrArg List.length h2
  rw [List.length_replicate] at this
  exact h this

theorem feed_second_stalls (MAX : Nat) (s0 s1 : AsyncWebSocketClient) (c1 c2 : List Nat)
    (cs : List (List Nat)) (h1 : s0._onData MAX c1 = some s1) (h2 : s1._onData MAX c2 = none) :
    feed MAX s0 (c1 :: c2 :: cs) = none := by
  simp only [feed, h1, h2]

/-- C1 (as stated, refuted): a final binary frame, unmasked, with a payload of 2^32
bytes, its wire encoding split into the 10-byte header, one payload byte and the
rest. After the header chunk the frame descriptor has length 2^32 and index 0, so
on the next chunk the slice length `min((size_t)(len - index), plen)` is 0: the
loop of `_onData` consumes nothing and never ends, and the chunks are not all
taken. -/
theorem four_gib_frame_stalls :
    (∀ d ∈ [[130, 127, 0, 0, 0, 1, 0, 0, 0, 0], [0], List.replicate 4294967295 0], d ≠ [])
    ∧ [[130, 127, 0, 0, 0, 1, 0, 0, 0, 0], [0], List.replicate 4294967295 0].flatten
        = encodeFrame true WS_BINARY false [0, 0, 0, 0] (List.replicate 4294967296 0)
    ∧ (∃ s1, (AsyncWebSocketClient.new 16 (AsyncClient.ready 100) 0)._onData 16
          [130, 127, 0, 0, 0, 1, 0, 0, 0, 0] = some s1
        ∧ ∀ fuel, onDataLoop 16 fuel { s1 with _lastMessageTime := s1.millis } [0] 1 = none)
    ∧ feed 16 (AsyncWebSocketClient.new 16 (AsyncClient.ready 100) 0)
        [[130, 127, 0, 0, 0, 1, 0, 0, 0, 0], [0], List.replicate 4294967295 0] = none := by
  obtain ⟨s1, h1, h2, h3, h4, h5⟩ := onData_header_of_stalling_frame 16 (by decide) (by decide)
    (AsyncWebSocketClient.new 16 (AsyncClient.ready 100) 0) (by decide) (by decide)
    true WS_BINARY [0, 0, 0, 0] 4294967296 (by decide) (by decide) (by decide) (by decide)
    (by decide) (by decide)
  rw [encodeHeader_four_gib] at h1
  have hstall : ∀ fuel, onDataLoop 16 fuel { s1 with _lastMessageTime := s1.millis } [0] 1
      = none := by
    intro fuel
    apply onDataLoop_stalled 16 [0] 1 (by decide) (by decide) fuel
    · show s1._pstate ≠ 0
      rw [h2]; decide
    · show toSizeT (u64Sub s1._pinfo.len s1._pinfo.index) = 0
      rw [h3, h4]; decide
    · show s1._pinfo.index < s1._pinfo.len
      rw [h3, h4]; decide
    · show s1._pinfo.len < 18446744073709551616
      rw [h3]; decide
    · exact h5
  refine ⟨?_, ?_, ⟨s1, h1, hstall⟩, ?_⟩
  · intro d hd
    simp only [List.mem_cons, List.mem_singleton, List.not_mem_nil, or_false] at hd
    rcases hd with rfl | rfl | rfl
    · exact List.cons_ne_nil _ _
    · exact List.cons_ne_nil _ _
    · exact replicate_ne_nil _ (by decide)
  · rw [flatten_header_byte_rest, encodeFrame_unmasked, List.length_replicate,
      encodeHeader_four_gib]
  · exact feed_second_stalls 16 _ s1 _ _ _ h1 (hstall 2)

/-! ## Session operations -/

theorem webSocketSendFrame_unmasked_data (client : AsyncClient) (final : Bool) (opcode : Nat)
    (data : List Nat) (len : Nat) :
    (webSocketSendFrame client final opcode false data len).2.2 = data := by
  unfold webSocketSendFrame
  simp only [Bool.false_eq_true, if_false]
  split_ifs <;> rfl

theorem control_send_fields (c : AsyncWebSocketControl) (client : AsyncClient) :
    (c.send client).2.1._opcode = c._opcode ∧ (c.send client).2.1._len = c._len
      ∧ (c.send client).2.1._mask = c._mask ∧ (c.send client).2.1._finished = true
      ∧ (c._mask = false → (c.send client).2.1._data = c._data) := by
  refine ⟨rfl, rfl, rfl, rfl, ?_⟩
  intro h
  simp only [AsyncWebSocketControl.send, h]
  exact webSocketSendFrame_unmasked_data _ _ _ _ _

theorem dropFinished_length_le (q : List AsyncWebSocketMessage) :
    (dropFinished q).length ≤ q.length := by
  induction q with
  | nil => simp [dropFinished]
  | cons m rest ih =>
    simp only [dropFinished]
    split_ifs
    · simp only [List.length_cons]; omega
    · exact Nat.le_refl _

theorem getLast?_cons_append_singleton {α : Type} (a : α) (q : List α) (c : α) :
    (a :: (q ++ [c])).getLast? = some c := by
  rw [← List.cons_append, List.getLast?_append]
  simp

/-- What the scheduler leaves untouched, and what it does to the two queues. -/
theorem runQueue_frame (s : AsyncWebSocketClient) :
    s._runQueue._status = s._status ∧ s._runQueue._pstate = s._pstate
      ∧ s._runQueue._pinfo = s._pinfo ∧ s._runQueue._partialHeader = s._partialHeader
      ∧ s._runQueue._partialHeaderLen = s._partialHeaderLen
      ∧ s._runQueue.events = s.events ∧ s._runQueue.millis = s.millis
      ∧ s._runQueue._lastMessageTime = s._lastMessageTime
      ∧ s._runQueue._keepAlivePeriod = s._keepAlivePeriod
      ∧ s._runQueue._messageQueue.length ≤ s._messageQueue.length
      ∧ (s._runQueue._controlQueue = s._controlQueue
          ∨ ∃ c rest, s._controlQueue = c :: rest
              ∧ s._runQueue._controlQueue = (c.send s._client).2.1 :: rest) := by
  have hd := dropFinished_length_le s._messageQueue
  unfold AsyncWebSocketClient._runQueue
  simp only []
  split_ifs with h1 h2
  · refine ⟨rfl, rfl, rfl, rfl, rfl, rfl, rfl, rfl, rfl, hd, ?_⟩
    right
    cases hq : s._controlQueue with
    | nil => simp [hq] at h1
    | cons c rest => exact ⟨c, rest, rfl, by simp [front]⟩
  · refine ⟨rfl, rfl, rfl, rfl, rfl, rfl, rfl, rfl, rfl, ?_, Or.inl rfl⟩
    cases hq : dropFinished s._messageQueue with
    | nil => simp [hq] at h2
    | cons m rest =>
      rw [hq] at hd
      simp only [List.length_cons, List.tail_cons] at hd ⊢
      exact hd
  · exact ⟨rfl, rfl, rfl, rfl, rfl, rfl, rfl, rfl, rfl, hd, Or.inl rfl⟩

/-- What `_queueControl` leaves untouched, and the control queue after it: the new
frame is the last entry; the head may have been sent. -/
theorem queueControl_frame (s : AsyncWebSocketClient) (c : AsyncWebSocketControl) :
    (s._queueControl c)._status = s._status ∧ (s._queueControl c)._pstate = s._pstate
      ∧ (s._queueControl c)._pinfo = s._pinfo
      ∧ (s._queueControl c)._partialHeader = s._partialHeader
      ∧ (s._queueControl c)._partialHeaderLen = s._partialHeaderLen
      ∧ (s._queueControl c).events = s.events
      ∧ (s._queueControl c)._messageQueue.length ≤ s._messageQueue.length
      ∧ (s._queueControl c)._controlQueue.length = s._controlQueue.length + 1
      ∧ ∃ c', (s._queueControl c)._controlQueue.getLast? = some c'
          ∧ c'._opcode = c._opcode ∧ c'._len = c._len ∧ c'._mask = c._mask
          ∧ (c._mask = false → c'._data = c._data) := by
  unfold AsyncWebSocketClient._queueControl
  simp only []
  split_ifs with h
  · obtain ⟨g1, g2, g3, g4, g5, g6, _, _, _, g10, g11⟩ := runQueue_frame
      { s with _controlQueue := s._controlQueue ++ [c] }
    refine ⟨g1, g2, g3, g4, g5, g6, g10, ?_, ?_⟩
    · rcases g11 with g | ⟨c0, rest, g, g'⟩
      · rw [g]; simp
      · rw [g']
        have := congrArg List.length g
        simp only [List.length_append, List.length_cons, List.length_nil] at this ⊢
        omega
    · rcases g11 with g | ⟨c0, rest, g, g'⟩
      · rw [g]
        exact ⟨c, by simp, rfl, rfl, rfl, fun _ => rfl⟩
      · rw [g']
        simp only at g
        cases hq : s._controlQueue with
        | nil =>
          rw [hq] at g
          simp only [List.nil_append, List.cons.injEq] at g
          obtain ⟨rfl, rfl⟩ := g
          obtain ⟨k1, k2, k3, _, k5⟩ := control_send_fields c
            ({ s with _controlQueue := s._controlQueue ++ [c] } : AsyncWebSocketClient)._client
          exact ⟨_, by simp, k1, k2, k3, k5⟩
        | cons a q =>
          rw [hq] at g
          simp only [List.cons_append, List.cons.injEq] at g
          obtain ⟨_, rfl⟩ := g
          refine ⟨c, ?_, rfl, rfl, rfl, fun _ => rfl⟩
          exact getLast?_cons_append_singleton _ _ _
  · refine ⟨rfl, rfl, rfl, rfl, rfl, rfl, Nat.le_refl _, by simp, c, by simp, rfl, rfl, rfl,
      fun _ => rfl⟩

/-- C16: on a session that is not Connected, `_queueMessage(m)` returns with the
session as it was (both queues and the transport untouched, the scheduler not
run), so do `text` and `binary`, and `ping` enqueues nothing. -/
theorem enqueue_on_closed_session (MAXQ : Nat) (s : AsyncWebSocketClient)
    (m : AsyncWebSocketMessage) (message : List Nat) (data : Option (List Nat)) (len : Nat)
    (h : s._status ≠ WS_CONNECTED) :
    s._queueMessage MAXQ m = s ∧ s.text MAXQ message len = s ∧ s.binary MAXQ message len = s
      ∧ s.ping data len = s := by
  simp [AsyncWebSocketClient._queueMessage, AsyncWebSocketClient.text,
    AsyncWebSocketClient.binary, AsyncWebSocketClient.ping, h]

theorem enqueue_on_closed_session_witness :
    ({ AsyncWebSocketClient.new 16 (AsyncClient.ready 100) 0 with
        _status := WS_DISCONNECTING })._queueMessage 8
        (.basic (AsyncWebSocketBasicMessage.new [72, 73] 2 WS_TEXT false))
      = { AsyncWebSocketClient.new 16 (AsyncClient.ready 100) 0 with
          _status := WS_DISCONNECTING } :=
  (enqueue_on_closed_session 8
    { AsyncWebSocketClient.new 16 (AsyncClient.ready 100) 0 with _status := WS_DISCONNECTING }
    (.basic (AsyncWebSocketBasicMessage.new [72, 73] 2 WS_TEXT false)) [] none 0
    (by decide)).1

theorem construct_true (opcode : Nat) (data : Option (List Nat)) (len : Nat) (mask : Bool) :
    AsyncWebSocketControl.construct true opcode data len mask
      = AsyncWebSocketControl.new opcode data len mask := by
  unfold AsyncWebSocketControl.construct AsyncWebSocketControl.new
  cases data with
  | none => simp
  | some d =>
    by_cases h0 : len = 0
    · simp [h0]
    · by_cases h1 : len > 125
      · simp [h0, h1]
      · simp [h0, h1]

theorem construct_failed (opcode : Nat) (data : Option (List Nat)) (len : Nat) (mask : Bool) :
    AsyncWebSocketControl.construct false opcode data len mask
      = { _opcode := opcode % 256, _data := [], _len := 0, _mask := decide (len ≠ 0) && mask,
          _finished := false } := by
  unfold AsyncWebSocketControl.construct
  cases data with
  | none => simp
  | some d =>
    by_cases h0 : len = 0
    · simp [h0]
    · simp [h0]

/-- The control frame that the session constructs: the one of a successful
allocation, or one without payload. -/
theorem newControl_control (s : AsyncWebSocketClient) (opcode : Nat)
    (data : Option (List Nat)) (len : Nat) :
    (s.newControl opcode data len).1
      = if data.isNone = true ∨ len = 0 ∨ s.mallocs.headD true = true
        then AsyncWebSocketControl.new opcode data len false
        else { _opcode := opcode % 256, _data := [], _len := 0, _mask := false,
               _finished := false } := by
  unfold AsyncWebSocketClient.newControl AsyncWebSocketClient.malloc
  by_cases h : data.isNone = true ∨ len = 0
  · have h2 : data.isNone = true ∨ len = 0 ∨ s.mallocs.headD true = true := by
      rcases h with h | h
      · exact Or.inl h
      · exact Or.inr (Or.inl h)
    rw [if_pos h, if_pos h2]
    exact construct_true _ _ _ _
  · rw [if_neg h]
    simp only []
    cases hm : s.mallocs.headD true with
    | true =>
      rw [if_pos (Or.inr (Or.inr rfl))]
      exact construct_true _ _ _ _
    | false =>
      have h2 : ¬ (data.isNone = true ∨ len = 0 ∨ false = true) := by
        intro hh
        rcases hh with hh | hh | hh
        · exact h (Or.inl hh)
        · exact h (Or.inr hh)
        · cases hh
      rw [if_neg h2, construct_failed]
      simp

/-- Constructing a control frame changes nothing of the session but the record of
the allocations to come. -/
theorem newControl_session (s : AsyncWebSocketClient) (opcode : Nat)
    (data : Option (List Nat)) (len : Nat) :
    ∃ ms, (s.newControl opcode data len).2 = { s with mallocs := ms } := by
  unfold AsyncWebSocketClient.newControl AsyncWebSocketClient.malloc
  split_ifs
  · exact ⟨s.mallocs, rfl⟩
  · exact ⟨s.mallocs.tail, rfl⟩

theorem newControl_opcode_mask (s : AsyncWebSocketClient) (opcode : Nat)
    (data : Option (List Nat)) (len : Nat) :
    (s.newControl opcode data len).1._opcode = opcode % 256
    ∧ (s.newControl opcode data len).1._mask = false
    ∧ (s.newControl opcode data len).1._finished = false
    ∧ (s.newControl opcode data len).1._len ≤ 125 := by
  rw [newControl_control]
  split_ifs
  · refine ⟨rfl, by simp [AsyncWebSocketControl.new], rfl, ?_⟩
    simp only [AsyncWebSocketControl.new]
    split_ifs <;> omega
  · exact ⟨rfl, rfl, rfl, by simp⟩

theorem runQueue_mallocs (s : AsyncWebSocketClient) : s._runQueue.mallocs = s.mallocs := by
  unfold AsyncWebSocketClient._runQueue
  simp only []
  split_ifs <;> rfl

theorem queueControl_mallocs (s : AsyncWebSocketClient) (c : AsyncWebSocketControl) :
    (s._queueControl c).mallocs = s.mallocs := by
  unfold AsyncWebSocketClient._queueControl
  simp only []
  split_ifs
  · rw [runQueue_mallocs]
  · rfl

theorem strlen_of_no_zero (m : List Nat) (h : ∀ b ∈ m, b ≠ 0) : strlen m = m.length := by
  unfold strlen
  rw [List.takeWhile_eq_self_iff.mpr]
  intro b hb
  simpa using h b hb

theorem control_new_close (buf : List Nat) (h0 : buf ≠ []) (h : buf.length ≤ 125) :
    AsyncWebSocketControl.new WS_DISCONNECT (some buf) buf.length false
      = { _opcode := 8, _data := buf, _len := buf.length, _mask := false, _finished := false } := by
  have hl : buf.length ≠ 0 := by
    intro h1; exact h0 (List.length_eq_zero.mp h1)
  have h2 : ¬ buf.length > 125 := by omega
  simp [AsyncWebSocketControl.new, WS_DISCONNECT, hl, h2]

/-- The control frame that `close(code, message)` hands to `_queueControl`, and
what is left of the record of allocations: for a non-zero code the frame carries
the code and the reason when both allocations succeed and no payload when one of
them fails. -/
theorem close_eq (s : AsyncWebSocketClient) (code : Nat) (message : Option (List Nat))
    (hs : s._status = WS_CONNECTED) (hcode : code < 65536)
    (hstr : ∀ m, message = some m → (∀ b ∈ m, b ≠ 0) ∧ m.length < 4294967296) :
    s.close code message
      = ({ s with mallocs :=
            if code ≠ 0 then
              (if s.mallocs.headD true = true then s.mallocs.tail.tail else s.mallocs.tail)
            else s.mallocs } : AsyncWebSocketClient)._queueControl
          { _opcode := 8
            _data :=
              if code ≠ 0 ∧ s.mallocs.headD true = true ∧ s.mallocs.tail.headD true = true
              then [code >>> 8, code &&& 0xFF] ++ (message.getD []).take 123
              else []
            _len :=
              if code ≠ 0 ∧ s.mallocs.headD true = true ∧ s.mallocs.tail.headD true = true
              then 2 + min (message.getD []).length 123
              else 0
            _mask := false
            _finished := false } := by
  have hc : code % 65536 = code := Nat.mod_eq_of_lt hcode
  have hhi : (code >>> 8) % 256 = code >>> 8 := by
    apply Nat.mod_eq_of_lt
    rw [Nat.shiftRight_eq_div_pow]
    omega
  have hlo : (code &&& 255) % 256 = code &&& 255 := by
    rw [and_FF]; exact Nat.mod_mod _ _
  have hempty : AsyncWebSocketControl.new WS_DISCONNECT none 0 false
      = { _opcode := 8, _data := [], _len := 0, _mask := false, _finished := false } := by
    simp [AsyncWebSocketControl.new, WS_DISCONNECT]
  unfold AsyncWebSocketClient.close
  rw [if_neg (not_not.mpr hs)]
  simp only [hc, ne_eq]
  by_cases h0 : code = 0
  · subst h0
    simp only [not_true_eq_false, if_false, false_and, hempty]
  · simp only [h0, not_false_eq_true, if_true, hhi, hlo, true_and]
    cases h1 : s.mallocs.headD true with
    | false =>
      simp only [AsyncWebSocketClient.malloc, h1, Bool.false_eq_true, if_false, false_and,
        hempty]
    | true =>
      simp only [AsyncWebSocketClient.malloc, h1, if_true, true_and]
      have key : ∀ (buf : List Nat) (n : Nat), buf ≠ [] → buf.length = n → n ≤ 125 →
          (({ s with mallocs := s.mallocs.tail } : AsyncWebSocketClient).newControl
              WS_DISCONNECT (some buf) n).2._queueControl
            (({ s with mallocs := s.mallocs.tail } : AsyncWebSocketClient).newControl
              WS_DISCONNECT (some buf) n).1
          = ({ s with mallocs := s.mallocs.tail.tail } : AsyncWebSocketClient)._queueControl
              { _opcode := 8
                _data := if s.mallocs.tail.headD true = true then buf else []
                _len := if s.mallocs.tail.headD true = true then n else 0
                _mask := false
                _finished := false } := by
        intro buf n hb hn h125
        subst hn
        have hl : buf.length ≠ 0 := by
          intro h; exact hb (List.length_eq_zero.mp h)
        have hsess : (({ s with mallocs := s.mallocs.tail } : AsyncWebSocketClient).newControl
            WS_DISCONNECT (some buf) buf.length).2
            = { s with mallocs := s.mallocs.tail.tail } := by
          simp [AsyncWebSocketClient.newControl, AsyncWebSocketClient.malloc, hl]
        rw [hsess, newControl_control]
        cases h2 : s.mallocs.tail.headD true with
        | true =>
          simp only [or_true, if_true]
          rw [control_new_close buf hb h125]
        | false =>
          simp only [Option.isNone_some, Bool.false_eq_true, hl, or_self, if_false]
          rfl
      cases message with
      | none =>
        simp only [Option.getD_none, List.take_nil, List.append_nil, List.length_nil,
          Nat.zero_min, Nat.add_zero]
        have := key [code >>> 8, code &&& 255] 2 (by simp) rfl (by omega)
        rw [this]
      | some m =>
        obtain ⟨hz, hl⟩ := hstr m rfl
        simp only [Option.getD_some, strlen_of_no_zero m hz, toSizeT, Nat.mod_eq_of_lt hl]
        have hpl : (2 + if m.length > 123 then 123 else m.length) % 256
            = 2 + min m.length 123 := by
          split_ifs <;> omega
        rw [hpl]
        have htk : List.take (2 + min m.length 123 - 2) m = List.take 123 m := by
          rw [Nat.add_sub_cancel_left]
          by_cases hm : m.length ≤ 123
          · rw [Nat.min_eq_left hm, List.take_of_length_le (Nat.le_refl _),
              List.take_of_length_le hm]
          · rw [Nat.min_eq_right (by omega)]
        rw [htk]
        have hbl : ([code >>> 8, code &&& 255] ++ List.take 123 m).length
            = 2 + min m.length 123 := by
          simp only [List.length_append, List.length_cons, List.length_nil, List.length_take]
          omega
        have := key ([code >>> 8, code &&& 255] ++ List.take 123 m) (2 + min m.length 123)
          (by simp) hbl (by omega)
        rw [this]

theorem newControl_queueControl (t : AsyncWebSocketClient) (opcode : Nat)
    (data : Option (List Nat)) (len : Nat) :
    ∃ (ms : List Bool) (c : AsyncWebSocketControl), c._opcode = opcode % 256 ∧ c._mask = false
      ∧ c._finished = false ∧ c._len ≤ 125
      ∧ (t.newControl opcode data len).2._queueControl (t.newControl opcode data len).1
        = ({ t with mallocs := ms } : AsyncWebSocketClient)._queueControl c := by
  obtain ⟨ms, hms⟩ := newControl_session t opcode data len
  obtain ⟨k1, k2, k3, k4⟩ := newControl_opcode_mask t opcode data len
  exact ⟨ms, _, k1, k2, k3, k4, by rw [hms]⟩

theorem close_is_queueControl (s : AsyncWebSocketClient) (code : Nat)
    (message : Option (List Nat)) (hs : s._status = WS_CONNECTED) :
    ∃ (ms : List Bool) (c : AsyncWebSocketControl), c._opcode = WS_DISCONNECT ∧ c._mask = false
      ∧ s.close code message
        = ({ s with mallocs := ms } : AsyncWebSocketClient)._queueControl c := by
  have hempty : (AsyncWebSocketControl.new WS_DISCONNECT none 0 false)._opcode = WS_DISCONNECT
      ∧ (AsyncWebSocketControl.new WS_DISCONNECT none 0 false)._mask = false :=
    ⟨rfl, by simp [AsyncWebSocketControl.new]⟩
  unfold AsyncWebSocketClient.close
  rw [if_neg (not_not.mpr hs)]
  by_cases h0 : code % 65536 = 0
  · rw [if_neg (not_not.mpr h0)]
    exact ⟨s.mallocs, _, hempty.1, hempty.2, rfl⟩
  · rw [if_pos h0]
    simp only []
    by_cases h1 : s.malloc.1 = true
    · rw [if_pos h1]
      obtain ⟨ms, c, k1, k2, _, _, k5⟩ := newControl_queueControl s.malloc.2 WS_DISCONNECT
        (some ([((code % 65536) >>> 8) % 256, ((code % 65536) &&& 0xFF) % 256]
          ++ (message.getD []).take
            ((2 + match message with
              | some m => if toSizeT (strlen m) > 123 then 123 else toSizeT (strlen m)
              | none => 0) % 256 - 2)))
        ((2 + match message with
              | some m => if toSizeT (strlen m) > 123 then 123 else toSizeT (strlen m)
              | none => 0) % 256)
      exact ⟨ms, c, k1, k2, k5⟩
    · rw [if_neg h1]
      exact ⟨s.mallocs.tail, _, hempty.1, hempty.2, rfl⟩

theorem take_min_length {α : Type} (l : List α) (n : Nat) :
    l.take (min l.length n) = l.take n := by
  by_cases h : l.length ≤ n
  · rw [Nat.min_eq_left h, List.take_of_length_le (Nat.le_refl _), List.take_of_length_le h]
  · rw [Nat.min_eq_right (by omega)]

/-- C20 (as stated, refuted): `close(1000, "bye")` on a Connected session when an
allocation fails. When `malloc(packetLen)` returns the null pointer, `close` goes on
to its last line and enqueues a Close frame without payload; when the buffer is
allocated but the `malloc` of the control frame's constructor fails, the frame is
left without payload as well. Either way the frame written is `88 00` although the
code is not 0. -/
theorem close_payload_lost_without_memory :
    (({ AsyncWebSocketClient.new 16 (AsyncClient.ready 100) 0 with mallocs := [false] }
        : AsyncWebSocketClient).close 1000 (some [98, 121, 101]))._controlQueue.map
        (fun c => (c._opcode, c._data, c._len)) = [(8, [], 0)]
    ∧ (({ AsyncWebSocketClient.new 16 (AsyncClient.ready 100) 0 with mallocs := [false] }
        : AsyncWebSocketClient).close 1000 (some [98, 121, 101]))._client.wire = [136, 0]
    ∧ (({ AsyncWebSocketClient.new 16 (AsyncClient.ready 100) 0 with mallocs := [true, false] }
        : AsyncWebSocketClient).close 1000 (some [98, 121, 101]))._controlQueue.map
        (fun c => (c._opcode, c._data, c._len)) = [(8, [], 0)]
    ∧ (({ AsyncWebSocketClient.new 16 (AsyncClient.ready 100) 0 with mallocs := [true, false] }
        : AsyncWebSocketClient).close 1000 (some [98, 121, 101]))._client.wire = [136, 0]
    ∧ ((AsyncWebSocketClient.new 16 (AsyncClient.ready 100) 0).close 1000
        (some [98, 121, 101]))._client.wire = [136, 5, 3, 232, 98, 121, 101] := by
  decide!

/-- C20 (amended): the Close control frame that `close(code, reason)` enqueues on a
Connected session (the last entry of the control queue afterwards). For a non-zero
status code, when the two allocations of the call succeed - the buffer of `close`
and the payload of the control frame - its payload is `[code >> 8, code & 0xFF]`
followed by the first min(length(reason), 123) bytes of the reason, at most 125
bytes in all; when one of the two allocations fails its payload is empty. For code
0 the payload is empty whatever the reason, and no allocation is made. -/
theorem close_frame_payload (s : AsyncWebSocketClient) (code : Nat)
    (message : Option (List Nat)) (hs : s._status = WS_CONNECTED) (hcode : code < 65536)
    (hstr : ∀ m, message = some m → (∀ b ∈ m, b ≠ 0) ∧ m.length < 4294967296) :
    (s.close code message)._controlQueue.length = s._controlQueue.length + 1
    ∧ (s.close code message).mallocs
        = (if code ≠ 0 then
            (if s.mallocs.headD true = true then s.mallocs.tail.tail else s.mallocs.tail)
           else s.mallocs)
    ∧ ∃ c, (s.close code message)._controlQueue.getLast? = some c
      ∧ c._opcode = WS_DISCONNECT ∧ c._len = c._data.length ∧ c._data.length ≤ 125
      ∧ (code ≠ 0 → s.mallocs.headD true = true → s.mallocs.tail.headD true = true →
          c._data = [code >>> 8, code &&& 0xFF]
            ++ (message.getD []).take (min (message.getD []).length 123))
      ∧ (code ≠ 0 → (s.mallocs.headD true = false ∨ s.mallocs.tail.headD true = false) →
          c._data = [])
      ∧ (code = 0 → c._data = []) := by
  rw [close_eq s code message hs hcode hstr]
  obtain ⟨_, _, _, _, _, _, _, hlen, c, h1, h2, h3, _, h5⟩ := queueControl_frame
    ({ s with mallocs :=
        if code ≠ 0 then
          (if s.mallocs.headD true = true then s.mallocs.tail.tail else s.mallocs.tail)
        else s.mallocs } : AsyncWebSocketClient)
    { _opcode := 8
      _data :=
        if code ≠ 0 ∧ s.mallocs.headD true = true ∧ s.mallocs.tail.headD true = true
        then [code >>> 8, code &&& 0xFF] ++ (message.getD []).take 123
        else []
      _len :=
        if code ≠ 0 ∧ s.mallocs.headD true = true ∧ s.mallocs.tail.headD true = true
        then 2 + min (message.getD []).length 123
        else 0
      _mask := false
      _finished := false }
  refine ⟨hlen, ?_, c, h1, h2, ?_, ?_, ?_, ?_, ?_⟩
  · exact queueControl_mallocs _ _
  · rw [h3, h5 rfl]
    split_ifs
    · simp only [List.length_append, List.length_cons, List.length_nil, List.length_take]
      omega
    · rfl
  · rw [h5 rfl]
    split_ifs
    · simp only [List.length_append, List.length_cons, List.length_nil, List.length_take]
      omega
    · simp
  · intro h0 ha hb
    rw [h5 rfl, take_min_length]
    simp only [ne_eq, h0, not_false_eq_true, ha, hb, and_self, if_true]
  · intro h0 hab
    rw [h5 rfl]
    have : ¬ (code ≠ 0 ∧ s.mallocs.headD true = true ∧ s.mallocs.tail.headD true = true) := by
      rintro ⟨_, ha, hb⟩
      rcases hab with h | h
      · rw [ha] at h; cases h
      · rw [hb] at h; cases h
    simp only [this, if_false]
  · intro h0
    rw [h5 rfl]
    simp [h0]

theorem close_frame_payload_witness :
    ((AsyncWebSocketClient.new 16 (AsyncClient.ready 100) 0).close 1000
        (some [98, 121, 101]))._controlQueue.length = 0 + 1
    ∧ ∃ c, ((AsyncWebSocketClient.new 16 (AsyncClient.ready 100) 0).close 1000
        (some [98, 121, 101]))._controlQueue.getLast? = some c
      ∧ c._opcode = WS_DISCONNECT ∧ c._len = c._data.length ∧ c._data.length ≤ 125
      ∧ c._data = [1000 >>> 8, 1000 &&& 0xFF]
          ++ ((some [98, 121, 101] : Option (List Nat)).getD []).take
              (min ((some [98, 121, 101] : Option (List Nat)).getD []).length 123) :=
  have h := close_frame_payload (AsyncWebSocketClient.new 16 (AsyncClient.ready 100) 0) 1000
    (some [98, 121, 101]) rfl (by decide)
    (by
      intro m hm
      cases hm
      exact ⟨by decide, by decide⟩)
  ⟨h.1, h.2.2.elim (fun c hc => ⟨c, hc.1, hc.2.1, hc.2.2.1, hc.2.2.2.1,
    hc.2.2.2.2.1 (by decide) rfl rfl⟩)⟩

/-- C19 (as stated, refuted): on a fresh Connected session `close(1000)` leaves
the status Connected; `queueIsFull()` is false afterwards and a following `text`
is taken into the message queue. -/
theorem close_does_not_leave_connected :
    ((AsyncWebSocketClient.new 16 (AsyncClient.ready 100) 0).close 1000 none)._status
        = WS_CONNECTED
    ∧ ((AsyncWebSocketClient.new 16 (AsyncClient.ready 100) 0).close 1000 none).queueIsFull 8
        = false
    ∧ (((AsyncWebSocketClient.new 16 (AsyncClient.ready 100) 0).close 1000 none).text 8
        [72, 73] 2)._messageQueue
        = [.basic (AsyncWebSocketBasicMessage.new [72, 73] 2 WS_TEXT false)] := by
  decide

/-- C19 (amended): `close(code, reason)` on a Connected session appends the Close
control frame to the control queue, to be flushed by the scheduler, and leaves the
status Connected: afterwards `queueIsFull()` tells only whether the message queue
is at capacity, and `_queueMessage` (so `text`/`binary`) still appends a message
whenever the queue has room. -/
theorem close_keeps_status (MAXQ : Nat) (s : AsyncWebSocketClient) (code : Nat)
    (message : Option (List Nat)) (hs : s._status = WS_CONNECTED) :
    (s.close code message)._status = WS_CONNECTED
    ∧ (s.close code message)._controlQueue.length = s._controlQueue.length + 1
    ∧ (∃ c, (s.close code message)._controlQueue.getLast? = some c
        ∧ c._opcode = WS_DISCONNECT)
    ∧ (s.close code message).queueIsFull MAXQ
        = decide (MAXQ ≤ (s.close code message)._messageQueue.length)
    ∧ ∀ m, (s.close code message)._messageQueue.length < MAXQ →
        (s.close code message)._queueMessage MAXQ m
          = if (s.close code message)._client.canSend = true then
              ({ s.close code message with
                  _messageQueue := (s.close code message)._messageQueue ++ [m] })._runQueue
            else { s.close code message with
                  _messageQueue := (s.close code message)._messageQueue ++ [m] } := by
  obtain ⟨ms, c, hc1, _, hc⟩ := close_is_queueControl s code message hs
  rw [hc]
  obtain ⟨g1, _, _, _, _, _, _, g8, c', g9, g10, _⟩ :=
    queueControl_frame ({ s with mallocs := ms } : AsyncWebSocketClient) c
  have g1' : (({ s with mallocs := ms } : AsyncWebSocketClient)._queueControl c)._status
      = WS_CONNECTED := g1.trans hs
  refine ⟨g1', g8, ⟨c', g9, by rw [g10, hc1]⟩, ?_, ?_⟩
  · simp [AsyncWebSocketClient.queueIsFull, g1']
  · intro m hm
    have hm' : ¬ (({ s with mallocs := ms } : AsyncWebSocketClient)._queueControl
        c)._messageQueue.length ≥ MAXQ := by omega
    simp only [AsyncWebSocketClient._queueMessage, g1', ne_eq, not_true_eq_false, if_false,
      hm']

theorem close_keeps_status_witness :
    ((AsyncWebSocketClient.new 16 (AsyncClient.ready 100) 0).close 1001 none)._status
      = WS_CONNECTED :=
  (close_keeps_status 8 (AsyncWebSocketClient.new 16 (AsyncClient.ready 100) 0) 1001 none
    rfl).1

/-- The payload part of the loop body on the whole payload of a frame: the frame
is complete and handled by `frameComplete` with the unmasked payload. -/
theorem payloadStep_whole (s : AsyncWebSocketClient) (P key : List Nat) (masked : Bool)
    (hn : P.length < 4294967296)
    (hidx : s._pinfo.index = 0) (hlen : s._pinfo.len = P.length)
    (hmsk : s._pinfo.masked = masked) (hkey : masked = true → s._pinfo.mask = key) :
    payloadStep s (if masked then applyMask P key P.length else P) P.length
      = .goOn (frameComplete s P P.length) [] 0 := by
  have hdl : min (toSizeT (u64Sub P.length 0)) P.length = P.length := by
    simp only [u64Sub, toSizeT]
    omega
  have hu : u64Add P.length 0 = P.length := by
    simp only [u64Add]
    omega
  have hdata : (if masked = true then
      unmaskChunk (if masked = true then applyMask P key P.length else P) s._pinfo.mask 0 P.length
      else (if masked = true then applyMask P key P.length else P)) = P := by
    cases masked with
    | false => simp
    | true =>
      simp only [if_true]
      rw [hkey rfl]
      have := unmaskChunk_slice P key 0 0 P.length rfl
      simp only [List.drop_zero] at this
      rw [List.take_of_length_le (by rw [applyMask_length])] at this
      rw [this, List.take_of_length_le (Nat.le_refl _)]
  unfold payloadStep
  simp only [hidx, hlen, hmsk, hdl, hu, hdata, Nat.lt_irrefl, if_false, if_true,
    List.drop_length, szSub]
  simp

/-- One whole frame arriving as one chunk at an idle parser: the header is decoded
and the frame handled by `frameComplete` with the unmasked payload. -/
theorem onData_whole_frame (MAX : Nat) (hMAX : 14 ≤ MAX) (hMAX2 : MAX < 4294967296)
    (s : AsyncWebSocketClient) (hidle : s.idle) (hbuf : s._partialHeader.length = MAX)
    (final : Bool) (opcode : Nat) (masked : Bool) (key P : List Nat) (hop : opcode < 16)
    (hkey : key.length = 4) (hkb : ∀ b ∈ key, b < 256)
    (hW : (encodeFrame final opcode masked key P).length < 4294967296) :
    ∃ buf, buf.length = MAX ∧
      s._onData MAX (encodeFrame final opcode masked key P)
        = some (frameComplete
            { s with _lastMessageTime := s.millis
                     _pinfo := { s._pinfo with index := 0, final := final, opcode := opcode,
                                               masked := masked, len := P.length,
                                               mask := if masked then key else s._pinfo.mask }
                     _partialHeader := buf
                     _partialHeaderLen := 0 } P P.length) := by
  obtain ⟨hps, hpl⟩ := hidle
  have hfl := encodeFrame_length final opcode masked key P
  obtain ⟨hbytes, h2, hlen, hdec⟩ := encodeHeader_complete final opcode masked key P.length hop
    hkey hkb (by omega)
  have hbl : (if masked then applyMask P key P.length else P).length = P.length := by
    split_ifs
    · exact applyMask_length _ _ _
    · rfl
  have hne : encodeFrame final opcode masked key P ≠ [] := by
    intro h
    rw [h] at hfl
    simp only [List.length_nil] at hfl
    omega
  have hfr : encodeFrame final opcode masked key P
      = encodeHeader final opcode masked key P.length
        ++ (if masked then applyMask P key P.length else P) := rfl
  generalize encodeHeader final opcode masked key P.length = hdr at *
  obtain ⟨buf, hbuflen, hp⟩ := parseHeader_complete MAX hMAX hMAX2
    { s with _lastMessageTime := s.millis } hdr (if masked then applyMask P key P.length else P)
    0 hbuf hbytes h2 hlen (by omega) hpl (by simp) (by rw [hbl]; omega)
  simp only [List.drop_zero] at hp
  rw [← hfr, hbl, hdec] at hp
  refine ⟨buf, hbuflen, ?_⟩
  apply onData_of_goOn MAX s _ _ [] hne
  have hps1 : ({ s with _lastMessageTime := s.millis } : AsyncWebSocketClient)._pstate = 0 :=
    hps
  rw [onDataStep_header _ _ _ _ hps1, hp]
  exact payloadStep_whole _ P key masked (by omega) rfl rfl rfl (by intro h; simp [h])

theorem newControl_some_session (t : AsyncWebSocketClient) (opcode : Nat) (data : List Nat)
    (len : Nat) :
    (t.newControl opcode (some data) len).2
      = { t with mallocs := if len = 0 then t.mallocs else t.mallocs.tail } := by
  unfold AsyncWebSocketClient.newControl AsyncWebSocketClient.malloc
  by_cases h : len = 0
  · simp [h]
  · simp [h]

theorem newControl_some_control (t : AsyncWebSocketClient) (opcode : Nat) (data : List Nat)
    (len : Nat) :
    (t.newControl opcode (some data) len).1
      = if len = 0 ∨ t.mallocs.headD true = true then
          AsyncWebSocketControl.new opcode (some data) len false
        else { _opcode := opcode % 256, _data := [], _len := 0, _mask := false,
               _finished := false } := by
  rw [newControl_control]
  simp

/-- The handling of a completed Close frame: after the optional error event the
session either is torn down (it was Disconnecting) or becomes Disconnecting and
enqueues the reciprocal Close control frame, which echoes the payload unless the
allocation of its payload fails. -/
theorem frameComplete_close (s : AsyncWebSocketClient) (data : List Nat) (datalen : Nat)
    (hop : s._pinfo.opcode = WS_DISCONNECT) :
    ∃ t : AsyncWebSocketClient, t._status = s._status ∧ t._controlQueue = s._controlQueue
      ∧ t._client = s._client ∧ t._messageQueue = s._messageQueue ∧ t.mallocs = s.mallocs
      ∧ frameComplete s data datalen
        = if t._status = WS_DISCONNECTING then
            { t with _status := WS_DISCONNECTED, _client := t._client.close }
          else
            ({ t with _status := WS_DISCONNECTING, _client := t._client.ackLater,
                      mallocs := if datalen = 0 then t.mallocs else t.mallocs.tail }
              : AsyncWebSocketClient)._queueControl
              (if datalen = 0 ∨ t.mallocs.headD true = true then
                AsyncWebSocketControl.new WS_DISCONNECT (some data) datalen false
               else { _opcode := 8, _data := [], _len := 0, _mask := false,
                      _finished := false }) := by
  have key : ∀ u : AsyncWebSocketClient,
      (if u._status = WS_DISCONNECTING then
        ({ u with _status := WS_DISCONNECTED, _client := u._client.close }
          : AsyncWebSocketClient)
      else
        (({ u with _status := WS_DISCONNECTING, _client := u._client.ackLater }
            : AsyncWebSocketClient).newControl WS_DISCONNECT (some data) datalen).2._queueControl
          (({ u with _status := WS_DISCONNECTING, _client := u._client.ackLater }
            : AsyncWebSocketClient).newControl WS_DISCONNECT (some data) datalen).1)
      = if u._status = WS_DISCONNECTING then
          { u with _status := WS_DISCONNECTED, _client := u._client.close }
        else
          ({ u with _status := WS_DISCONNECTING, _client := u._client.ackLater,
                    mallocs := if datalen = 0 then u.mallocs else u.mallocs.tail }
            : AsyncWebSocketClient)._queueControl
            (if datalen = 0 ∨ u.mallocs.headD true = true then
              AsyncWebSocketControl.new WS_DISCONNECT (some data) datalen false
             else { _opcode := 8, _data := [], _len := 0, _mask := false,
                    _finished := false }) := by
    intro u
    by_cases hs : u._status = WS_DISCONNECTING
    · rw [if_pos hs, if_pos hs]
    · rw [if_neg hs, if_neg hs, newControl_some_session, newControl_some_control]
      rfl
  refine ⟨(if datalen ≠ 0 then
      (if ((data.getD 0 0 <<< 8) % 65536 + data.getD 1 0) % 65536 > 1001 then
        ({ s with _pstate := 0 } : AsyncWebSocketClient).handleEvent
          (.WS_EVT_ERROR (((data.getD 0 0 <<< 8) % 65536 + data.getD 1 0) % 65536)
            ((data.drop 2).takeWhile (fun b => b ≠ 0)))
       else { s with _pstate := 0 })
     else { s with _pstate := 0 }), ?_, ?_, ?_, ?_, ?_, ?_⟩
  · split_ifs <;> rfl
  · split_ifs <;> rfl
  · split_ifs <;> rfl
  · split_ifs <;> rfl
  · split_ifs <;> rfl
  · rw [← key]
    unfold frameComplete
    simp only [hop, if_true]

theorem control_new_data (opcode : Nat) (P : List Nat) (h : P.length ≤ 125) :
    (AsyncWebSocketControl.new opcode (some P) P.length false)._data = P
    ∧ (AsyncWebSocketControl.new opcode (some P) P.length false)._len = P.length
    ∧ (AsyncWebSocketControl.new opcode (some P) P.length false)._mask = false
    ∧ (AsyncWebSocketControl.new opcode (some P) P.length false)._opcode = opcode % 256
    ∧ (AsyncWebSocketControl.new opcode (some P) P.length false)._finished = false := by
  have h2 : ¬ P.length > 125 := by omega
  by_cases h0 : P.length = 0
  · have : P = [] := List.length_eq_zero.mp h0
    subst this
    simp [AsyncWebSocketControl.new]
  · simp [AsyncWebSocketControl.new, h0, h2]

theorem headerFail_session (MAX : Nat) (s : AsyncWebSocketClient) (l : HeaderLocals) :
    ∃ pi ph pl, (headerFail MAX s l).session
      = { s with _pinfo := pi, _partialHeader := ph, _partialHeaderLen := pl } := by
  unfold headerFail
  split_ifs
  · exact ⟨s._pinfo, _, _, rfl⟩
  · exact ⟨s._pinfo, s._partialHeader, s._partialHeaderLen, rfl⟩

theorem headerMask_session (MAX : Nat) (s : AsyncWebSocketClient) (data : List Nat)
    (l : HeaderLocals) :
    ∃ pi ph pl, (headerMask MAX s data l).session
      = { s with _pinfo := pi, _partialHeader := ph, _partialHeaderLen := pl } := by
  unfold headerMask
  split_ifs
  · exact headerFail_session _ _ _
  · exact ⟨_, s._partialHeader, s._partialHeaderLen, rfl⟩
  · exact ⟨s._pinfo, s._partialHeader, s._partialHeaderLen, rfl⟩

theorem headerFields_session (MAX : Nat) (s : AsyncWebSocketClient) (data : List Nat)
    (l : HeaderLocals) :
    ∃ pi ph pl, (headerFields MAX s data l).session
      = { s with _pinfo := pi, _partialHeader := ph, _partialHeaderLen := pl } := by
  unfold headerFields
  simp only []
  split_ifs
  · exact headerFail_session _ _ _
  · obtain ⟨pi, ph, pl, h⟩ := headerFail_session MAX _ _
    exact ⟨pi, ph, pl, h⟩
  · obtain ⟨pi, ph, pl, h⟩ := headerMask_session MAX _ data _
    exact ⟨pi, ph, pl, h⟩
  · obtain ⟨pi, ph, pl, h⟩ := headerFail_session MAX _ _
    exact ⟨pi, ph, pl, h⟩
  · obtain ⟨pi, ph, pl, h⟩ := headerMask_session MAX _ data _
    exact ⟨pi, ph, pl, h⟩
  · obtain ⟨pi, ph, pl, h⟩ := headerMask_session MAX _ data _
    exact ⟨pi, ph, pl, h⟩

/-- The header block changes nothing of the session but the frame record and the
buffer of a truncated header. -/
theorem parseHeader_session (MAX : Nat) (s : AsyncWebSocketClient) (data : List Nat)
    (plen : Nat) :
    ∃ pi ph pl, (parseHeader MAX s data plen).session
      = { s with _pinfo := pi, _partialHeader := ph, _partialHeaderLen := pl } := by
  unfold parseHeader
  simp only []
  obtain ⟨pi, ph, pl, h⟩ := headerFields_session MAX (headerRecover MAX s data plen).1 data
    (headerRecover MAX s data plen).2
  refine ⟨pi, ph, pl, h.trans ?_⟩
  unfold headerRecover
  split_ifs <;> rfl

theorem onDataPasses_succ (MAX : Nat) (n : Nat) :
    ∀ (s : AsyncWebSocketClient) (data : List Nat) (plen : Nat) (t u : AsyncWebSocketClient)
      (d e : List Nat) (p m : Nat),
      onDataPasses MAX n s data plen = some (t, d, p) → p ≠ 0 →
      onDataStep MAX t d p = .goOn u e m →
      onDataPasses MAX (n + 1) s data plen = some (u, e, m) := by
  induction n with
  | zero =>
    intro s data plen t u d e p m h hp hstep
    simp only [onDataPasses, Option.some.injEq, Prod.mk.injEq] at h
    obtain ⟨rfl, rfl, rfl⟩ := h
    simp only [onDataPasses, hp, if_false, hstep]
  | succ n ih =>
    intro s data plen t u d e p m h hp hstep
    rw [onDataPasses] at h
    rw [onDataPasses]
    split_ifs at h ⊢ with h0
    cases ho : onDataStep MAX s data plen with
    | left v => rw [ho] at h; cases h
    | goOn v f k =>
      rw [ho] at h
      exact ih v f k t u d e p m h hp hstep

theorem onDataLoop_of_passes (MAX : Nat) (n : Nat) :
    ∀ (fuel : Nat) (s : AsyncWebSocketClient) (data : List Nat) (plen : Nat)
      (t : AsyncWebSocketClient) (d : List Nat) (p : Nat),
      onDataPasses MAX n s data plen = some (t, d, p) →
      onDataLoop MAX (fuel + n) s data plen = onDataLoop MAX fuel t d p := by
  induction n with
  | zero =>
    intro fuel s data plen t d p h
    simp only [onDataPasses, Option.some.injEq, Prod.mk.injEq] at h
    obtain ⟨rfl, rfl, rfl⟩ := h
    rfl
  | succ n ih =>
    intro fuel s data plen t d p h
    simp only [onDataPasses] at h
    split_ifs at h with hp
    have e : fuel + (n + 1) = (fuel + n) + 1 := by omega
    rw [e, onDataLoop_succ _ _ _ _ _ hp]
    cases ho : onDataStep MAX s data plen with
    | left u => rw [ho] at h; cases h
    | goOn u e m =>
      rw [ho] at h
      exact ih fuel u e m t d p h

/-- The pass of the loop body that completes a frame: the payload part takes its
branch `datalen + index == len` and hands the slice to `frameComplete`. -/
theorem payloadStep_complete (u : AsyncWebSocketClient) (data : List Nat) (plen : Nat)
    (hdone : u64Add (min (toSizeT (u64Sub u._pinfo.len u._pinfo.index)) plen) u._pinfo.index
      = u._pinfo.len) :
    ∃ d datalen, payloadStep u data plen
      = .goOn (frameComplete u d datalen) (d.drop datalen) (szSub plen datalen) := by
  unfold payloadStep
  simp only []
  rw [if_neg (by omega), if_pos hdone]
  exact ⟨_, _, rfl⟩

/-- C17: the close handshake, for the pass through the loop of `_onData` that
completes a Close frame, whatever the state of the session at the call, the
chunk and what the loop has handled before (the frame may have begun in an earlier
chunk, and may stand behind other frames of the chunk). The pass reaches its
payload part either through the header block or directly, mid-frame, and there
the opcode is Close and `datalen + index == len` holds. When the status is
Connected at that pass, it becomes Disconnecting and a reciprocal Close control
frame is enqueued (the last entry of the control queue, which is one longer),
whether or not the allocation of its payload succeeds; when the status is
Disconnecting already, it becomes Disconnected, the transport is closed and the
control queue stays as it was. The loop goes on from the session the pass leaves,
which is the result of `_onData` when the frame ends the chunk. And `_onAck` on a
Disconnecting session whose control queue is headed by a finished Close frame
dequeues it, makes the status Disconnected and closes the transport. -/
theorem close_handshake (MAX : Nat) (s0 : AsyncWebSocketClient) (pbuf : List Nat) (n : Nat)
    (s u : AsyncWebSocketClient) (data e : List Nat) (plen m : Nat)
    (hp : onDataPasses MAX n { s0 with _lastMessageTime := s0.millis } pbuf pbuf.length
      = some (s, data, plen))
    (hne : plen ≠ 0)
    (hh : (s._pstate = 0 ∧ parseHeader MAX s data plen = .parsed u e m)
      ∨ (s._pstate ≠ 0 ∧ u = s ∧ e = data ∧ m = plen))
    (hop : u._pinfo.opcode = WS_DISCONNECT)
    (hdone : u64Add (min (toSizeT (u64Sub u._pinfo.len u._pinfo.index)) m) u._pinfo.index
      = u._pinfo.len) :
    (∃ t d p, onDataStep MAX s data plen = .goOn t d p
      ∧ onDataPasses MAX (n + 1) { s0 with _lastMessageTime := s0.millis } pbuf pbuf.length
          = some (t, d, p)
      ∧ (∀ fuel, onDataLoop MAX (fuel + (n + 1)) { s0 with _lastMessageTime := s0.millis }
          pbuf pbuf.length = onDataLoop MAX fuel t d p)
      ∧ (p = 0 → n ≤ pbuf.length → s0._onData MAX pbuf = some t)
      ∧ (s._status = WS_CONNECTED →
          t._status = WS_DISCONNECTING
          ∧ t._controlQueue.length = s._controlQueue.length + 1
          ∧ ∃ c, t._controlQueue.getLast? = some c ∧ c._opcode = WS_DISCONNECT
              ∧ c._mask = false)
      ∧ (s._status = WS_DISCONNECTING →
          t._status = WS_DISCONNECTED ∧ t._client.closed = true
          ∧ t._controlQueue = s._controlQueue))
    ∧ (∀ (t : AsyncWebSocketClient) (c : AsyncWebSocketControl)
        (rest : List AsyncWebSocketControl) (len : Nat),
        t._status = WS_DISCONNECTING → t._controlQueue = c :: rest → c.finished = true →
        c.opcode = WS_DISCONNECT →
        (t._onAck len)._status = WS_DISCONNECTED ∧ (t._onAck len)._controlQueue = rest
          ∧ (t._onAck len)._client.closed = true) := by
  constructor
  · have hstep : onDataStep MAX s data plen = payloadStep u e m := by
      rcases hh with ⟨h0, hpar⟩ | ⟨h0, rfl, rfl, rfl⟩
      · rw [onDataStep_header _ _ _ _ h0, hpar]
      · exact onDataStep_payload _ _ _ _ h0
    have hus : u._status = s._status ∧ u._controlQueue = s._controlQueue := by
      rcases hh with ⟨h0, hpar⟩ | ⟨h0, rfl, rfl, rfl⟩
      · obtain ⟨pi, ph, pl, hs⟩ := parseHeader_session MAX s data plen
        rw [hpar] at hs
        simp only [HeaderOutcome.session] at hs
        rw [hs]
        exact ⟨rfl, rfl⟩
      · exact ⟨rfl, rfl⟩
    obtain ⟨d, datalen, hpay⟩ := payloadStep_complete u e m hdone
    rw [hpay] at hstep
    obtain ⟨t, t1, t2, t3, t4, t5, t6⟩ := frameComplete_close u d datalen hop
    have hpass := onDataPasses_succ MAX n _ pbuf pbuf.length s (frameComplete u d datalen)
      data (d.drop datalen) plen (szSub m datalen) hp hne hstep
    refine ⟨_, _, _, hstep, hpass, ?_, ?_, ?_, ?_⟩
    · intro fuel
      exact onDataLoop_of_passes MAX (n + 1) fuel _ pbuf pbuf.length _ _ _ hpass
    · intro h0 hn
      have e1 : pbuf.length + 1 = (pbuf.length - n) + (n + 1) := by omega
      simp only [AsyncWebSocketClient._onData]
      rw [e1, onDataLoop_of_passes MAX (n + 1) _ _ pbuf pbuf.length _ _ _ hpass, h0]
      exact onDataLoop_zero _ _ _ _
    · intro hs
      have hnd : ¬ t._status = WS_DISCONNECTING := by rw [t1, hus.1, hs]; decide
      rw [t6, if_neg hnd]
      obtain ⟨g1, _, _, _, _, _, _, g8, c, g9, g10, _, g12, _⟩ := queueControl_frame
        ({ t with _status := WS_DISCONNECTING, _client := t._client.ackLater,
                  mallocs := if datalen = 0 then t.mallocs else t.mallocs.tail }
          : AsyncWebSocketClient)
        (if datalen = 0 ∨ t.mallocs.headD true = true then
          AsyncWebSocketControl.new WS_DISCONNECT (some d) datalen false
         else { _opcode := 8, _data := [], _len := 0, _mask := false, _finished := false })
      refine ⟨g1, ?_, c, g9, ?_, ?_⟩
      · rw [g8]
        simp only [t2, hus.2]
      · rw [g10]
        split_ifs <;> rfl
      · rw [g12]
        split_ifs
        · simp [AsyncWebSocketControl.new]
        · rfl
    · intro hs
      have hd : t._status = WS_DISCONNECTING := by rw [t1, hus.1, hs]
      rw [t6, if_pos hd]
      exact ⟨rfl, rfl, t2.trans hus.2⟩
  · intro t c rest len h1 h2 h3 h4
    simp [AsyncWebSocketClient._onAck, h1, h2, h3, h4, front, AsyncClient.close]

theorem close_handshake_witness :
    ∃ s0 t d,
      feed 16 (AsyncWebSocketClient.new 16 (AsyncClient.ready 100) 0)
          [[129, 1, 65, 136, 2, 3]] = some s0
      ∧ s0._status = WS_CONNECTED ∧ s0._pstate = 1
      ∧ onDataStep 16 { s0 with _lastMessageTime := s0.millis } [232] 1 = .goOn t d 0
      ∧ s0._onData 16 [232] = some t
      ∧ t._status = WS_DISCONNECTING
      ∧ t._controlQueue.length = s0._controlQueue.length + 1
      ∧ ∃ c, t._controlQueue.getLast? = some c ∧ c._opcode = WS_DISCONNECT
          ∧ c._mask = false := by
  have h1 : (feed 16 (AsyncWebSocketClient.new 16 (AsyncClient.ready 100) 0)
      [[129, 1, 65, 136, 2, 3]]).map (fun s0 =>
        (s0._status, s0._pstate, s0._pinfo.opcode,
         decide (u64Add (min (toSizeT (u64Sub s0._pinfo.len s0._pinfo.index)) 1)
            s0._pinfo.index = s0._pinfo.len),
         (match onDataStep 16 { s0 with _lastMessageTime := s0.millis } [232] 1 with
          | .goOn _ _ p => p
          | .left _ => 1)))
      = some (WS_CONNECTED, 1, 8, true, 0) := by
    decide!
  cases hs : feed 16 (AsyncWebSocketClient.new 16 (AsyncClient.ready 100) 0)
      [[129, 1, 65, 136, 2, 3]] with
  | none => rw [hs] at h1; cases h1
  | some s0 =>
    rw [hs] at h1
    simp only [Option.map_some', Option.some.injEq, Prod.mk.injEq, decide_eq_true_eq] at h1
    obtain ⟨k1, k2, k3, k4, k5⟩ := h1
    have hps : ({ s0 with _lastMessageTime := s0.millis } : AsyncWebSocketClient)._pstate ≠ 0 := by
      show s0._pstate ≠ 0
      rw [k2]
      decide
    obtain ⟨⟨t, d, p, g1, _, _, g4, g5, _⟩, _⟩ := close_handshake 16 s0 [232] 0
      { s0 with _lastMessageTime := s0.millis } { s0 with _lastMessageTime := s0.millis }
      [232] [232] 1 1 rfl (by decide) (Or.inr ⟨hps, rfl, rfl, rfl⟩) k3 k4
    rw [g1] at k5
    simp only at k5
    subst k5
    exact ⟨s0, t, d, rfl, k1, k2, g1, g4 rfl (by decide), (g5 k1).1, (g5 k1).2.1, (g5 k1).2.2⟩

/-- C18 (the code at the failing input): a Close frame handled while the status is
Disconnected makes the status Disconnecting again and enqueues a Close control
frame, because the branch for a completed Close frame only tells Disconnecting from
everything else. On a fresh Connected session the three Close frames `88 00`
delivered in one chunk take the status through Disconnecting and Disconnected
(transport closed) back to Disconnecting. -/
theorem close_frame_reopens_disconnected :
    ((({ AsyncWebSocketClient.new 16 (AsyncClient.ready 100).close 0 with
          _status := WS_DISCONNECTED } : AsyncWebSocketClient)._onData 16 [136, 0]).map
        (fun t => (t._status, t._controlQueue.map AsyncWebSocketControl.opcode)))
      = some (WS_DISCONNECTING, [8])
    ∧ ((AsyncWebSocketClient.new 16 (AsyncClient.ready 100) 0)._onData 16
          [136, 0, 136, 0]).map (fun t => (t._status, t._client.closed))
      = some (WS_DISCONNECTED, true)
    ∧ ((AsyncWebSocketClient.new 16 (AsyncClient.ready 100) 0)._onData 16
          [136, 0, 136, 0, 136, 0]).map (fun t => (t._status, t._client.closed))
      = some (WS_DISCONNECTING, true) := by
  decide!

/-- C13 (the code at the failing input): the Ping frame `89 04 01 02 03 04`
delivered as the chunks `89 04 01 02` and `03 04`. The first two payload bytes are
handed to the application as a data event and the Pong that is enqueued (and
written at once, the transport being ready) carries only the slice of the last
chunk, `03 04`; delivered as one chunk the same frame is answered with the whole
payload. -/
theorem split_ping_pong_payload :
    (feed 16 (AsyncWebSocketClient.new 16 (AsyncClient.ready 100) 0)
        [[137, 4, 1, 2], [3, 4]]).map
        (fun t => (t._controlQueue.map (fun c => (c._opcode, c._data)), t._client.wire,
          t.events.map AwsEvent.payload))
      = some ([(10, [3, 4])], [138, 2, 3, 4], [[1, 2]])
    ∧ (feed 16 (AsyncWebSocketClient.new 16 (AsyncClient.ready 100) 0)
        [[137, 4, 1, 2, 3, 4]]).map
        (fun t => (t._controlQueue.map (fun c => (c._opcode, c._data)), t._client.wire,
          t.events.map AwsEvent.payload))
      = some ([(10, [1, 2, 3, 4])], [138, 4, 1, 2, 3, 4], []) := by
  decide!

/-- C14 (as stated, refuted): "HELLO" as a Basic text message on a transport whose
send window is 3 at every `send()`: the bytes written are `01 03 48 45 4C` and then
`80 02 4C 4F`, two frames, not the single frame `81 05 48 45 4C 4C 4F`. -/
theorem hello_window_three_not_one_frame :
    webSocketSendFrameWindow (AsyncClient.ready 11) = 3
    ∧ (sendAcked (.basic (AsyncWebSocketBasicMessage.new [72, 69, 76, 76, 79] 5 WS_TEXT false))
        [AsyncClient.ready 11, AsyncClient.ready 11, AsyncClient.ready 11]).flatten
      = [1, 3, 72, 69, 76, 128, 2, 76, 79]
    ∧ (sendAcked (.basic (AsyncWebSocketBasicMessage.new [72, 69, 76, 76, 79] 5 WS_TEXT false))
        [AsyncClient.ready 11, AsyncClient.ready 11, AsyncClient.ready 11]).flatten
      ≠ [129, 5, 72, 69, 76, 76, 79] := by
  decide!

/-- C14 (amended): "HELLO" as a text message of either variant, sent on transports
whose send window is 3 at each `send()` call and which take what is offered: the
first call writes the text frame `01 03 48 45 4C` (FIN = 0, length 3), the second
the continuation frame `80 02 4C 4F` (FIN = 1, length 2); the payloads of the two
frames concatenate to "HELLO". -/
theorem hello_window_three (m0 : AsyncWebSocketMessage)
    (hm : m0 = .basic (AsyncWebSocketBasicMessage.new [72, 69, 76, 76, 79] 5 WS_TEXT false)
      ∨ m0 = .multi (AsyncWebSocketMultiMessage.new ⟨some [72, 69, 76, 76, 79]⟩ WS_TEXT false))
    (c1 c2 : AsyncClient)
    (h1 : webSocketSendFrameWindow c1 = 3 ∧ c1.accepts = [] ∧ c1.space < 4294967296)
    (h2 : webSocketSendFrameWindow c2 = 3 ∧ c2.accepts = [] ∧ c2.space < 4294967296) :
    sendAcked m0 [c1, c2] = [[0x01, 3, 72, 69, 76], [0x80, 2, 76, 79]]
    ∧ [0x01, 3, 72, 69, 76] = (SentFrame.mk false WS_TEXT [72, 69, 76]).bytes
    ∧ [0x80, 2, 76, 79] = (SentFrame.mk true WS_CONTINUATION [76, 79]).bytes := by
  refine ⟨?_, by decide, by decide⟩
  obtain ⟨w1, a1, s1⟩ := h1
  obtain ⟨w2, a2, s2⟩ := h2
  obtain ⟨k1, p1⟩ := window_pos c1 (by omega)
  obtain ⟨k2, p2⟩ := window_pos c2 (by omega)
  have e1 : c1.space - 8 = 3 := by rw [← window_of_space c1 k1 p1 s1]; exact w1
  have e2 : c2.space - 8 = 3 := by rw [← window_of_space c2 k2 p2 s2]; exact w2
  have hpend : m0.pending [72, 69, 76, 76, 79] 1 0 := by
    rcases hm with rfl | rfl
    · simp [AsyncWebSocketMessage.pending, AsyncWebSocketBasicMessage.new, WS_TEXT]
    · simp [AsyncWebSocketMessage.pending, AsyncWebSocketMultiMessage.new, WS_TEXT,
        SharedBuffer.toBool]
  have hrun := sendAcked_fragments [72, 69, 76, 76, 79] 1 (by decide) [c1, c2] m0 0 hpend
    (by decide) (by
      intro c hc
      simp only [List.mem_cons, List.mem_singleton, List.not_mem_nil, or_false] at hc
      rcases hc with rfl | rfl
      · exact ⟨k1, a1, p1, s1⟩
      · exact ⟨k2, a2, p2, s2⟩)
  rw [hrun]
  simp only [List.map_cons, List.map_nil, e1, e2, List.length_cons, List.length_nil]
  decide

theorem hello_window_three_witness :
    sendAcked (.multi (AsyncWebSocketMultiMessage.new ⟨some [72, 69, 76, 76, 79]⟩ WS_TEXT false))
        [AsyncClient.ready 11, AsyncClient.ready 11]
      = [[0x01, 3, 72, 69, 76], [0x80, 2, 76, 79]] :=
  (hello_window_three _ (Or.inr rfl) (AsyncClient.ready 11) (AsyncClient.ready 11)
    (by decide) (by decide)).1

/-- The handling of a completed Ping frame: a Pong control frame is handed to
`_queueControl`, with the payload of the Ping unless the allocation of its payload
fails. -/
theorem frameComplete_ping (s : AsyncWebSocketClient) (data : List Nat) (datalen : Nat)
    (hop : s._pinfo.opcode = WS_PING) :
    frameComplete s data datalen
      = ({ s with _pstate := 0,
                  mallocs := if datalen = 0 then s.mallocs else s.mallocs.tail }
          : AsyncWebSocketClient)._queueControl
          (if datalen = 0 ∨ s.mallocs.headD true = true then
            AsyncWebSocketControl.new WS_PONG (some data) datalen false
           else { _opcode := 10, _data := [], _len := 0, _mask := false,
                  _finished := false }) := by
  unfold frameComplete
  simp only [hop, WS_PING, WS_DISCONNECT, if_true]
  simp only [show ¬ (9 = 8) by decide, if_false]
  rw [newControl_some_session, newControl_some_control]
  rfl

/-- An unmasked frame on a transport that can send, has room for the header and
takes what is offered: the header and the payload are written. -/
theorem webSocketSendFrame_unmasked_wire (c : AsyncClient) (final : Bool) (opcode : Nat)
    (data : List Nat) (len : Nat) (hcan : c.canSend = true) (hacc : c.accepts = [])
    (hsp : 8 < c.space) (hdl : len ≤ data.length) :
    (webSocketSendFrame c final opcode false data len).2.1.wire
        = c.wire ++ (sentHeader final opcode len ++ data.take len)
    ∧ (webSocketSendFrame c final opcode false data len).2.1.sends = c.sends + 1 := by
  have hhl : webSocketHeaderLength false len ≤ c.space := by
    unfold webSocketHeaderLength
    split_ifs <;> omega
  have hsl := sentHeader_length final opcode len
  have hpos : 2 ≤ webSocketHeaderLength false len := by
    unfold webSocketHeaderLength
    split_ifs <;> omega
  unfold webSocketSendFrame
  simp only [Bool.false_eq_true, if_false]
  rw [webSocketSendFrameHeader_unmasked c final opcode len hcan hhl]
  have hadd : (c.add (sentHeader final opcode len)).1 = (sentHeader final opcode len).length := by
    simp [AsyncClient.add, hacc]
  have hne : ¬ (c.add (sentHeader final opcode len)).1 = 0 := by
    rw [hadd, hsl]; omega
  simp only [hne, if_false]
  by_cases h0 : len = 0
  · subst h0
    simp [AsyncClient.add, AsyncClient.send, hacc]
  · simp only [ne_eq, h0, not_false_eq_true, if_true]
    simp [AsyncClient.add, AsyncClient.send, hacc]

/-- The scheduler with an unmasked control frame at the head of the control
queue, the message queue empty or at a frame boundary, and a transport with
enough window that takes what is offered: the control frame is written. -/
theorem runQueue_sends_control (t : AsyncWebSocketClient) (c : AsyncWebSocketControl)
    (rest : List AsyncWebSocketControl) (hq : t._controlQueue = c :: rest)
    (hmask : c._mask = false) (hlen : c._len = c._data.length) (h125 : c._len ≤ 125)
    (hmq : dropFinished t._messageQueue = []
      ∨ (front (dropFinished t._messageQueue)).betweenFrames = true)
    (hcan : t._client.canSend = true) (hacc : t._client.accepts = [])
    (hsp : c._len + 9 < t._client.space) (hsp2 : t._client.space < 4294967296) :
    t._runQueue._client.wire
        = t._client.wire ++ (sentHeader true (c._opcode &&& 0x0F) c._len ++ c._data)
    ∧ t._runQueue._client.sends = t._client.sends + 1 := by
  have hw := window_of_space t._client hcan (by omega) hsp2
  have hcl : szSub c.len 1 = c._len + 1 := by
    simp only [AsyncWebSocketControl.len, szSub]
    omega
  have hmq' : ((dropFinished t._messageQueue).isEmpty
      || (front (dropFinished t._messageQueue)).betweenFrames) = true := by
    rcases hmq with h | h
    · simp [h]
    · simp [h]
  obtain ⟨g1, g2⟩ := webSocketSendFrame_unmasked_wire t._client true (c._opcode &&& 0x0F)
    c._data c._len hcan hacc (by omega) (by omega)
  rw [show c._data.take c._len = c._data from by rw [hlen]; exact List.take_length _] at g1
  have hgt : webSocketSendFrameWindow t._client > szSub (front t._controlQueue).len 1 := by
    rw [hq]
    simp only [front, List.headD_cons, hcl, hw]
    omega
  unfold AsyncWebSocketClient._runQueue
  simp only [front] at hmq'
  simp only [hq, List.isEmpty_cons, Bool.not_false, Bool.true_and, hmq', front,
    List.headD_cons] at hgt ⊢
  simp only [hgt, decide_True, Bool.and_self, if_true, AsyncWebSocketControl.send, hmask]
  exact ⟨g1, g2⟩

/-- The scheduler under the conditions of `runQueue_sends_control`: the control
frame at the head is replaced by the one its `send` leaves. -/
theorem runQueue_control_step (t : AsyncWebSocketClient) (c : AsyncWebSocketControl)
    (rest : List AsyncWebSocketControl) (hq : t._controlQueue = c :: rest)
    (hmq : dropFinished t._messageQueue = []
      ∨ (front (dropFinished t._messageQueue)).betweenFrames = true)
    (hcan : t._client.canSend = true)
    (hsp : c._len + 9 < t._client.space) (hsp2 : t._client.space < 4294967296)
    (h125 : c._len ≤ 125) :
    t._runQueue = { t with _messageQueue := dropFinished t._messageQueue,
                           _controlQueue := (c.send t._client).2.1 :: rest,
                           _client := (c.send t._client).2.2 } := by
  have hw := window_of_space t._client hcan (by omega) hsp2
  have hcl : szSub c.len 1 = c._len + 1 := by
    simp only [AsyncWebSocketControl.len, szSub]
    omega
  have hmq' : ((dropFinished t._messageQueue).isEmpty
      || (front (dropFinished t._messageQueue)).betweenFrames) = true := by
    rcases hmq with h | h
    · simp [h]
    · simp [h]
  have hgt : webSocketSendFrameWindow t._client > szSub (front t._controlQueue).len 1 := by
    rw [hq]
    simp only [front, List.headD_cons, hcl, hw]
    omega
  unfold AsyncWebSocketClient._runQueue
  simp only [front] at hmq'
  simp only [hq, List.isEmpty_cons, Bool.not_false, Bool.true_and, hmq', front,
    List.headD_cons] at hgt ⊢
  simp only [hgt, decide_True, Bool.and_self, if_true, List.tail_cons]

/-- What `_queueControl` does with an unmasked control frame of at most 125 bytes:
on a transport that cannot send the frame is appended and nothing else happens; on
one that can send, with the control queue empty before, the message queue empty or
at a frame boundary and enough window, the frame is written and left finished. -/
theorem queueControl_unmasked (X : AsyncWebSocketClient) (c : AsyncWebSocketControl)
    (hmask : c._mask = false) (hlen : c._len = c._data.length) (h125 : c._len ≤ 125) :
    (X._client.canSend = false →
      X._queueControl c = { X with _controlQueue := X._controlQueue ++ [c] })
    ∧ (X._client.canSend = true → X._controlQueue = [] →
        (dropFinished X._messageQueue = []
          ∨ (front (dropFinished X._messageQueue)).betweenFrames = true) →
        X._client.accepts = [] → c._len + 9 < X._client.space →
        X._client.space < 4294967296 →
        (X._queueControl c)._client.wire
            = X._client.wire ++ (sentHeader true (c._opcode &&& 0x0F) c._len ++ c._data)
        ∧ (X._queueControl c)._client.sends = X._client.sends + 1
        ∧ (X._queueControl c)._controlQueue.map
              (fun c => (c._opcode, c._data, c._len, c._mask, c._finished))
            = [(c._opcode, c._data, c._len, false, true)]) := by
  constructor
  · intro hcan
    unfold AsyncWebSocketClient._queueControl
    simp only [hcan, Bool.false_eq_true, if_false]
  · intro hcan hq hmq hacc hsp hsp2
    have hq' : ({ X with _controlQueue := X._controlQueue ++ [c] }
        : AsyncWebSocketClient)._controlQueue = c :: [] := by
      simp only [hq, List.nil_append]
    have e : X._queueControl c
        = ({ X with _controlQueue := X._controlQueue ++ [c] } : AsyncWebSocketClient)._runQueue := by
      unfold AsyncWebSocketClient._queueControl
      simp only [hcan, if_true]
    obtain ⟨w1, w2⟩ := runQueue_sends_control _ c [] hq' hmask hlen h125 hmq hcan hacc hsp hsp2
    rw [e]
    refine ⟨w1, w2, ?_⟩
    rw [runQueue_control_step _ c [] hq' hmq hcan hsp hsp2 h125]
    obtain ⟨c1, c2, c3, c4, c5⟩ := control_send_fields c X._client
    simp only [List.map_cons, List.map_nil, c1, c2, c3, c4, c5 hmask, hmask]

/-- C12 (as stated, refuted): the Ping frame `89 04 01 02 03 04` received when the
`malloc` of the Pong's payload fails. The constructor of the control frame then
sets the length to 0, and the Pong that is enqueued and written is `8A 00`, not a
frame with the identical payload. When the allocation succeeds the same Ping is
answered with `8A 04 01 02 03 04`. -/
theorem pong_payload_lost_without_memory :
    (({ AsyncWebSocketClient.new 16 (AsyncClient.ready 100) 0 with mallocs := [false] }
        : AsyncWebSocketClient)._onData 16 [137, 4, 1, 2, 3, 4]).map
        (fun t => (t._controlQueue.map (fun c => (c._opcode, c._data)),
          t._client.wire))
      = some ([(10, [])], [138, 0])
    ∧ ((AsyncWebSocketClient.new 16 (AsyncClient.ready 100) 0)._onData 16
        [137, 4, 1, 2, 3, 4]).map
        (fun t => (t._controlQueue.map (fun c => (c._opcode, c._data)),
          t._client.wire))
      = some ([(10, [1, 2, 3, 4])], [138, 4, 1, 2, 3, 4]) := by
  decide!

/-- C12 (amended): a complete Ping frame with a payload `P` of at most 125 bytes,
arriving in one chunk at an idle parser, enqueues an unmasked Pong control frame
whose payload `Q` is `P` when the allocation of the Pong's payload succeeds and
empty when it fails. `_queueControl` appends the Pong to the control queue; when
the transport cannot send it stays there, unfinished, with nothing written. When
the transport can send, `_queueControl` calls `_runQueue` at once, which - the
control queue having been empty, the message queue empty or at a frame boundary,
and the transport having enough window and taking what is offered - writes exactly
one frame, `8A`, the length byte and the payload (`8A 04 01 02 03 04` for the
payload `01 02 03 04`), and leaves the Pong finished. The same frame is written by
any later run of `_runQueue` that finds the unfinished Pong at the head of the
control queue under these conditions. -/
theorem ping_answered_by_pong (MAX : Nat) (hMAX : 14 ≤ MAX) (hMAX2 : MAX < 4294967296)
    (s : AsyncWebSocketClient) (hidle : s.idle) (hbuf : s._partialHeader.length = MAX)
    (final masked : Bool) (key P Q : List Nat) (hkey : key.length = 4)
    (hkb : ∀ b ∈ key, b < 256) (hP : P.length ≤ 125)
    (hQ : Q = if s.mallocs.headD true = true then P else []) :
    (∃ s', s._onData MAX (encodeFrame final WS_PING masked key P) = some s'
      ∧ s'._status = s._status ∧ s'.events = s.events
      ∧ s'._controlQueue.length = s._controlQueue.length + 1
      ∧ (s._client.canSend = false →
          s'._controlQueue = s._controlQueue
            ++ [{ _opcode := WS_PONG, _data := Q, _len := Q.length, _mask := false,
                  _finished := false }]
          ∧ s'._client = s._client ∧ s'._messageQueue = s._messageQueue)
      ∧ (s._client.canSend = true → s._controlQueue = [] →
          (dropFinished s._messageQueue = []
            ∨ (front (dropFinished s._messageQueue)).betweenFrames = true) →
          s._client.accepts = [] → P.length + 9 < s._client.space →
          s._client.space < 4294967296 →
          s'._client.wire = s._client.wire ++ ([0x8A, Q.length] ++ Q)
          ∧ s'._client.sends = s._client.sends + 1
          ∧ s'._controlQueue.map (fun c => (c._opcode, c._data, c._len, c._mask, c._finished))
              = [(WS_PONG, Q, Q.length, false, true)]))
    ∧ ∀ (t : AsyncWebSocketClient) (rest : List AsyncWebSocketControl),
        t._controlQueue
          = { _opcode := WS_PONG, _data := Q, _len := Q.length, _mask := false,
              _finished := false } :: rest →
        (dropFinished t._messageQueue = []
          ∨ (front (dropFinished t._messageQueue)).betweenFrames = true) →
        t._client.canSend = true → t._client.accepts = [] →
        Q.length + 9 < t._client.space → t._client.space < 4294967296 →
        t._runQueue._client.wire = t._client.wire ++ ([0x8A, Q.length] ++ Q)
          ∧ t._runQueue._client.sends = t._client.sends + 1 := by
  have hQl : Q.length ≤ 125 := by
    rw [hQ]
    split_ifs
    · exact hP
    · simp
  have hwire : ∀ (t : AsyncWebSocketClient) (rest : List AsyncWebSocketControl),
      t._controlQueue
        = { _opcode := WS_PONG, _data := Q, _len := Q.length, _mask := false,
            _finished := false } :: rest →
      (dropFinished t._messageQueue = []
        ∨ (front (dropFinished t._messageQueue)).betweenFrames = true) →
      t._client.canSend = true → t._client.accepts = [] →
      Q.length + 9 < t._client.space → t._client.space < 4294967296 →
      t._runQueue._client.wire = t._client.wire ++ ([0x8A, Q.length] ++ Q)
        ∧ t._runQueue._client.sends = t._client.sends + 1 := by
    intro t rest hq hmq hcan hacc hsp hsp2
    obtain ⟨g1, g2⟩ := runQueue_sends_control t _ rest hq rfl rfl hQl hmq hcan hacc hsp hsp2
    refine ⟨?_, g2⟩
    rw [g1]
    have hh : sentHeader true (WS_PONG &&& 0x0F) Q.length = [0x8A, Q.length] := by
      rw [sentHeader_eq true _ Q.length (by decide) (by omega)]
      have : Q.length < 126 := by omega
      simp only [this, if_true]
      rfl
    exact congrArg (fun x => t._client.wire ++ (x ++ Q)) hh
  refine ⟨?_, hwire⟩
  have hfl := encodeFrame_length final WS_PING masked key P
  have hhl := headerLenOf_le ((encodeHeader final WS_PING masked key P.length).getD 1 0)
  obtain ⟨_, _, hlen, _⟩ := encodeHeader_complete final WS_PING masked key P.length
    (by decide) hkey hkb (by omega)
  obtain ⟨buf, _, hd⟩ := onData_whole_frame MAX hMAX hMAX2 s hidle hbuf final WS_PING
    masked key P (by decide) hkey hkb (by omega)
  rw [frameComplete_ping _ _ _ rfl] at hd
  obtain ⟨k1, k2, k3, k4, k5⟩ := control_new_data WS_PONG P hP
  have hnew : AsyncWebSocketControl.new WS_PONG (some P) P.length false
      = { _opcode := WS_PONG, _data := P, _len := P.length, _mask := false,
          _finished := false } := by
    cases hn : AsyncWebSocketControl.new WS_PONG (some P) P.length false
    rw [hn] at k1 k2 k3 k4 k5
    simp only at k1 k2 k3 k4 k5
    rw [k1, k2, k3, k4, k5]
    rfl
  have hc : (if P.length = 0 ∨ s.mallocs.headD true = true then
        AsyncWebSocketControl.new WS_PONG (some P) P.length false
      else { _opcode := 10, _data := [], _len := 0, _mask := false, _finished := false })
      = { _opcode := WS_PONG, _data := Q, _len := Q.length, _mask := false,
          _finished := false } := by
    rw [hQ, hnew]
    by_cases hm : s.mallocs.headD true = true
    · simp only [hm, or_true, if_true]
    · by_cases h0 : P.length = 0
      · have : P = [] := List.length_eq_zero.mp h0
        subst this
        simp
      · simp only [hm, h0, or_self, if_false]
        rfl
  simp only [] at hd
  rw [hc] at hd
  have hQP : Q.length ≤ P.length := by
    rw [hQ]
    split_ifs
    · exact Nat.le_refl _
    · simp
  have hh : sentHeader true (WS_PONG &&& 0x0F) Q.length = [0x8A, Q.length] := by
    rw [sentHeader_eq true _ Q.length (by decide) (by omega)]
    have : Q.length < 126 := by omega
    simp only [this, if_true]
    rfl
  obtain ⟨g1, _, _, _, _, g6, _, g8, _⟩ := queueControl_frame
    ({ s with _lastMessageTime := s.millis
              _pinfo := { s._pinfo with index := 0, final := final, opcode := WS_PING,
                                        masked := masked, len := P.length,
                                        mask := if masked then key else s._pinfo.mask }
              _partialHeader := buf
              _partialHeaderLen := 0
              _pstate := 0
              mallocs := if P.length = 0 then s.mallocs else s.mallocs.tail }
      : AsyncWebSocketClient)
    { _opcode := WS_PONG, _data := Q, _len := Q.length, _mask := false, _finished := false }
  obtain ⟨q1, q2⟩ := queueControl_unmasked
    ({ s with _lastMessageTime := s.millis
              _pinfo := { s._pinfo with index := 0, final := final, opcode := WS_PING,
                                        masked := masked, len := P.length,
                                        mask := if masked then key else s._pinfo.mask }
              _partialHeader := buf
              _partialHeaderLen := 0
              _pstate := 0
              mallocs := if P.length = 0 then s.mallocs else s.mallocs.tail }
      : AsyncWebSocketClient)
    { _opcode := WS_PONG, _data := Q, _len := Q.length, _mask := false, _finished := false }
    rfl rfl hQl
  refine ⟨_, hd, g1, g6, g8, ?_, ?_⟩
  · intro hcan
    rw [q1 hcan]
    exact ⟨rfl, rfl, rfl⟩
  · intro hcan hq hmq hacc hsp hsp2
    have hsp' : Q.length + 9 < s._client.space := by omega
    obtain ⟨w1, w2, w3⟩ := q2 hcan hq hmq hacc hsp' hsp2
    refine ⟨?_, w2, w3⟩
    rw [w1]
    exact congrArg (fun x => s._client.wire ++ (x ++ Q)) hh

theorem ping_answered_by_pong_witness :
    ∃ s', (AsyncWebSocketClient.new 16 (AsyncClient.ready 100) 0)._onData 16
        (encodeFrame true WS_PING true [5, 6, 7, 8] [1, 2, 3, 4]) = some s'
      ∧ s'._client.wire = (AsyncClient.ready 100).wire ++ ([0x8A, [1, 2, 3, 4].length]
          ++ [1, 2, 3, 4])
      ∧ s'._client.sends = (AsyncClient.ready 100).sends + 1
      ∧ s'._controlQueue.map (fun c => (c._opcode, c._data, c._len, c._mask, c._finished))
          = [(WS_PONG, [1, 2, 3, 4], [1, 2, 3, 4].length, false, true)] :=
  (ping_answered_by_pong 16 (by decide) (by decide)
    (AsyncWebSocketClient.new 16 (AsyncClient.ready 100) 0) (by decide) (by decide)
    true true [5, 6, 7, 8] [1, 2, 3, 4] [1, 2, 3, 4] (by decide) (by decide) (by decide)
    rfl).1.elim
    (fun s' h => ⟨s', h.1, h.2.2.2.2.2 rfl rfl (Or.inl rfl) rfl (by decide) (by decide)⟩)

theorem runQueue_messageQueue_length (s : AsyncWebSocketClient) :
    s._runQueue._messageQueue.length = (dropFinished s._messageQueue).length := by
  unfold AsyncWebSocketClient._runQueue
  simp only []
  split_ifs with h1 h2
  · rfl
  · cases hq : dropFinished s._messageQueue with
    | nil => simp [hq] at h2
    | cons m rest => simp
  · rfl

theorem runQueue_length_le (s : AsyncWebSocketClient) :
    s._runQueue._messageQueue.length ≤ s._messageQueue.length :=
  (runQueue_frame s).2.2.2.2.2.2.2.2.2.1

theorem queueMessage_full (MAXQ : Nat) (s : AsyncWebSocketClient) (m : AsyncWebSocketMessage)
    (hs : s._status = WS_CONNECTED) (hfull : MAXQ ≤ s._messageQueue.length) :
    s._queueMessage MAXQ m = if s._client.canSend = true then s._runQueue else s := by
  simp [AsyncWebSocketClient._queueMessage, hs, hfull]

theorem queueMessage_length_le (MAXQ : Nat) (s : AsyncWebSocketClient)
    (m : AsyncWebSocketMessage) (h : s._messageQueue.length ≤ MAXQ) :
    (s._queueMessage MAXQ m)._messageQueue.length ≤ MAXQ := by
  unfold AsyncWebSocketClient._queueMessage
  simp only []
  split_ifs with h1 h2 h3 h3
  · exact h
  · exact Nat.le_trans (runQueue_length_le s) h
  · exact h
  · refine Nat.le_trans (runQueue_length_le _) ?_
    simp only [List.length_append, List.length_cons, List.length_nil]
    omega
  · simp only [List.length_append, List.length_cons, List.length_nil]
    omega

theorem onAckTail_length_le (s : AsyncWebSocketClient) (len : Nat) :
    (onAckTail s len)._messageQueue.length ≤ s._messageQueue.length := by
  unfold onAckTail
  simp only []
  split_ifs with h
  · refine Nat.le_trans (runQueue_length_le _) ?_
    cases hq : s._messageQueue with
    | nil => simp [hq] at h
    | cons a q => simp
  · exact runQueue_length_le s

theorem onAck_length_le (s : AsyncWebSocketClient) (len : Nat) :
    (s._onAck len)._messageQueue.length ≤ s._messageQueue.length := by
  unfold AsyncWebSocketClient._onAck
  simp only []
  split_ifs
  · exact Nat.le_refl _
  · exact onAckTail_length_le _ _
  · exact onAckTail_length_le _ _

/-- The call `ping` either returns at once or hands an unmasked Ping control frame
to `_queueControl`; nothing else of the session changes but the record of the
allocations to come. -/
theorem ping_cases (s : AsyncWebSocketClient) (data : Option (List Nat)) (len : Nat) :
    s.ping data len = s
    ∨ ∃ (ms : List Bool) (c : AsyncWebSocketControl), c._opcode = WS_PING ∧ c._mask = false
        ∧ s.ping data len = ({ s with mallocs := ms } : AsyncWebSocketClient)._queueControl c := by
  unfold AsyncWebSocketClient.ping
  by_cases hs : s._status = WS_CONNECTED
  · rw [if_pos hs]
    obtain ⟨ms, c, k1, k2, _, _, k5⟩ := newControl_queueControl s WS_PING data len
    exact Or.inr ⟨ms, c, k1, k2, k5⟩
  · rw [if_neg hs]
    exact Or.inl rfl

/-- The call `close` either returns at once or hands an unmasked Close control
frame to `_queueControl`. -/
theorem close_cases (s : AsyncWebSocketClient) (code : Nat) (message : Option (List Nat)) :
    s.close code message = s
    ∨ ∃ (ms : List Bool) (c : AsyncWebSocketControl), c._opcode = WS_DISCONNECT
        ∧ c._mask = false
        ∧ s.close code message
          = ({ s with mallocs := ms } : AsyncWebSocketClient)._queueControl c := by
  by_cases hs : s._status = WS_CONNECTED
  · exact Or.inr (close_is_queueControl s code message hs)
  · left
    unfold AsyncWebSocketClient.close
    rw [if_pos hs]

theorem ping_length_le (s : AsyncWebSocketClient) (data : Option (List Nat)) (len : Nat) :
    (s.ping data len)._messageQueue.length ≤ s._messageQueue.length := by
  rcases ping_cases s data len with h | ⟨ms, c, _, _, h⟩
  · rw [h]
  · rw [h]
    exact (queueControl_frame ({ s with mallocs := ms } : AsyncWebSocketClient)
      c).2.2.2.2.2.2.1

theorem close_length_le (s : AsyncWebSocketClient) (code : Nat) (message : Option (List Nat)) :
    (s.close code message)._messageQueue.length ≤ s._messageQueue.length := by
  rcases close_cases s code message with h | ⟨ms, c, _, _, h⟩
  · rw [h]
  · rw [h]
    exact (queueControl_frame ({ s with mallocs := ms } : AsyncWebSocketClient)
      c).2.2.2.2.2.2.1

theorem onPoll_length_le (s : AsyncWebSocketClient) :
    s._onPoll._messageQueue.length ≤ s._messageQueue.length := by
  unfold AsyncWebSocketClient._onPoll
  split_ifs
  · exact runQueue_length_le s
  · exact ping_length_le _ _ _
  · exact Nat.le_refl _

/-- No event on a session makes the message queue longer than the capacity. -/
theorem op_queue_bound (MAXQ : Nat) (s : AsyncWebSocketClient) (op : SessionOp)
    (h : s._messageQueue.length ≤ MAXQ) : (s.op MAXQ op)._messageQueue.length ≤ MAXQ := by
  cases op with
  | queueMessage m => exact queueMessage_length_le MAXQ s m h
  | queueControl c => exact Nat.le_trans (queueControl_frame s c).2.2.2.2.2.2.1 h
  | text message len => exact queueMessage_length_le MAXQ s _ h
  | binary message len => exact queueMessage_length_le MAXQ s _ h
  | ping data len => exact Nat.le_trans (ping_length_le s data len) h
  | close code message => exact Nat.le_trans (close_length_le s code message) h
  | onAck len => exact Nat.le_trans (onAck_length_le s len) h
  | onPoll => exact Nat.le_trans (onPoll_length_le s) h
  | onTimeout => exact h
  | transport canSend space accepts => exact h

theorem headerFail_queue (MAX : Nat) (s : AsyncWebSocketClient) (l : HeaderLocals) :
    (headerFail MAX s l).session._messageQueue = s._messageQueue := by
  unfold headerFail
  split_ifs <;> rfl

theorem headerMask_queue (MAX : Nat) (s : AsyncWebSocketClient) (data : List Nat)
    (l : HeaderLocals) :
    (headerMask MAX s data l).session._messageQueue = s._messageQueue := by
  unfold headerMask
  split_ifs
  · exact headerFail_queue _ _ _
  · rfl
  · rfl

theorem headerFields_queue (MAX : Nat) (s : AsyncWebSocketClient) (data : List Nat)
    (l : HeaderLocals) :
    (headerFields MAX s data l).session._messageQueue = s._messageQueue := by
  unfold headerFields
  simp only []
  split_ifs
  · exact headerFail_queue _ _ _
  · exact headerFail_queue _ _ _
  · exact headerMask_queue _ _ _ _
  · exact headerFail_queue _ _ _
  · exact headerMask_queue _ _ _ _
  · exact headerMask_queue _ _ _ _

theorem parseHeader_queue (MAX : Nat) (s : AsyncWebSocketClient) (data : List Nat)
    (plen : Nat) :
    (parseHeader MAX s data plen).session._messageQueue = s._messageQueue := by
  unfold parseHeader
  simp only []
  rw [headerFields_queue]
  unfold headerRecover
  split_ifs <;> rfl

theorem frameComplete_length_le (s : AsyncWebSocketClient) (data : List Nat) (datalen : Nat) :
    (frameComplete s data datalen)._messageQueue.length ≤ s._messageQueue.length := by
  by_cases h8 : s._pinfo.opcode = WS_DISCONNECT
  · obtain ⟨t, _, _, _, t4, _, t5⟩ := frameComplete_close s data datalen h8
    rw [t5, ← t4]
    by_cases hd : t._status = WS_DISCONNECTING
    · rw [if_pos hd]
    · rw [if_neg hd]
      exact (queueControl_frame _ _).2.2.2.2.2.2.1
  · by_cases h9 : s._pinfo.opcode = WS_PING
    · rw [frameComplete_ping s data datalen h9]
      exact (queueControl_frame _ _).2.2.2.2.2.2.1
    · unfold frameComplete
      simp only [h8, h9, if_false]
      split_ifs <;> exact Nat.le_refl _

theorem payloadStep_length_le (s : AsyncWebSocketClient) (data : List Nat) (plen : Nat) :
    (payloadStep s data plen).session._messageQueue.length ≤ s._messageQueue.length := by
  unfold payloadStep
  simp only []
  split_ifs
  all_goals first
    | exact Nat.le_refl _
    | exact frameComplete_length_le _ _ _

theorem onDataStep_length_le (MAX : Nat) (s : AsyncWebSocketClient) (data : List Nat)
    (plen : Nat) :
    (onDataStep MAX s data plen).session._messageQueue.length ≤ s._messageQueue.length := by
  unfold onDataStep
  split_ifs
  · have hq := parseHeader_queue MAX s data plen
    cases hp : parseHeader MAX s data plen with
    | truncated t =>
      rw [hp] at hq
      simp only [HeaderOutcome.session] at hq
      simp only [LoopOutcome.session, hq]
      exact Nat.le_refl _
    | parsed t d n =>
      rw [hp] at hq
      simp only [HeaderOutcome.session] at hq
      simp only []
      rw [← hq]
      exact payloadStep_length_le _ _ _
  · exact payloadStep_length_le _ _ _

theorem onDataLoop_length_le (MAX : Nat) (fuel : Nat) :
    ∀ (s : AsyncWebSocketClient) (data : List Nat) (plen : Nat) (s' : AsyncWebSocketClient),
      onDataLoop MAX fuel s data plen = some s' →
      s'._messageQueue.length ≤ s._messageQueue.length := by
  induction fuel with
  | zero =>
    intro s data plen s' h
    unfold onDataLoop at h
    split_ifs at h
    cases h; exact Nat.le_refl _
  | succ n ih =>
    intro s data plen s' h
    by_cases hp : plen = 0
    · subst hp
      rw [onDataLoop_zero] at h
      cases h; exact Nat.le_refl _
    · rw [onDataLoop_succ _ _ _ _ _ hp] at h
      have hstep := onDataStep_length_le MAX s data plen
      cases ho : onDataStep MAX s data plen with
      | left t =>
        rw [ho] at h hstep
        simp only [Option.some.injEq] at h
        subst h
        exact hstep
      | goOn t d m =>
        rw [ho] at h hstep
        exact Nat.le_trans (ih t d m s' h) hstep

theorem onData_length_le (MAX : Nat) (s s' : AsyncWebSocketClient) (pbuf : List Nat)
    (h : s._onData MAX pbuf = some s') :
    s'._messageQueue.length ≤ s._messageQueue.length :=
  onDataLoop_length_le MAX _ { s with _lastMessageTime := s.millis } _ _ _ h

theorem ops_queue_bound (MAXQ : Nat) (l : List SessionOp) :
    ∀ s : AsyncWebSocketClient, s._messageQueue.length ≤ MAXQ →
      (s.ops MAXQ l)._messageQueue.length ≤ MAXQ := by
  induction l with
  | nil => intro s h; exact h
  | cons op rest ih =>
    intro s h
    exact ih (s.op MAXQ op) (op_queue_bound MAXQ s op h)

/-- C15 (as stated, refuted): with a capacity of 8, a Connected session takes, while
the transport cannot send, a shared-buffer message with an empty buffer (in the
Error state from its construction) and seven text messages; the queue then holds 8
messages. Once the transport can send, `_queueMessage` of a ninth message discards
it and runs the scheduler, which drops the finished head: the queue length goes
from 8 to 7. -/
theorem full_queue_shrinks_on_enqueue :
    ((AsyncWebSocketClient.new 16 (AsyncClient.ready 100) 0).ops 8
        [.transport false 100 [],
         .queueMessage (.multi (AsyncWebSocketMultiMessage.new ⟨none⟩ WS_TEXT false)),
         .text [72] 1, .text [72] 1, .text [72] 1, .text [72] 1, .text [72] 1, .text [72] 1,
         .text [72] 1, .transport true 100 []])._status = WS_CONNECTED
    ∧ ((AsyncWebSocketClient.new 16 (AsyncClient.ready 100) 0).ops 8
        [.transport false 100 [],
         .queueMessage (.multi (AsyncWebSocketMultiMessage.new ⟨none⟩ WS_TEXT false)),
         .text [72] 1, .text [72] 1, .text [72] 1, .text [72] 1, .text [72] 1, .text [72] 1,
         .text [72] 1, .transport true 100 []])._messageQueue.length = 8
    ∧ (((AsyncWebSocketClient.new 16 (AsyncClient.ready 100) 0).ops 8
        [.transport false 100 [],
         .queueMessage (.multi (AsyncWebSocketMultiMessage.new ⟨none⟩ WS_TEXT false)),
         .text [72] 1, .text [72] 1, .text [72] 1, .text [72] 1, .text [72] 1, .text [72] 1,
         .text [72] 1, .transport true 100 []])._queueMessage 8
          (.basic (AsyncWebSocketBasicMessage.new [73] 1 WS_TEXT false)))._messageQueue.length
      = 7 := by
  decide!

/-- C15 (amended): on a Connected session whose message queue holds at least
`WS_MAX_QUEUED_MESSAGES` messages, `_queueMessage(m)` does not add `m`: the session
afterwards is the one before, with the scheduler run when the transport can send,
so the queue is as long as before less the finished messages the scheduler drops
at its head, and never longer. And no event on a session (enqueue, ping, close,
acknowledgement, poll, timeout, inbound data) takes the queue length above
`WS_MAX_QUEUED_MESSAGES`. -/
theorem queue_capacity (MAXQ MAX : Nat) (s : AsyncWebSocketClient) :
    (∀ m, s._status = WS_CONNECTED → MAXQ ≤ s._messageQueue.length →
      s._queueMessage MAXQ m = (if s._client.canSend = true then s._runQueue else s)
      ∧ (s._queueMessage MAXQ m)._messageQueue.length
          = (if s._client.canSend = true then (dropFinished s._messageQueue).length
             else s._messageQueue.length)
      ∧ (s._queueMessage MAXQ m)._messageQueue.length ≤ s._messageQueue.length)
    ∧ (s._messageQueue.length ≤ MAXQ →
        (∀ l : List SessionOp, (s.ops MAXQ l)._messageQueue.length ≤ MAXQ)
        ∧ ∀ pbuf s', s._onData MAX pbuf = some s' → s'._messageQueue.length ≤ MAXQ) := by
  constructor
  · intro m hs hfull
    have h := queueMessage_full MAXQ s m hs hfull
    refine ⟨h, ?_, ?_⟩
    · rw [h]
      split_ifs
      · exact runQueue_messageQueue_length s
      · rfl
    · rw [h]
      split_ifs
      · exact runQueue_length_le s
      · exact Nat.le_refl _
  · intro h
    exact ⟨fun l => ops_queue_bound MAXQ l s h,
      fun pbuf s' hd => Nat.le_trans (onData_length_le MAX s s' pbuf hd) h⟩

theorem queue_capacity_witness :
    (({ AsyncWebSocketClient.new 16 (AsyncClient.ready 100) 0 with
        _messageQueue := [.basic (AsyncWebSocketBasicMessage.new [72] 1 WS_TEXT false)] }
      : AsyncWebSocketClient)._queueMessage 1
        (.basic (AsyncWebSocketBasicMessage.new [73] 1 WS_TEXT false)))._messageQueue.length
      ≤ 1 :=
  ((queue_capacity 1 16
    { AsyncWebSocketClient.new 16 (AsyncClient.ready 100) 0 with
        _messageQueue := [.basic (AsyncWebSocketBasicMessage.new [72] 1 WS_TEXT false)] }).1
    (.basic (AsyncWebSocketBasicMessage.new [73] 1 WS_TEXT false)) rfl (by decide)).2.2

/-- With a truncated frame outstanding at the head of the message queue the
scheduler does nothing at all. -/
theorem runQueue_midFrame (s : AsyncWebSocketClient) (h : s.midFrame) : s._runQueue = s := by
  obtain ⟨b, rest, hq, hst, hlt, _⟩ := h
  have hfin : (AsyncWebSocketMessage.multi b).finished = false := by
    simp [AsyncWebSocketMessage.finished, AsyncWebSocketMessage.status, hst]
  have hbf : (AsyncWebSocketMessage.multi b).betweenFrames = false := by
    simp only [AsyncWebSocketMessage.betweenFrames, AsyncWebSocketMessage.attempted,
      AsyncWebSocketMessage.sent, decide_eq_false_iff_not]
    omega
  have hd : dropFinished s._messageQueue = s._messageQueue := by
    rw [hq]
    simp [dropFinished, hfin]
  unfold AsyncWebSocketClient._runQueue
  simp only [hd]
  simp only [hq, front, List.headD_cons, hbf, List.isEmpty_cons, Bool.or_false, Bool.and_false,
    Bool.false_and, Bool.false_eq_true, if_false]
  rw [← hq]

theorem midFrame_of_queue (s t : AsyncWebSocketClient) (h : s.midFrame)
    (hq : t._messageQueue = s._messageQueue) : t.midFrame := by
  obtain ⟨b, rest, h1, h2⟩ := h
  exact ⟨b, rest, by rw [hq, h1], h2⟩

theorem queueControl_midFrame (s : AsyncWebSocketClient) (c : AsyncWebSocketControl)
    (h : s.midFrame) :
    s._queueControl c = { s with _controlQueue := s._controlQueue ++ [c] } := by
  unfold AsyncWebSocketClient._queueControl
  simp only []
  split_ifs
  · exact runQueue_midFrame _ (midFrame_of_queue s _ h rfl)
  · rfl

theorem queueMessage_midFrame (MAXQ : Nat) (s : AsyncWebSocketClient)
    (m : AsyncWebSocketMessage) (h : s.midFrame) :
    (s._queueMessage MAXQ m).midFrame
      ∧ (s._queueMessage MAXQ m)._client = s._client := by
  have hadd : ({ s with _messageQueue := s._messageQueue ++ [m] } : AsyncWebSocketClient).midFrame := by
    obtain ⟨b, rest, h1, h2⟩ := h
    exact ⟨b, rest ++ [m], by simp [h1], h2⟩
  unfold AsyncWebSocketClient._queueMessage
  simp only []
  split_ifs
  · exact ⟨h, rfl⟩
  · rw [runQueue_midFrame s h]; exact ⟨h, rfl⟩
  · exact ⟨h, rfl⟩
  · rw [runQueue_midFrame _ hadd]; exact ⟨hadd, rfl⟩
  · exact ⟨hadd, rfl⟩

theorem onAckTail_midFrame (s : AsyncWebSocketClient) (len : Nat) (h : s.midFrame) :
    (onAckTail s len).midFrame ∧ (onAckTail s len)._client = s._client := by
  obtain ⟨b, rest, hq, hst, hlt, hle⟩ := h
  have hack : ({ s with _messageQueue :=
      (front s._messageQueue).ack len :: s._messageQueue.tail } : AsyncWebSocketClient).midFrame := by
    refine ⟨b.ack len, rest, ?_, ?_⟩
    · simp [hq, front, AsyncWebSocketMessage.ack]
    · have hns : ¬ (b._sent ≥ b._WSbuffer.size ∧ szAdd b._acked len ≥ b._ack) := by
        intro hc; omega
      simp only [AsyncWebSocketMultiMessage.ack, hns, if_false]
      exact ⟨hst, hlt, hle⟩
  unfold onAckTail
  simp only []
  split_ifs
  · rw [runQueue_midFrame _ hack]; exact ⟨hack, rfl⟩
  · rw [runQueue_midFrame s ⟨b, rest, hq, hst, hlt, hle⟩]
    exact ⟨⟨b, rest, hq, hst, hlt, hle⟩, rfl⟩

/-- While a truncated frame is outstanding at the head of the message queue, no
event on the session writes to the transport, and the frame stays outstanding. -/
theorem op_midFrame (MAXQ : Nat) (s : AsyncWebSocketClient) (op : SessionOp)
    (h : s.midFrame) :
    (s.op MAXQ op).midFrame ∧ (s.op MAXQ op)._client.wire = s._client.wire := by
  cases op with
  | queueMessage m =>
    obtain ⟨g1, g2⟩ := queueMessage_midFrame MAXQ s m h
    exact ⟨g1, by rw [AsyncWebSocketClient.op, g2]⟩
  | queueControl c =>
    have e : s.op MAXQ (.queueControl c) = s._queueControl c := rfl
    rw [e, queueControl_midFrame s c h]
    exact ⟨midFrame_of_queue s _ h rfl, rfl⟩
  | text message len =>
    obtain ⟨g1, g2⟩ := queueMessage_midFrame MAXQ s
      (.basic (AsyncWebSocketBasicMessage.new message len WS_TEXT false)) h
    exact ⟨g1, by rw [AsyncWebSocketClient.op, AsyncWebSocketClient.text, g2]⟩
  | binary message len =>
    obtain ⟨g1, g2⟩ := queueMessage_midFrame MAXQ s
      (.basic (AsyncWebSocketBasicMessage.new message len WS_BINARY false)) h
    exact ⟨g1, by rw [AsyncWebSocketClient.op, AsyncWebSocketClient.binary, g2]⟩
  | ping data len =>
    simp only [AsyncWebSocketClient.op]
    rcases ping_cases s data len with e | ⟨ms, c, _, _, e⟩
    · rw [e]
      exact ⟨h, rfl⟩
    · rw [e, queueControl_midFrame ({ s with mallocs := ms } : AsyncWebSocketClient) c
        (midFrame_of_queue s _ h rfl)]
      exact ⟨midFrame_of_queue s _ h rfl, rfl⟩
  | close code message =>
    simp only [AsyncWebSocketClient.op]
    rcases close_cases s code message with e | ⟨ms, c, _, _, e⟩
    · rw [e]
      exact ⟨h, rfl⟩
    · rw [e, queueControl_midFrame ({ s with mallocs := ms } : AsyncWebSocketClient) c
        (midFrame_of_queue s _ h rfl)]
      exact ⟨midFrame_of_queue s _ h rfl, rfl⟩
  | onAck len =>
    simp only [AsyncWebSocketClient.op, AsyncWebSocketClient._onAck]
    split_ifs
    · exact ⟨midFrame_of_queue s _ h rfl, rfl⟩
    · obtain ⟨g1, g2⟩ := onAckTail_midFrame _ _ (midFrame_of_queue s
        { s with _lastMessageTime := s.millis, _controlQueue := s._controlQueue.tail } h rfl)
      exact ⟨g1, by rw [g2]⟩
    · obtain ⟨g1, g2⟩ := onAckTail_midFrame _ len (midFrame_of_queue s
        { s with _lastMessageTime := s.millis } h rfl)
      exact ⟨g1, by rw [g2]⟩
  | onPoll =>
    simp only [AsyncWebSocketClient.op, AsyncWebSocketClient._onPoll]
    split_ifs with k1 k2
    · rw [runQueue_midFrame s h]; exact ⟨h, rfl⟩
    · obtain ⟨b, rest, hq, _⟩ := h
      rw [hq] at k2
      simp at k2
    · exact ⟨h, rfl⟩
  | onTimeout => exact ⟨midFrame_of_queue s _ h rfl, rfl⟩
  | transport canSend space accepts => exact ⟨midFrame_of_queue s _ h rfl, rfl⟩

theorem ops_midFrame (MAXQ : Nat) (l : List SessionOp) :
    ∀ s : AsyncWebSocketClient, s.midFrame →
      (s.ops MAXQ l).midFrame ∧ (s.ops MAXQ l)._client.wire = s._client.wire := by
  induction l with
  | nil => intro s h; exact ⟨h, rfl⟩
  | cons op rest ih =>
    intro s h
    obtain ⟨g1, g2⟩ := op_midFrame MAXQ s op h
    obtain ⟨k1, k2⟩ := ih (s.op MAXQ op) g1
    exact ⟨k1, by rw [← g2]; exact k2⟩

theorem headerFail_client (MAX : Nat) (s : AsyncWebSocketClient) (l : HeaderLocals) :
    (headerFail MAX s l).session._client = s._client := by
  unfold headerFail
  split_ifs <;> rfl

theorem headerMask_client (MAX : Nat) (s : AsyncWebSocketClient) (data : List Nat)
    (l : HeaderLocals) :
    (headerMask MAX s data l).session._client = s._client := by
  unfold headerMask
  split_ifs
  · exact headerFail_client _ _ _
  · rfl
  · rfl

theorem headerFields_client (MAX : Nat) (s : AsyncWebSocketClient) (data : List Nat)
    (l : HeaderLocals) :
    (headerFields MAX s data l).session._client = s._client := by
  unfold headerFields
  simp only []
  split_ifs
  · exact headerFail_client _ _ _
  · exact headerFail_client _ _ _
  · exact headerMask_client _ _ _ _
  · exact headerFail_client _ _ _
  · exact headerMask_client _ _ _ _
  · exact headerMask_client _ _ _ _

theorem parseHeader_client (MAX : Nat) (s : AsyncWebSocketClient) (data : List Nat)
    (plen : Nat) :
    (parseHeader MAX s data plen).session._client = s._client := by
  unfold parseHeader
  simp only []
  rw [headerFields_client]
  unfold headerRecover
  split_ifs <;> rfl

theorem queueControl_midFrame_frame (s : AsyncWebSocketClient) (c : AsyncWebSocketControl)
    (h : s.midFrame) :
    (s._queueControl c)._messageQueue = s._messageQueue
      ∧ (s._queueControl c)._client = s._client := by
  rw [queueControl_midFrame s c h]
  exact ⟨rfl, rfl⟩

theorem frameComplete_midFrame (s : AsyncWebSocketClient) (data : List Nat) (datalen : Nat)
    (h : s.midFrame) :
    (frameComplete s data datalen)._messageQueue = s._messageQueue
      ∧ (frameComplete s data datalen)._client.wire = s._client.wire := by
  by_cases h8 : s._pinfo.opcode = WS_DISCONNECT
  · obtain ⟨t, _, _, t3, t4, _, t5⟩ := frameComplete_close s data datalen h8
    rw [t5, ← t4, ← t3]
    have hm : ({ t with _status := WS_DISCONNECTING, _client := t._client.ackLater,
                        mallocs := if datalen = 0 then t.mallocs else t.mallocs.tail }
        : AsyncWebSocketClient).midFrame := midFrame_of_queue s _ h t4
    by_cases hd : t._status = WS_DISCONNECTING
    · rw [if_pos hd]
      exact ⟨rfl, rfl⟩
    · rw [if_neg hd]
      obtain ⟨a, b⟩ := queueControl_midFrame_frame _
        (if datalen = 0 ∨ t.mallocs.headD true = true then
          AsyncWebSocketControl.new WS_DISCONNECT (some data) datalen false
         else { _opcode := 8, _data := [], _len := 0, _mask := false, _finished := false })
        hm
      rw [a, b]
      exact ⟨rfl, rfl⟩
  · by_cases h9 : s._pinfo.opcode = WS_PING
    · rw [frameComplete_ping s data datalen h9]
      have hm : ({ s with _pstate := 0,
                          mallocs := if datalen = 0 then s.mallocs else s.mallocs.tail }
          : AsyncWebSocketClient).midFrame :=
        midFrame_of_queue s _ h rfl
      obtain ⟨a, b⟩ := queueControl_midFrame_frame _
        (if datalen = 0 ∨ s.mallocs.headD true = true then
          AsyncWebSocketControl.new WS_PONG (some data) datalen false
         else { _opcode := 10, _data := [], _len := 0, _mask := false, _finished := false })
        hm
      rw [a, b]
      exact ⟨rfl, rfl⟩
    · unfold frameComplete
      simp only [h8, h9, if_false]
      split_ifs <;> exact ⟨rfl, rfl⟩

theorem payloadStep_midFrame (s : AsyncWebSocketClient) (data : List Nat) (plen : Nat)
    (h : s.midFrame) :
    (payloadStep s data plen).session._messageQueue = s._messageQueue
      ∧ (payloadStep s data plen).session._client.wire = s._client.wire := by
  unfold payloadStep
  simp only []
  split_ifs
  all_goals first
    | exact ⟨rfl, rfl⟩
    | exact frameComplete_midFrame _ _ _ h

theorem onDataStep_midFrame (MAX : Nat) (s : AsyncWebSocketClient) (data : List Nat)
    (plen : Nat) (h : s.midFrame) :
    (onDataStep MAX s data plen).session._messageQueue = s._messageQueue
      ∧ (onDataStep MAX s data plen).session._client.wire = s._client.wire := by
  unfold onDataStep
  split_ifs
  · have hq := parseHeader_queue MAX s data plen
    have hc := parseHeader_client MAX s data plen
    cases hp : parseHeader MAX s data plen with
    | truncated t =>
      rw [hp] at hq hc
      simp only [HeaderOutcome.session] at hq hc
      simp only [LoopOutcome.session]
      exact ⟨hq, by rw [hc]⟩
    | parsed t d n =>
      rw [hp] at hq hc
      simp only [HeaderOutcome.session] at hq hc
      simp only []
      rw [← hq, ← hc]
      exact payloadStep_midFrame _ _ _ (midFrame_of_queue s t h hq)
  · exact payloadStep_midFrame _ _ _ h

theorem onDataLoop_midFrame (MAX : Nat) (fuel : Nat) :
    ∀ (s : AsyncWebSocketClient) (data : List Nat) (plen : Nat) (s' : AsyncWebSocketClient),
      s.midFrame → onDataLoop MAX fuel s data plen = some s' →
      s'._messageQueue = s._messageQueue ∧ s'._client.wire = s._client.wire := by
  induction fuel with
  | zero =>
    intro s data plen s' _ h
    unfold onDataLoop at h
    split_ifs at h
    cases h; exact ⟨rfl, rfl⟩
  | succ n ih =>
    intro s data plen s' hm h
    by_cases hp : plen = 0
    · subst hp
      rw [onDataLoop_zero] at h
      cases h; exact ⟨rfl, rfl⟩
    · rw [onDataLoop_succ _ _ _ _ _ hp] at h
      have hstep := onDataStep_midFrame MAX s data plen hm
      cases ho : onDataStep MAX s data plen with
      | left t =>
        rw [ho] at h hstep
        simp only [Option.some.injEq] at h
        subst h
        exact hstep
      | goOn t d m =>
        rw [ho] at h hstep
        simp only [LoopOutcome.session] at hstep
        obtain ⟨k1, k2⟩ := ih t d m s' (midFrame_of_queue s t hm hstep.1) h
        exact ⟨by rw [k1, hstep.1], by rw [k2, hstep.2]⟩

/-- C11: a control frame is only sent when the message queue is empty or its head
is between frames: when, the finished head messages dropped, the queue is not empty
and its head is not between frames, the scheduler leaves the control queue and the
transport as they are. And from the moment a frame of the head message was
truncated (the shared-buffer message is still sending with fewer bytes written
than the frame has) no interleaving of events of the session (enqueue of messages
or control frames, ping, close, acknowledgements, polls, timeouts, changes of the
transport's window and acceptance, inbound data) writes anything to the transport,
so no control frame bytes, and the truncated frame stays outstanding. -/
theorem control_never_mid_frame (MAXQ MAX : Nat) (s : AsyncWebSocketClient) :
    (dropFinished s._messageQueue ≠ []
        ∧ (front (dropFinished s._messageQueue)).betweenFrames = false →
      s._runQueue._controlQueue = s._controlQueue ∧ s._runQueue._client = s._client)
    ∧ (s.midFrame →
        (∀ l : List SessionOp,
          (s.ops MAXQ l).midFrame ∧ (s.ops MAXQ l)._client.wire = s._client.wire)
        ∧ ∀ pbuf s', s._onData MAX pbuf = some s' →
            s'.midFrame ∧ s'._client.wire = s._client.wire) := by
  constructor
  · rintro ⟨h1, h2⟩
    have he : (dropFinished s._messageQueue).isEmpty = false := by
      cases hq : dropFinished s._messageQueue with
      | nil => exact absurd hq h1
      | cons a q => rfl
    unfold AsyncWebSocketClient._runQueue
    simp only [he, h2, Bool.or_false, Bool.and_false, Bool.false_and, Bool.false_eq_true,
      if_false]
    exact ⟨trivial, trivial⟩
  · intro h
    refine ⟨fun l => ops_midFrame MAXQ l s h, ?_⟩
    intro pbuf s' hd
    obtain ⟨k1, k2⟩ := onDataLoop_midFrame MAX _ { s with _lastMessageTime := s.millis } _ _ s'
      (midFrame_of_queue s _ h rfl) hd
    exact ⟨midFrame_of_queue s s' h k1, k2⟩

theorem control_never_mid_frame_witness :
    (((AsyncWebSocketClient.new 16 (AsyncClient.scripted 100 [2, 3]) 0)._queueMessage 8
        (.multi (AsyncWebSocketMultiMessage.new ⟨some [72, 69, 76, 76, 79]⟩ WS_TEXT false))).ops 8
        [.ping (some [1, 2]) 2, .onAck 5, .onPoll, .transport true 100 [], .onPoll])._client.wire
      = ((AsyncWebSocketClient.new 16 (AsyncClient.scripted 100 [2, 3]) 0)._queueMessage 8
        (.multi (AsyncWebSocketMultiMessage.new ⟨some [72, 69, 76, 76, 79]⟩ WS_TEXT false))
        )._client.wire :=
  ((((control_never_mid_frame 8 16
    ((AsyncWebSocketClient.new 16 (AsyncClient.scripted 100 [2, 3]) 0)._queueMessage 8
      (.multi (AsyncWebSocketMultiMessage.new ⟨some [72, 69, 76, 76, 79]⟩ WS_TEXT false)))).2
    ⟨{ _opcode := 1, _mask := false, _status := WS_MSG_SENDING, _attempted := 5, _sent := 3,
       _ack := 5, _acked := 0, _WSbuffer := ⟨some [72, 69, 76, 76, 79]⟩ }, [],
      by decide!, rfl, by decide, by decide⟩).1
    [.ping (some [1, 2]) 2, .onAck 5, .onPoll, .transport true 100 [], .onPoll]).2)

/-! ## The masked frame header -/

theorem fillMask_four (headLen : Nat) (buf mb : List Nat) (client : AsyncClient) :
    fillMask 4 headLen buf mb client
      = (((((buf.set (headLen - 4 + 0) (client.rnd.getD 0 0 % 255)).set (headLen - 4 + 1)
              (client.rnd.getD 1 0 % 255)).set (headLen - 4 + 2)
              (client.rnd.getD 2 0 % 255)).set (headLen - 4 + 3) (client.rnd.getD 3 0 % 255)),
         ((((mb.set 0 (client.rnd.getD 0 0 % 255)).set 1 (client.rnd.getD 1 0 % 255)).set 2
              (client.rnd.getD 2 0 % 255)).set 3 (client.rnd.getD 3 0 % 255)),
         { client with rnd := client.rnd.drop 4 }) := by
  cases client with
  | mk canSend space accepts wire sends closed ackLaterFlag rnd stack =>
    rcases rnd with _ | ⟨r0, _ | ⟨r1, _ | ⟨r2, _ | ⟨r3, rest⟩⟩⟩⟩ <;>
      simp [fillMask, AsyncClient.rand]

theorem set_four (mb : List Nat) (h : mb.length = 4) (a b c d : Nat) :
    (((mb.set 0 a).set 1 b).set 2 c).set 3 d = [a, b, c, d] := by
  match mb, h with
  | [_, _, _, _], _ => rfl
/-- With masking requested and a payload, `webSocketSendFrameHeader` draws the mask
key, offers the header bytes of `sentHeaderMasked` to the transport and returns the
key in the mask buffer. -/
theorem webSocketSendFrameHeader_masked (client : AsyncClient) (final : Bool)
    (opcode len : Nat) (mb : List Nat) (hmb : mb.length = 4) (hlen : len ≠ 0)
    (hcan : client.canSend = true) (hsp : 8 ≤ client.space) :
    webSocketSendFrameHeader client final opcode (some mb) len
      = ((({ client with rnd := client.rnd.drop 4 } : AsyncClient).add
            (sentHeaderMasked final opcode len (maskKey client))).1,
         (({ client with rnd := client.rnd.drop 4 } : AsyncClient).add
            (sentHeaderMasked final opcode len (maskKey client))).2,
         some (maskKey client)) := by
  have hl : webSocketHeaderLength true len % 256 = webSocketHeaderLength true len := by
    by_cases h : len < 126 <;> simp [webSocketHeaderLength, h]
  have hle : webSocketHeaderLength true len ≤ 8 := by
    by_cases h : len < 126 <;> simp [webSocketHeaderLength, h]
  have hns : ¬ client.space < webSocketHeaderLength true len := by omega
  simp only [webSocketSendFrameHeader, hcan, Bool.not_true, Bool.false_eq_true, if_false,
    Option.isSome_some, hl, hns, ne_eq, hlen, not_false_eq_true, if_true, fillMask_four,
    set_four mb hmb, uninit_eight]
  unfold sentHeaderMasked webSocketHeaderLength maskKey
  by_cases hf : final = true <;> by_cases h126 : len < 126 <;>
    simp [hf, h126, List.set]
set_option maxRecDepth 4096 in
theorem or_80_bits (x : Nat) (h : x < 128) :
    (x ||| 128) &&& 128 = 128 ∧ (x ||| 128) &&& 127 = x := by
  revert x; decide

/-- C27 (as stated, refuted): masking requested for a payload of length 0. The
function writes 6 bytes, `81 00` followed by four bytes of the uninitialised
header buffer; the mask bit of byte 1 is not set, no key is drawn (the mask buffer
comes back as it was), and the header that was written implies a length of 2. -/
theorem masked_header_of_empty_payload :
    (webSocketSendFrameHeader
        { AsyncClient.ready 100 with rnd := [1, 2, 3, 4], stack := [9, 9, 9, 9, 9, 9, 9, 9] }
        true WS_TEXT (some [0, 0, 0, 0]) 0).1 = 6
    ∧ (webSocketSendFrameHeader
        { AsyncClient.ready 100 with rnd := [1, 2, 3, 4], stack := [9, 9, 9, 9, 9, 9, 9, 9] }
        true WS_TEXT (some [0, 0, 0, 0]) 0).2.1.wire = [129, 0, 9, 9, 9, 9]
    ∧ (129 : Nat) &&& 0x80 = 128 ∧ (0 : Nat) &&& 0x80 = 0
    ∧ headerLenOf 0 = 2
    ∧ (webSocketSendFrameHeader
        { AsyncClient.ready 100 with rnd := [1, 2, 3, 4], stack := [9, 9, 9, 9, 9, 9, 9, 9] }
        true WS_TEXT (some [0, 0, 0, 0]) 0).2.2 = some [0, 0, 0, 0] := by
  decide

/-- C27 (amended): for every payload length other than 0, when masking is requested
and the transport can send, has room for 8 bytes and takes what is offered,
`webSocketSendFrameHeader` writes a header whose mask bit (`0x80` of byte 1) is
set and whose last 4 bytes are the freshly drawn mask key, which it returns in the
mask buffer; the number of bytes written is the header length that the written
header implies by its mask bit and length class. -/
theorem masked_header_written (client : AsyncClient) (final : Bool) (opcode len : Nat)
    (mb : List Nat) (hmb : mb.length = 4) (hlen : len ≠ 0)
    (hcan : client.canSend = true) (hsp : 8 ≤ client.space) (hacc : client.accepts = []) :
    ∃ hdr, (webSocketSendFrameHeader client final opcode (some mb) len).2.1.wire
        = client.wire ++ hdr
      ∧ (webSocketSendFrameHeader client final opcode (some mb) len).1 = hdr.length
      ∧ (webSocketSendFrameHeader client final opcode (some mb) len).2.2
          = some (maskKey client)
      ∧ hdr.getD 1 0 &&& 0x80 ≠ 0
      ∧ hdr.drop (hdr.length - 4) = maskKey client
      ∧ hdr.length = headerLenOf (hdr.getD 1 0)
      ∧ hdr.length = webSocketHeaderLength true len := by
  rw [webSocketSendFrameHeader_masked client final opcode len mb hmb hlen hcan hsp]
  refine ⟨sentHeaderMasked final opcode len (maskKey client), ?_, ?_, rfl, ?_, ?_, ?_, ?_⟩
  · simp [AsyncClient.add, hacc]
  · simp [AsyncClient.add, hacc]
  · by_cases h : len < 126
    · have := (or_80_bits (len &&& 0x7F) (and_7F_lt len)).1
      simp only [sentHeaderMasked, h, if_true, List.cons_append, List.getD_cons_succ,
        List.getD_cons_zero]
      omega
    · simp [sentHeaderMasked, h]
  · by_cases h : len < 126 <;> simp [sentHeaderMasked, h, maskKey]
  · by_cases h : len < 126
    · obtain ⟨h1, h2⟩ := or_80_bits len (by omega)
      have h3 : len &&& 0x7F = len := (byte_and_7F_add len (by omega)).1
      simp only [sentHeaderMasked, h, if_true, List.cons_append, List.getD_cons_succ,
        List.getD_cons_zero, headerLenOf, h3, h2, h1, maskKey, List.length_cons,
        List.length_append, List.length_nil, List.nil_append]
      have e1 : ¬ len = 126 := by omega
      have e2 : ¬ len = 127 := by omega
      simp [e1, e2]
    · have k1 : (254 : Nat) &&& 127 = 126 := by decide
      have k2 : (254 : Nat) &&& 128 = 128 := by decide
      simp [sentHeaderMasked, h, headerLenOf, maskKey, k1, k2]
  · by_cases h : len < 126 <;> simp [sentHeaderMasked, h, maskKey, webSocketHeaderLength]

theorem masked_header_written_witness :
    ∃ hdr, (webSocketSendFrameHeader (AsyncClient.ready 100) true WS_TEXT (some [0, 0, 0, 0])
          5).2.1.wire = (AsyncClient.ready 100).wire ++ hdr
      ∧ (webSocketSendFrameHeader (AsyncClient.ready 100) true WS_TEXT (some [0, 0, 0, 0])
          5).1 = hdr.length
      ∧ (webSocketSendFrameHeader (AsyncClient.ready 100) true WS_TEXT (some [0, 0, 0, 0])
          5).2.2 = some (maskKey (AsyncClient.ready 100))
      ∧ hdr.getD 1 0 &&& 0x80 ≠ 0
      ∧ hdr.drop (hdr.length - 4) = maskKey (AsyncClient.ready 100)
      ∧ hdr.length = headerLenOf (hdr.getD 1 0)
      ∧ hdr.length = webSocketHeaderLength true 5 :=
  masked_header_written (AsyncClient.ready 100) true WS_TEXT 5 [0, 0, 0, 0] rfl (by decide)
    rfl (by decide) rfl

theorem control_new_capped (opcode n : Nat) (data : List Nat) (h : data.length = n) :
    AsyncWebSocketControl.allocated (some data) n = min n 125
    ∧ AsyncWebSocketControl.copied (some data) n = n
    ∧ (AsyncWebSocketControl.new opcode (some data) n false)._data = data.take (min n 125)
    ∧ (AsyncWebSocketControl.new opcode (some data) n false)._len = min n 125
    ∧ (AsyncWebSocketControl.new opcode (some data) n false).len = min n 125 + 2
    ∧ (AsyncWebSocketControl.new opcode none n false)._data = []
    ∧ (AsyncWebSocketControl.new opcode none n false)._len = 0 := by
  subst h
  by_cases h0 : data.length = 0
  · have : data = [] := List.length_eq_zero.mp h0
    subst this
    simp [AsyncWebSocketControl.allocated, AsyncWebSocketControl.copied,
      AsyncWebSocketControl.new, AsyncWebSocketControl.len]
  · by_cases h1 : data.length > 125
    · have hm : min data.length 125 = 125 := by omega
      simp [AsyncWebSocketControl.allocated, AsyncWebSocketControl.copied,
        AsyncWebSocketControl.new, AsyncWebSocketControl.len, h0, h1, hm]
    · have hm : min data.length 125 = data.length := by omega
      have hlt : (data.length + 2) % 256 = data.length + 2 := by omega
      simp [AsyncWebSocketControl.allocated, AsyncWebSocketControl.copied,
        AsyncWebSocketControl.new, AsyncWebSocketControl.len, h0, h1, hm, hlt]

theorem control_send_wire (opcode : Nat) (data : List Nat) (t : AsyncClient)
    (h : data.length ≤ 125) (hcan : t.canSend = true) (hacc : t.accepts = [])
    (hsp : 8 < t.space) :
    ((AsyncWebSocketControl.new opcode (some data) data.length false).send t).2.2.wire
      = t.wire ++ (sentHeader true (opcode % 256 &&& 0x0F) data.length ++ data) := by
  obtain ⟨h1, h2, h3, h4, _⟩ := control_new_data opcode data h
  simp only [AsyncWebSocketControl.send, h1, h2, h3, h4]
  rw [(webSocketSendFrame_unmasked_wire t true _ data data.length hcan hacc hsp (le_refl _)).1]
  simp

/-- C21 (the code at the failing input): the constructor called with 126 bytes of
data, as `_onData` calls it for an inbound Ping frame with a payload of 126 bytes.
`_len` is capped at 125 and 125 bytes are allocated, but `memcpy(_data, data, len)`
copies the uncapped 126 bytes to `_data`, one byte past the allocation. In general,
for `n` bytes of data the constructor allocates `min(n, 125)` bytes and copies `n`;
what it holds is the first `min(n, 125)` bytes (nothing for the null pointer),
`len()` is that length + 2, and for at most 125 bytes `send()` on a transport that
takes what is offered writes one final frame with the opcode and the payload. -/
theorem control_copy_overruns :
    AsyncWebSocketControl.allocated (some (List.replicate 126 7)) 126 = 125
    ∧ AsyncWebSocketControl.copied (some (List.replicate 126 7)) 126 = 126
    ∧ (AsyncWebSocketControl.new WS_PONG (some (List.replicate 126 7)) 126 false)._len = 125
    ∧ ((AsyncWebSocketClient.new 16 (AsyncClient.ready 200) 0)._onData 16
        ([137, 126, 0, 126] ++ List.replicate 126 7)).map
        (fun t => t._controlQueue.map (fun c => (c._opcode, c._len)))
      = some [(10, 125)]
    ∧ (∀ (opcode n : Nat) (data : List Nat), data.length = n →
        AsyncWebSocketControl.allocated (some data) n = min n 125
        ∧ AsyncWebSocketControl.copied (some data) n = n
        ∧ (AsyncWebSocketControl.new opcode (some data) n false)._data = data.take (min n 125)
        ∧ (AsyncWebSocketControl.new opcode (some data) n false)._len = min n 125
        ∧ (AsyncWebSocketControl.new opcode (some data) n false).len = min n 125 + 2
        ∧ (AsyncWebSocketControl.new opcode none n false)._data = []
        ∧ (AsyncWebSocketControl.new opcode none n false)._len = 0)
    ∧ (∀ (opcode : Nat) (data : List Nat) (t : AsyncClient), data.length ≤ 125 →
        t.canSend = true → t.accepts = [] → 8 < t.space →
        ((AsyncWebSocketControl.new opcode (some data) data.length false).send t).2.2.wire
          = t.wire ++ (sentHeader true (opcode % 256 &&& 0x0F) data.length ++ data)) := by
  have h : AsyncWebSocketControl.allocated (some (List.replicate 126 7)) 126 = 125
      ∧ AsyncWebSocketControl.copied (some (List.replicate 126 7)) 126 = 126
      ∧ (AsyncWebSocketControl.new WS_PONG (some (List.replicate 126 7)) 126 false)._len = 125
      ∧ ((AsyncWebSocketClient.new 16 (AsyncClient.ready 200) 0)._onData 16
          ([137, 126, 0, 126] ++ List.replicate 126 7)).map
          (fun t => t._controlQueue.map (fun c => (c._opcode, c._len)))
        = some [(10, 125)] := by
    decide!
  exact ⟨h.1, h.2.1, h.2.2.1, h.2.2.2, control_new_capped, control_send_wire⟩

/-! ## The socket group -/

theorem clientLoop_eq (id : Nat) (l : List AsyncWebSocketClient) :
    clientLoop id l
      = (l.filter (fun c => decide (c._clientId = id ∧ c._status = WS_CONNECTED))).head? := by
  induction l with
  | nil => rfl
  | cons c rest ih =>
    simp only [clientLoop, AsyncWebSocketClient.id, AsyncWebSocketClient.status, List.filter_cons]
    by_cases h : c._clientId = id ∧ c._status = WS_CONNECTED
    · simp [h]
    · simp only [h, if_false, decide_False, Bool.false_eq_true]
      exact ih

theorem countLoop_eq (l : List AsyncWebSocketClient) :
    ∀ i, i + l.length < 4294967296 →
      countLoop l i = i + (l.filter (fun c => decide (c._status = WS_CONNECTED))).length := by
  induction l with
  | nil => intro i _; rfl
  | cons c rest ih =>
    intro i hi
    simp only [List.length_cons] at hi
    simp only [countLoop, AsyncWebSocketClient.status, List.filter_cons]
    by_cases h : c._status = WS_CONNECTED
    · simp only [h, if_true, decide_True, List.length_cons]
      rw [szAdd_of_lt i 1 (by omega), ih (i + 1) (by omega)]
      omega
    · simp only [h, if_false, decide_False, Bool.false_eq_true]
      exact ih i (by omega)

/-- C22: `client(id)` returns the first member session, in insertion order, whose id
is `id` and whose status is Connected, and the null pointer when there is none: it
returns a session iff the group has a Connected session with that id, and null for
an unknown id and for an id whose sessions are Disconnecting or Disconnected;
`count()` is the number of Connected member sessions. -/
theorem client_lookup (g : AsyncWebSocket) (id : Nat) :
    g.client id
      = (g._clients.filter
          (fun c => decide (c._clientId = id ∧ c._status = WS_CONNECTED))).head?
    ∧ ((g.client id).isSome
        ↔ ∃ c ∈ g._clients, c._clientId = id ∧ c._status = WS_CONNECTED)
    ∧ (∀ c, g.client id = some c → c ∈ g._clients ∧ c._clientId = id
        ∧ c._status = WS_CONNECTED)
    ∧ (g.client id = none
        ↔ ∀ c ∈ g._clients, c._clientId = id → c._status ≠ WS_CONNECTED)
    ∧ (g._clients.length < 4294967296 →
        g.count = (g._clients.filter (fun c => decide (c._status = WS_CONNECTED))).length) := by
  have h := clientLoop_eq id g._clients
  refine ⟨h, ?_, ?_, ?_, ?_⟩
  · unfold AsyncWebSocket.client
    rw [h]
    constructor
    · intro hs
      obtain ⟨c, hc⟩ := Option.isSome_iff_exists.mp hs
      have hm := List.mem_of_mem_head? hc
      rw [List.mem_filter] at hm
      exact ⟨c, hm.1, by simpa using hm.2⟩
    · rintro ⟨c, hc, h1, h2⟩
      have hm : c ∈ g._clients.filter
          (fun c => decide (c._clientId = id ∧ c._status = WS_CONNECTED)) := by
        rw [List.mem_filter]
        exact ⟨hc, by simp [h1, h2]⟩
      cases hf : g._clients.filter
          (fun c => decide (c._clientId = id ∧ c._status = WS_CONNECTED)) with
      | nil => rw [hf] at hm; simp at hm
      | cons a q => simp
  · intro c hc
    unfold AsyncWebSocket.client at hc
    rw [h] at hc
    have hm := List.mem_of_mem_head? hc
    rw [List.mem_filter] at hm
    have := hm.2
    simp only [decide_eq_true_eq] at this
    exact ⟨hm.1, this.1, this.2⟩
  · unfold AsyncWebSocket.client
    rw [h]
    constructor
    · intro hn c hc h1 h2
      have hm : c ∈ g._clients.filter
          (fun c => decide (c._clientId = id ∧ c._status = WS_CONNECTED)) := by
        rw [List.mem_filter]
        exact ⟨hc, by simp [h1, h2]⟩
      cases hf : g._clients.filter
          (fun c => decide (c._clientId = id ∧ c._status = WS_CONNECTED)) with
      | nil => rw [hf] at hm; simp at hm
      | cons a q => rw [hf] at hn; simp at hn
    · intro hall
      cases hf : g._clients.filter
          (fun c => decide (c._clientId = id ∧ c._status = WS_CONNECTED)) with
      | nil => rfl
      | cons a q =>
        have hm : a ∈ g._clients.filter
            (fun c => decide (c._clientId = id ∧ c._status = WS_CONNECTED)) := by
          rw [hf]; exact List.mem_cons_self _ _
        rw [List.mem_filter] at hm
        have := hm.2
        simp only [decide_eq_true_eq] at this
        exact absurd this.2 (hall a hm.1 this.1)
  · intro hl
    unfold AsyncWebSocket.count
    rw [countLoop_eq g._clients 0 (by omega)]
    omega

theorem client_lookup_witness :
    (⟨[{ AsyncWebSocketClient.new 16 (AsyncClient.ready 100) 0 with
          _clientId := 1, _status := WS_DISCONNECTING },
       { AsyncWebSocketClient.new 16 (AsyncClient.ready 100) 0 with _clientId := 2 }],
      3, true⟩ : AsyncWebSocket).count
      = ((⟨[{ AsyncWebSocketClient.new 16 (AsyncClient.ready 100) 0 with
              _clientId := 1, _status := WS_DISCONNECTING },
            { AsyncWebSocketClient.new 16 (AsyncClient.ready 100) 0 with _clientId := 2 }],
          3, true⟩ : AsyncWebSocket)._clients.filter
          (fun c => decide (c._status = WS_CONNECTED))).length :=
  (client_lookup
    ⟨[{ AsyncWebSocketClient.new 16 (AsyncClient.ready 100) 0 with
          _clientId := 1, _status := WS_DISCONNECTING },
       { AsyncWebSocketClient.new 16 (AsyncClient.ready 100) 0 with _clientId := 2 }],
      3, true⟩ 1).2.2.2.2 (by decide)
theorem queueIsFull_iff (MAXQ : Nat) (c : AsyncWebSocketClient) :
    c.queueIsFull MAXQ = true ↔ MAXQ ≤ c._messageQueue.length ∨ c._status ≠ WS_CONNECTED := by
  unfold AsyncWebSocketClient.queueIsFull
  by_cases h : c._messageQueue.length ≥ MAXQ ∨ c._status ≠ WS_CONNECTED
  · simp only [h, if_true, true_iff]
  · simp only [h, if_false, Bool.false_eq_true, false_iff]

theorem availableForWriteLoop_false (MAXQ id : Nat) (l : List AsyncWebSocketClient) :
    availableForWriteLoop MAXQ id l = false
      ↔ ∃ c ∈ l, c._clientId = id ∧ c.queueIsFull MAXQ = true := by
  induction l with
  | nil => simp [availableForWriteLoop]
  | cons c rest ih =>
    simp only [availableForWriteLoop, AsyncWebSocketClient.id, List.mem_cons]
    by_cases h : c.queueIsFull MAXQ = true ∧ c._clientId = id
    · simp only [h.1, h.2, decide_True, Bool.and_self, if_true, true_iff]
      exact ⟨c, Or.inl rfl, h.2, h.1⟩
    · have hb : (c.queueIsFull MAXQ && decide (c._clientId = id)) = false := by
        by_cases h1 : c.queueIsFull MAXQ = true
        · have h2 : ¬ c._clientId = id := fun h2 => h ⟨h1, h2⟩
          simp [h2]
        · simp [h1]
      simp only [hb, Bool.false_eq_true, if_false, ih]
      constructor
      · rintro ⟨d, hd, h1, h2⟩
        exact ⟨d, Or.inr hd, h1, h2⟩
      · rintro ⟨d, hd | hd, h1, h2⟩
        · subst hd
          exact absurd ⟨h2, h1⟩ h
        · exact ⟨d, hd, h1, h2⟩

theorem availableForWriteAllLoop_false (MAXQ : Nat) (l : List AsyncWebSocketClient) :
    availableForWriteAllLoop MAXQ l = false ↔ ∃ c ∈ l, c.queueIsFull MAXQ = true := by
  induction l with
  | nil => simp [availableForWriteAllLoop]
  | cons c rest ih =>
    simp only [availableForWriteAllLoop, List.mem_cons]
    by_cases h : c.queueIsFull MAXQ = true
    · simp only [h, if_true, true_iff]
      exact ⟨c, Or.inl rfl, h⟩
    · simp only [h, Bool.false_eq_true, if_false, ih]
      constructor
      · rintro ⟨d, hd, h1⟩
        exact ⟨d, Or.inr hd, h1⟩
      · rintro ⟨d, hd | hd, h1⟩
        · subst hd
          exact absurd h1 h
        · exact ⟨d, hd, h1⟩

/-- C23 (as stated, refuted): a group whose only member, with id 1, is Disconnecting
and has an empty message queue. With a capacity of 8 the queue is not full, yet
`availableForWrite(1)` and `availableForWriteAll()` return false. -/
theorem unavailable_with_empty_queue :
    (⟨[{ AsyncWebSocketClient.new 16 (AsyncClient.ready 100) 0 with
          _clientId := 1, _status := WS_DISCONNECTING }], 2, true⟩
        : AsyncWebSocket).availableForWrite 8 1 = false
    ∧ (⟨[{ AsyncWebSocketClient.new 16 (AsyncClient.ready 100) 0 with
          _clientId := 1, _status := WS_DISCONNECTING }], 2, true⟩
        : AsyncWebSocket).availableForWriteAll 8 = false
    ∧ ({ AsyncWebSocketClient.new 16 (AsyncClient.ready 100) 0 with
          _clientId := 1, _status := WS_DISCONNECTING }
        : AsyncWebSocketClient)._messageQueue.length = 0 := by
  decide

/-- C23 (amended): `availableForWrite(id)` returns false exactly when some member
session with that id reports `queueIsFull()`, that is, holds at least
`WS_MAX_QUEUED_MESSAGES` messages in its message queue or is not Connected; and
`availableForWriteAll()` returns false exactly when some member session does. -/
theorem availability_probing (MAXQ : Nat) (g : AsyncWebSocket) (id : Nat) :
    (g.availableForWrite MAXQ id = false
      ↔ ∃ c ∈ g._clients, c._clientId = id
          ∧ (MAXQ ≤ c._messageQueue.length ∨ c._status ≠ WS_CONNECTED))
    ∧ (g.availableForWriteAll MAXQ = false
      ↔ ∃ c ∈ g._clients, MAXQ ≤ c._messageQueue.length ∨ c._status ≠ WS_CONNECTED) := by
  constructor
  · unfold AsyncWebSocket.availableForWrite
    rw [availableForWriteLoop_false]
    simp only [queueIsFull_iff]
  · unfold AsyncWebSocket.availableForWriteAll
    rw [availableForWriteAllLoop_false]
    simp only [queueIsFull_iff]

theorem uninit_length (c : AsyncClient) (n : Nat) : (c.uninit n).length = n := by
  simp [AsyncClient.uninit]

theorem sentHeaderMasked_length (final : Bool) (opcode len : Nat) (key : List Nat)
    (hk : key.length = 4) :
    (sentHeaderMasked final opcode len key).length = webSocketHeaderLength true len := by
  by_cases h : len < 126 <;> simp [sentHeaderMasked, webSocketHeaderLength, h, hk]

/-- A masked frame with a payload on a transport that can send, has room for the
header and takes what is offered: the header with the drawn key and the payload
masked with that key are written; the buffer is left masked. -/
theorem webSocketSendFrame_masked_wire (c : AsyncClient) (final : Bool) (opcode : Nat)
    (data : List Nat) (len : Nat) (hcan : c.canSend = true) (hacc : c.accepts = [])
    (hsp : 8 ≤ c.space) (hlen : len ≠ 0) (hdl : len ≤ data.length) :
    (webSocketSendFrame c final opcode true data len).1 = len
    ∧ (webSocketSendFrame c final opcode true data len).2.2 = applyMask data (maskKey c) len
    ∧ (webSocketSendFrame c final opcode true data len).2.1.wire
        = c.wire ++ (sentHeaderMasked final opcode len (maskKey c)
            ++ (applyMask data (maskKey c) len).take len) := by
  have hk : (maskKey c).length = 4 := rfl
  have hsl := sentHeaderMasked_length final opcode len (maskKey c) hk
  have hpos : 6 ≤ webSocketHeaderLength true len := by
    by_cases h : len < 126 <;> simp [webSocketHeaderLength, h]
  have hal := applyMask_length data (maskKey c) len
  unfold webSocketSendFrame
  simp only [if_true]
  rw [webSocketSendFrameHeader_masked c final opcode len _ (uninit_length c 4) hlen hcan hsp]
  have hadd : (({ c with rnd := c.rnd.drop 4 } : AsyncClient).add
      (sentHeaderMasked final opcode len (maskKey c))).1
      = (sentHeaderMasked final opcode len (maskKey c)).length := by
    simp [AsyncClient.add, hacc]
  have hne : ¬ (({ c with rnd := c.rnd.drop 4 } : AsyncClient).add
      (sentHeaderMasked final opcode len (maskKey c))).1 = 0 := by
    rw [hadd, hsl]; omega
  simp only [hne, if_false, ne_eq, hlen, not_false_eq_true, if_true, Option.getD_some]
  refine ⟨?_, trivial, ?_⟩
  · simp only [AsyncClient.add, hacc, List.tail_nil, List.headD_nil, List.length_take, hal]
    omega
  · simp [AsyncClient.add, AsyncClient.send, hacc]

theorem multi_new_idem (P : List Nat) (opcode : Nat) (mask : Bool) :
    AsyncWebSocketMultiMessage.new ⟨some P⟩
        (AsyncWebSocketMultiMessage.new ⟨some P⟩ opcode mask)._opcode mask
      = AsyncWebSocketMultiMessage.new ⟨some P⟩ opcode mask := by
  have h : (opcode % 256 &&& 7) % 256 &&& 7 = opcode % 256 &&& 7 := by
    have h1 : opcode % 256 &&& 7 ≤ 7 := Nat.and_le_right
    rw [Nat.mod_eq_of_lt (by omega), Nat.and_assoc]
    rfl
  simp only [AsyncWebSocketMultiMessage.new, h]

theorem multi_new_opcode_idem (B B' : SharedBuffer) (opcode : Nat) (mask : Bool) :
    AsyncWebSocketMultiMessage.new B'
        (AsyncWebSocketMultiMessage.new B opcode mask)._opcode mask
      = AsyncWebSocketMultiMessage.new B' opcode mask := by
  have h : (opcode % 256 &&& 7) % 256 &&& 7 = opcode % 256 &&& 7 := by
    have h1 : opcode % 256 &&& 7 ≤ 7 := Nat.and_le_right
    rw [Nat.mod_eq_of_lt (by omega), Nat.and_assoc]
    rfl
  simp only [AsyncWebSocketMultiMessage.new, h]

theorem copy_of_held (B : SharedBuffer) (h : B.toBool = true) : B.copy true = B := by
  cases B with
  | mk buf =>
    cases buf with
    | none => simp [SharedBuffer.toBool] at h
    | some d => rfl

/-- The clone of a message as its constructor leaves it. It equals the message
field by field, except when the message is masked, holds a payload and the
allocation of the copy fails: then the clone holds an empty buffer and is in the
Error status. One payload buffer is asked for when the message is masked and holds
a payload, none otherwise. -/
theorem clone_of_new (B : SharedBuffer) (opcode : Nat) (mask ok : Bool) :
    ((AsyncWebSocketMultiMessage.new B opcode mask).clone ok).1
        = (if mask = true ∧ B.toBool = true ∧ ok = false
           then AsyncWebSocketMultiMessage.new ⟨some []⟩ opcode mask
           else AsyncWebSocketMultiMessage.new B opcode mask)
    ∧ ((AsyncWebSocketMultiMessage.new B opcode mask).clone ok).2
        = if mask = true ∧ B.toBool = true then 1 else 0 := by
  have hw : (AsyncWebSocketMultiMessage.new B opcode mask)._WSbuffer = B := rfl
  have hmk : (AsyncWebSocketMultiMessage.new B opcode mask)._mask = mask := rfl
  unfold AsyncWebSocketMultiMessage.clone
  rw [hw, hmk, multi_new_opcode_idem, multi_new_opcode_idem]
  cases mask with
  | false => simp
  | true =>
    cases hb : B.toBool with
    | false => simp
    | true =>
      cases ok with
      | true => simp [copy_of_held B hb]
      | false => simp [SharedBuffer.copy]

theorem messageAllLoop_clients (MAXQ : Nat) (m : AsyncWebSocketMultiMessage) :
    ∀ (l : List AsyncWebSocketClient) (mallocs : List Bool),
      List.Forall₂ (fun c c' =>
          if c._status = WS_CONNECTED
          then ∃ ok, c' = c._queueMessage MAXQ (.multi (m.clone ok).1)
          else c' = c)
        l (messageAllLoop MAXQ m l mallocs).1 := by
  intro l
  induction l with
  | nil => intro mallocs; exact List.Forall₂.nil
  | cons c rest ih =>
    intro mallocs
    simp only [messageAllLoop, AsyncWebSocketClient.status, AsyncWebSocketClient.message]
    by_cases h : c._status = WS_CONNECTED
    · simp only [h, if_true]
      refine List.Forall₂.cons ?_ (ih _)
      show (if c._status = WS_CONNECTED
        then ∃ ok, c._queueMessage MAXQ (.multi (m.clone (mallocs.headD true)).1)
          = c._queueMessage MAXQ (.multi (m.clone ok).1)
        else c._queueMessage MAXQ (.multi (m.clone (mallocs.headD true)).1) = c)
      rw [if_pos h]
      exact ⟨_, rfl⟩
    · simp only [h, if_false]
      refine List.Forall₂.cons ?_ (ih _)
      show (if c._status = WS_CONNECTED
        then ∃ ok, c = c._queueMessage MAXQ (.multi (m.clone ok).1)
        else c = c)
      rw [if_neg h]

theorem clone_count (m : AsyncWebSocketMultiMessage) (ok : Bool) :
    (m.clone ok).2 = if m._mask = true ∧ m._WSbuffer.toBool = true then 1 else 0 := by
  unfold AsyncWebSocketMultiMessage.clone
  cases m._mask <;> cases m._WSbuffer.toBool <;> simp

theorem messageAllLoop_count (MAXQ : Nat) (m : AsyncWebSocketMultiMessage) :
    ∀ (l : List AsyncWebSocketClient) (mallocs : List Bool),
      (messageAllLoop MAXQ m l mallocs).2
        = (if m._mask = true ∧ m._WSbuffer.toBool = true then 1 else 0)
          * (l.filter (fun c => decide (c._status = WS_CONNECTED))).length := by
  intro l
  induction l with
  | nil => intro mallocs; simp [messageAllLoop]
  | cons c rest ih =>
    intro mallocs
    simp only [messageAllLoop, AsyncWebSocketClient.status, List.filter_cons]
    by_cases h : c._status = WS_CONNECTED
    · simp only [h, if_true, decide_True, List.length_cons, ih, clone_count]
      rw [Nat.mul_add, Nat.mul_one, Nat.add_comm]
    · simp only [h, if_false, decide_False, Bool.false_eq_true, ih]

theorem messageAllLoop_all_succeed (MAXQ : Nat) (m : AsyncWebSocketMultiMessage) :
    ∀ (l : List AsyncWebSocketClient) (mallocs : List Bool), (∀ b ∈ mallocs, b = true) →
      (messageAllLoop MAXQ m l mallocs).1
        = l.map (fun c => if c._status = WS_CONNECTED
            then c._queueMessage MAXQ (.multi (m.clone true).1) else c) := by
  intro l
  induction l with
  | nil => intro mallocs _; rfl
  | cons c rest ih =>
    intro mallocs hall
    have hh : mallocs.headD true = true := by
      cases mallocs with
      | nil => rfl
      | cons b bs => exact hall b (List.mem_cons_self _ _)
    have ht : ∀ b ∈ mallocs.tail, b = true := fun b hb => hall b (List.mem_of_mem_tail hb)
    simp only [messageAllLoop, AsyncWebSocketClient.status, AsyncWebSocketClient.message,
      List.map_cons]
    by_cases h : c._status = WS_CONNECTED
    · simp only [h, if_true, hh, ih _ ht]
    · simp only [h, if_false, ih _ hall]

theorem queueMessage_connected (MAXQ : Nat) (c : AsyncWebSocketClient)
    (x : AsyncWebSocketMessage) (hs : c._status = WS_CONNECTED) :
    (c._messageQueue.length < MAXQ →
      c._queueMessage MAXQ x
        = if c._client.canSend = true then
            ({ c with _messageQueue := c._messageQueue ++ [x] } : AsyncWebSocketClient)._runQueue
          else { c with _messageQueue := c._messageQueue ++ [x] })
    ∧ (MAXQ ≤ c._messageQueue.length →
      c._queueMessage MAXQ x = if c._client.canSend = true then c._runQueue else c) := by
  constructor
  · intro hroom
    have h : ¬ c._messageQueue.length ≥ MAXQ := by omega
    simp only [AsyncWebSocketClient._queueMessage, hs, ne_eq, not_true_eq_false, if_false, h]
  · intro hfull
    simp [AsyncWebSocketClient._queueMessage, hs, hfull]

/-- The first `send()` of a masked shared-buffer message whose payload fits the
window: one final frame, masked with the key drawn on that transport. -/
theorem multi_send_masked_whole (P : List Nat) (opcode : Nat) (t : AsyncClient)
    (hP : P ≠ []) (hPl : P.length < 4294967296) (hcan : t.canSend = true)
    (hacc : t.accepts = []) (hsp : P.length + 8 ≤ t.space) (hsp2 : t.space < 4294967296) :
    ((AsyncWebSocketMultiMessage.new ⟨some P⟩ opcode true).send t).2.2.wire
      = t.wire ++ (sentHeaderMasked true (opcode % 256 &&& 0x07) P.length (maskKey t)
          ++ applyMask P (maskKey t) P.length) := by
  have hpos : 0 < P.length := List.length_pos.mpr hP
  have hb : (SharedBuffer.mk (some P)).toBool = true := by
    simp [SharedBuffer.toBool, hpos]
  have hw := window_of_space t hcan (by omega) hsp2
  have hr := multi_send_new_frame (AsyncWebSocketMultiMessage.new ⟨some P⟩ opcode true) t
    (by simp [AsyncWebSocketMultiMessage.new, hb]) (by simp [AsyncWebSocketMultiMessage.new])
    (by simp [AsyncWebSocketMultiMessage.new, SharedBuffer.size]; exact hpos)
    (by simp [AsyncWebSocketMultiMessage.new])
    (by simp [AsyncWebSocketMultiMessage.new, SharedBuffer.size]; exact hPl) _ rfl _ rfl
  have hk : min ((AsyncWebSocketMultiMessage.new ⟨some P⟩ opcode true)._WSbuffer.size
      - (AsyncWebSocketMultiMessage.new ⟨some P⟩ opcode true)._sent)
      (webSocketSendFrameWindow t) = P.length := by
    rw [hw]
    simp only [AsyncWebSocketMultiMessage.new, SharedBuffer.size, Option.getD_some]
    omega
  rw [hk] at hr
  rw [hr]
  have hf := webSocketSendFrame_masked_wire t true (opcode % 256 &&& 0x07) P P.length hcan hacc
    (by omega) (by omega) (Nat.le_refl _)
  have hfr : webSocketSendFrame t
      (decide ((AsyncWebSocketMultiMessage.new ⟨some P⟩ opcode true)._sent + P.length
        = (AsyncWebSocketMultiMessage.new ⟨some P⟩ opcode true)._WSbuffer.size))
      (if P.length ≠ 0 ∧ (AsyncWebSocketMultiMessage.new ⟨some P⟩ opcode true)._sent = 0
        then (AsyncWebSocketMultiMessage.new ⟨some P⟩ opcode true)._opcode else WS_CONTINUATION)
      (AsyncWebSocketMultiMessage.new ⟨some P⟩ opcode true)._mask
      (List.drop (AsyncWebSocketMultiMessage.new ⟨some P⟩ opcode true)._sent
        (AsyncWebSocketMultiMessage.new ⟨some P⟩ opcode true)._WSbuffer.data) P.length
      = webSocketSendFrame t true (opcode % 256 &&& 0x07) true P P.length := by
    have h0 : P.length ≠ 0 := by omega
    simp [AsyncWebSocketMultiMessage.new, SharedBuffer.size, SharedBuffer.data, h0]
  rw [hfr, hf.2.2]
  have hal := applyMask_length P (maskKey t) P.length
  rw [List.take_of_length_le (by rw [hal])]

/-- C24 (as stated, refuted): four broadcasts of a text message to three Connected
sessions. (1) Masked "HI" to sessions whose transports are ready and on each of
which `rand()` yields 1, 2, 3, 4: three payload copies are made, and the three
frames written are the same bytes, each with the mask key `01 02 03 04`, so the
keys are not distinct. (2) A masked message with an empty payload: `clone()` makes
no copy at all. (3) Unmasked "HI" to sessions whose message queue is full (one
message queued, capacity 1) and whose transport cannot send: the clones are
discarded and the queues stay as they were. (4) Masked "HI" when the allocation of
the first clone's copy fails, the transports being unable to send: the clone
enqueued on the first session holds no payload and is in the Error status, the
other two hold "HI". -/
theorem broadcast_mask_keys_coincide :
    ((⟨[{ AsyncWebSocketClient.new 16 { AsyncClient.ready 100 with rnd := [1, 2, 3, 4] } 0
            with _clientId := 1 },
         { AsyncWebSocketClient.new 16 { AsyncClient.ready 100 with rnd := [1, 2, 3, 4] } 0
            with _clientId := 2 },
         { AsyncWebSocketClient.new 16 { AsyncClient.ready 100 with rnd := [1, 2, 3, 4] } 0
            with _clientId := 3 }], 4, true⟩ : AsyncWebSocket).messageAll 8
        (AsyncWebSocketMultiMessage.new ⟨some [72, 73]⟩ WS_TEXT true) []).1._clients.map
        (fun c => c._client.wire)
      = [[129, 130, 1, 2, 3, 4, 73, 75], [129, 130, 1, 2, 3, 4, 73, 75],
         [129, 130, 1, 2, 3, 4, 73, 75]]
    ∧ ((⟨[{ AsyncWebSocketClient.new 16 { AsyncClient.ready 100 with rnd := [1, 2, 3, 4] } 0
            with _clientId := 1 },
         { AsyncWebSocketClient.new 16 { AsyncClient.ready 100 with rnd := [1, 2, 3, 4] } 0
            with _clientId := 2 },
         { AsyncWebSocketClient.new 16 { AsyncClient.ready 100 with rnd := [1, 2, 3, 4] } 0
            with _clientId := 3 }], 4, true⟩ : AsyncWebSocket).messageAll 8
        (AsyncWebSocketMultiMessage.new ⟨some [72, 73]⟩ WS_TEXT true) []).2 = 3
    ∧ ((⟨[AsyncWebSocketClient.new 16 (AsyncClient.ready 100) 0,
          AsyncWebSocketClient.new 16 (AsyncClient.ready 100) 0,
          AsyncWebSocketClient.new 16 (AsyncClient.ready 100) 0], 4, true⟩
          : AsyncWebSocket).messageAll 8
        (AsyncWebSocketMultiMessage.new ⟨some []⟩ WS_TEXT true) []).2 = 0
    ∧ ((⟨[{ AsyncWebSocketClient.new 16 { AsyncClient.ready 100 with canSend := false } 0 with
            _messageQueue := [.basic (AsyncWebSocketBasicMessage.new [65] 1 WS_TEXT false)] },
          { AsyncWebSocketClient.new 16 { AsyncClient.ready 100 with canSend := false } 0 with
            _messageQueue := [.basic (AsyncWebSocketBasicMessage.new [65] 1 WS_TEXT false)] },
          { AsyncWebSocketClient.new 16 { AsyncClient.ready 100 with canSend := false } 0 with
            _messageQueue := [.basic (AsyncWebSocketBasicMessage.new [65] 1 WS_TEXT false)] }],
          4, true⟩ : AsyncWebSocket).messageAll 1
        (AsyncWebSocketMultiMessage.new ⟨some [72, 73]⟩ WS_TEXT false) []).1._clients.map
        (fun c => c._messageQueue)
      = [[.basic (AsyncWebSocketBasicMessage.new [65] 1 WS_TEXT false)],
         [.basic (AsyncWebSocketBasicMessage.new [65] 1 WS_TEXT false)],
         [.basic (AsyncWebSocketBasicMessage.new [65] 1 WS_TEXT false)]]
    ∧ ((⟨[AsyncWebSocketClient.new 16 { AsyncClient.ready 100 with canSend := false } 0,
          AsyncWebSocketClient.new 16 { AsyncClient.ready 100 with canSend := false } 0,
          AsyncWebSocketClient.new 16 { AsyncClient.ready 100 with canSend := false } 0],
          4, true⟩ : AsyncWebSocket).messageAll 8
        (AsyncWebSocketMultiMessage.new ⟨some [72, 73]⟩ WS_TEXT true)
        [false, true, true]).1._clients.map
        (fun c => c._messageQueue.map (fun m => (m.status, m.mask)))
      = [[(WS_MSG_ERROR, true)], [(WS_MSG_SENDING, true)], [(WS_MSG_SENDING, true)]]
    ∧ ((⟨[AsyncWebSocketClient.new 16 { AsyncClient.ready 100 with canSend := false } 0,
          AsyncWebSocketClient.new 16 { AsyncClient.ready 100 with canSend := false } 0,
          AsyncWebSocketClient.new 16 { AsyncClient.ready 100 with canSend := false } 0],
          4, true⟩ : AsyncWebSocket).messageAll 8
        (AsyncWebSocketMultiMessage.new ⟨some [72, 73]⟩ WS_TEXT true)
        [false, true, true]).1._clients.map (fun c => c._messageQueue)
      = [[.multi (AsyncWebSocketMultiMessage.new ⟨some []⟩ WS_TEXT true)],
         [.multi (AsyncWebSocketMultiMessage.new ⟨some [72, 73]⟩ WS_TEXT true)],
         [.multi (AsyncWebSocketMultiMessage.new ⟨some [72, 73]⟩ WS_TEXT true)]] := by
  decide!

/-- C24 (amended): broadcasting one shared-buffer message `m` (as its constructor
leaves it) with `messageAll` to 3 Connected sessions hands to `_queueMessage` of
each session a clone with the same opcode and mask flag. `_queueMessage` appends
the clone to the session's message queue when the queue has room (fewer than
`WS_MAX_QUEUED_MESSAGES` entries) and discards it otherwise, and then runs the
scheduler when the transport can send. When the message is unmasked or holds no
payload, every clone equals the message and shares its buffer: the broadcast asks
for no payload buffer. When it is masked and holds a payload, one copy is asked
for per session (3 for 3 sessions): a clone whose copy is allocated equals the
message (same payload bytes, in a buffer of its own), one whose allocation fails
holds an empty buffer and is in the Error status. A masked clone's first `send()`
masks its copy with the key that `rand()` yields on that send; the keys of
different clones need not differ. The same holds member by member for a group of
any size, only Connected members being sent a clone. -/
theorem broadcast_clones (MAXQ : Nat) (c1 c2 c3 : AsyncWebSocketClient) (nextId : Nat)
    (enabled : Bool) (B : SharedBuffer) (opcode : Nat) (mask : Bool) (o1 o2 o3 : Bool)
    (os : List Bool) (m : AsyncWebSocketMultiMessage)
    (hm : m = AsyncWebSocketMultiMessage.new B opcode mask)
    (h1 : c1._status = WS_CONNECTED) (h2 : c2._status = WS_CONNECTED)
    (h3 : c3._status = WS_CONNECTED) :
    (∀ ok, (m.clone ok).1._opcode = m._opcode ∧ (m.clone ok).1._mask = m._mask
      ∧ ((mask = false ∨ B.toBool = false ∨ ok = true) → (m.clone ok).1 = m)
      ∧ (mask = true → B.toBool = true → ok = false →
          (m.clone ok).1 = AsyncWebSocketMultiMessage.new ⟨some []⟩ opcode mask
          ∧ (m.clone ok).1._WSbuffer.data = [] ∧ (m.clone ok).1._status = WS_MSG_ERROR))
    ∧ ((⟨[c1, c2, c3], nextId, enabled⟩ : AsyncWebSocket).messageAll MAXQ m
          (o1 :: o2 :: o3 :: os)).1._clients
        = [c1._queueMessage MAXQ (.multi (m.clone o1).1),
           c2._queueMessage MAXQ (.multi (m.clone o2).1),
           c3._queueMessage MAXQ (.multi (m.clone o3).1)]
    ∧ (∀ (c : AsyncWebSocketClient) (x : AsyncWebSocketMessage), c._status = WS_CONNECTED →
        (c._messageQueue.length < MAXQ →
          c._queueMessage MAXQ x
            = if c._client.canSend = true then
                ({ c with _messageQueue := c._messageQueue ++ [x] }
                  : AsyncWebSocketClient)._runQueue
              else { c with _messageQueue := c._messageQueue ++ [x] })
        ∧ (MAXQ ≤ c._messageQueue.length →
          c._queueMessage MAXQ x = if c._client.canSend = true then c._runQueue else c))
    ∧ ((⟨[c1, c2, c3], nextId, enabled⟩ : AsyncWebSocket).messageAll MAXQ m
          (o1 :: o2 :: o3 :: os)).2
        = (if mask = true ∧ B.toBool = true then 3 else 0)
    ∧ (∀ (g : AsyncWebSocket) (mallocs : List Bool),
        List.Forall₂ (fun c c' =>
            if c._status = WS_CONNECTED
            then ∃ ok, c' = c._queueMessage MAXQ (.multi (m.clone ok).1)
            else c' = c)
          g._clients (g.messageAll MAXQ m mallocs).1._clients
        ∧ ((∀ b ∈ mallocs, b = true) →
            (g.messageAll MAXQ m mallocs).1._clients
              = g._clients.map (fun c => if c._status = WS_CONNECTED
                  then c._queueMessage MAXQ (.multi m) else c))
        ∧ (g.messageAll MAXQ m mallocs).2
            = (if mask = true ∧ B.toBool = true then
                (g._clients.filter (fun c => decide (c._status = WS_CONNECTED))).length
               else 0))
    ∧ (mask = true → ∀ (P : List Nat) (t : AsyncClient), B = ⟨some P⟩ → P ≠ [] →
        t.canSend = true → t.accepts = [] →
        P.length + 8 ≤ t.space → t.space < 4294967296 →
        ((m.clone true).1.send t).2.2.wire
          = t.wire ++ (sentHeaderMasked true (opcode % 256 &&& 0x07) P.length (maskKey t)
              ++ applyMask P (maskKey t) P.length)) := by
  subst hm
  have hcl := clone_of_new B opcode mask
  have hmask : (AsyncWebSocketMultiMessage.new B opcode mask)._mask = mask := rfl
  have hbuf : (AsyncWebSocketMultiMessage.new B opcode mask)._WSbuffer = B := rfl
  have hsame : ∀ ok, (mask = false ∨ B.toBool = false ∨ ok = true) →
      ((AsyncWebSocketMultiMessage.new B opcode mask).clone ok).1
        = AsyncWebSocketMultiMessage.new B opcode mask := by
    intro ok h
    rw [(hcl ok).1]
    have : ¬ (mask = true ∧ B.toBool = true ∧ ok = false) := by
      rintro ⟨a, b, c⟩
      rcases h with h | h | h
      · rw [a] at h; cases h
      · rw [b] at h; cases h
      · rw [c] at h; cases h
    rw [if_neg this]
  refine ⟨?_, ?_, ?_, ?_, ?_, ?_⟩
  · intro ok
    refine ⟨?_, ?_, hsame ok, ?_⟩
    · rw [(hcl ok).1]
      split_ifs <;> rfl
    · rw [(hcl ok).1]
      split_ifs <;> rfl
    · intro a b c
      rw [(hcl ok).1, if_pos ⟨a, b, c⟩]
      exact ⟨rfl, rfl, rfl⟩
  · simp [AsyncWebSocket.messageAll, messageAllLoop, AsyncWebSocketClient.status,
      AsyncWebSocketClient.message, h1, h2, h3]
  · intro c x hs
    exact queueMessage_connected MAXQ c x hs
  · show (messageAllLoop MAXQ _ [c1, c2, c3] _).2 = _
    rw [messageAllLoop_count, hmask, hbuf]
    simp only [List.filter_cons, h1, h2, h3, decide_True, if_true, List.filter_nil,
      List.length_cons, List.length_nil]
    split_ifs <;> rfl
  · intro g mallocs
    refine ⟨messageAllLoop_clients MAXQ _ g._clients mallocs, ?_, ?_⟩
    · intro hall
      show (messageAllLoop MAXQ _ g._clients mallocs).1 = _
      rw [messageAllLoop_all_succeed MAXQ _ g._clients mallocs hall,
        hsame true (Or.inr (Or.inr rfl))]
    · show (messageAllLoop MAXQ _ g._clients mallocs).2 = _
      rw [messageAllLoop_count, hmask, hbuf]
      split_ifs <;> simp
  · intro hmk P t hB hP hcan hacc hsp hsp2
    subst hmk
    subst hB
    rw [hsame true (Or.inr (Or.inr rfl))]
    exact multi_send_masked_whole P opcode t hP (by omega) hcan hacc hsp hsp2

theorem broadcast_clones_witness :
    ((⟨[{ AsyncWebSocketClient.new 16 (AsyncClient.ready 100) 0 with _clientId := 1 },
        { AsyncWebSocketClient.new 16 (AsyncClient.ready 100) 0 with _clientId := 2 },
        { AsyncWebSocketClient.new 16 (AsyncClient.ready 100) 0 with _clientId := 3 }],
      4, true⟩ : AsyncWebSocket).messageAll 8
        (AsyncWebSocketMultiMessage.new ⟨some [72, 73]⟩ WS_TEXT true)
        (true :: false :: true :: [])).2
      = (if true = true ∧ (SharedBuffer.mk (some [72, 73])).toBool = true then 3 else 0) :=
  (broadcast_clones 8
    { AsyncWebSocketClient.new 16 (AsyncClient.ready 100) 0 with _clientId := 1 }
    { AsyncWebSocketClient.new 16 (AsyncClient.ready 100) 0 with _clientId := 2 }
    { AsyncWebSocketClient.new 16 (AsyncClient.ready 100) 0 with _clientId := 3 }
    4 true ⟨some [72, 73]⟩ WS_TEXT true true false true []
    (AsyncWebSocketMultiMessage.new ⟨some [72, 73]⟩ WS_TEXT true) rfl rfl rfl rfl).2.2.2.1

/-- C26 (the code at the failing input): the Pong frame `8A 08` with the keep-alive
payload "awscPING", delivered as the chunks `8A 08 61 77 73 63` and `50 49 4E 47`.
The first slice is handed to the application as a data event and, the slice of the
last chunk being 4 bytes long, a WS_EVT_PONG event with "PING" is emitted although
the payload equals the keep-alive payload; delivered as one chunk the same frame
emits nothing. And the Pong frame with the 16-byte payload "XXXXXXXXawscPING" whose
last chunk is "awscPING" emits no WS_EVT_PONG although its payload differs. -/
theorem split_pong_event :
    (feed 16 (AsyncWebSocketClient.new 16 (AsyncClient.ready 100) 0)
        [[138, 8, 97, 119, 115, 99], [80, 73, 78, 71]]).map
        (fun t => t.events.map AwsEvent.payload)
      = some [[97, 119, 115, 99], []]
    ∧ (feed 16 (AsyncWebSocketClient.new 16 (AsyncClient.ready 100) 0)
        [[138, 8, 97, 119, 115, 99], [80, 73, 78, 71]]).map
        (fun t => t.events.getLast?)
      = some (some (.WS_EVT_PONG [80, 73, 78, 71]))
    ∧ (feed 16 (AsyncWebSocketClient.new 16 (AsyncClient.ready 100) 0)
        [[138, 8, 97, 119, 115, 99, 80, 73, 78, 71]]).map (fun t => t.events)
      = some []
    ∧ (feed 16 (AsyncWebSocketClient.new 16 (AsyncClient.ready 100) 0)
        [[138, 16, 88, 88, 88, 88, 88, 88, 88, 88],
         [97, 119, 115, 99, 80, 73, 78, 71]]).map
        (fun t => t.events.map AwsEvent.payload)
      = some [[88, 88, 88, 88, 88, 88, 88, 88]] := by
  decide!

theorem frameComplete_pinfo (s : AsyncWebSocketClient) (data : List Nat) (datalen : Nat) :
    (frameComplete s data datalen)._pinfo = s._pinfo := by
  by_cases h8 : s._pinfo.opcode = WS_DISCONNECT
  · unfold frameComplete
    simp only [h8, if_true]
    split_ifs
    all_goals first
      | rfl
      | (rw [(queueControl_frame _ _).2.2.1, newControl_some_session] <;> rfl)
  · by_cases h9 : s._pinfo.opcode = WS_PING
    · rw [frameComplete_ping s data datalen h9, (queueControl_frame _ _).2.2.1]
    · unfold frameComplete
      simp only [h8, h9, if_false]
      split_ifs <;> rfl

theorem ofSize_ok (n : Nat) (h : n ≠ 0) :
    DynamicBuffer.ofSize n true = { _data := some (List.replicate n 0), _len := n } := by
  simp [DynamicBuffer.ofSize, h]

theorem ofSize_failed (n : Nat) : (DynamicBuffer.ofSize n false)._data = none := by
  simp [DynamicBuffer.ofSize]

/-- The sizes of the buffers that a request for `total` bytes in buffers of
`max_buffer_size` is documented to return. -/
theorem allocateListLoop_ok (max_buffer_size : Nat) (hmax : 0 < max_buffer_size) :
    ∀ (fuel total : Nat) (buffers : List DynamicBuffer), total ≤ fuel →
      total < 4294967296 →
      ∃ more, allocateListLoop max_buffer_size fuel total buffers [] = (buffers ++ more, 0)
        ∧ more.map DynamicBuffer.size
          = List.replicate (total / max_buffer_size) max_buffer_size
            ++ (if total % max_buffer_size = 0 then [] else [total % max_buffer_size]) := by
  intro fuel
  induction fuel with
  | zero =>
    intro total buffers h _
    have h0 : total = 0 := by omega
    subst h0
    exact ⟨[], by simp [allocateListLoop], by simp⟩
  | succ fuel ih =>
    intro total buffers h hsz
    by_cases h0 : total = 0
    · subst h0
      exact ⟨[], by simp [allocateListLoop], by simp⟩
    · have hmin : min total max_buffer_size ≠ 0 := by
        rw [Nat.min_def]
        split_ifs <;> omega
      have hle : min total max_buffer_size ≤ total := Nat.min_le_left _ _
      have hsub : szSub total (min total max_buffer_size) = total - min total max_buffer_size := by
        unfold szSub
        omega
      obtain ⟨more, h1, h2⟩ := ih (total - min total max_buffer_size)
        (buffers ++ [DynamicBuffer.ofSize (min total max_buffer_size) true]) (by omega) (by omega)
      refine ⟨DynamicBuffer.ofSize (min total max_buffer_size) true :: more, ?_, ?_⟩
      · simp only [allocateListLoop, h0, if_false, List.headD_nil, ofSize_ok _ hmin,
          Option.isNone_some, hsub, ne_eq, hmin, not_false_eq_true, if_true, List.tail_nil]
        rw [ofSize_ok _ hmin] at h1
        simpa using h1
      · simp only [List.map_cons, h2, ofSize_ok _ hmin, DynamicBuffer.size]
        by_cases hc : total ≤ max_buffer_size
        · rw [Nat.min_eq_left hc, Nat.sub_self]
          by_cases he : total = max_buffer_size
          · subst he
            simp [Nat.div_self hmax]
          · have hlt : total < max_buffer_size := by omega
            simp [Nat.div_eq_of_lt hlt, Nat.mod_eq_of_lt hlt, h0]
        · have hgt : max_buffer_size ≤ total := by omega
          rw [Nat.min_eq_right hgt]
          have e1 : total / max_buffer_size = (total - max_buffer_size) / max_buffer_size + 1 := by
            conv_lhs => rw [← Nat.sub_add_cancel hgt]
            exact Nat.add_div_right _ hmax
          have e2 : total % max_buffer_size = (total - max_buffer_size) % max_buffer_size := by
            conv_lhs => rw [← Nat.sub_add_cancel hgt]
            exact Nat.add_mod_right _ _
          rw [e1, e2, List.replicate_succ, List.cons_append]

theorem allocateListLoop_failed (max_buffer_size : Nat) (hmax : 0 < max_buffer_size) :
    ∀ (k fuel total : Nat) (buffers : List DynamicBuffer) (rest : List Bool), total ≤ fuel →
      total < 4294967296 → k * max_buffer_size < total →
      (allocateListLoop max_buffer_size fuel total buffers
        (List.replicate k true ++ false :: rest)).2 ≠ 0 := by
  intro k
  induction k with
  | zero =>
    intro fuel total buffers rest h hsz hk
    have h0 : total ≠ 0 := by omega
    cases fuel with
    | zero => omega
    | succ fuel =>
      simp only [allocateListLoop, h0, if_false, List.replicate_zero, List.nil_append,
        List.headD_cons, ofSize_failed, Option.isNone_none, if_true]
      exact h0
  | succ k ih =>
    intro fuel total buffers rest h hsz hk
    have hgt : max_buffer_size < total := by
      have : max_buffer_size ≤ (k + 1) * max_buffer_size := Nat.le_mul_of_pos_left _ (by omega)
      omega
    have h0 : total ≠ 0 := by omega
    have hmin : min total max_buffer_size = max_buffer_size := Nat.min_eq_right (by omega)
    have hm0 : max_buffer_size ≠ 0 := by omega
    have hsub : szSub total max_buffer_size = total - max_buffer_size := by
      unfold szSub
      omega
    cases fuel with
    | zero => omega
    | succ fuel =>
      simp only [allocateListLoop, h0, if_false, hmin, List.replicate_succ, List.cons_append,
        List.headD_cons, ofSize_ok _ hm0, Option.isNone_some, hsub, ne_eq, hm0,
        not_false_eq_true, if_true, List.tail_cons]
      refine ih fuel (total - max_buffer_size) _ rest (by omega) (by omega) ?_
      have : (k + 1) * max_buffer_size = k * max_buffer_size + max_buffer_size := by ring
      omega

theorem totalSize_foldl (bs : List DynamicBuffer) :
    ∀ a : Nat, bs.foldl (fun s b => szAdd s b.size) a
      = if bs = [] then a else (a + (bs.map DynamicBuffer.size).sum) % 4294967296 := by
  induction bs with
  | nil => intro a; rfl
  | cons b bs ih =>
    intro a
    simp only [List.foldl_cons, ih, List.map_cons, List.sum_cons]
    by_cases hb : bs = []
    · subst hb
      simp [szAdd]
    · have hne : ¬ (b :: bs = []) := by simp
      simp only [hb, hne, if_false, szAdd]
      omega

theorem allocateList_ok (total max_buffer_size : Nat) (hmax : 0 < max_buffer_size)
    (hsz : total < 4294967296) :
    (allocateList total max_buffer_size []).map DynamicBuffer.size
        = List.replicate (total / max_buffer_size) max_buffer_size
          ++ (if total % max_buffer_size = 0 then [] else [total % max_buffer_size])
    ∧ totalSize (allocateList total max_buffer_size []) = total := by
  obtain ⟨more, h1, h2⟩ := allocateListLoop_ok max_buffer_size hmax total total [] (le_refl _) hsz
  have e : allocateList total max_buffer_size [] = more := by
    simp [allocateList, h1]
  rw [e]
  refine ⟨h2, ?_⟩
  unfold totalSize
  rw [totalSize_foldl, h2]
  have hsum : (List.replicate (total / max_buffer_size) max_buffer_size
      ++ (if total % max_buffer_size = 0 then [] else [total % max_buffer_size])).sum = total := by
    rw [List.sum_append, List.sum_replicate]
    have := Nat.div_add_mod total max_buffer_size
    split_ifs with hr
    · simp only [List.sum_nil, smul_eq_mul]
      rw [Nat.mul_comm]
      omega
    · simp only [List.sum_cons, List.sum_nil, smul_eq_mul]
      rw [Nat.mul_comm]
      omega
  rw [hsum]
  split_ifs with hm
  · subst hm
    simp only [List.map_nil] at h2
    have h3 := congrArg List.sum h2
    rw [hsum] at h3
    simp only [List.sum_nil] at h3
    exact h3
  · simp only [Nat.zero_add]
    exact Nat.mod_eq_of_lt hsz

theorem allocateList_failed (total max_buffer_size k : Nat) (rest : List Bool)
    (hmax : 0 < max_buffer_size) (hsz : total < 4294967296)
    (hk : k * max_buffer_size < total) :
    allocateList total max_buffer_size (List.replicate k true ++ false :: rest) = [] := by
  have h := allocateListLoop_failed max_buffer_size hmax k total total [] rest (le_refl _) hsz hk
  simp [allocateList, h]

/-- C29 (the code at the failing input): with the declared default
`max_buffer_size = 0` every request for `total > 0` bytes returns the empty list
although no allocation fails: the first pass asks for `min(total, 0) = 0` bytes,
`DynamicBuffer(0)` holds the null pointer without calling `malloc`, the loop is
left, and the list is cleared because `total` is not 0. With a buffer size of 4 a
request for 10 bytes yields buffers of 4, 4 and 2 bytes, and the empty list when
the second `malloc` fails. For every buffer size other than 0 the function does
what its declaration documents: when no allocation fails it returns
`total / max_buffer_size` buffers of `max_buffer_size` bytes, followed by one
buffer of the remainder when that is not 0, and their sizes sum to `total`; when
one of the allocations that are needed fails, the list is empty. -/
theorem allocate_with_default_buffer_size :
    (∀ total heap, allocateList (total + 1) 0 heap = [])
    ∧ allocateList 10 0 [] = []
    ∧ (allocateList 10 4 []).map DynamicBuffer.size = [4, 4, 2]
    ∧ totalSize (allocateList 10 4 []) = 10
    ∧ allocateList 10 4 [true, false] = []
    ∧ (∀ total max_buffer_size : Nat, 0 < max_buffer_size → total < 4294967296 →
        (allocateList total max_buffer_size []).map DynamicBuffer.size
            = List.replicate (total / max_buffer_size) max_buffer_size
              ++ (if total % max_buffer_size = 0 then [] else [total % max_buffer_size])
        ∧ totalSize (allocateList total max_buffer_size []) = total)
    ∧ (∀ (total max_buffer_size k : Nat) (rest : List Bool), 0 < max_buffer_size →
        total < 4294967296 → k * max_buffer_size < total →
        allocateList total max_buffer_size (List.replicate k true ++ false :: rest) = []) := by
  refine ⟨?_, by decide, by decide, by decide, by decide, ?_, ?_⟩
  · intro total heap
    simp [allocateList, allocateListLoop, DynamicBuffer.ofSize]
  · intro total max_buffer_size hmax hsz
    exact allocateList_ok total max_buffer_size hmax hsz
  · intro total max_buffer_size k rest hmax hsz hk
    exact allocateList_failed total max_buffer_size k rest hmax hsz hk

/-! ## The parse states -/

theorem headerFail_state (MAX : Nat) (s : AsyncWebSocketClient) (l : HeaderLocals) :
    (headerFail MAX s l).session._pstate = s._pstate
    ∧ (headerFail MAX s l).session._partialHeaderLen
        = (if l.initialPlen ≤ MAX then l.initialPlen else s._partialHeaderLen)
    ∧ ∀ t d n, headerFail MAX s l ≠ .parsed t d n := by
  unfold headerFail
  split_ifs with h
  · exact ⟨rfl, rfl, fun t d n hh => by cases hh⟩
  · exact ⟨rfl, rfl, fun t d n hh => by cases hh⟩

theorem headerMask_state (MAX : Nat) (s : AsyncWebSocketClient) (data : List Nat)
    (l : HeaderLocals) (c : Nat) (hs : s._partialHeaderLen = 0)
    (hrel : l.plen + c = l.initialPlen) (hc : c ≤ 10) :
    (headerMask MAX s data l).session._pstate = s._pstate
    ∧ (headerMask MAX s data l).session._partialHeaderLen ≤ 13
    ∧ ∀ t d n, headerMask MAX s data l = .parsed t d n →
        t._partialHeaderLen = 0 ∧ n ≤ l.plen ∧ t._pinfo.index = s._pinfo.index := by
  unfold headerMask
  split_ifs with h1 h2
  · obtain ⟨g1, g2, g3⟩ := headerFail_state MAX s l
    refine ⟨g1, ?_, fun t d n hh => absurd hh (g3 t d n)⟩
    rw [g2]
    split_ifs <;> omega
  · refine ⟨rfl, by simp only [HeaderOutcome.session]; omega, ?_⟩
    intro t d n hh
    cases hh
    refine ⟨hs, ?_, rfl⟩
    simp only [szSub]
    omega
  · refine ⟨rfl, by simp only [HeaderOutcome.session]; omega, ?_⟩
    intro t d n hh
    cases hh
    exact ⟨hs, Nat.le_refl _, rfl⟩

theorem headerFields_state (MAX : Nat) (s : AsyncWebSocketClient) (data : List Nat)
    (l : HeaderLocals) (hs : s._partialHeaderLen = 0) (hrel : l.plen = l.initialPlen)
    (hI : l.initialPlen < 4294967296) :
    (headerFields MAX s data l).session._pstate = s._pstate
    ∧ (headerFields MAX s data l).session._partialHeaderLen ≤ 13
    ∧ ∀ t d n, headerFields MAX s data l = .parsed t d n →
        t._partialHeaderLen = 0 ∧ n ≤ l.plen ∧ t._pinfo.index = 0 := by
  unfold headerFields
  simp only []
  have hsub : ¬ l.plen < 2 → szSub l.plen 2 = l.plen - 2 := by
    intro h
    simp only [szSub]; omega
  split_ifs with h1 h2 h3 h4 h5
  all_goals try have hsub2 := hsub h1
  · obtain ⟨g1, g2, g3⟩ := headerFail_state MAX s l
    refine ⟨g1, ?_, fun t d n hh => absurd hh (g3 t d n)⟩
    rw [g2]
    split_ifs <;> omega
  · obtain ⟨g1, g2, g3⟩ := headerFail_state MAX
      { s with _pinfo := { s._pinfo with
          index := 0
          final := decide (l.headerBuf.getD 0 0 &&& 0x80 ≠ 0)
          opcode := l.headerBuf.getD 0 0 &&& 0x0F
          masked := decide (l.headerBuf.getD 1 0 &&& 0x80 ≠ 0)
          len := l.headerBuf.getD 1 0 &&& 0x7F } }
      { l with dataPayloadOffset := l.dataPayloadOffset + 2, plen := szSub l.plen 2 }
    refine ⟨g1, ?_, fun t d n hh => absurd hh (g3 t d n)⟩
    rw [g2]
    simp only [hsub2] at h3
    split_ifs <;> simp only [] <;> omega
  · obtain ⟨g1, g2, g3⟩ := headerMask_state MAX
      { s with _pinfo := { s._pinfo with
          index := 0
          final := decide (l.headerBuf.getD 0 0 &&& 0x80 ≠ 0)
          opcode := l.headerBuf.getD 0 0 &&& 0x0F
          masked := decide (l.headerBuf.getD 1 0 &&& 0x80 ≠ 0)
          len := l.headerBuf.getD 3 0 ||| (l.headerBuf.getD 2 0 % 65536) <<< 8 } } data
      { l with dataPayloadOffset := l.dataPayloadOffset + 2 + 2
               plen := szSub (szSub l.plen 2) 2 } 4 hs
      (by simp only [hsub2, szSub] at h3 ⊢; omega) (by omega)
    refine ⟨g1, g2, ?_⟩
    intro t d n hh
    obtain ⟨k1, k2, k3⟩ := g3 t d n hh
    refine ⟨k1, ?_, k3⟩
    simp only [hsub2, szSub] at k2 h3
    omega
  · obtain ⟨g1, g2, g3⟩ := headerFail_state MAX
      { s with _pinfo := { s._pinfo with
          index := 0
          final := decide (l.headerBuf.getD 0 0 &&& 0x80 ≠ 0)
          opcode := l.headerBuf.getD 0 0 &&& 0x0F
          masked := decide (l.headerBuf.getD 1 0 &&& 0x80 ≠ 0)
          len := l.headerBuf.getD 1 0 &&& 0x7F } }
      { l with dataPayloadOffset := l.dataPayloadOffset + 2, plen := szSub l.plen 2 }
    refine ⟨g1, ?_, fun t d n hh => absurd hh (g3 t d n)⟩
    rw [g2]
    simp only [hsub2] at h5
    split_ifs <;> simp only [] <;> omega
  · obtain ⟨g1, g2, g3⟩ := headerMask_state MAX
      { s with _pinfo := { s._pinfo with
          index := 0
          final := decide (l.headerBuf.getD 0 0 &&& 0x80 ≠ 0)
          opcode := l.headerBuf.getD 0 0 &&& 0x0F
          masked := decide (l.headerBuf.getD 1 0 &&& 0x80 ≠ 0)
          len := readLen64 l.headerBuf } } data
      { l with dataPayloadOffset := l.dataPayloadOffset + 2 + 8
               plen := szSub (szSub l.plen 2) 8 } 10 hs
      (by simp only [hsub2, szSub] at h5 ⊢; omega) (by omega)
    refine ⟨g1, g2, ?_⟩
    intro t d n hh
    obtain ⟨k1, k2, k3⟩ := g3 t d n hh
    refine ⟨k1, ?_, k3⟩
    simp only [hsub2, szSub] at k2 h5
    omega
  · obtain ⟨g1, g2, g3⟩ := headerMask_state MAX
      { s with _pinfo := { s._pinfo with
          index := 0
          final := decide (l.headerBuf.getD 0 0 &&& 0x80 ≠ 0)
          opcode := l.headerBuf.getD 0 0 &&& 0x0F
          masked := decide (l.headerBuf.getD 1 0 &&& 0x80 ≠ 0)
          len := l.headerBuf.getD 1 0 &&& 0x7F } } data
      { l with dataPayloadOffset := l.dataPayloadOffset + 2, plen := szSub l.plen 2 } 2 hs
      (by simp only [hsub2]; omega) (by omega)
    refine ⟨g1, g2, ?_⟩
    intro t d n hh
    obtain ⟨k1, k2, k3⟩ := g3 t d n hh
    refine ⟨k1, ?_, k3⟩
    simp only [hsub2] at k2
    omega

theorem parseHeader_state (MAX : Nat) (s : AsyncWebSocketClient) (data : List Nat)
    (plen : Nat) (hk : s._partialHeaderLen ≤ 13) (hpl : plen + 13 < 4294967296) :
    (parseHeader MAX s data plen).session._pstate = s._pstate
    ∧ (parseHeader MAX s data plen).session._partialHeaderLen ≤ 13
    ∧ ∀ t d n, parseHeader MAX s data plen = .parsed t d n →
        t._partialHeaderLen = 0 ∧ n ≤ plen + s._partialHeaderLen ∧ t._pinfo.index = 0 := by
  unfold parseHeader headerRecover
  simp only []
  split_ifs with h
  · have hadd : szAdd plen s._partialHeaderLen = plen + s._partialHeaderLen :=
      szAdd_of_lt _ _ (by omega)
    obtain ⟨g1, g2, g3⟩ := headerFields_state MAX
      { s with _partialHeader := memcpy s._partialHeader s._partialHeaderLen
                 (data.take (min plen (szSub MAX s._partialHeaderLen)))
               _partialHeaderLen := 0 } data
      { headerBuf := memcpy s._partialHeader s._partialHeaderLen
          (data.take (min plen (szSub MAX s._partialHeaderLen)))
        initialPlen := szAdd plen s._partialHeaderLen
        plen := szAdd plen s._partialHeaderLen
        dataPayloadOffset := - (s._partialHeaderLen : Int)
        partialHeaderLen := s._partialHeaderLen } rfl rfl (by simp only [hadd]; omega)
    refine ⟨g1, g2, ?_⟩
    intro t d n hh
    obtain ⟨k1, k2, k3⟩ := g3 t d n hh
    simp only [hadd] at k2
    exact ⟨k1, k2, k3⟩
  · have h0 : s._partialHeaderLen = 0 := by omega
    obtain ⟨g1, g2, g3⟩ := headerFields_state MAX s data
      { headerBuf := data, initialPlen := plen, plen := plen, dataPayloadOffset := 0,
        partialHeaderLen := 0 } h0 rfl (by simp only []; omega)
    refine ⟨g1, g2, ?_⟩
    intro t d n hh
    obtain ⟨k1, k2, k3⟩ := g3 t d n hh
    simp only [] at k2
    exact ⟨k1, by omega, k3⟩

theorem frameComplete_state (s : AsyncWebSocketClient) (data : List Nat) (datalen : Nat) :
    (frameComplete s data datalen)._pstate = 0
    ∧ (frameComplete s data datalen)._partialHeaderLen = s._partialHeaderLen := by
  by_cases h8 : s._pinfo.opcode = WS_DISCONNECT
  · unfold frameComplete
    simp only [h8, if_true]
    split_ifs
    all_goals first
      | exact ⟨rfl, rfl⟩
      | exact ⟨by (rw [(queueControl_frame _ _).2.1, newControl_some_session] <;> rfl),
          by (rw [(queueControl_frame _ _).2.2.2.2.1, newControl_some_session] <;> rfl)⟩
  · by_cases h9 : s._pinfo.opcode = WS_PING
    · rw [frameComplete_ping s data datalen h9]
      exact ⟨by rw [(queueControl_frame _ _).2.1], by rw [(queueControl_frame _ _).2.2.2.2.1]⟩
    · unfold frameComplete
      simp only [h8, h9, if_false]
      split_ifs <;> exact ⟨rfl, rfl⟩

theorem payloadStep_state (s : AsyncWebSocketClient) (data : List Nat) (plen : Nat)
    (hs : s._pstate = 0 ∨ (s._pstate = 1 ∧ s._pinfo.index < s._pinfo.len))
    (hp : s._partialHeaderLen = 0) (hpl : plen < 4294967296) :
    (payloadStep s data plen).session.parseInv
    ∧ (payloadStep s data plen).session._partialHeaderLen = 0
    ∧ ∀ t d n, payloadStep s data plen = .goOn t d n → n ≤ plen := by
  have hdl : min (toSizeT (u64Sub s._pinfo.len s._pinfo.index)) plen ≤ plen :=
    Nat.min_le_right _ _
  have hsub : szSub plen (min (toSizeT (u64Sub s._pinfo.len s._pinfo.index)) plen) ≤ plen := by
    simp only [szSub]; omega
  have hcomm : ∀ a b, u64Add a b = u64Add b a := by
    intro a b; simp only [u64Add, Nat.add_comm]
  unfold payloadStep
  simp only []
  by_cases h1 : u64Add (min (toSizeT (u64Sub s._pinfo.len s._pinfo.index)) plen)
      s._pinfo.index < s._pinfo.len
  · simp only [h1, if_true, LoopOutcome.session]
    refine ⟨⟨Or.inr ?_, ?_, ?_⟩, ?_, ?_⟩
    · split_ifs <;> rfl
    · intro _
      rw [hcomm] at h1
      split_ifs <;> exact ⟨hp, h1⟩
    · have : ∀ x : AsyncWebSocketClient, x._partialHeaderLen = 0 → x._partialHeaderLen ≤ 13 :=
        fun x hx => by omega
      apply this
      split_ifs <;> exact hp
    · split_ifs <;> exact hp
    · intro t d n hh
      cases hh
      exact hsub
  · simp only [h1, if_false]
    by_cases h2 : u64Add (min (toSizeT (u64Sub s._pinfo.len s._pinfo.index)) plen)
        s._pinfo.index = s._pinfo.len
    · simp only [h2, if_true, LoopOutcome.session]
      obtain ⟨g1, g2⟩ := frameComplete_state s
        (if s._pinfo.masked = true then
          unmaskChunk data s._pinfo.mask s._pinfo.index
            (min (toSizeT (u64Sub s._pinfo.len s._pinfo.index)) plen)
         else data) (min (toSizeT (u64Sub s._pinfo.len s._pinfo.index)) plen)
      refine ⟨⟨Or.inl g1, ?_, by rw [g2, hp]; omega⟩, by rw [g2, hp], ?_⟩
      · intro h; rw [g1] at h; cases h
      · intro t d n hh
        cases hh
        exact hsub
    · simp only [h2, if_false, LoopOutcome.session]
      refine ⟨⟨?_, ?_, by omega⟩, hp, fun t d n hh => by cases hh⟩
      · rcases hs with h | h
        · exact Or.inl h
        · exact Or.inr h.1
      · intro h
        rcases hs with h' | h'
        · rw [h'] at h; cases h
        · exact ⟨hp, h'.2⟩

theorem onDataStep_state (MAX : Nat) (s : AsyncWebSocketClient) (data : List Nat)
    (plen : Nat) (hinv : s.parseInv) (hpl : plen + 13 < 4294967296) :
    (onDataStep MAX s data plen).session.parseInv
    ∧ ∀ t d n, onDataStep MAX s data plen = .goOn t d n →
        n + t._partialHeaderLen ≤ plen + s._partialHeaderLen := by
  obtain ⟨h01, h1, h13⟩ := hinv
  unfold onDataStep
  split_ifs with hps
  · obtain ⟨g1, g2, g3⟩ := parseHeader_state MAX s data plen h13 hpl
    cases hp : parseHeader MAX s data plen with
    | truncated t =>
      rw [hp] at g1 g2
      simp only [HeaderOutcome.session] at g1 g2
      simp only [LoopOutcome.session]
      refine ⟨⟨Or.inl (by rw [g1, hps]), ?_, g2⟩, fun t d n hh => by cases hh⟩
      intro h
      rw [g1, hps] at h
      cases h
    | parsed t d n =>
      rw [hp] at g1
      simp only [HeaderOutcome.session] at g1
      obtain ⟨k1, k2, k3⟩ := g3 t d n hp
      simp only []
      obtain ⟨q1, q2, q3⟩ := payloadStep_state t d n (Or.inl (by rw [g1, hps])) k1 (by omega)
      refine ⟨q1, ?_⟩
      intro t' d' n' hh
      have := q3 t' d' n' hh
      have e : t'._partialHeaderLen = 0 := by
        rw [hh] at q2
        exact q2
      omega
  · have hp1 : s._pstate = 1 := by
      rcases h01 with h | h
      · exact absurd h hps
      · exact h
    obtain ⟨e0, e1⟩ := h1 hp1
    obtain ⟨q1, q2, q3⟩ := payloadStep_state s data plen (Or.inr ⟨hp1, e1⟩) e0 (by omega)
    refine ⟨q1, ?_⟩
    intro t' d' n' hh
    have := q3 t' d' n' hh
    have e : t'._partialHeaderLen = 0 := by
      rw [hh] at q2
      exact q2
    omega

theorem onDataLoop_state (MAX : Nat) (fuel : Nat) :
    ∀ (s : AsyncWebSocketClient) (data : List Nat) (plen : Nat) (s' : AsyncWebSocketClient),
      s.parseInv → plen + s._partialHeaderLen + 13 < 4294967296 →
      onDataLoop MAX fuel s data plen = some s' → s'.parseInv := by
  induction fuel with
  | zero =>
    intro s data plen s' hinv _ h
    unfold onDataLoop at h
    split_ifs at h
    cases h; exact hinv
  | succ n ih =>
    intro s data plen s' hinv hb h
    by_cases hp : plen = 0
    · subst hp
      rw [onDataLoop_zero] at h
      cases h; exact hinv
    · rw [onDataLoop_succ _ _ _ _ _ hp] at h
      obtain ⟨g1, g2⟩ := onDataStep_state MAX s data plen hinv (by omega)
      cases ho : onDataStep MAX s data plen with
      | left t =>
        rw [ho] at h g1
        simp only [Option.some.injEq] at h
        subst h
        exact g1
      | goOn t d m =>
        rw [ho] at h g1
        have := g2 t d m ho
        exact ih t d m s' g1 (by omega) h

theorem onData_state (MAX : Nat) (s s' : AsyncWebSocketClient) (pbuf : List Nat)
    (hinv : s.parseInv) (hb : pbuf.length + 26 < 4294967296)
    (h : s._onData MAX pbuf = some s') : s'.parseInv := by
  have h13 := hinv.2.2
  exact onDataLoop_state MAX _ { s with _lastMessageTime := s.millis } _ _ s' hinv
    (by simp only []; omega) h

theorem feed_state (MAX : Nat) (chunks : List (List Nat)) :
    ∀ (s s' : AsyncWebSocketClient), s.parseInv →
      (∀ d ∈ chunks, d.length + 26 < 4294967296) →
      feed MAX s chunks = some s' → s'.parseInv := by
  induction chunks with
  | nil =>
    intro s s' hinv _ h
    simp only [feed, Option.some.injEq] at h
    subst h
    exact hinv
  | cons c rest ih =>
    intro s s' hinv hb h
    simp only [feed] at h
    cases hc : s._onData MAX c with
    | none => rw [hc] at h; cases h
    | some s1 =>
      rw [hc] at h
      exact ih s1 s' (onData_state MAX s s1 c hinv (hb c (List.mem_cons_self _ _)) hc)
        (fun d hd => hb d (List.mem_cons_of_mem _ hd)) h

/-- C30: from a fresh session, after every `_onData` call of any sequence of inbound
chunks (each shorter than 2^32 - 26 bytes) the parser is in exactly one of the
three parse states: idle (`_pstate = 0`, no buffered header), mid-frame
(`_pstate = 1`, no buffered header, `index < len`), or mid-header (`_pstate = 0`
with 1 to 13 header bytes buffered); `_pstate = 1` never holds together with a
buffered header, and never more than 14 header bytes are buffered. -/
theorem parse_state_exclusive (MAX : Nat) (client : AsyncClient) (now : Nat)
    (chunks : List (List Nat)) (s' : AsyncWebSocketClient)
    (hsz : ∀ d ∈ chunks, d.length + 26 < 4294967296)
    (h : feed MAX (AsyncWebSocketClient.new MAX client now) chunks = some s') :
    ((s'.parseIdle ∧ ¬ s'.parseMidFrame ∧ ¬ s'.parseMidHeader)
      ∨ (¬ s'.parseIdle ∧ s'.parseMidFrame ∧ ¬ s'.parseMidHeader)
      ∨ (¬ s'.parseIdle ∧ ¬ s'.parseMidFrame ∧ s'.parseMidHeader))
    ∧ ¬ (s'._pstate = 1 ∧ s'._partialHeaderLen > 0)
    ∧ s'._partialHeaderLen ≤ 14 := by
  have hnew : (AsyncWebSocketClient.new MAX client now).parseInv := by
    refine ⟨Or.inl rfl, ?_, ?_⟩
    · intro h
      simp [AsyncWebSocketClient.new] at h
    · simp [AsyncWebSocketClient.new]
  obtain ⟨h01, h1, h13⟩ := feed_state MAX chunks _ s' hnew hsz h
  simp only [AsyncWebSocketClient.parseIdle, AsyncWebSocketClient.parseMidFrame,
    AsyncWebSocketClient.parseMidHeader]
  refine ⟨?_, ?_, by omega⟩
  · rcases h01 with h0 | h0
    · by_cases hp : s'._partialHeaderLen = 0
      · left
        exact ⟨⟨h0, hp⟩, fun hh => by omega, fun hh => by omega⟩
      · right; right
        exact ⟨fun hh => hp hh.2, fun hh => by omega, h0, by omega, h13⟩
    · obtain ⟨e0, e1⟩ := h1 h0
      right; left
      exact ⟨fun hh => by omega, ⟨h0, e0, e1⟩, fun hh => by omega⟩
  · rintro ⟨hp, hq⟩
    have := (h1 hp).1
    omega

theorem parse_state_exclusive_witness :
    ∃ s', feed 16 (AsyncWebSocketClient.new 16 (AsyncClient.ready 100) 0)
        [[129], [5, 72, 69], [76, 76, 79, 129]] = some s'
      ∧ (((s'.parseIdle ∧ ¬ s'.parseMidFrame ∧ ¬ s'.parseMidHeader)
          ∨ (¬ s'.parseIdle ∧ s'.parseMidFrame ∧ ¬ s'.parseMidHeader)
          ∨ (¬ s'.parseIdle ∧ ¬ s'.parseMidFrame ∧ s'.parseMidHeader))
        ∧ ¬ (s'._pstate = 1 ∧ s'._partialHeaderLen > 0)
        ∧ s'._partialHeaderLen ≤ 14) :=
  match h : feed 16 (AsyncWebSocketClient.new 16 (AsyncClient.ready 100) 0)
      [[129], [5, 72, 69], [76, 76, 79, 129]] with
  | some s' =>
    ⟨s', rfl, parse_state_exclusive 16 (AsyncClient.ready 100) 0
      [[129], [5, 72, 69], [76, 76, 79, 129]] s' (by decide) h⟩
  | none => absurd h (by decide!)

/-! ## The linked list behind the queues -/

theorem node_lt {T : Type} (l : LinkedList T) (a : Nat) (n : LinkedListNode T)
    (h : l.node a = some n) : a < l.heap.length := by
  by_contra hc
  have : l.node a = none := by
    unfold LinkedList.node
    exact List.getD_eq_default _ _ (by omega)
  rw [this] at h
  cases h

theorem chain_congr {T : Type} (l l' : LinkedList T) :
    ∀ (as : List Nat) (xs : List T) (r : Option Nat),
      (∀ a ∈ as, l'.node a = l.node a) → l.chain r as xs → l'.chain r as xs := by
  intro as
  induction as with
  | nil =>
    intro xs r _ h
    cases xs with
    | nil => simpa [LinkedList.chain] using h
    | cons x xs => simp [LinkedList.chain] at h
  | cons a as ih =>
    intro xs r hn h
    cases xs with
    | nil => simp [LinkedList.chain] at h
    | cons x xs =>
      simp only [LinkedList.chain] at h ⊢
      obtain ⟨hr, nx, hnode, hc⟩ := h
      exact ⟨hr, nx, (hn a (List.mem_cons_self _ _)).trans hnode,
        ih xs nx (fun b hb => hn b (List.mem_cons_of_mem _ hb)) hc⟩

theorem chain_node {T : Type} (l : LinkedList T) :
    ∀ (as : List Nat) (xs : List T) (r : Option Nat), l.chain r as xs →
      ∀ a ∈ as, ∃ n, l.node a = some n := by
  intro as
  induction as with
  | nil => intro xs r _ a ha; cases ha
  | cons b as ih =>
    intro xs r h a ha
    cases xs with
    | nil => simp [LinkedList.chain] at h
    | cons x xs =>
      simp only [LinkedList.chain] at h
      obtain ⟨_, nx, hnode, hc⟩ := h
      rcases List.mem_cons.1 ha with rfl | ha
      · exact ⟨_, hnode⟩
      · exact ih xs nx hc a ha

theorem chain_lt {T : Type} (l : LinkedList T) (as : List Nat) (xs : List T) (r : Option Nat)
    (h : l.chain r as xs) (a : Nat) (ha : a ∈ as) : a < l.heap.length := by
  obtain ⟨n, hn⟩ := chain_node l as xs r h a ha
  exact node_lt l a n hn

theorem nodup_length_le (as : List Nat) (n : Nat) (hnd : as.Nodup) (h : ∀ a ∈ as, a < n) :
    as.length ≤ n := by
  have := (List.Nodup.subperm hnd (fun a ha => List.mem_range.2 (h a ha))).length_le
  simpa using this

theorem walk_of_chain {T : Type} (l : LinkedList T) :
    ∀ (as : List Nat) (xs : List T) (r : Option Nat) (fuel : Nat),
      l.chain r as xs → as.length ≤ fuel → l.walk fuel r = some xs := by
  intro as
  induction as with
  | nil =>
    intro xs r fuel h _
    cases xs with
    | nil =>
      simp only [LinkedList.chain] at h
      subst h
      cases fuel <;> rfl
    | cons x xs => simp [LinkedList.chain] at h
  | cons a as ih =>
    intro xs r fuel h hf
    cases xs with
    | nil => simp [LinkedList.chain] at h
    | cons x xs =>
      simp only [LinkedList.chain] at h
      obtain ⟨hr, nx, hnode, hc⟩ := h
      subst hr
      cases fuel with
      | zero => simp at hf
      | succ fuel =>
        simp only [LinkedList.walk, hnode]
        rw [ih xs nx fuel hc (by simpa using hf)]
        rfl

theorem chain_snoc {T : Type} (l l' : LinkedList T) (it : Nat) (t : T)
    (hit : l'.node it = some { _value := t, next := none }) :
    ∀ (as : List Nat) (xs : List T) (r : Option Nat), l.chain r as xs → as ≠ [] →
      as.Nodup →
      (∀ a ∈ as, as.getLast? ≠ some a → l'.node a = l.node a) →
      (∀ la, as.getLast? = some la →
        l'.node la = (l.node la).map (fun n => { n with next := some it })) →
      l'.chain r (as ++ [it]) (xs ++ [t]) := by
  intro as
  induction as with
  | nil => intro xs r _ h; exact absurd rfl h
  | cons a as ih =>
    intro xs r h _ hnd hother hlast
    cases xs with
    | nil => simp [LinkedList.chain] at h
    | cons x xs =>
      simp only [LinkedList.chain] at h
      obtain ⟨hr, nx, hnode, hc⟩ := h
      cases as with
      | nil =>
        cases xs with
        | cons y ys => simp [LinkedList.chain] at hc
        | nil =>
          simp only [LinkedList.chain] at hc
          subst hc
          have h1 := hlast a rfl
          rw [hnode] at h1
          simp only [List.nil_append, List.cons_append, LinkedList.chain]
          exact ⟨hr, some it, h1, rfl, none, hit, rfl⟩
      | cons b bs =>
        have hnd2 : (b :: bs).Nodup := (List.nodup_cons.1 hnd).2
        have hab : a ∉ b :: bs := (List.nodup_cons.1 hnd).1
        have hgl : (a :: b :: bs).getLast? = (b :: bs).getLast? := by
          simp [List.getLast?_cons_cons]
        have hne : (a :: b :: bs).getLast? ≠ some a := by
          rw [hgl]
          intro hh
          exact hab (List.mem_of_getLast?_eq_some hh)
        have h1 := hother a (List.mem_cons_self _ _) hne
        have hrec := ih xs nx hc (by simp) hnd2
          (fun c hc2 hl => hother c (List.mem_cons_of_mem _ hc2) (by rw [hgl]; exact hl))
          (fun la hl => hlast la (by rw [hgl]; exact hl))
        simp only [List.cons_append, LinkedList.chain]
        exact ⟨hr, nx, h1.trans hnode, hrec⟩

theorem chain_length {T : Type} (l : LinkedList T) :
    ∀ (as : List Nat) (xs : List T) (r : Option Nat), l.chain r as xs →
      as.length = xs.length := by
  intro as
  induction as with
  | nil =>
    intro xs r h
    cases xs with
    | nil => rfl
    | cons x xs => simp [LinkedList.chain] at h
  | cons a as ih =>
    intro xs r h
    cases xs with
    | nil => simp [LinkedList.chain] at h
    | cons x xs =>
      simp only [LinkedList.chain] at h
      obtain ⟨_, nx, _, hc⟩ := h
      simp [ih xs nx hc]

theorem linked_new {T : Type} : (LinkedList.new : LinkedList T).linked [] [] :=
  ⟨by simp [LinkedList.new, LinkedList.chain], List.nodup_nil, rfl⟩

theorem linked_toList {T : Type} (l : LinkedList T) (as : List Nat) (xs : List T)
    (h : l.linked as xs) : l.toList = some xs :=
  walk_of_chain l as xs l._root l.heap.length h.1
    (nodup_length_le as _ h.2.1 (chain_lt l as xs l._root h.1))

theorem linked_front {T : Type} (l : LinkedList T) (as : List Nat) (xs : List T)
    (h : l.linked as xs) : l.front = xs.head? := by
  obtain ⟨hc, _, _⟩ := h
  cases as with
  | nil =>
    cases xs with
    | nil =>
      simp only [LinkedList.chain] at hc
      simp [LinkedList.front, hc]
    | cons x xs => simp [LinkedList.chain] at hc
  | cons a as =>
    cases xs with
    | nil => simp [LinkedList.chain] at hc
    | cons x xs =>
      simp only [LinkedList.chain] at hc
      obtain ⟨hr, nx, hnode, _⟩ := hc
      simp [LinkedList.front, hr, hnode]

theorem node_append_set {T : Type} (heap : List (Option (LinkedListNode T)))
    (v w : Option (LinkedListNode T)) (la a : Nat) (hla : la < heap.length) :
    ((heap ++ [v]).set la w).getD a none
      = if a = la then w else if a = heap.length then v else heap.getD a none := by
  simp only [List.getD_eq_getElem?_getD, List.getElem?_set, List.length_append,
    List.length_singleton]
  by_cases h1 : a = la
  · subst h1
    simp [Nat.lt_succ_of_lt hla]
  · have h2 : ¬ la = a := fun h => h1 h.symm
    simp only [h1, h2, if_false]
    by_cases h3 : a = heap.length
    · subst h3
      simp
    · simp only [h3, if_false]
      by_cases h4 : a < heap.length
      · rw [List.getElem?_append_left h4]
      · rw [List.getElem?_eq_none (by simp; omega), List.getElem?_eq_none (by omega)]

theorem linked_add {T : Type} (l : LinkedList T) (as : List Nat) (xs : List T) (t : T)
    (h : l.linked as xs) :
    ∃ l1, l.add t = some l1 ∧ l1.linked (as ++ [l.heap.length]) (xs ++ [t]) := by
  obtain ⟨hc, hnd, hl⟩ := h
  have hlt := chain_lt l as xs l._root hc
  cases as with
  | nil =>
    cases xs with
    | cons x xs => simp [LinkedList.chain] at hc
    | nil =>
      simp only [LinkedList.chain] at hc
      have hadd : l.add t = some
          { heap := l.heap ++ [(some ⟨t, none⟩ : Option (LinkedListNode T))],
            _root := some l.heap.length, _last := some l.heap.length } := by
        simp only [LinkedList.add, hc]
      refine ⟨_, hadd, ?_, by simp, by simp⟩
      simp only [List.nil_append, LinkedList.chain]
      refine ⟨trivial, none, ?_, rfl⟩
      simp [LinkedList.node]
  | cons a as =>
    cases xs with
    | nil => simp [LinkedList.chain] at hc
    | cons x xs =>
      have hc0 := hc
      simp only [LinkedList.chain] at hc
      obtain ⟨hr, nx, hnode, hc2⟩ := hc
      obtain ⟨la, hla⟩ : ∃ la, (a :: as).getLast? = some la :=
        ⟨(a :: as).getLast (by simp), List.getLast?_eq_getLast _ _⟩
      have hmem : la ∈ a :: as := List.mem_of_getLast?_eq_some hla
      obtain ⟨n, hn⟩ := chain_node l (a :: as) (x :: xs) l._root hc0 la hmem
      have hlalt : la < l.heap.length := hlt la hmem
      have hadd : l.add t = some
          { heap := (l.heap ++ [(some ⟨t, none⟩ : Option (LinkedListNode T))]).set la
              (some { n with next := some l.heap.length }),
            _root := l._root, _last := some l.heap.length } := by
        simp only [LinkedList.add, hr, hl, hla, hn]
      refine ⟨_, hadd, ?_, ?_, ?_⟩
      · refine chain_snoc l _ l.heap.length t ?_ (a :: as) (x :: xs) l._root hc0 (by simp) hnd
          ?_ ?_
        · simp only [LinkedList.node]
          rw [node_append_set _ _ _ _ _ hlalt]
          simp [Nat.ne_of_gt hlalt]
        · intro b hb hne
          have hb1 : b ≠ la := fun e => hne (by rw [hla, e])
          have hb2 : b ≠ l.heap.length := Nat.ne_of_lt (hlt b hb)
          simp only [LinkedList.node]
          rw [node_append_set _ _ _ _ _ hlalt]
          simp [hb1, hb2]
        · intro la2 hla2
          have e : la2 = la := by
            rw [hla] at hla2
            exact (Option.some.inj hla2).symm
          subst e
          simp only [LinkedList.node]
          rw [node_append_set _ _ _ _ _ hlalt]
          rw [if_pos rfl]
          have hn2 : l.heap.getD la2 none = some n := hn
          rw [hn2]
          rfl
      · rw [List.nodup_append]
        refine ⟨hnd, by simp, ?_⟩
        intro b hb hb2
        rw [List.mem_singleton] at hb2
        exact absurd (hlt b hb) (by omega)
      · show some l.heap.length = ((a :: as) ++ [l.heap.length]).getLast?
        rw [List.getLast?_append]
        rfl

theorem node_set_none {T : Type} (l : LinkedList T) (a b : Nat) (h : b ≠ a) :
    (l.heap.set a none).getD b none = l.heap.getD b none := by
  simp only [List.getD_eq_getElem?_getD, List.getElem?_set]
  have h2 : ¬ a = b := fun e => h e.symm
  simp [h2]

theorem linked_removeFront {T : Type} [DecidableEq T] (l : LinkedList T) (as : List Nat)
    (xs : List T) (h : l.linked as xs) :
    ∃ l1, l.call QueueCall.removeFront = some l1 ∧ l1.linked as.tail xs.tail := by
  obtain ⟨hc, hnd, hl⟩ := h
  cases as with
  | nil =>
    cases xs with
    | cons x xs => simp [LinkedList.chain] at hc
    | nil =>
      have hc0 := hc
      simp only [LinkedList.chain] at hc
      exact ⟨l, by simp [LinkedList.call, LinkedList.isEmpty, hc], hc0, hnd, hl⟩
  | cons a as =>
    cases xs with
    | nil => simp [LinkedList.chain] at hc
    | cons x xs =>
      simp only [LinkedList.chain] at hc
      obtain ⟨hr, nx, hnode, hc2⟩ := hc
      have halt : a < l.heap.length := node_lt l a _ hnode
      obtain ⟨k, hk⟩ : ∃ k, l.heap.length = k + 1 := ⟨l.heap.length - 1, by omega⟩
      have hrem : l.remove x = some (true,
          { heap := l.heap.set a none, _root := nx,
            _last := if l._last = some a then none else l._last }) := by
        simp only [LinkedList.remove, hk, hr, LinkedList.removeLoop, hnode, if_true,
          LinkedList._remove, Option.map_some']
      have hcall : l.call QueueCall.removeFront = some
          { heap := l.heap.set a none, _root := nx,
            _last := if l._last = some a then none else l._last } := by
        simp [LinkedList.call, LinkedList.isEmpty, LinkedList.front, hr, hnode, hrem]
      have hnot : a ∉ as := (List.nodup_cons.1 hnd).1
      refine ⟨_, hcall, ?_, (List.nodup_cons.1 hnd).2, ?_⟩
      · refine chain_congr l _ as xs nx ?_ hc2
        intro b hb
        have hba : b ≠ a := fun e => hnot (e ▸ hb)
        simp only [LinkedList.node]
        exact node_set_none l a b hba
      · simp only [List.tail_cons]
        cases as with
        | nil => simp [hl]
        | cons b bs =>
          have hgl : (a :: b :: bs).getLast? = (b :: bs).getLast? := by
            simp [List.getLast?_cons_cons]
          have hne : l._last ≠ some a := by
            rw [hl, hgl]
            intro hh
            exact hnot (List.mem_of_getLast?_eq_some hh)
          simp only [hne, if_false]
          rw [hl, hgl]

theorem linked_call {T : Type} [DecidableEq T] (l : LinkedList T) (as : List Nat)
    (xs : List T) (c : QueueCall T) (h : l.linked as xs) :
    ∃ l1 as1, l.call c = some l1 ∧ l1.linked as1 (QueueCall.onList xs c) := by
  cases c with
  | add t =>
    obtain ⟨l1, h1, h2⟩ := linked_add l as xs t h
    exact ⟨l1, _, h1, h2⟩
  | removeFront =>
    obtain ⟨l1, h1, h2⟩ := linked_removeFront l as xs h
    exact ⟨l1, _, h1, h2⟩

theorem linked_calls {T : Type} [DecidableEq T] (cs : List (QueueCall T)) :
    ∀ (l : LinkedList T) (as : List Nat) (xs : List T), l.linked as xs →
      ∃ l1 as1, l.calls cs = some l1 ∧ l1.linked as1 (cs.foldl QueueCall.onList xs) := by
  induction cs with
  | nil => intro l as xs h; exact ⟨l, as, rfl, h⟩
  | cons c cs ih =>
    intro l as xs h
    obtain ⟨l1, as1, h1, h2⟩ := linked_call l as xs c h
    obtain ⟨l2, as2, h3, h4⟩ := ih l1 as1 _ h2
    exact ⟨l2, as2, by simp [LinkedList.calls, h1, h3], h4⟩

/-! ## First in, first out -/

theorem dropFinished_drop (q : List AsyncWebSocketMessage) :
    ∃ k, dropFinished q = q.drop k ∧ ∀ m ∈ q.take k, m.finished = true := by
  induction q with
  | nil => exact ⟨0, rfl, by simp⟩
  | cons m rest ih =>
    by_cases hf : m.finished = true
    · obtain ⟨k, h1, h2⟩ := ih
      refine ⟨k + 1, by simp [dropFinished, hf, h1], ?_⟩
      intro x hx
      simp only [List.take_succ_cons, List.mem_cons] at hx
      rcases hx with rfl | hx
      · exact hf
      · exact h2 x hx
    · exact ⟨0, by simp [dropFinished, hf], by simp⟩

theorem runQueue_front (t : AsyncWebSocketClient) :
    (t._runQueue._client = t._client ∧ t._runQueue._controlQueue = t._controlQueue
        ∧ t._runQueue._messageQueue = dropFinished t._messageQueue)
    ∨ (∃ c rest, t._controlQueue = c :: rest
        ∧ t._runQueue._client = (c.send t._client).2.2
        ∧ t._runQueue._controlQueue = (c.send t._client).2.1 :: rest
        ∧ t._runQueue._messageQueue = dropFinished t._messageQueue)
    ∨ (∃ m rest, dropFinished t._messageQueue = m :: rest
        ∧ t._runQueue._client = (m.send t._client).2.2
        ∧ t._runQueue._messageQueue = (m.send t._client).2.1 :: rest
        ∧ t._runQueue._controlQueue = t._controlQueue) := by
  unfold AsyncWebSocketClient._runQueue
  simp only []
  split_ifs with h1 h2
  · right; left
    cases hq : t._controlQueue with
    | nil => simp [hq] at h1
    | cons c rest => exact ⟨c, rest, rfl, rfl, rfl, rfl⟩
  · right; right
    cases hq : dropFinished t._messageQueue with
    | nil => simp [hq] at h2
    | cons m rest => exact ⟨m, rest, rfl, rfl, rfl, rfl⟩
  · left
    exact ⟨rfl, rfl, rfl⟩

theorem op_queue_edits (MAXQ : Nat) (s : AsyncWebSocketClient) (o : SessionOp) :
    ∃ t : AsyncWebSocketClient, (s.op MAXQ o = t ∨ s.op MAXQ o = t._runQueue)
      ∧ t._client.wire = s._client.wire
      ∧ (t._controlQueue = s._controlQueue ∨ t._controlQueue = s._controlQueue.tail
          ∨ ∃ c, t._controlQueue = s._controlQueue ++ [c])
      ∧ (t._messageQueue = s._messageQueue
          ∨ (∃ m rest len, s._messageQueue = m :: rest ∧ t._messageQueue = m.ack len :: rest)
          ∨ ∃ m, t._messageQueue = s._messageQueue ++ [m]) := by
  have hqc : ∀ (s : AsyncWebSocketClient) (c : AsyncWebSocketControl),
      ∃ t : AsyncWebSocketClient, (s._queueControl c = t ∨ s._queueControl c = t._runQueue)
        ∧ t._client.wire = s._client.wire
        ∧ (t._controlQueue = s._controlQueue ∨ t._controlQueue = s._controlQueue.tail
          ∨ ∃ c, t._controlQueue = s._controlQueue ++ [c])
        ∧ (t._messageQueue = s._messageQueue
          ∨ (∃ m rest len, s._messageQueue = m :: rest ∧ t._messageQueue = m.ack len :: rest)
          ∨ ∃ m, t._messageQueue = s._messageQueue ++ [m]) := by
    intro s c
    refine ⟨{ s with _controlQueue := s._controlQueue ++ [c] }, ?_, rfl,
      Or.inr (Or.inr ⟨c, rfl⟩), Or.inl rfl⟩
    unfold AsyncWebSocketClient._queueControl
    simp only []
    split_ifs
    · exact Or.inr rfl
    · exact Or.inl rfl
  have hqm : ∀ (s : AsyncWebSocketClient) (m : AsyncWebSocketMessage),
      ∃ t : AsyncWebSocketClient,
        (s._queueMessage MAXQ m = t ∨ s._queueMessage MAXQ m = t._runQueue)
        ∧ t._client.wire = s._client.wire
        ∧ (t._controlQueue = s._controlQueue ∨ t._controlQueue = s._controlQueue.tail
          ∨ ∃ c, t._controlQueue = s._controlQueue ++ [c])
        ∧ (t._messageQueue = s._messageQueue
          ∨ (∃ m rest len, s._messageQueue = m :: rest ∧ t._messageQueue = m.ack len :: rest)
          ∨ ∃ m, t._messageQueue = s._messageQueue ++ [m]) := by
    intro s m
    unfold AsyncWebSocketClient._queueMessage
    simp only []
    split_ifs with h1 h2 h3 h4
    · exact ⟨s, Or.inl rfl, rfl, Or.inl rfl, Or.inl rfl⟩
    · exact ⟨s, Or.inr rfl, rfl, Or.inl rfl, Or.inl rfl⟩
    · exact ⟨s, Or.inl rfl, rfl, Or.inl rfl, Or.inl rfl⟩
    · exact ⟨{ s with _messageQueue := s._messageQueue ++ [m] }, Or.inr rfl, rfl, Or.inl rfl,
        Or.inr (Or.inr ⟨m, rfl⟩)⟩
    · exact ⟨{ s with _messageQueue := s._messageQueue ++ [m] }, Or.inl rfl, rfl, Or.inl rfl,
        Or.inr (Or.inr ⟨m, rfl⟩)⟩
  have hself : ∃ t : AsyncWebSocketClient, (s = t ∨ s = t._runQueue)
      ∧ t._client.wire = s._client.wire
      ∧ (t._controlQueue = s._controlQueue ∨ t._controlQueue = s._controlQueue.tail
          ∨ ∃ c, t._controlQueue = s._controlQueue ++ [c])
      ∧ (t._messageQueue = s._messageQueue
          ∨ (∃ m rest len, s._messageQueue = m :: rest ∧ t._messageQueue = m.ack len :: rest)
          ∨ ∃ m, t._messageQueue = s._messageQueue ++ [m]) :=
    ⟨s, Or.inl rfl, rfl, Or.inl rfl, Or.inl rfl⟩
  have hping : ∀ (data : Option (List Nat)) (len : Nat),
      ∃ t : AsyncWebSocketClient, (s.ping data len = t ∨ s.ping data len = t._runQueue)
        ∧ t._client.wire = s._client.wire
        ∧ (t._controlQueue = s._controlQueue ∨ t._controlQueue = s._controlQueue.tail
          ∨ ∃ c, t._controlQueue = s._controlQueue ++ [c])
        ∧ (t._messageQueue = s._messageQueue
          ∨ (∃ m rest len, s._messageQueue = m :: rest ∧ t._messageQueue = m.ack len :: rest)
          ∨ ∃ m, t._messageQueue = s._messageQueue ++ [m]) := by
    intro data len
    rcases ping_cases s data len with e | ⟨ms, c, _, _, e⟩
    · rw [e]
      exact hself
    · rw [e]
      exact hqc ({ s with mallocs := ms } : AsyncWebSocketClient) c
  cases o with
  | queueMessage m => exact hqm s m
  | queueControl c => exact hqc s c
  | text message len => exact hqm s _
  | binary message len => exact hqm s _
  | ping data len => exact hping data len
  | close code message =>
    show ∃ t : AsyncWebSocketClient, (s.close code message = t ∨ s.close code message = t._runQueue) ∧ _
    rcases close_cases s code message with e | ⟨ms, c, _, _, e⟩
    · rw [e]
      exact hself
    · rw [e]
      exact hqc ({ s with mallocs := ms } : AsyncWebSocketClient) c
  | onAck len =>
    show ∃ t : AsyncWebSocketClient, (s._onAck len = t ∨ s._onAck len = t._runQueue) ∧ _
    have htail : ∀ (u : AsyncWebSocketClient) (n : Nat),
        u._client.wire = s._client.wire →
        (u._controlQueue = s._controlQueue ∨ u._controlQueue = s._controlQueue.tail
          ∨ ∃ c, u._controlQueue = s._controlQueue ++ [c]) →
        u._messageQueue = s._messageQueue →
        ∃ t : AsyncWebSocketClient, (onAckTail u n = t ∨ onAckTail u n = t._runQueue)
          ∧ t._client.wire = s._client.wire
          ∧ (t._controlQueue = s._controlQueue ∨ t._controlQueue = s._controlQueue.tail
            ∨ ∃ c, t._controlQueue = s._controlQueue ++ [c])
          ∧ (t._messageQueue = s._messageQueue
            ∨ (∃ m rest len, s._messageQueue = m :: rest ∧ t._messageQueue = m.ack len :: rest)
            ∨ ∃ m, t._messageQueue = s._messageQueue ++ [m]) := by
      intro u n hw hcq hmq
      unfold onAckTail
      simp only []
      split_ifs with h
      · refine ⟨_, Or.inr rfl, hw, hcq, Or.inr (Or.inl ?_)⟩
        cases hq : s._messageQueue with
        | nil => rw [hmq, hq] at h; simp at h
        | cons m rest =>
          refine ⟨m, rest, n, rfl, ?_⟩
          simp only [hmq, hq, front, List.headD_cons, List.tail_cons]
      · exact ⟨u, Or.inr rfl, hw, hcq, Or.inl hmq⟩
    unfold AsyncWebSocketClient._onAck
    simp only []
    split_ifs with h1 h2
    · exact ⟨_, Or.inl rfl, rfl, Or.inr (Or.inl rfl), Or.inl rfl⟩
    · exact htail _ _ rfl (Or.inr (Or.inl rfl)) rfl
    · exact htail _ _ rfl (Or.inl rfl) rfl
  | onPoll =>
    show ∃ t : AsyncWebSocketClient, (s._onPoll = t ∨ s._onPoll = t._runQueue) ∧ _
    unfold AsyncWebSocketClient._onPoll
    split_ifs
    · exact ⟨s, Or.inr rfl, rfl, Or.inl rfl, Or.inl rfl⟩
    · exact hping _ _
    · exact hself
  | onTimeout => exact ⟨_, Or.inl rfl, rfl, Or.inl rfl, Or.inl rfl⟩
  | transport canSend space accepts => exact ⟨_, Or.inl rfl, rfl, Or.inl rfl, Or.inl rfl⟩

/-- C25: each queue of a session is first in, first out. The linked list of
`StringArray.h`, driven from the empty list by any sequence of `add(t)` and
`remove(front())` calls, returns a list whose iteration order is that of the
sequence, `add` putting its value behind the last one and `remove(front())` taking
the oldest one away and keeping the order of the rest, and `front()` is the oldest
value. After any sequence of session events the next event edits the queues at
their ends only (it removes the front control frame, acknowledges the front
message, or appends one entry at the tail), writes nothing to the transport
itself, and runs the scheduler at most once; the scheduler removes finished
messages from the front only and sends nothing but the front entry of one queue,
leaving every entry behind the front as it was. -/
theorem queues_are_fifo {T : Type} [DecidableEq T] (calls : List (QueueCall T))
    (MAXQ : Nat) (s0 : AsyncWebSocketClient) (l : List SessionOp) (o : SessionOp) :
    (∃ q : LinkedList T, LinkedList.new.calls calls = some q
        ∧ q.toList = some (calls.foldl QueueCall.onList [])
        ∧ q.front = (calls.foldl QueueCall.onList []).head?)
    ∧ ∃ t : AsyncWebSocketClient,
        (s0.ops MAXQ (l ++ [o]) = t ∨ s0.ops MAXQ (l ++ [o]) = t._runQueue)
        ∧ t._client.wire = (s0.ops MAXQ l)._client.wire
        ∧ (t._controlQueue = (s0.ops MAXQ l)._controlQueue
            ∨ t._controlQueue = (s0.ops MAXQ l)._controlQueue.tail
            ∨ ∃ c, t._controlQueue = (s0.ops MAXQ l)._controlQueue ++ [c])
        ∧ (t._messageQueue = (s0.ops MAXQ l)._messageQueue
            ∨ (∃ m rest len, (s0.ops MAXQ l)._messageQueue = m :: rest
                ∧ t._messageQueue = m.ack len :: rest)
            ∨ ∃ m, t._messageQueue = (s0.ops MAXQ l)._messageQueue ++ [m])
        ∧ (∃ k, dropFinished t._messageQueue = t._messageQueue.drop k
            ∧ ∀ m ∈ t._messageQueue.take k, m.finished = true)
        ∧ ((t._runQueue._client = t._client ∧ t._runQueue._controlQueue = t._controlQueue
              ∧ t._runQueue._messageQueue = dropFinished t._messageQueue)
            ∨ (∃ c rest, t._controlQueue = c :: rest
                ∧ t._runQueue._client = (c.send t._client).2.2
                ∧ t._runQueue._controlQueue = (c.send t._client).2.1 :: rest
                ∧ t._runQueue._messageQueue = dropFinished t._messageQueue)
            ∨ (∃ m rest, dropFinished t._messageQueue = m :: rest
                ∧ t._runQueue._client = (m.send t._client).2.2
                ∧ t._runQueue._messageQueue = (m.send t._client).2.1 :: rest
                ∧ t._runQueue._controlQueue = t._controlQueue)) := by
  constructor
  · obtain ⟨q, as, h1, h2⟩ := linked_calls calls (LinkedList.new : LinkedList T) [] [] linked_new
    exact ⟨q, h1, linked_toList q as _ h2, linked_front q as _ h2⟩
  · have e : s0.ops MAXQ (l ++ [o]) = (s0.ops MAXQ l).op MAXQ o := by
      simp [AsyncWebSocketClient.ops, List.foldl_append]
    rw [e]
    obtain ⟨t, h1, h2, h3, h4⟩ := op_queue_edits MAXQ (s0.ops MAXQ l) o
    exact ⟨t, h1, h2, h3, h4, dropFinished_drop _, runQueue_front t⟩

/-! ## Header length and send window -/

/-- C31 (as stated, refuted): for a masked frame with a payload of 5 bytes
`webSocketHeaderLength` gives 6, which is not one of 2, 4, 8, 10, 12, 14; and for a
payload of 70000 bytes it gives 4 unmasked and 8 masked, never 10 or 14. -/
theorem masked_short_header_is_six :
    webSocketHeaderLength true 5 = 6
    ∧ webSocketHeaderLength true 5 ∉ [2, 4, 8, 10, 12, 14]
    ∧ webSocketHeaderLength false 70000 = 4
    ∧ webSocketHeaderLength true 70000 = 8 := by
  decide

/-- C31 (amended): the header length that `webSocketHeaderLength` computes is 2 for
a payload below 126 bytes and 4 from 126 bytes on, plus 4 when the mask flag is
set. It is one of 2, 4, 6, 8, each of which occurs, and it is determined by the
mask flag and by whether the length is below 126. -/
theorem header_length_classes (mask : Bool) (len : Nat) :
    webSocketHeaderLength mask len = (if len < 126 then 2 else 4) + (if mask then 4 else 0)
    ∧ webSocketHeaderLength mask len ∈ [2, 4, 6, 8]
    ∧ (∀ len2 : Nat, (len2 < 126 ↔ len < 126) →
        webSocketHeaderLength mask len2 = webSocketHeaderLength mask len)
    ∧ webSocketHeaderLength false 125 = 2 ∧ webSocketHeaderLength false 126 = 4
    ∧ webSocketHeaderLength true 125 = 6 ∧ webSocketHeaderLength true 126 = 8 := by
  refine ⟨?_, ?_, ?_, by decide, by decide, by decide, by decide⟩
  · cases mask <;> by_cases h : len < 126 <;> simp [webSocketHeaderLength, h]
  · cases mask <;> by_cases h : len < 126 <;> simp [webSocketHeaderLength, h]
  · intro len2 h2
    by_cases h : len < 126
    · have h3 : len2 < 126 := h2.2 h
      simp [webSocketHeaderLength, h, h3]
    · have h3 : ¬ len2 < 126 := fun hh => h (h2.1 hh)
      simp [webSocketHeaderLength, h, h3]

theorem webSocketSendFrameWindow_eq (client : AsyncClient) (hsp : client.space < 4294967296) :
    webSocketSendFrameWindow client
      = if client.canSend = true ∧ 8 < client.space then client.space - 8 else 0 := by
  unfold webSocketSendFrameWindow MAX_HEADER_SIZE szSub
  by_cases hc : client.canSend = true
  · by_cases h8 : client.space ≤ 8
    · have : ¬ 8 < client.space := by omega
      simp [hc, h8, this]
    · have h9 : 8 < client.space := by omega
      simp only [hc, Bool.not_true, Bool.false_eq_true, if_false, h8, h9, and_self, if_true]
      omega
  · simp [hc]

theorem webSocketHeaderLength_le (mask : Bool) (len : Nat) :
    webSocketHeaderLength mask len ≤ 8 := by
  cases mask <;> by_cases h : len < 126 <;> simp [webSocketHeaderLength, h]

/-- C40: a frame sized by the send window fits, header included, in the space that
the transport reported: for every chunk size `n` with `0 < n` and `n` at most
`webSocketSendFrameWindow(client)`, `n + webSocketHeaderLength(mask, n)` is at most
`client.space()`. The window is `space - 8` when the transport can send and reports
more than 8 bytes of space and 0 otherwise, and no header is longer than 8 bytes. -/
theorem window_frame_fits (client : AsyncClient) (mask : Bool) (n : Nat)
    (hsp : client.space < 4294967296) (h0 : 0 < n)
    (hn : n ≤ webSocketSendFrameWindow client) :
    n + webSocketHeaderLength mask n ≤ client.space
    ∧ webSocketHeaderLength mask n ≤ 8
    ∧ webSocketSendFrameWindow client
        = (if client.canSend = true ∧ 8 < client.space then client.space - 8 else 0) := by
  have hw := webSocketSendFrameWindow_eq client hsp
  have hh := webSocketHeaderLength_le mask n
  refine ⟨?_, hh, hw⟩
  rw [hw] at hn
  split_ifs at hn with hc
  · omega
  · omega

theorem window_frame_fits_witness :
    92 + webSocketHeaderLength true 92 ≤ (AsyncClient.ready 100).space
    ∧ webSocketHeaderLength true 92 ≤ 8
    ∧ webSocketSendFrameWindow (AsyncClient.ready 100)
        = (if (AsyncClient.ready 100).canSend = true ∧ 8 < (AsyncClient.ready 100).space
            then (AsyncClient.ready 100).space - 8 else 0) :=
  window_frame_fits (AsyncClient.ready 100) true 92 (by decide) (by decide) (by decide)

/-! ## The length field of long frames -/

theorem len16_field (n : Nat) :
    ((n >>> 8) &&& 0xFF) * 256 + (n &&& 0xFF) = n % 65536 := by
  have h1 : n &&& 0xFF = n % 256 := and_FF n
  have h2 : (n >>> 8) &&& 0xFF = (n >>> 8) % 256 := and_FF _
  rw [h1, h2, Nat.shiftRight_eq_div_pow]
  omega

theorem basic_send_unmasked_whole (data : List Nat) (opcode : Nat) (t : AsyncClient)
    (hd : data ≠ []) (hdl : data.length < 4294967296) (hcan : t.canSend = true)
    (hacc : t.accepts = []) (hsp : data.length + 8 ≤ t.space) (hsp2 : t.space < 4294967296) :
    ((AsyncWebSocketBasicMessage.new data data.length opcode false).send t).2.2.wire
        = t.wire ++ (sentHeader true (opcode % 256 &&& 0x07) data.length ++ data)
    ∧ ((AsyncWebSocketBasicMessage.new data data.length opcode false).send t).1
        = data.length := by
  have hpos : 0 < data.length := List.length_pos.mpr hd
  have hw : webSocketSendFrameWindow t = t.space - 8 := by
    rw [webSocketSendFrameWindow_eq t hsp2]
    have : 8 < t.space := by omega
    simp [hcan, this]
  have hts : data.length
      = min ((AsyncWebSocketBasicMessage.new data data.length opcode false)._len
          - (AsyncWebSocketBasicMessage.new data data.length opcode false)._sent)
        (webSocketSendFrameWindow t) := by
    rw [hw]
    simp only [AsyncWebSocketBasicMessage.new]
    omega
  have hne : data.length ≠ 0 := by omega
  have h := basic_send_new_frame (AsyncWebSocketBasicMessage.new data data.length opcode false) t
    rfl (by simp [AsyncWebSocketBasicMessage.new]) (by simpa [AsyncWebSocketBasicMessage.new] using hpos)
    (by simp [AsyncWebSocketBasicMessage.new]) (by simpa [AsyncWebSocketBasicMessage.new] using hdl)
    data.length hts _ rfl
  rw [h]
  have hfin : decide ((AsyncWebSocketBasicMessage.new data data.length opcode false)._sent
      + data.length = (AsyncWebSocketBasicMessage.new data data.length opcode false)._len)
      = true := by
    simp [AsyncWebSocketBasicMessage.new]
  have hop : (if data.length ≠ 0
      ∧ (AsyncWebSocketBasicMessage.new data data.length opcode false)._sent = 0
      then (AsyncWebSocketBasicMessage.new data data.length opcode false)._opcode
      else WS_CONTINUATION) = opcode % 256 &&& 0x07 := by
    simp [AsyncWebSocketBasicMessage.new, hne]
  have hdata : (AsyncWebSocketBasicMessage.new data data.length opcode false)._data.drop
      (AsyncWebSocketBasicMessage.new data data.length opcode false)._sent = data ++ [0] := by
    simp [AsyncWebSocketBasicMessage.new]
  have hmask : (AsyncWebSocketBasicMessage.new data data.length opcode false)._mask = false := rfl
  simp only [hfin, hop, hdata, hmask]
  obtain ⟨e1, _, e3⟩ := webSocketSendFrame_unmasked_ok t true (opcode % 256 &&& 0x07)
    (data ++ [0]) data.length hcan hacc (by omega) hne (by simp)
  refine ⟨?_, e1⟩
  rw [e3]
  simp

/-- C38: for every chunk size `n` of 126 bytes or more, `webSocketSendFrameHeader`
writes the length class 126 (never 127) with the 16-bit extended field set to
`n mod 65536`, unmasked (4 header bytes) and masked (8 header bytes, byte 1 being
`126 | 0x80`). `webSocketSendFrame` writes the `n` payload bytes after that header,
so the length declared on the wire equals the number of payload bytes exactly when
`n < 65536`. `send()` bounds the chunk by the send window only: a message of `n`
bytes on a transport that reports `n + 8` bytes of space or more goes out as one
frame of `n` payload bytes, whatever `n` below 2^32 - 8, for the Basic variant
(shown unmasked) and the Multi variant (shown masked) alike. -/
theorem long_frame_length_field (client : AsyncClient) (final : Bool) (opcode n : Nat)
    (data key : List Nat) (hn : 126 ≤ n) (hcan : client.canSend = true)
    (hacc : client.accepts = []) (hsp : 8 < client.space) (hd : data.length = n)
    (hn2 : n < 4294967296) :
    (webSocketSendFrameHeader client final opcode none n).2.1.wire
        = client.wire ++ sentHeader final opcode n
    ∧ (sentHeader final opcode n).length = 4
    ∧ (sentHeader final opcode n).getD 1 0 = 126
    ∧ (sentHeader final opcode n).getD 2 0 * 256 + (sentHeader final opcode n).getD 3 0
        = n % 65536
    ∧ (sentHeaderMasked final opcode n key).getD 1 0 = 254
    ∧ (sentHeaderMasked final opcode n key).getD 2 0 * 256
        + (sentHeaderMasked final opcode n key).getD 3 0 = n % 65536
    ∧ (webSocketSendFrame client final opcode false data n).2.1.wire
        = client.wire ++ (sentHeader final opcode n ++ data)
    ∧ (webSocketSendFrame client final opcode false data n).1 = n
    ∧ ((sentHeader final opcode n).getD 2 0 * 256 + (sentHeader final opcode n).getD 3 0 = n
        ↔ n < 65536)
    ∧ (n + 8 ≤ client.space → client.space < 4294967296 →
        ((AsyncWebSocketBasicMessage.new data n opcode false).send client).2.2.wire
            = client.wire ++ (sentHeader true (opcode % 256 &&& 0x07) n ++ data)
        ∧ ((AsyncWebSocketBasicMessage.new data n opcode false).send client).1 = n
        ∧ ((AsyncWebSocketMultiMessage.new ⟨some data⟩ opcode true).send client).2.2.wire
            = client.wire ++ (sentHeaderMasked true (opcode % 256 &&& 0x07) n (maskKey client)
                ++ applyMask data (maskKey client) n)) := by
  have h126 : ¬ n < 126 := by omega
  have hne : n ≠ 0 := by omega
  have hfield : (sentHeader final opcode n).getD 2 0 * 256
      + (sentHeader final opcode n).getD 3 0 = n % 65536 := by
    simp only [sentHeader, h126, if_false, List.getD_cons_succ, List.getD_cons_zero]
    exact len16_field n
  have hhl : webSocketHeaderLength false n ≤ client.space := by
    have := webSocketHeaderLength_le false n
    omega
  obtain ⟨e1, _, e3⟩ := webSocketSendFrame_unmasked_ok client final opcode data n hcan hacc hsp
    hne (by omega)
  refine ⟨?_, ?_, ?_, hfield, ?_, ?_, ?_, e1, ?_, ?_⟩
  · rw [webSocketSendFrameHeader_unmasked client final opcode n hcan hhl]
    simp [AsyncClient.add, hacc]
  · simp [sentHeader, h126]
  · simp [sentHeader, h126]
  · simp [sentHeaderMasked, h126]
  · simp only [sentHeaderMasked, h126, if_false, List.cons_append, List.getD_cons_succ,
      List.getD_cons_zero]
    exact len16_field n
  · rw [e3, ← hd]
    simp
  · rw [hfield]
    constructor
    · intro h
      have := Nat.mod_lt n (show 0 < 65536 by decide)
      omega
    · intro h
      exact Nat.mod_eq_of_lt h
  · intro h1 h2
    subst hd
    have hdne : data ≠ [] := by
      intro e
      subst e
      simp at hn
    obtain ⟨b1, b2⟩ := basic_send_unmasked_whole data opcode client hdne hn2 hcan hacc h1 h2
    exact ⟨b1, b2, multi_send_masked_whole data opcode client hdne hn2 hcan hacc h1 h2⟩

theorem long_frame_length_field_witness :
    (sentHeader true WS_BINARY 70000).getD 1 0 = 126
    ∧ (sentHeader true WS_BINARY 70000).getD 2 0 * 256
        + (sentHeader true WS_BINARY 70000).getD 3 0 = 70000 % 65536
    ∧ ((AsyncWebSocketBasicMessage.new (List.replicate 70000 0) 70000 WS_BINARY false).send
        (AsyncClient.ready 100000)).1 = 70000 :=
  have h := long_frame_length_field (AsyncClient.ready 100000) true WS_BINARY 70000
    (List.replicate 70000 0) [1, 2, 3, 4] (by decide) rfl rfl (by decide)
    (List.length_replicate _ _) (by decide)
  ⟨h.2.2.1, h.2.2.2.1, (h.2.2.2.2.2.2.2.2.2 (by decide) (by decide)).2.1⟩

/-! ## Messages with an empty payload -/

/-- C39: a message in Sending status with an empty payload is marked Sent by its
first `send()`, which returns 0 and leaves the transport as it was, for both
variants: no frame is emitted for it. A Basic message built with length 0 is such a
message. A Multi message built on a null or empty buffer is in Error status from
the start, and its `send()` returns 0 and writes nothing either. On a fresh
session `text("", 0)` writes no byte, and the next poll drops the message. -/
theorem empty_message_sends_nothing (b : AsyncWebSocketBasicMessage)
    (m : AsyncWebSocketMultiMessage) (client : AsyncClient) (data : List Nat) (opcode : Nat)
    (mask : Bool) :
    (b._status = WS_MSG_SENDING → b._len = 0 → b._sent = 0 → b._acked = b._ack →
        b.send client = (0, { b with _status := WS_MSG_SENT }, client))
    ∧ (m._status = WS_MSG_SENDING → m._WSbuffer.size = 0 → m._sent = 0 → m._acked = m._ack →
        m.send client = (0, { m with _status := WS_MSG_SENT }, client))
    ∧ (AsyncWebSocketBasicMessage.new data 0 opcode mask).send client
        = (0, { AsyncWebSocketBasicMessage.new data 0 opcode mask with _status := WS_MSG_SENT },
           client)
    ∧ (AsyncWebSocketMultiMessage.new ⟨some []⟩ opcode mask)._status = WS_MSG_ERROR
    ∧ (AsyncWebSocketMultiMessage.new ⟨none⟩ opcode mask)._status = WS_MSG_ERROR
    ∧ (AsyncWebSocketMultiMessage.new ⟨some []⟩ opcode mask).send client
        = (0, AsyncWebSocketMultiMessage.new ⟨some []⟩ opcode mask, client)
    ∧ (AsyncWebSocketMultiMessage.new ⟨none⟩ opcode mask).send client
        = (0, AsyncWebSocketMultiMessage.new ⟨none⟩ opcode mask, client)
    ∧ ((AsyncWebSocketClient.new 16 (AsyncClient.ready 100) 0).text 8 [] 0)._client.wire = []
    ∧ ((AsyncWebSocketClient.new 16 (AsyncClient.ready 100) 0).text 8 [] 0)._messageQueue.map
        AsyncWebSocketMessage.status = [WS_MSG_SENT]
    ∧ (((AsyncWebSocketClient.new 16 (AsyncClient.ready 100) 0).text 8 [] 0)._onPoll)._client.wire
        = []
    ∧ (((AsyncWebSocketClient.new 16 (AsyncClient.ready 100) 0).text 8 [] 0)._onPoll)._messageQueue
        = [] := by
  have hb : ∀ b : AsyncWebSocketBasicMessage, b._status = WS_MSG_SENDING → b._len = 0 →
      b._sent = 0 → b._acked = b._ack →
      b.send client = (0, { b with _status := WS_MSG_SENT }, client) := by
    intro b h1 h2 h3 h4
    have h5 : ¬ b._acked < b._ack := by omega
    have h6 : b._sent = b._len := by omega
    simp [AsyncWebSocketBasicMessage.send, h1, h5, h6, h4]
  refine ⟨hb b, ?_, ?_, ?_, ?_, ?_, ?_, by decide!, by decide!, by decide!, by decide!⟩
  · intro h1 h2 h3 h4
    have h5 : ¬ m._acked < m._ack := by omega
    have h6 : m._sent = m._WSbuffer.size := by omega
    simp [AsyncWebSocketMultiMessage.send, h1, h5, h6]
  · exact hb _ rfl rfl rfl rfl
  · simp [AsyncWebSocketMultiMessage.new, SharedBuffer.toBool]
  · simp [AsyncWebSocketMultiMessage.new, SharedBuffer.toBool]
  · simp [AsyncWebSocketMultiMessage.send, AsyncWebSocketMultiMessage.new, SharedBuffer.toBool]
  · simp [AsyncWebSocketMultiMessage.send, AsyncWebSocketMultiMessage.new, SharedBuffer.toBool]

/-! ## Reconciliation after a short write -/

/-- C32: the reconciliation in `send()` does not wrap. For a message of either
variant that starts a new frame (Sending, nothing unacknowledged, `_sent < length`,
no truncated frame outstanding) with a chunk of `toSend = min(length - _sent,
window)` bytes of which the transport takes `s`, whatever the transport does:
`s` is at most `toSend`; the ack-target grows by exactly `s` plus the header length
of the frame; `_attempted` and `_sent` do not fall below their values before the
call (one of them grows by `toSend`, the other by `s`). The sums are taken to fit
`size_t`: the length and the ack-target plus the length plus 8 are below 2^32. -/
theorem send_accounting_no_wrap (m : AsyncWebSocketMessage) (client : AsyncClient)
    (hs : m.status = WS_MSG_SENDING) (ha : ¬ m.acked < m.ackTarget) (hlt : m.sent < m.length)
    (hat : ¬ m.sent < m.attempted) (hl : m.length < 4294967296)
    (hack : m.ackTarget + m.length + 8 < 4294967296) :
    (m.send client).1 ≤ min (m.length - m.sent) (webSocketSendFrameWindow client)
    ∧ (m.send client).2.1.ackTarget = m.ackTarget + (m.send client).1
        + webSocketHeaderLength m.mask
            (min (m.length - m.sent) (webSocketSendFrameWindow client))
    ∧ m.ackTarget ≤ (m.send client).2.1.ackTarget
    ∧ m.attempted ≤ (m.send client).2.1.attempted
    ∧ m.sent ≤ (m.send client).2.1.sent
    ∧ (m.send client).2.1.attempted + (m.send client).2.1.sent
        = m.attempted + m.sent
          + min (m.length - m.sent) (webSocketSendFrameWindow client) + (m.send client).1 := by
  cases m with
  | basic b =>
    simp only [AsyncWebSocketMessage.status, AsyncWebSocketMessage.acked,
      AsyncWebSocketMessage.ackTarget, AsyncWebSocketMessage.sent, AsyncWebSocketMessage.length,
      AsyncWebSocketMessage.attempted, AsyncWebSocketMessage.mask] at hs ha hlt hat hl hack ⊢
    have h := basic_send_new_frame b client hs ha hlt hat hl _ rfl _ rfl
    have hle := webSocketSendFrame_le client
      (decide (b._sent + min (b._len - b._sent) (webSocketSendFrameWindow client) = b._len))
      (if min (b._len - b._sent) (webSocketSendFrameWindow client) ≠ 0 ∧ b._sent = 0
        then b._opcode else WS_CONTINUATION) b._mask (b._data.drop b._sent)
      (min (b._len - b._sent) (webSocketSendFrameWindow client))
    have hhl := webSocketHeaderLength_le b._mask
      (min (b._len - b._sent) (webSocketSendFrameWindow client))
    have hmin : min (b._len - b._sent) (webSocketSendFrameWindow client) ≤ b._len - b._sent :=
      Nat.min_le_left _ _
    simp only [AsyncWebSocketMessage.send, h, AsyncWebSocketMessage.ackTarget,
      AsyncWebSocketMessage.attempted, AsyncWebSocketMessage.sent]
    generalize webSocketSendFrame client
      (decide (b._sent + min (b._len - b._sent) (webSocketSendFrameWindow client) = b._len))
      (if min (b._len - b._sent) (webSocketSendFrameWindow client) ≠ 0 ∧ b._sent = 0
        then b._opcode else WS_CONTINUATION) b._mask (b._data.drop b._sent)
      (min (b._len - b._sent) (webSocketSendFrameWindow client)) = r at hle ⊢
    generalize min (b._len - b._sent) (webSocketSendFrameWindow client) = toSend at *
    generalize webSocketHeaderLength b._mask toSend = hdr at *
    unfold szAdd szSub
    split_ifs with hc
    · refine ⟨hle, ?_, ?_, ?_, ?_, ?_⟩ <;> omega
    · have : r.1 = toSend ∨ toSend = 0 := by
        by_cases h0 : toSend = 0
        · exact Or.inr h0
        · left
          by_contra hne
          exact hc ⟨h0, hne⟩
      refine ⟨hle, ?_, ?_, ?_, ?_, ?_⟩ <;> omega
  | multi b =>
    simp only [AsyncWebSocketMessage.status, AsyncWebSocketMessage.acked,
      AsyncWebSocketMessage.ackTarget, AsyncWebSocketMessage.sent, AsyncWebSocketMessage.length,
      AsyncWebSocketMessage.attempted, AsyncWebSocketMessage.mask] at hs ha hlt hat hl hack ⊢
    have h := multi_send_new_frame b client hs ha hlt hat hl _ rfl _ rfl
    have hle := webSocketSendFrame_le client
      (decide (b._sent + min (b._WSbuffer.size - b._sent) (webSocketSendFrameWindow client)
        = b._WSbuffer.size))
      (if min (b._WSbuffer.size - b._sent) (webSocketSendFrameWindow client) ≠ 0 ∧ b._sent = 0
        then b._opcode else WS_CONTINUATION) b._mask (b._WSbuffer.data.drop b._sent)
      (min (b._WSbuffer.size - b._sent) (webSocketSendFrameWindow client))
    have hhl := webSocketHeaderLength_le b._mask
      (min (b._WSbuffer.size - b._sent) (webSocketSendFrameWindow client))
    have hmin : min (b._WSbuffer.size - b._sent) (webSocketSendFrameWindow client)
        ≤ b._WSbuffer.size - b._sent := Nat.min_le_left _ _
    simp only [AsyncWebSocketMessage.send, h, AsyncWebSocketMessage.ackTarget,
      AsyncWebSocketMessage.attempted, AsyncWebSocketMessage.sent]
    generalize webSocketSendFrame client
      (decide (b._sent + min (b._WSbuffer.size - b._sent) (webSocketSendFrameWindow client)
        = b._WSbuffer.size))
      (if min (b._WSbuffer.size - b._sent) (webSocketSendFrameWindow client) ≠ 0 ∧ b._sent = 0
        then b._opcode else WS_CONTINUATION) b._mask (b._WSbuffer.data.drop b._sent)
      (min (b._WSbuffer.size - b._sent) (webSocketSendFrameWindow client)) = r at hle ⊢
    generalize min (b._WSbuffer.size - b._sent) (webSocketSendFrameWindow client) = toSend at *
    generalize webSocketHeaderLength b._mask toSend = hdr at *
    generalize b._WSbuffer.size = size at *
    unfold szAdd szSub
    split_ifs with hc
    · refine ⟨hle, ?_, ?_, ?_, ?_, ?_⟩ <;> omega
    · have : r.1 = toSend ∨ toSend = 0 := by
        by_cases h0 : toSend = 0
        · exact Or.inr h0
        · left
          by_contra hne
          exact hc ⟨h0, hne⟩
      refine ⟨hle, ?_, ?_, ?_, ?_, ?_⟩ <;> omega

theorem send_accounting_no_wrap_witness :
    ((AsyncWebSocketMessage.multi (AsyncWebSocketMultiMessage.new ⟨some [72, 69, 76, 76, 79]⟩
        WS_TEXT false)).send (AsyncClient.scripted 100 [2, 0])).1 = 0
    ∧ ((AsyncWebSocketMessage.multi (AsyncWebSocketMultiMessage.new ⟨some [72, 69, 76, 76, 79]⟩
        WS_TEXT false)).send (AsyncClient.scripted 100 [2, 0])).2.1.ackTarget = 2
    ∧ ((AsyncWebSocketMessage.multi (AsyncWebSocketMultiMessage.new ⟨some [72, 69, 76, 76, 79]⟩
        WS_TEXT false)).send (AsyncClient.scripted 100 [2, 0])).1
      ≤ min ((AsyncWebSocketMessage.multi (AsyncWebSocketMultiMessage.new
            ⟨some [72, 69, 76, 76, 79]⟩ WS_TEXT false)).length
          - (AsyncWebSocketMessage.multi (AsyncWebSocketMultiMessage.new
            ⟨some [72, 69, 76, 76, 79]⟩ WS_TEXT false)).sent)
        (webSocketSendFrameWindow (AsyncClient.scripted 100 [2, 0])) :=
  ⟨by decide!, by decide!,
   (send_accounting_no_wrap
    (AsyncWebSocketMessage.multi (AsyncWebSocketMultiMessage.new ⟨some [72, 69, 76, 76, 79]⟩
      WS_TEXT false)) (AsyncClient.scripted 100 [2, 0]) (by decide) (by decide) (by decide)
      (by decide) (by decide) (by decide)).1⟩

/-! ## The frame-error branch -/

theorem new_parseInv (MAX : Nat) (client : AsyncClient) (now : Nat) :
    (AsyncWebSocketClient.new MAX client now).parseInv := by
  refine ⟨Or.inl rfl, ?_, ?_⟩
  · intro h
    simp [AsyncWebSocketClient.new] at h
  · simp [AsyncWebSocketClient.new]

theorem frameError_of_le (s : AsyncWebSocketClient) (plen : Nat)
    (h : s._pinfo.index ≤ s._pinfo.len) : ¬ frameError s plen := by
  unfold frameError u64Add u64Sub toSizeT
  intro hh
  omega

theorem payloadStep_goOn (s : AsyncWebSocketClient) (data : List Nat) (plen : Nat)
    (h : ¬ frameError s plen) : ∃ t d n, payloadStep s data plen = .goOn t d n := by
  unfold frameError at h
  unfold payloadStep
  simp only []
  by_cases h1 : u64Add (min (toSizeT (u64Sub s._pinfo.len s._pinfo.index)) plen) s._pinfo.index
      < s._pinfo.len
  · rw [if_pos h1]
    exact ⟨_, _, _, rfl⟩
  · rw [if_neg h1]
    by_cases h2 : u64Add (min (toSizeT (u64Sub s._pinfo.len s._pinfo.index)) plen)
        s._pinfo.index = s._pinfo.len
    · rw [if_pos h2]
      exact ⟨_, _, _, rfl⟩
    · exact absurd ⟨h1, h2⟩ h

theorem onDataPasses_state (MAX : Nat) (n : Nat) :
    ∀ (s : AsyncWebSocketClient) (data : List Nat) (plen : Nat) (t : AsyncWebSocketClient)
      (d : List Nat) (p : Nat),
      s.parseInv → plen + s._partialHeaderLen + 13 < 4294967296 →
      onDataPasses MAX n s data plen = some (t, d, p) →
      t.parseInv ∧ p + t._partialHeaderLen + 13 < 4294967296 := by
  induction n with
  | zero =>
    intro s data plen t d p hinv hb h
    simp only [onDataPasses, Option.some.injEq, Prod.mk.injEq] at h
    obtain ⟨rfl, rfl, rfl⟩ := h
    exact ⟨hinv, hb⟩
  | succ n ih =>
    intro s data plen t d p hinv hb h
    simp only [onDataPasses] at h
    split_ifs at h with hp
    obtain ⟨g1, g2⟩ := onDataStep_state MAX s data plen hinv (by omega)
    cases ho : onDataStep MAX s data plen with
    | left u => rw [ho] at h; cases h
    | goOn u e m =>
      rw [ho] at h g1
      have := g2 u e m ho
      exact ih u e m t d p g1 (by omega) h

theorem pass_never_breaks (MAX : Nat) (t : AsyncWebSocketClient) (data : List Nat) (plen : Nat)
    (hinv : t.parseInv) (hb : plen + 13 < 4294967296) :
    ¬ passBreaks MAX t data plen
    ∧ ∀ u, onDataStep MAX t data plen = .left u →
        t._pstate = 0 ∧ parseHeader MAX t data plen = .truncated u := by
  obtain ⟨h01, h1, h13⟩ := hinv
  unfold passBreaks onDataStep
  by_cases h0 : t._pstate = 0
  · simp only [h0, if_true]
    obtain ⟨_, _, g3⟩ := parseHeader_state MAX t data plen h13 hb
    cases hp : parseHeader MAX t data plen with
    | truncated u =>
      refine ⟨fun h => h, ?_⟩
      intro v hv
      simp only [LoopOutcome.left.injEq] at hv
      subst hv
      exact ⟨trivial, rfl⟩
    | parsed u d m =>
      have hi := (g3 u d m hp).2.2
      have hne : ¬ frameError u m := frameError_of_le u m (by omega)
      refine ⟨hne, ?_⟩
      intro v hv
      obtain ⟨a, b, c, hgo⟩ := payloadStep_goOn u d m hne
      simp only [hgo] at hv
      cases hv
  · have hp1 : t._pstate = 1 := by
      rcases h01 with h | h
      · exact absurd h h0
      · exact h
    have hlt := (h1 hp1).2
    have hne : ¬ frameError t plen := frameError_of_le t plen (by omega)
    simp only [h0, if_false]
    refine ⟨hne, ?_⟩
    intro v hv
    obtain ⟨a, b, c, hgo⟩ := payloadStep_goOn t data plen hne
    rw [hgo] at hv
    cases hv

/-- C36: from a fresh session, for every sequence of inbound chunks, at the head of
every pass through the loop of every `_onData` call: when the parser is mid-frame
(`_pstate = 1`) the consumed byte counter satisfies `index < len`; the pass does
not reach the frame-error branch (`datalen + index > len`); and the only way the
pass leaves the loop is the return for a truncated header. The loop head after `n`
passes is that of the loop of `_onData`: the loop run from the start is the loop
run from there with `n` passes less. Chunks are shorter than 2^32 - 26 bytes. -/
theorem frame_error_unreachable (MAX : Nat) (client : AsyncClient) (now : Nat)
    (chunks : List (List Nat)) (d : List Nat) (n : Nat) (s t : AsyncWebSocketClient)
    (data : List Nat) (plen : Nat)
    (hsz : ∀ c ∈ chunks, c.length + 26 < 4294967296) (hd : d.length + 26 < 4294967296)
    (h : feed MAX (AsyncWebSocketClient.new MAX client now) chunks = some s)
    (hp : onDataPasses MAX n { s with _lastMessageTime := s.millis } d d.length
      = some (t, data, plen)) :
    (s._pstate = 1 → s._pinfo.index < s._pinfo.len)
    ∧ (t._pstate = 1 → t._pinfo.index < t._pinfo.len)
    ∧ ¬ passBreaks MAX t data plen
    ∧ (∀ u, onDataStep MAX t data plen = .left u →
        t._pstate = 0 ∧ parseHeader MAX t data plen = .truncated u)
    ∧ ∀ fuel, onDataLoop MAX (fuel + n) { s with _lastMessageTime := s.millis } d d.length
        = onDataLoop MAX fuel t data plen := by
  have hs : s.parseInv := feed_state MAX chunks _ s (new_parseInv MAX client now) hsz h
  have hs2 : ({ s with _lastMessageTime := s.millis } : AsyncWebSocketClient).parseInv := hs
  have h13 := hs.2.2
  obtain ⟨ht, hb⟩ := onDataPasses_state MAX n _ d d.length t data plen hs2
    (by simp only []; omega) hp
  obtain ⟨g1, g2⟩ := pass_never_breaks MAX t data plen ht (by omega)
  exact ⟨fun e => (hs.2.1 e).2, fun e => (ht.2.1 e).2, g1, g2,
    fun fuel => onDataLoop_of_passes MAX n fuel _ d d.length t data plen hp⟩

theorem frame_error_unreachable_witness :
    ∃ s t data plen,
      feed 16 (AsyncWebSocketClient.new 16 (AsyncClient.ready 100) 0) [[129, 5, 72]] = some s
      ∧ onDataPasses 16 1 { s with _lastMessageTime := s.millis } [69, 76, 76, 79, 129, 1] 6
          = some (t, data, plen)
      ∧ s._pstate = 1
      ∧ (s._pstate = 1 → s._pinfo.index < s._pinfo.len)
      ∧ (t._pstate = 1 → t._pinfo.index < t._pinfo.len)
      ∧ ¬ passBreaks 16 t data plen := by
  have h1 : ((feed 16 (AsyncWebSocketClient.new 16 (AsyncClient.ready 100) 0)
      [[129, 5, 72]]).bind (fun s => (onDataPasses 16 1 { s with _lastMessageTime := s.millis }
        [69, 76, 76, 79, 129, 1] 6).map (fun r => (s._pstate, r.2.2)))) = some (1, 2) := by
    decide!
  cases hs : feed 16 (AsyncWebSocketClient.new 16 (AsyncClient.ready 100) 0) [[129, 5, 72]] with
  | none => rw [hs] at h1; cases h1
  | some s =>
    rw [hs] at h1
    rw [Option.some_bind] at h1
    cases hp : onDataPasses 16 1 { s with _lastMessageTime := s.millis }
        [69, 76, 76, 79, 129, 1] 6 with
    | none => rw [hp] at h1; cases h1
    | some r =>
      obtain ⟨t, data, plen⟩ := r
      rw [hp] at h1
      simp only [Option.map_some', Option.some.injEq, Prod.mk.injEq] at h1
      have g := frame_error_unreachable 16 (AsyncClient.ready 100) 0 [[129, 5, 72]]
        [69, 76, 76, 79, 129, 1] 1 s t data plen (by decide) (by decide) hs hp
      exact ⟨s, t, data, plen, rfl, hp, h1.1, g.1, g.2.1, g.2.2.1⟩

/-! ## Defects of the scheduler and of the parser -/

theorem runQueue_sends_finished_control (s : AsyncWebSocketClient) (c : AsyncWebSocketControl)
    (rest : List AsyncWebSocketControl) (hq : s._controlQueue = c :: rest)
    (hm : s._messageQueue = [])
    (hw : webSocketSendFrameWindow s._client > szSub c.len 1) :
    s._runQueue._client = (c.send s._client).2.2
    ∧ s._runQueue._controlQueue = (c.send s._client).2.1 :: rest := by
  unfold AsyncWebSocketClient._runQueue
  simp only [hq, hm, dropFinished, front, List.headD_cons, List.isEmpty_cons, Bool.not_false,
    List.isEmpty_nil, Bool.true_or, Bool.true_and, hw, decide_True, if_true, List.tail_cons]
  exact ⟨trivial, trivial⟩

/-- C33 (the code at the failing input): a Ping written once and not yet
acknowledged is written again by the next run of the scheduler. On a fresh session
whose transport keeps reporting that it can send, `ping` with the two bytes `01 02`
writes `89 02 01 02` and leaves the control frame, finished, at the head of the control
queue; a following `_onPoll()` writes the same frame again, and so does a following
`text("X", 1)`, whose own frame is not written. `_runQueue` does not look at the
finished flag: whenever the message queue is empty and the window allows it, the
head control frame is sent, finished or not. -/
theorem finished_control_is_resent :
    ((AsyncWebSocketClient.new 16 (AsyncClient.ready 100) 0).ops 8
        [.ping (some [1, 2]) 2])._client.wire = [137, 2, 1, 2]
    ∧ ((AsyncWebSocketClient.new 16 (AsyncClient.ready 100) 0).ops 8
        [.ping (some [1, 2]) 2])._controlQueue.map AsyncWebSocketControl.finished = [true]
    ∧ ((AsyncWebSocketClient.new 16 (AsyncClient.ready 100) 0).ops 8
        [.ping (some [1, 2]) 2, .onPoll])._client.wire = [137, 2, 1, 2, 137, 2, 1, 2]
    ∧ ((AsyncWebSocketClient.new 16 (AsyncClient.ready 100) 0).ops 8
        [.ping (some [1, 2]) 2, .text [88] 1])._client.wire = [137, 2, 1, 2, 137, 2, 1, 2]
    ∧ ((AsyncWebSocketClient.new 16 (AsyncClient.ready 100) 0).ops 8
        [.ping (some [1, 2]) 2, .text [88] 1, .onAck 4])._client.wire
        = [137, 2, 1, 2, 137, 2, 1, 2, 129, 1, 88]
    ∧ (∀ (s : AsyncWebSocketClient) (c : AsyncWebSocketControl)
        (rest : List AsyncWebSocketControl), s._controlQueue = c :: rest →
        c._finished = true → s._messageQueue = [] →
        webSocketSendFrameWindow s._client > szSub c.len 1 →
        s._runQueue._client = (c.send s._client).2.2
        ∧ s._runQueue._controlQueue = (c.send s._client).2.1 :: rest) := by
  refine ⟨by decide!, by decide!, by decide!, by decide!, by decide!, ?_⟩
  intro s c rest hq _ hm hw
  exact runQueue_sends_finished_control s c rest hq hm hw

theorem onAck_credit (s : AsyncWebSocketClient) (c : AsyncWebSocketControl)
    (rest : List AsyncWebSocketControl) (len : Nat) (hq : s._controlQueue = c :: rest)
    (hf : c._finished = true) (hd : ¬ (s._status = WS_DISCONNECTING ∧ c._opcode = WS_DISCONNECT)) :
    s._onAck len
      = onAckTail { s with _lastMessageTime := s.millis, _controlQueue := rest }
          (szSub len c.len) := by
  unfold AsyncWebSocketClient._onAck
  simp only [hq, front, List.headD_cons, List.isEmpty_cons, AsyncWebSocketControl.finished, hf,
    and_self, if_true, AsyncWebSocketControl.opcode, hd, if_false, List.tail_cons]

/-- C34 (the code at the failing input): `text("A", 1)` writes a frame of 3 bytes,
`ping` with 8 bytes of data writes one of 10 bytes, and the transport then
acknowledges the first 3 bytes. `_onAck(3)` finds the finished Ping at the head of
the control queue and computes `3 - 10` in `size_t`: the head message is credited
with 4294967289 bytes, more than the 3 acknowledged. A Multi message in the same
place is thereby taken for acknowledged and dropped from the queue. In general
the amount passed on is `len - head->len()` in `size_t` arithmetic: at most `len`
when `len` is not below the framed size, and `len + 2^32 - head->len()` when it is. -/
theorem ack_credit_wraps :
    ((AsyncWebSocketClient.new 16 (AsyncClient.ready 100) 0).ops 8
        [.text [65] 1, .ping (some [1, 2, 3, 4, 5, 6, 7, 8]) 8])._messageQueue.map
        (fun m => (m.acked, m.ackTarget)) = [(0, 3)]
    ∧ ((AsyncWebSocketClient.new 16 (AsyncClient.ready 100) 0).ops 8
        [.text [65] 1, .ping (some [1, 2, 3, 4, 5, 6, 7, 8]) 8])._controlQueue.map
        (fun c => (c.finished, c.len)) = [(true, 10)]
    ∧ ((AsyncWebSocketClient.new 16 (AsyncClient.ready 100) 0).ops 8
        [.text [65] 1, .ping (some [1, 2, 3, 4, 5, 6, 7, 8]) 8, .onAck 3])._messageQueue.map
        (fun m => (m.acked, m.ackTarget)) = [(4294967289, 3)]
    ∧ ((AsyncWebSocketClient.new 16 (AsyncClient.ready 100) 0).ops 8
        [.queueMessage (.multi (AsyncWebSocketMultiMessage.new ⟨some [65]⟩ WS_TEXT false)),
         .ping (some [1, 2, 3, 4, 5, 6, 7, 8]) 8])._messageQueue.map
        (fun m => (m.acked, m.ackTarget)) = [(0, 3)]
    ∧ ((AsyncWebSocketClient.new 16 (AsyncClient.ready 100) 0).ops 8
        [.queueMessage (.multi (AsyncWebSocketMultiMessage.new ⟨some [65]⟩ WS_TEXT false)),
         .ping (some [1, 2, 3, 4, 5, 6, 7, 8]) 8, .onAck 3])._messageQueue = []
    ∧ (∀ (s : AsyncWebSocketClient) (c : AsyncWebSocketControl)
        (rest : List AsyncWebSocketControl) (len : Nat), s._controlQueue = c :: rest →
        c._finished = true → ¬ (s._status = WS_DISCONNECTING ∧ c._opcode = WS_DISCONNECT) →
        s._onAck len
          = onAckTail { s with _lastMessageTime := s.millis, _controlQueue := rest }
              (szSub len c.len))
    ∧ (∀ len clen : Nat, len < 4294967296 → clen ≤ len → szSub len clen = len - clen)
    ∧ (∀ len clen : Nat, clen < 4294967296 → len < clen →
        szSub len clen = len + 4294967296 - clen ∧ len < szSub len clen) := by
  refine ⟨by decide!, by decide!, by decide!, by decide!, by decide!, ?_, ?_, ?_⟩
  · intro s c rest len hq hf hd
    exact onAck_credit s c rest len hq hf hd
  · intro len clen h1 h2
    unfold szSub
    omega
  · intro len clen h1 h2
    unfold szSub
    omega

theorem payloadStep_progress (s : AsyncWebSocketClient) (data : List Nat) (plen : Nat)
    (t : AsyncWebSocketClient) (d : List Nat) (n : Nat) (hp0 : plen ≠ 0)
    (hpl : plen < 4294967296) (hz : toSizeT (u64Sub s._pinfo.len s._pinfo.index) ≠ 0)
    (h : payloadStep s data plen = .goOn t d n) : n < plen := by
  have hmin : min (toSizeT (u64Sub s._pinfo.len s._pinfo.index)) plen ≠ 0 := by
    rw [Nat.min_def]
    split_ifs <;> omega
  have hle : min (toSizeT (u64Sub s._pinfo.len s._pinfo.index)) plen ≤ plen :=
    Nat.min_le_right _ _
  have hsub : szSub plen (min (toSizeT (u64Sub s._pinfo.len s._pinfo.index)) plen) < plen := by
    unfold szSub
    omega
  unfold payloadStep at h
  simp only [] at h
  by_cases h1 : u64Add (min (toSizeT (u64Sub s._pinfo.len s._pinfo.index)) plen) s._pinfo.index
      < s._pinfo.len
  · rw [if_pos h1] at h
    simp only [LoopOutcome.goOn.injEq] at h
    rw [← h.2.2]
    exact hsub
  · rw [if_neg h1] at h
    by_cases h2 : u64Add (min (toSizeT (u64Sub s._pinfo.len s._pinfo.index)) plen)
        s._pinfo.index = s._pinfo.len
    · rw [if_pos h2] at h
      simp only [LoopOutcome.goOn.injEq] at h
      rw [← h.2.2]
      exact hsub
    · rw [if_neg h2] at h
      cases h

/-- C35 (the code at the failing input): a text frame whose 64-bit length field
declares 2^32 bytes, its 10 header bytes arriving in one chunk with the first
payload byte. The slice length `min((size_t)(len - index), plen)` is 0, the first
pass through the loop consumes the header only and every further pass consumes
nothing and leaves `plen` at 1: the loop does not end, whatever the number of
passes allowed, and `_onData` does not return. A pass in the payload part does
decrease `plen` whenever the part of the frame still to come is not a multiple of
2^32, and leaves it as it is when that part is a non-zero multiple of 2^32. -/
theorem onData_makes_no_progress :
    (∀ fuel, onDataLoop 16 fuel
        { AsyncWebSocketClient.new 16 (AsyncClient.ready 100) 0 with _lastMessageTime := 0 }
        [129, 127, 0, 0, 0, 1, 0, 0, 0, 0, 65] 11 = none)
    ∧ (AsyncWebSocketClient.new 16 (AsyncClient.ready 100) 0)._onData 16
        [129, 127, 0, 0, 0, 1, 0, 0, 0, 0, 65] = none
    ∧ (∀ (s : AsyncWebSocketClient) (data : List Nat) (plen : Nat) (t : AsyncWebSocketClient)
        (d : List Nat) (n : Nat), plen ≠ 0 → plen < 4294967296 →
        toSizeT (u64Sub s._pinfo.len s._pinfo.index) ≠ 0 →
        payloadStep s data plen = .goOn t d n → n < plen)
    ∧ (∀ (s : AsyncWebSocketClient) (data : List Nat) (plen : Nat),
        toSizeT (u64Sub s._pinfo.len s._pinfo.index) = 0 → s._pinfo.index < s._pinfo.len →
        s._pinfo.len < 18446744073709551616 → s._pinfo.masked = false → plen < 4294967296 →
        ∃ t, payloadStep s data plen = .goOn t data plen) := by
  have hstep : (match onDataStep 16
      { AsyncWebSocketClient.new 16 (AsyncClient.ready 100) 0 with _lastMessageTime := 0 }
      [129, 127, 0, 0, 0, 1, 0, 0, 0, 0, 65] 11 with
      | .goOn t d n => decide (t._pstate ≠ 0 ∧ toSizeT (u64Sub t._pinfo.len t._pinfo.index) = 0
          ∧ t._pinfo.index < t._pinfo.len ∧ t._pinfo.len < 18446744073709551616
          ∧ t._pinfo.masked = false ∧ d = [65] ∧ n = 1)
      | .left _ => false) = true := by
    decide!
  have hloop : ∀ fuel, onDataLoop 16 fuel
      { AsyncWebSocketClient.new 16 (AsyncClient.ready 100) 0 with _lastMessageTime := 0 }
      [129, 127, 0, 0, 0, 1, 0, 0, 0, 0, 65] 11 = none := by
    intro fuel
    cases fuel with
    | zero =>
      rw [onDataLoop]
      simp
    | succ fuel =>
      rw [onDataLoop_succ _ _ _ _ _ (by decide)]
      cases ho : onDataStep 16
          { AsyncWebSocketClient.new 16 (AsyncClient.ready 100) 0 with _lastMessageTime := 0 }
          [129, 127, 0, 0, 0, 1, 0, 0, 0, 0, 65] 11 with
      | left u =>
        rw [ho] at hstep
        cases hstep
      | goOn t d n =>
        rw [ho] at hstep
        simp only [decide_eq_true_eq] at hstep
        obtain ⟨h1, h2, h3, h4, h5, h6, h7⟩ := hstep
        subst h6 h7
        exact onDataLoop_stalled 16 [65] 1 (by decide) (by decide) fuel t h1 h2 h3 h4 h5
  refine ⟨hloop, hloop _, ?_, ?_⟩
  · intro s data plen t d n hp0 hpl hz h
    exact payloadStep_progress s data plen t d n hp0 hpl hz h
  · intro s data plen hz hlt hlen hm hpl
    obtain ⟨t, ht, _⟩ := payloadStep_stalled s data plen hz hlt hlen hm hpl
    exact ⟨t, ht⟩

theorem frameComplete_data_events (s : AsyncWebSocketClient) (data : List Nat) (datalen : Nat) :
    (frameComplete s data datalen).events = s.events
    ∨ (∃ code reason, (frameComplete s data datalen).events
          = s.events ++ [.WS_EVT_ERROR code reason])
    ∨ (∃ d, (frameComplete s data datalen).events = s.events ++ [.WS_EVT_PONG d])
    ∨ (s._pinfo.opcode < 8
        ∧ (frameComplete s data datalen).events
          = s.events ++ [.WS_EVT_DATA s._pinfo (data.take datalen)]) := by
  by_cases h8 : s._pinfo.opcode = WS_DISCONNECT
  · unfold frameComplete
    simp only [h8, if_true]
    split_ifs
    all_goals first
      | (left; rfl)
      | (right; left; exact ⟨_, _, rfl⟩)
      | (right; left; rw [(queueControl_frame _ _).2.2.2.2.2.1, newControl_some_session];
          exact ⟨_, _, rfl⟩)
      | (left; rw [(queueControl_frame _ _).2.2.2.2.2.1, newControl_some_session])
  · by_cases h9 : s._pinfo.opcode = WS_PING
    · left
      rw [frameComplete_ping s data datalen h9, (queueControl_frame _ _).2.2.2.2.2.1]
    · unfold frameComplete
      simp only [h8, h9, if_false]
      split_ifs with h10 h11 h12
      · right; right; left
        exact ⟨_, rfl⟩
      · left; rfl
      · right; right; right
        exact ⟨h12, rfl⟩
      · left; rfl

theorem payloadStep_partial_event (s : AsyncWebSocketClient) (data : List Nat) (plen : Nat)
    (h : u64Add (min (toSizeT (u64Sub s._pinfo.len s._pinfo.index)) plen) s._pinfo.index
      < s._pinfo.len) :
    ∃ info d, (payloadStep s data plen).session.events = s.events ++ [.WS_EVT_DATA info d]
      ∧ info.opcode = s._pinfo.opcode
      ∧ (s._pinfo.index = 0 → s._pinfo.opcode ≠ 0 →
          (payloadStep s data plen).session._pinfo.message_opcode = s._pinfo.opcode) := by
  unfold payloadStep
  simp only []
  rw [if_pos h]
  by_cases h0 : s._pinfo.index = 0
  · by_cases hop : s._pinfo.opcode = 0
    · simp [h0, hop, LoopOutcome.session, AsyncWebSocketClient.handleEvent]
    · simp [h0, hop, LoopOutcome.session, AsyncWebSocketClient.handleEvent]
  · simp [h0, LoopOutcome.session, AsyncWebSocketClient.handleEvent]

/-- C37 (the code at the failing input): control frames whose payload is split
across two chunks. For the Ping `89 02 41 42` delivered as `89 02 41` and `42`, the
first payload byte is handed to the application as a WS_EVT_DATA event with opcode
9 and the recorded message opcode becomes 9; likewise for a Close frame (opcode 8)
and a Pong frame (opcode 10). The same Ping delivered in one chunk raises no event
and leaves the message opcode as it was. The branch for a completed frame raises
WS_EVT_DATA only for opcodes below 8 and keeps the frame descriptor; the branch for
a slice that does not complete its frame raises WS_EVT_DATA whatever the opcode
and, at index 0, records a non-zero opcode as the message opcode. -/
theorem split_control_frame_raises_data_event :
    (feed 16 (AsyncWebSocketClient.new 16 (AsyncClient.ready 100) 0)
        [[137, 2, 65], [66]]).map
        (fun t => (t.events.map (fun e =>
          match e with
          | .WS_EVT_DATA info d => some (info.opcode, d)
          | _ => none), t._pinfo.message_opcode))
      = some ([some (9, [65])], 9)
    ∧ (feed 16 (AsyncWebSocketClient.new 16 (AsyncClient.ready 100) 0)
        [[136, 2, 3], [232]]).map
        (fun t => (t.events.map (fun e =>
          match e with
          | .WS_EVT_DATA info d => some (info.opcode, d)
          | _ => none), t._pinfo.message_opcode))
      = some ([some (8, [3]), none], 8)
    ∧ (feed 16 (AsyncWebSocketClient.new 16 (AsyncClient.ready 100) 0)
        [[138, 2, 65], [66]]).map
        (fun t => (t.events.map (fun e =>
          match e with
          | .WS_EVT_DATA info d => some (info.opcode, d)
          | _ => none), t._pinfo.message_opcode))
      = some ([some (10, [65]), none], 10)
    ∧ (feed 16 (AsyncWebSocketClient.new 16 (AsyncClient.ready 100) 0)
        [[137, 2, 65, 66]]).map (fun t => (t.events, t._pinfo.message_opcode))
      = some ([], 0)
    ∧ (∀ (s : AsyncWebSocketClient) (data : List Nat) (datalen : Nat),
        (frameComplete s data datalen)._pinfo = s._pinfo
        ∧ ((frameComplete s data datalen).events = s.events
          ∨ (∃ code reason, (frameComplete s data datalen).events
                = s.events ++ [.WS_EVT_ERROR code reason])
          ∨ (∃ d, (frameComplete s data datalen).events = s.events ++ [.WS_EVT_PONG d])
          ∨ (s._pinfo.opcode < 8
              ∧ (frameComplete s data datalen).events
                = s.events ++ [.WS_EVT_DATA s._pinfo (data.take datalen)])))
    ∧ (∀ (s : AsyncWebSocketClient) (data : List Nat) (plen : Nat),
        u64Add (min (toSizeT (u64Sub s._pinfo.len s._pinfo.index)) plen) s._pinfo.index
          < s._pinfo.len →
        ∃ info d, (payloadStep s data plen).session.events = s.events ++ [.WS_EVT_DATA info d]
          ∧ info.opcode = s._pinfo.opcode
          ∧ (s._pinfo.index = 0 → s._pinfo.opcode ≠ 0 →
              (payloadStep s data plen).session._pinfo.message_opcode = s._pinfo.opcode)) := by
  refine ⟨by decide!, by decide!, by decide!, by decide!, ?_, ?_⟩
  · intro s data datalen
    exact ⟨frameComplete_pinfo s data datalen, frameComplete_data_events s data datalen⟩
  · intro s data plen h
    exact payloadStep_partial_event s data plen h

end AsyncWebSocket
